import Mathlib

/-!
# ChakraCore `JavascriptProxy`: a shallow embedding

The definitions follow `lib/Runtime/Library/JavascriptProxy.cpp`.  Script values are
`Var`; the engine state the dispatchers read and write is `State`; everything the
dispatchers call that lives outside that file (the generic object operations of
`JavascriptOperators`, `JavascriptConversion`, the library constants, the call of a
script function) is a field of `Host`.  A dispatcher is a function from a state to an
`Outcome`: a normal return with the new state, a thrown JavaScript error, or a fault
(a dereference of a null pointer).

Pointers that may be null are `Option`s.  The members `this->target` and
`this->handler` are read from the state each time the source reads them, so a trap that
revokes the Proxy is seen by the code that runs after it.  Out-parameters are returned
next to the `BOOL`.  Stack probes (`PROBE_STACK`), debug assertions and telemetry have
no counterpart here.
-/

namespace Js

/-- Property ids are 32-bit integers in the engine; `Constants::NoProperty` is `-1`. -/
abbrev PropertyId := Int

/-- The id that stands for "no property" (`Constants::NoProperty`). -/
def Constants.NoProperty : PropertyId := -1

/-- Script values.  The constructor of an object value fixes its type id:
`object` is an ordinary object, `function` a `JavascriptFunction`, `proxy` a
`JavascriptProxy`; the argument is the address of the object. -/
inductive Var where
  | undefined
  | null
  | bool (b : Bool)
  | number (n : Int)
  | string (s : String)
  | symbol (id : PropertyId)
  | object (addr : Nat)
  | function (addr : Nat)
  | proxy (addr : Nat)
  deriving DecidableEq, Repr

/-- Type ids, in the order of the engine's enumeration (static types first). -/
inductive TypeId where
  | TypeIds_Undefined
  | TypeIds_Null
  | TypeIds_Bool
  | TypeIds_Number
  | TypeIds_String
  | TypeIds_Symbol
  | TypeIds_Object
  | TypeIds_Function
  | TypeIds_Proxy
  deriving DecidableEq, Repr

/-- The type id of a value (`JavascriptOperators::GetTypeId`). -/
def GetTypeId : Var → TypeId
  | .undefined => .TypeIds_Undefined
  | .null => .TypeIds_Null
  | .bool _ => .TypeIds_Bool
  | .number _ => .TypeIds_Number
  | .string _ => .TypeIds_String
  | .symbol _ => .TypeIds_Symbol
  | .object _ => .TypeIds_Object
  | .function _ => .TypeIds_Function
  | .proxy _ => .TypeIds_Proxy

/-- Whether a type id is one of the static (primitive) types (`StaticType::Is`). -/
def StaticType.Is : TypeId → Bool
  | .TypeIds_Object => false
  | .TypeIds_Function => false
  | .TypeIds_Proxy => false
  | _ => true

/-- Whether a type id is an object type (`JavascriptOperators::IsObjectType`). -/
def IsObjectType (t : TypeId) : Bool := !StaticType.Is t

/-- Whether a value is an object (`JavascriptOperators::IsObject`). -/
def IsObject (v : Var) : Bool := IsObjectType (GetTypeId v)

/-- Whether a value is an object or null (`JavascriptOperators::IsObjectOrNull`). -/
def IsObjectOrNull (v : Var) : Bool := IsObject v || GetTypeId v == .TypeIds_Null

/-- Whether a value is undefined (`JavascriptOperators::IsUndefined`). -/
def IsUndefined (v : Var) : Bool := GetTypeId v == .TypeIds_Undefined

/-- Whether a value is undefined or null (`JavascriptOperators::IsUndefinedOrNull`). -/
def IsUndefinedOrNull (v : Var) : Bool :=
  GetTypeId v == .TypeIds_Undefined || GetTypeId v == .TypeIds_Null

/-- Whether a value is a Proxy (`JavascriptProxy::Is`). -/
def JavascriptProxy.Is (v : Var) : Bool := GetTypeId v == .TypeIds_Proxy

/-- Whether a value is a function object (`JavascriptFunction::Is`). -/
def JavascriptFunction.Is (v : Var) : Bool := GetTypeId v == .TypeIds_Function

/-- Whether a value is a string (`JavascriptString::Is`). -/
def JavascriptString.Is (v : Var) : Bool := GetTypeId v == .TypeIds_String

/-- Whether a value is a symbol (`JavascriptSymbol::Is`). -/
def JavascriptSymbol.Is (v : Var) : Bool := GetTypeId v == .TypeIds_Symbol

/-- Message keys of the errors the Proxy code raises. -/
inductive ErrorCode where
  | JSERR_ErrorOnRevokedProxy
  | JSERR_ErrorOnNew
  | JSERR_InvalidProxyArgument
  | JSERR_NeedProxyArgument
  | JSERR_NeedObject
  | JSERR_NeedFunction
  | JSERR_This_NeedFunction
  | JSERR_InconsistentTrapResult
  | JSERR_ProxyTrapReturnedFalse
  | JSERR_ArgListTooLarge
  deriving DecidableEq, Repr

/-- A JavaScript exception: a `TypeError` or `RangeError` raised by the engine with a
message key and an argument, or any value thrown by script or host code. -/
inductive JsError where
  | typeError (code : ErrorCode) (arg : String)
  | rangeError (code : ErrorCode)
  | thrown (v : Var)
  deriving DecidableEq, Repr

/-- A property descriptor: six optional fields (a field is "specified" when it is
`some`), the `fromProxy` bit and the `original` object a trap was given or returned. -/
structure PropertyDescriptor where
  Value : Option Var := none
  Getter : Option Var := none
  Setter : Option Var := none
  Writable : Option Bool := none
  Enumerable : Option Bool := none
  Configurable : Option Bool := none
  fromProxy : Bool := false
  originalVar : Option Var := none
  deriving DecidableEq, Repr

namespace PropertyDescriptor

def ValueSpecified (d : PropertyDescriptor) : Bool := d.Value.isSome
def GetterSpecified (d : PropertyDescriptor) : Bool := d.Getter.isSome
def SetterSpecified (d : PropertyDescriptor) : Bool := d.Setter.isSome
def WritableSpecified (d : PropertyDescriptor) : Bool := d.Writable.isSome
def EnumerableSpecified (d : PropertyDescriptor) : Bool := d.Enumerable.isSome
def ConfigurableSpecified (d : PropertyDescriptor) : Bool := d.Configurable.isSome

/-- `IsWritable()`: the stored bit, `false` while the field is not specified. -/
def IsWritable (d : PropertyDescriptor) : Bool := d.Writable.getD false
/-- `IsEnumerable()`: the stored bit, `false` while the field is not specified. -/
def IsEnumerable (d : PropertyDescriptor) : Bool := d.Enumerable.getD false
/-- `IsConfigurable()`: the stored bit, `false` while the field is not specified. -/
def IsConfigurable (d : PropertyDescriptor) : Bool := d.Configurable.getD false
/-- `GetValue()`: the stored value, a null pointer (`none`) while not specified. -/
def GetValue (d : PropertyDescriptor) : Option Var := d.Value
/-- `GetGetter()`: the stored getter, a null pointer (`none`) while not specified. -/
def GetGetter (d : PropertyDescriptor) : Option Var := d.Getter
/-- `GetSetter()`: the stored setter, a null pointer (`none`) while not specified. -/
def GetSetter (d : PropertyDescriptor) : Option Var := d.Setter

def IsDataDescriptor (d : PropertyDescriptor) : Bool := d.ValueSpecified || d.WritableSpecified
def IsAccessorDescriptor (d : PropertyDescriptor) : Bool := d.GetterSpecified || d.SetterSpecified
def IsGenericDescriptor (d : PropertyDescriptor) : Bool :=
  !d.IsAccessorDescriptor && !d.IsDataDescriptor

def SetValue (d : PropertyDescriptor) (v : Var) : PropertyDescriptor := { d with Value := some v }
def SetGetter (d : PropertyDescriptor) (v : Var) : PropertyDescriptor := { d with Getter := some v }
def SetSetter (d : PropertyDescriptor) (v : Var) : PropertyDescriptor := { d with Setter := some v }
def SetWritable (d : PropertyDescriptor) (b : Bool) : PropertyDescriptor :=
  { d with Writable := some b }
def SetEnumerable (d : PropertyDescriptor) (b : Bool) : PropertyDescriptor :=
  { d with Enumerable := some b }
def SetConfigurable (d : PropertyDescriptor) (b : Bool) : PropertyDescriptor :=
  { d with Configurable := some b }
def SetFromProxy (d : PropertyDescriptor) (b : Bool) : PropertyDescriptor :=
  { d with fromProxy := b }
def IsFromProxy (d : PropertyDescriptor) : Bool := d.fromProxy
/-- `SetOriginal(original)`: the object form of the descriptor, a null pointer when
`none`. -/
def SetOriginal (d : PropertyDescriptor) (original : Option Var) : PropertyDescriptor :=
  { d with originalVar := original }

end PropertyDescriptor

/-- The two slots of a Proxy object; a null pointer is `none`. -/
structure JavascriptProxy where
  handler : Option Var
  target : Option Var
  deriving DecidableEq, Repr

/-- The engine state the dispatchers touch.  `heap` is the part owned by the host
(ordinary objects, script functions); `proxies` gives the slots of the Proxy object at
each address; `hasFunctionCallTrap` whether the type of the Proxy at each address has
`JavascriptProxy::FunctionCallTrap` as its entry point (the Proxy is callable);
`internalProperties` the `RevocableProxy` internal property of the
function object at each address (`none`: the function has no such property); the last
two fields are the thread context's implicit-call mode and flags. -/
structure State (H : Type) where
  heap : H
  proxies : Nat → JavascriptProxy
  hasFunctionCallTrap : Nat → Bool
  internalProperties : Nat → Option Var
  disableImplicitCall : Bool
  implicitCallFlags : Nat

/-- How a piece of engine code ends: it returns `val` in state `s`, it throws `e` in
state `s`, or it dereferences a null pointer. -/
inductive Outcome (S α : Type) where
  | ok (val : α) (s : S)
  | throw (e : JsError) (s : S)
  | fault

/-- Engine code: a function from the state to an outcome. -/
def Exec (S α : Type) : Type := S → Outcome S α

namespace Exec

/-- Sequencing: an exception or a fault of the first part ends the whole. -/
def bind {S α β : Type} (m : Exec S α) (f : α → Exec S β) : Exec S β := fun s =>
  match m s with
  | .ok a s1 => f a s1
  | .throw e s1 => .throw e s1
  | .fault => .fault

/-- Return a value without touching the state. -/
def ret {S α : Type} (a : α) : Exec S α := fun s => .ok a s

end Exec

instance {S : Type} : Monad (Exec S) where
  pure := Exec.ret
  bind := Exec.bind

/-- Throw a JavaScript error in the current state. -/
def raise {S α : Type} (e : JsError) : Exec S α := fun s => .throw e s

/-- `JavascriptError::ThrowTypeError(context, code, arg)`. -/
def ThrowTypeError {S α : Type} (code : ErrorCode) (arg : String) : Exec S α :=
  raise (.typeError code arg)

/-- A dereference of a null pointer. -/
def nullDereference {S α : Type} : Exec S α := fun _ => .fault

/-- Read the current state. -/
def getState {S : Type} : Exec S S := fun s => .ok s s

/-- A property record: the id, whether it names a symbol, and its text. -/
structure PropertyRecord where
  pid : PropertyId
  isSymbol : Bool
  buffer : String
  deriving DecidableEq, Repr

def PropertyRecord.GetPropertyId (r : PropertyRecord) : PropertyId := r.pid
def PropertyRecord.IsSymbol (r : PropertyRecord) : Bool := r.isSymbol

/-- Call flags and argument count of a call (`CallInfo`); the flags are the bits of
`CallFlags` the Proxy code reads or sets. -/
structure CallInfo where
  CallFlags_New : Bool
  CallFlags_NewTarget : Bool
  CallFlags_ExtraArg : Bool
  CallFlags_Value : Bool
  Count : Nat
  deriving DecidableEq, Repr

/-- `USHORT_MAX`. -/
def USHORT_MAX : Nat := 65535

/-- The kinds of `ownKeys` request (`KeysTrapKind`). -/
inductive KeysTrapKind where
  | GetOwnPropertyNamesKind
  | GetOwnPropertySymbolKind
  | KeysKind
  deriving DecidableEq, Repr

/-- The kinds of property set (`SetPropertyTrapKind`). -/
inductive SetPropertyTrapKind where
  | SetItemOnTaggedNumberKind
  | SetPropertyOnTaggedNumberKind
  | SetPropertyKind
  | SetItemKind
  | SetPropertyWPCacheKind
  deriving DecidableEq, Repr

/-- The ids of the trap names (`PropertyIds::get`, ...): constants of the engine's
built-in property table. -/
structure PropertyIds where
  getOwnPropertyDescriptor : PropertyId
  get : PropertyId
  set : PropertyId
  has : PropertyId
  deleteProperty : PropertyId
  defineProperty : PropertyId
  ownKeys : PropertyId
  getPrototypeOf : PropertyId
  setPrototypeOf : PropertyId
  isExtensible : PropertyId
  preventExtensions : PropertyId
  apply : PropertyId
  construct : PropertyId

/-- What the Proxy code calls outside `JavascriptProxy.cpp`.  Operations that may run
script (a getter, a trap of a nested Proxy, a script function) are `Exec`: they may
change any part of the state, throw, or fault. -/
structure Host (H : Type) where
  /-- The built-in property ids. -/
  ids : PropertyIds
  /-- `ImplicitCall_External`, a bit of the implicit-call flags. -/
  ImplicitCall_External : Nat
  /-- `ImplicitCall_Accessor`, a bit of the implicit-call flags. -/
  ImplicitCall_Accessor : Nat
  /-- `ThreadContext::RecordImplicitException()`: whether the error is to be thrown,
  and the state with the exception recorded. -/
  RecordImplicitException : State H → Bool × State H
  /-- `ScriptContext::IsHeapEnumInProgress()`. -/
  IsHeapEnumInProgress : State H → Bool
  /-- `ThreadContext::GetPropertyName(propertyId)`: the record of a property id. -/
  GetPropertyName : PropertyId → PropertyRecord
  /-- `JavascriptLibrary::GetDefaultAccessorFunction()`. -/
  DefaultAccessorFunction : Var
  /-- `JavascriptConversion::SameValue`. -/
  SameValue : Var → Var → Bool
  /-- `JavascriptConversion::ToBoolean`. -/
  ToBoolean : Var → Bool
  /-- `JavascriptConversion::IsCallable`: whether the entry point of the object's type
  is not the default one. -/
  IsCallable : Var → State H → Bool
  /-- `CrossSite::MarshalVar(requestContext, var)`. -/
  MarshalVar : Var → Var
  /-- `JavascriptOperators::GetPropertyReference(object, id, &value, context)`:
  `none` when it returns `FALSE`, else the value read. -/
  GetPropertyReference : Var → PropertyId → Exec (State H) (Option Var)
  /-- `JavascriptFunction::CallFunction(arguments)` on a function object; an argument
  is a pointer, `none` when it is null. -/
  CallFunction : Var → List (Option Var) → Exec (State H) Var
  /-- `JavascriptOperators::GetOwnPropertyDescriptor(object, id, context, &desc)`:
  `none` when it returns `FALSE`, else the descriptor read. -/
  GetOwnPropertyDescriptor : Var → PropertyId → Exec (State H) (Option PropertyDescriptor)
  /-- `RecyclableObject::IsExtensible()` (virtual). -/
  IsExtensible : Var → Exec (State H) Bool
  /-- `RecyclableObject::GetPrototype()`: the prototype stored in the object's type. -/
  GetPrototype : Var → State H → Var
  /-- `JavascriptObject::GetPrototypeOf(object, context)`. -/
  GetPrototypeOf : Var → Exec (State H) Var
  /-- `JavascriptObject::ChangePrototype(object, newPrototype, shouldThrow, context)`. -/
  ChangePrototype : Var → Var → Bool → Exec (State H) Bool
  /-- `JavascriptOperators::GetOwnPropertyKeys(object, context)`. -/
  GetOwnPropertyKeys : Var → Exec (State H) (List Var)
  /-- `JavascriptOperators::GetOwnPropertyNames(object, context)`. -/
  GetOwnPropertyNames : Var → Exec (State H) (List Var)
  /-- `JavascriptOperators::GetOwnPropertySymbols(object, context)`. -/
  GetOwnPropertySymbols : Var → Exec (State H) (List Var)
  /-- `JavascriptOperators::OP_GetLength(object, context)`. -/
  OP_GetLength : Var → Exec (State H) Var
  /-- `JavascriptConversion::ToLength(value, context)`. -/
  ToLength : Var → Exec (State H) Int
  /-- `JavascriptOperators::GetItem(object, index, &value, context)`: `none` when it
  returns `FALSE`. -/
  GetItem : Var → Nat → Exec (State H) (Option Var)
  /-- `JavascriptConversion::ToPropertyKey(value, context, &record)` on a string or a
  symbol. -/
  ToPropertyKey : Var → PropertyRecord
  /-- `JavascriptOperators::ToPropertyDescriptor(object, &desc, context)`: `none` when
  it returns `FALSE`. -/
  ToPropertyDescriptor : Var → Exec (State H) (Option PropertyDescriptor)
  /-- `RecyclableObject::PreventExtensions()` (virtual). -/
  PreventExtensions : Var → Exec (State H) Bool
  /-- `ScriptContext::IsNumericPropertyId(propertyId, &index)`: the `BOOL` and the index
  left in the out-parameter. -/
  IsNumericPropertyId : PropertyId → Bool × Nat
  /-- `RecyclableObject::DeleteItem(index, flags)` (virtual). -/
  DeleteItem : Var → Nat → Nat → Exec (State H) Bool
  /-- `RecyclableObject::DeleteProperty(propertyId, flags)` (virtual). -/
  DeleteProperty : Var → PropertyId → Nat → Exec (State H) Bool
  /-- `JavascriptOperators::DefineOwnPropertyDescriptor(object, id, desc, throwOnError,
  context)`. -/
  DefineOwnPropertyDescriptor : Var → PropertyId → PropertyDescriptor → Bool →
    Exec (State H) Bool
  /-- `JavascriptOperators::FromPropertyDescriptor(desc, context)`. -/
  FromPropertyDescriptor : PropertyDescriptor → Exec (State H) Var
  /-- `JavascriptOperators::SetItemOnTaggedNumber(receiver, object, index, value, context,
  flags)`. -/
  SetItemOnTaggedNumber : Var → Var → Nat → Var → Exec (State H) Bool
  /-- `JavascriptOperators::SetPropertyOnTaggedNumber(receiver, object, id, value, context,
  flags)`. -/
  SetPropertyOnTaggedNumber : Var → Var → PropertyId → Var → Exec (State H) Bool
  /-- `JavascriptOperators::SetProperty(receiver, object, id, value, context)`. -/
  SetProperty : Var → Var → PropertyId → Var → Exec (State H) Bool
  /-- `JavascriptOperators::SetItem(receiver, object, index, value, context, flags,
  skipPrototypeCheck)`. -/
  SetItem : Var → Var → Nat → Var → Bool → Exec (State H) Bool
  /-- `JavascriptOperators::SetPropertyWPCache(receiver, object, id, value, context,
  propertyString, flags)`. -/
  SetPropertyWPCache : Var → Var → PropertyId → Var → Var → Exec (State H) Bool
  /-- `JavascriptOperators::IsConstructor`. -/
  IsConstructor : Var → Bool
  /-- `JavascriptOperators::NewScObjectNoCtor(function, context)`. -/
  NewScObjectNoCtor : Var → Exec (State H) Var
  /-- `JavascriptFunction::CallFunction<true>(function, entryPoint, arguments)`: the
  call flags, the count and the argument values. -/
  CallEntryPoint : Var → CallInfo → List (Option Var) → Exec (State H) Var
  /-- `JavascriptLibrary::CreateArray` followed by `DirectSetItemAt` of the elements. -/
  CreateArray : List (Option Var) → Exec (State H) Var
  /-- The enumerator of a `JavascriptArray` (`GetEnumerator` with snapshot semantics,
  then `MoveAndGetNext` and `GetProperty` until it is exhausted): `none` when
  `GetEnumerator` returns `FALSE`, else the values read in turn. -/
  EnumerateArray : List Var → Exec (State H) (Option (List Var))
  /-- `JavascriptOperators::GetOwnPropertyDescriptor(object, propertyNameString, context,
  &desc)`. -/
  GetOwnPropertyDescriptorByName : Var → String → Exec (State H) (Option PropertyDescriptor)
  /-- `JavascriptStaticEnumerator::Initialize` on the iterator of the array of the
  keys to enumerate. -/
  InitializeEnumerator : List Var → Exec (State H) Bool
  /-- `RecyclerNew(recycler, JavascriptProxy, ...)`: the address of the object the
  recycler allocates in this state. -/
  RecyclerNew : State H → Nat
  /-- `JavascriptOperators::OrdinaryCreateFromConstructor(constructor, obj, nullptr,
  context)`. -/
  OrdinaryCreateFromConstructor : Var → Var → Exec (State H) Var
  /-- `JavascriptOperators::HasProperty(object, id)`. -/
  HasProperty : Var → PropertyId → Exec (State H) Bool
  /-- `JavascriptOperators::GetProperty(instance, object, id, &value, context, nullptr)`:
  the `BOOL` and the value left in `*value`. -/
  GetProperty : Var → Var → PropertyId → Exec (State H) (Bool × Var)
  /-- `ScriptContext::GetMissingPropertyResult()`. -/
  GetMissingPropertyResult : Var
  /-- `JavascriptOperators::CallGetter(getter, instance, context)`. -/
  CallGetter : Var → Var → Exec (State H) Var
  /-- `JavascriptObject::GetOwnPropertyDescriptorHelper(obj, id, context, descriptor)`:
  the content of the descriptor variable before the call is given; the result is the
  `BOOL` and the content of the variable after the call. -/
  GetOwnPropertyDescriptorHelper : Var → PropertyId → PropertyDescriptor →
    Exec (State H) (Bool × PropertyDescriptor)
  /-- `JavascriptObject::DefineOwnPropertyHelper(obj, id, descriptor, context)`. -/
  DefineOwnPropertyHelper : Var → PropertyId → PropertyDescriptor → Exec (State H) Bool

section Dispatch

variable {H : Type}

/-- `ThreadContext::IsDisableImplicitCall()`. -/
def IsDisableImplicitCall : Exec (State H) Bool := fun s => .ok s.disableImplicitCall s

/-- `ThreadContext::AddImplicitCallFlags(flags)`. -/
def AddImplicitCallFlags (flags : Nat) : Exec (State H) Unit := fun s =>
  .ok () { s with implicitCallFlags := s.implicitCallFlags ||| flags }

/-- `ThreadContext::GetImplicitCallFlags()`. -/
def GetImplicitCallFlags : Exec (State H) Nat := fun s => .ok s.implicitCallFlags s

/-- `ThreadContext::SetImplicitCallFlags(flags)`. -/
def SetImplicitCallFlags (flags : Nat) : Exec (State H) Unit := fun s =>
  .ok () { s with implicitCallFlags := flags }

/-- `ThreadContext::RecordImplicitException()` as an action. -/
def RecordImplicitException (h : Host H) : Exec (State H) Bool := fun s =>
  .ok (h.RecordImplicitException s).1 (h.RecordImplicitException s).2

/-- `ScriptContext::IsHeapEnumInProgress()` as an action. -/
def IsHeapEnumInProgress (h : Host H) : Exec (State H) Bool := fun s =>
  .ok (h.IsHeapEnumInProgress s) s

/-- Read the member `this->handler` of the Proxy at address `this`. -/
def readHandler (this : Nat) : Exec (State H) (Option Var) := fun s =>
  .ok (s.proxies this).handler s

/-- Read the member `this->target` of the Proxy at address `this`. -/
def readTarget (this : Nat) : Exec (State H) (Option Var) := fun s =>
  .ok (s.proxies this).target s

/-- Use a pointer as an object: a null pointer faults. -/
def deref (p : Option Var) : Exec (State H) Var :=
  match p with
  | some v => pure v
  | none => nullDereference

/-- The trap call every dispatcher makes: save the implicit-call flags, call the trap,
then set the flags to the saved ones with `ImplicitCall_Accessor` added. -/
def CallTrap (h : Host H) (method : Var) (args : List (Option Var)) :
    Exec (State H) Var := do
  let saveImplicitCallFlags ← GetImplicitCallFlags
  let result ← h.CallFunction method args
  SetImplicitCallFlags (saveImplicitCallFlags ||| h.ImplicitCall_Accessor)
  pure result

/-- `JavascriptProxy::GetName`: the symbol or the property string of a property id. -/
def GetName (h : Host H) (propertyId : PropertyId) : Var :=
  let propertyRecord := h.GetPropertyName propertyId
  if propertyRecord.IsSymbol then .symbol propertyRecord.pid else .string propertyRecord.buffer

/-- `JavascriptProxy::GetMethodHelper`: resolve the trap `methodId` on the handler.
`none` is the null pointer returned when the trap is absent. -/
def GetMethodHelper (h : Host H) (this : Nat) (methodId : PropertyId) :
    Exec (State H) (Option Var) := do
  let target ← readTarget this
  if target.isNone then
    ThrowTypeError .JSERR_ErrorOnRevokedProxy (h.GetPropertyName methodId).buffer
  else
    let handler ← readHandler this
    let handlerObj ← deref handler
    let result ← h.GetPropertyReference handlerObj methodId
    match result with
    | none => pure none
    | some varMethod =>
      if IsUndefinedOrNull varMethod then pure none
      else if !JavascriptFunction.Is varMethod then
        ThrowTypeError .JSERR_NeedFunction (h.GetPropertyName methodId).buffer
      else pure (some (h.MarshalVar varMethod))

/-- Modelled from the spec: `JavascriptOperators::CompletePropertyDescriptor` is not in
the sources.  This is ECMA-262 CompletePropertyDescriptor with no like-descriptor: a
generic or data descriptor gets the missing `value` (undefined) and `writable` (false),
an accessor descriptor the missing getter and setter (the library's default accessor
function, which stands for an undefined accessor), and both the missing `enumerable`
and `configurable` (false). -/
def CompletePropertyDescriptor (h : Host H) (d : PropertyDescriptor) : PropertyDescriptor :=
  let d1 : PropertyDescriptor :=
    if d.IsDataDescriptor || d.IsGenericDescriptor then
      let d2 := if !d.ValueSpecified then d.SetValue .undefined else d
      if !d2.WritableSpecified then d2.SetWritable false else d2
    else
      let d2 := if !d.GetterSpecified then d.SetGetter h.DefaultAccessorFunction else d
      if !d2.SetterSpecified then d2.SetSetter h.DefaultAccessorFunction else d2
  let d3 := if !d1.EnumerableSpecified then d1.SetEnumerable false else d1
  if !d3.ConfigurableSpecified then d3.SetConfigurable false else d3

/-- The revoked-Proxy block that opens most dispatchers:
`if (this->handler == nullptr) { if (!threadContext->RecordImplicitException()) return ...;
ThrowTypeError(JSERR_ErrorOnRevokedProxy, name); }`.  The result tells whether the
dispatcher goes on (`true`) or returns its sentinel at once (`false`). -/
def revokedGuard (h : Host H) (this : Nat) (name : String) : Exec (State H) Bool := do
  let handler ← readHandler this
  if handler.isNone then
    -- the proxy has been revoked; TypeError.
    let record ← RecordImplicitException h
    if !record then pure false
    else ThrowTypeError .JSERR_ErrorOnRevokedProxy name
  else pure true

/-- What `GetPropertyTrap` hands back: the `BOOL` it returns, the descriptor it filled
in, and the value the forwarding function stored through the caller's `value` pointer
(`none` when the forwarding function did not run). -/
structure GetPropertyTrapResult where
  found : Bool
  propertyDescriptor : PropertyDescriptor
  forwarded : Option Var
  deriving DecidableEq, Repr

/-- `JavascriptProxy::GetPropertyTrap`.  `fn` is the forwarding function of the caller:
it returns its `BOOL` and the value it stored through the caller's `value` pointer. -/
def GetPropertyTrap (h : Host H) (this : Nat) (originalInstance : Var)
    (propertyDescriptor : PropertyDescriptor) (fn : Var → Exec (State H) (Bool × Var))
    (getPropertyId : Unit → PropertyId) : Exec (State H) GetPropertyTrapResult := do
  -- Reject implicit call
  let disabled ← IsDisableImplicitCall
  if disabled then
    AddImplicitCallFlags h.ImplicitCall_External
    pure ⟨false, propertyDescriptor, none⟩
  else
    let go ← revokedGuard h this "get"
    if !go then pure ⟨false, propertyDescriptor, none⟩
    else
      let target ← readTarget this
      let getGetMethod ← GetMethodHelper h this h.ids.get
      let heapEnum ← IsHeapEnumInProgress h
      match getGetMethod, heapEnum with
      | some method, false =>
        let propertyId := getPropertyId ()
        let propertyDescriptor := propertyDescriptor.SetFromProxy true
        let handler ← readHandler this
        let getGetResult ← CallTrap h method
          [handler, target, some (GetName h propertyId), some originalInstance]
        let targetObj ← deref target
        let targetDescriptor ← h.GetOwnPropertyDescriptor targetObj propertyId
        let check : Exec (State H) Unit :=
          match targetDescriptor with
          | some targetDescriptor =>
            let targetDescriptor := CompletePropertyDescriptor h targetDescriptor
            if targetDescriptor.ValueSpecified && !targetDescriptor.IsConfigurable
                && !targetDescriptor.IsWritable then
              match targetDescriptor.GetValue with
              | some value =>
                if !h.SameValue getGetResult value then
                  ThrowTypeError .JSERR_InconsistentTrapResult "get"
                else pure ()
              | none => nullDereference
            else if targetDescriptor.GetterSpecified || targetDescriptor.SetterSpecified then
              if !targetDescriptor.IsConfigurable
                  && targetDescriptor.GetGetter == some h.DefaultAccessorFunction
                  && GetTypeId getGetResult != .TypeIds_Undefined then
                ThrowTypeError .JSERR_InconsistentTrapResult "get"
              else pure ()
            else pure ()
          | none => pure ()
        check
        pure ⟨true, propertyDescriptor.SetValue getGetResult, none⟩
      | _, _ =>
        let propertyDescriptor := propertyDescriptor.SetFromProxy false
        let targetObj ← deref target
        let r ← fn targetObj
        pure ⟨r.1, propertyDescriptor, some r.2⟩

/-- `JavascriptProxy::HasPropertyTrap`; `fn` forwards to the target. -/
def HasPropertyTrap (h : Host H) (this : Nat) (fn : Var → Exec (State H) Bool)
    (getPropertyId : Unit → PropertyId) : Exec (State H) Bool := do
  -- Reject implicit call
  let disabled ← IsDisableImplicitCall
  if disabled then
    AddImplicitCallFlags h.ImplicitCall_External
    pure false
  else
    let go ← revokedGuard h this "has"
    if !go then pure false
    else
      let hasMethod ← GetMethodHelper h this h.ids.has
      let heapEnum ← IsHeapEnumInProgress h
      match hasMethod, heapEnum with
      | some method, false =>
        let propertyId := getPropertyId ()
        let handler ← readHandler this
        let target ← readTarget this
        let getHasResult ← CallTrap h method [handler, target, some (GetName h propertyId)]
        let hasProperty := h.ToBoolean getHasResult
        if !hasProperty then
          let targetObj ← deref (← readTarget this)
          let targetDescriptor ← h.GetOwnPropertyDescriptor targetObj propertyId
          match targetDescriptor with
          | some targetDescriptor =>
            if !targetDescriptor.IsConfigurable then
              ThrowTypeError .JSERR_InconsistentTrapResult "has"
            else
              let targetObj ← deref (← readTarget this)
              let extensible ← h.IsExtensible targetObj
              if !extensible then ThrowTypeError .JSERR_InconsistentTrapResult "has"
              else pure hasProperty
          | none => pure hasProperty
        else pure hasProperty
      | _, _ =>
        let targetObj ← deref (← readTarget this)
        fn targetObj

/-- Modelled from the spec: `JavascriptOperators::IsCompatiblePropertyDescriptor` is
not in the sources.  This is the ECMA-262 predicate (ValidateAndApplyPropertyDescriptor
with an undefined object) on a descriptor, the current descriptor (`none`: the property
is absent) and the extensibility of the object.  The `throwOnError` argument of the
engine's function is passed by the callers and not interpreted here. -/
def IsCompatiblePropertyDescriptor (h : Host H) (descriptor : PropertyDescriptor)
    (currentDescriptor : Option PropertyDescriptor) (isExtensible : Bool)
    (_throwOnError : Bool) : Bool :=
  match currentDescriptor with
  | none => isExtensible
  | some current =>
    if !descriptor.ValueSpecified && !descriptor.WritableSpecified
        && !descriptor.GetterSpecified && !descriptor.SetterSpecified
        && !descriptor.EnumerableSpecified && !descriptor.ConfigurableSpecified then true
    else if !current.IsConfigurable && descriptor.Configurable == some true then false
    else if !current.IsConfigurable && descriptor.EnumerableSpecified
        && descriptor.IsEnumerable != current.IsEnumerable then false
    else if descriptor.IsGenericDescriptor then true
    else if current.IsDataDescriptor != descriptor.IsDataDescriptor then
      current.IsConfigurable
    else if current.IsDataDescriptor && descriptor.IsDataDescriptor then
      if !current.IsConfigurable && !current.IsWritable then
        if descriptor.Writable == some true then false
        else
          match descriptor.Value with
          | some v => h.SameValue v (current.Value.getD .undefined)
          | none => true
      else true
    else
      if !current.IsConfigurable then
        (match descriptor.Setter with
          | some f => h.SameValue f (current.Setter.getD h.DefaultAccessorFunction)
          | none => true)
        &&
        (match descriptor.Getter with
          | some f => h.SameValue f (current.Getter.getD h.DefaultAccessorFunction)
          | none => true)
      else true

/-- `JavascriptProxy::GetPropertyDescriptorTrap`.  `fn` forwards to the target and
returns what it wrote into the descriptor; the result is the `BOOL` and the content of
`resultDescriptor`. -/
def GetPropertyDescriptorTrap (h : Host H) (this : Nat) (_originalInstance : Var)
    (fn : Unit → Exec (State H) (Option PropertyDescriptor))
    (getPropertyId : Unit → PropertyId) (resultDescriptor : PropertyDescriptor) :
    Exec (State H) (Bool × PropertyDescriptor) := do
  let gOPDMethod ← GetMethodHelper h this h.ids.getOwnPropertyDescriptor
  let heapEnum ← IsHeapEnumInProgress h
  match gOPDMethod, heapEnum with
  | some method, false =>
    -- Reject implicit call
    let disabled ← IsDisableImplicitCall
    if disabled then
      AddImplicitCallFlags h.ImplicitCall_External
      pure (false, resultDescriptor)
    else
      let propertyId := getPropertyId ()
      let handler ← readHandler this
      let target ← readTarget this
      let getResult ← CallTrap h method [handler, target, some (GetName h propertyId)]
      let getResultTypeId := GetTypeId getResult
      if StaticType.Is getResultTypeId && getResultTypeId != .TypeIds_Undefined then
        ThrowTypeError .JSERR_NeedObject "getOwnPropertyDescriptor"
      else
        let targetObj ← deref (← readTarget this)
        let targetDescriptor ← h.GetOwnPropertyDescriptor targetObj (getPropertyId ())
        if getResultTypeId == .TypeIds_Undefined then
          match targetDescriptor with
          | none => pure (false, resultDescriptor)
          | some targetDescriptor =>
            if !targetDescriptor.IsConfigurable then
              ThrowTypeError .JSERR_InconsistentTrapResult "getOwnPropertyDescriptor"
            else
              let targetObj ← deref (← readTarget this)
              let extensible ← h.IsExtensible targetObj
              if !extensible then
                ThrowTypeError .JSERR_InconsistentTrapResult "getOwnPropertyDescriptor"
              else pure (false, resultDescriptor)
        else
          let targetObj ← deref (← readTarget this)
          let isTargetExtensible ← h.IsExtensible targetObj
          let toProperty ← h.ToPropertyDescriptor getResult
          if toProperty.isNone && isTargetExtensible then
            ThrowTypeError .JSERR_InconsistentTrapResult "getOwnPropertyDescriptor"
          else
            let resultDescriptor := toProperty.getD resultDescriptor
            let resultDescriptor := CompletePropertyDescriptor h resultDescriptor
            if !IsCompatiblePropertyDescriptor h resultDescriptor targetDescriptor
                isTargetExtensible true then
              ThrowTypeError .JSERR_InconsistentTrapResult "getOwnPropertyDescriptor"
            else if !resultDescriptor.IsConfigurable
                && (match targetDescriptor with
                    | none => true
                    | some targetDescriptor => targetDescriptor.IsConfigurable) then
              ThrowTypeError .JSERR_InconsistentTrapResult "getOwnPropertyDescriptor"
            else
              pure (toProperty.isSome, resultDescriptor.SetFromProxy true)
  | _, _ =>
    let resultDescriptor := resultDescriptor.SetFromProxy false
    let r ← fn ()
    match r with
    | some d => pure (true, d)
    | none => pure (false, resultDescriptor)

/-- `JavascriptProxy::GetOwnPropertyDescriptor` (static): `obj` is the Proxy at address
`proxy`. -/
def GetOwnPropertyDescriptor (h : Host H) (proxy : Nat) (propertyId : PropertyId)
    (propertyDescriptor : PropertyDescriptor) : Exec (State H) (Bool × PropertyDescriptor) :=
  let fn : Unit → Exec (State H) (Option PropertyDescriptor) := fun _ => do
    let targetObj ← deref (← readTarget proxy)
    h.GetOwnPropertyDescriptor targetObj propertyId
  let getPropertyId : Unit → PropertyId := fun _ => propertyId
  GetPropertyDescriptorTrap h proxy (.proxy proxy) fn getPropertyId propertyDescriptor

/-- `JavascriptProxy::Equals`: the `BOOL` returned and the value stored in `*value`. -/
def Equals (h : Host H) (this : Nat) (other : Var) : Exec (State H) (Bool × Bool) := do
  let target ← readTarget this
  if target.isNone then
    -- the proxy has been revoked; TypeError.
    ThrowTypeError .JSERR_ErrorOnRevokedProxy "equal"
  else
    -- Reject implicit call
    let disabled ← IsDisableImplicitCall
    if disabled then
      AddImplicitCallFlags h.ImplicitCall_External
      pure (false, false)
    else
      pure (true, decide (other = .proxy this))

/-- `JavascriptProxy::StrictEquals`: the `BOOL` returned and the value stored in
`*value`. -/
def StrictEquals (h : Host H) (this : Nat) (other : Var) : Exec (State H) (Bool × Bool) := do
  let target ← readTarget this
  if target.isNone then
    -- the proxy has been revoked; TypeError.
    ThrowTypeError .JSERR_ErrorOnRevokedProxy "strict equal"
  else
    -- Reject implicit call
    let disabled ← IsDisableImplicitCall
    if disabled then
      AddImplicitCallFlags h.ImplicitCall_External
      pure (false, false)
    else
      pure (true, decide (other = .proxy this))

/-- `JavascriptProxy::IsExtensible`. -/
def IsExtensible (h : Host H) (this : Nat) : Exec (State H) Bool := do
  -- Reject implicit call
  let disabled ← IsDisableImplicitCall
  if disabled then
    AddImplicitCallFlags h.ImplicitCall_External
    pure false
  else
    let go ← revokedGuard h this "isExtensible"
    if !go then pure false
    else
      let isExtensibleMethod ← GetMethodHelper h this h.ids.isExtensible
      match isExtensibleMethod with
      | none =>
        let targetObj ← deref (← readTarget this)
        h.IsExtensible targetObj
      | some method =>
        let handler ← readHandler this
        let target ← readTarget this
        let isExtensibleResult ← CallTrap h method [handler, target]
        let trapResult := h.ToBoolean isExtensibleResult
        let targetObj ← deref (← readTarget this)
        let targetIsExtensible ← h.IsExtensible targetObj
        if trapResult != targetIsExtensible then
          ThrowTypeError .JSERR_InconsistentTrapResult "isExtensible"
        else pure trapResult

/-- `JavascriptProxy::PreventExtensions`. -/
def PreventExtensions (h : Host H) (this : Nat) : Exec (State H) Bool := do
  -- Reject implicit call
  let disabled ← IsDisableImplicitCall
  if disabled then
    AddImplicitCallFlags h.ImplicitCall_External
    pure false
  else
    let go ← revokedGuard h this "preventExtensions"
    if !go then pure false
    else
      let preventExtensionsMethod ← GetMethodHelper h this h.ids.preventExtensions
      match preventExtensionsMethod with
      | none =>
        let targetObj ← deref (← readTarget this)
        h.PreventExtensions targetObj
      | some method =>
        let handler ← readHandler this
        let target ← readTarget this
        let preventExtensionsResult ← CallTrap h method [handler, target]
        let trapResult := h.ToBoolean preventExtensionsResult
        if trapResult then
          let targetObj ← deref (← readTarget this)
          let targetIsExtensible ← h.IsExtensible targetObj
          if targetIsExtensible then
            ThrowTypeError .JSERR_InconsistentTrapResult "preventExtensions"
          else pure trapResult
        else pure trapResult

/-- `JavascriptProxy::GetPrototypeSpecial`.  The result is a pointer: `none` is the
null pointer returned for a revoked Proxy whose error is not to be thrown. -/
def GetPrototypeSpecial (h : Host H) (this : Nat) : Exec (State H) (Option Var) := do
  -- Reject implicit call
  let disabled ← IsDisableImplicitCall
  if disabled then
    AddImplicitCallFlags h.ImplicitCall_External
    pure (some .undefined)
  else
    let go ← revokedGuard h this "getPrototypeOf"
    if !go then pure none
    else
      let getPrototypeOfMethod ← GetMethodHelper h this h.ids.getPrototypeOf
      let heapEnum ← IsHeapEnumInProgress h
      match getPrototypeOfMethod, heapEnum with
      | some method, false =>
        let handler ← readHandler this
        let target ← readTarget this
        let getPrototypeOfResult ← CallTrap h method [handler, target]
        let prototypeTypeId := GetTypeId getPrototypeOfResult
        if !IsObjectType prototypeTypeId && prototypeTypeId != .TypeIds_Null then
          ThrowTypeError .JSERR_InconsistentTrapResult "getPrototypeOf"
        else
          let targetObj ← deref (← readTarget this)
          let extensible ← h.IsExtensible targetObj
          if !extensible then
            let targetObj ← deref (← readTarget this)
            let s ← getState
            if !h.SameValue getPrototypeOfResult (h.GetPrototype targetObj s) then
              ThrowTypeError .JSERR_InconsistentTrapResult "getPrototypeOf"
            else pure (some getPrototypeOfResult)
          else pure (some getPrototypeOfResult)
      | _, _ =>
        let targetObj ← deref (← readTarget this)
        let proto ← h.GetPrototypeOf targetObj
        pure (some proto)

/-- `JavascriptProxy::SetPrototypeTrap`. -/
def SetPrototypeTrap (h : Host H) (this : Nat) (newPrototype : Var) (shouldThrow : Bool) :
    Exec (State H) Bool := do
  -- Reject implicit call
  let disabled ← IsDisableImplicitCall
  if disabled then
    AddImplicitCallFlags h.ImplicitCall_External
    pure false
  else
    let go ← (if shouldThrow then revokedGuard h this "setPrototypeOf" else pure true)
    if !go then pure false
    else
      let setPrototypeOfMethod ← GetMethodHelper h this h.ids.setPrototypeOf
      match setPrototypeOfMethod with
      | none =>
        let targetObj ← deref (← readTarget this)
        let _ ← h.ChangePrototype targetObj newPrototype shouldThrow
        pure true
      | some method =>
        let handler ← readHandler this
        let target ← readTarget this
        let setPrototypeResult ← CallTrap h method [handler, target, some newPrototype]
        let prototypeSetted := h.ToBoolean setPrototypeResult
        let targetObj ← deref (← readTarget this)
        let isExtensible ← h.IsExtensible targetObj
        if isExtensible then
          if !prototypeSetted && shouldThrow then
            ThrowTypeError .JSERR_ProxyTrapReturnedFalse "setPrototypeOf"
          else pure prototypeSetted
        else
          let targetObj ← deref (← readTarget this)
          let s ← getState
          let targetProto := h.GetPrototype targetObj s
          if !h.SameValue targetProto newPrototype then
            if shouldThrow then
              ThrowTypeError .JSERR_InconsistentTrapResult "setPrototypeOf"
            else pure false
          else pure true

/-- `JavascriptProxy::RevokeObject`: both slots become null. -/
def RevokeObject (this : Nat) : Exec (State H) Unit := fun s =>
  .ok () { s with proxies := Function.update s.proxies this ⟨none, none⟩ }

/-- Modelled from the spec: `RecyclableObject::GetInternalProperty` on the revoker is
not in the sources.  The revocation closure carries one internal slot; the read fails
(`none`) when the function has no such slot. -/
def GetInternalProperty (function : Nat) : Exec (State H) (Option Var) := fun s =>
  .ok (s.internalProperties function) s

/-- Modelled from the spec: `RecyclableObject::SetInternalProperty` on the revoker is
not in the sources.  It stores the value in the internal slot. -/
def SetInternalProperty (function : Nat) (value : Var) : Exec (State H) Unit := fun s =>
  .ok () { s with internalProperties := Function.update s.internalProperties function (some value) }

/-- `JavascriptProxy::EntryRevoke`: the revoke function at address `function`. -/
def EntryRevoke (function : Nat) : Exec (State H) Var := do
  let revokableProxy ← GetInternalProperty function
  match revokableProxy with
  | none => ThrowTypeError .JSERR_InvalidProxyArgument ""
  | some revokableProxy =>
    let typeId := GetTypeId revokableProxy
    if typeId == .TypeIds_Null then pure .undefined
    else
      match revokableProxy with
      | .proxy addr =>
        SetInternalProperty function .null
        RevokeObject addr
        pure .undefined
      | _ => ThrowTypeError .JSERR_InvalidProxyArgument ""

/-- `JavascriptProxy::DeleteProperty(PropertyId, flags)`. -/
def DeleteProperty (h : Host H) (this : Nat) (propertyId : PropertyId) (flags : Nat) :
    Exec (State H) Bool := do
  let target ← readTarget this
  if target.isNone then
    -- the proxy has been revoked; TypeError.
    ThrowTypeError .JSERR_ErrorOnRevokedProxy "deleteProperty"
  else
    -- Reject implicit call
    let disabled ← IsDisableImplicitCall
    if disabled then
      AddImplicitCallFlags h.ImplicitCall_External
      pure false
    else
      let deleteMethod ← GetMethodHelper h this h.ids.deleteProperty
      match deleteMethod with
      | none =>
        let targetObj ← deref (← readTarget this)
        if (h.IsNumericPropertyId propertyId).1 then
          h.DeleteItem targetObj (h.IsNumericPropertyId propertyId).2 flags
        else
          h.DeleteProperty targetObj propertyId flags
      | some method =>
        let handler ← readHandler this
        let target ← readTarget this
        let deletePropertyResult ← CallTrap h method
          [handler, target, some (GetName h propertyId)]
        let trapResult := h.ToBoolean deletePropertyResult
        if !trapResult then pure trapResult
        else
          let targetObj ← deref (← readTarget this)
          let targetPropertyDescriptor ← h.GetOwnPropertyDescriptor targetObj propertyId
          match targetPropertyDescriptor with
          | none => pure true
          | some targetPropertyDescriptor =>
            if !targetPropertyDescriptor.IsConfigurable then
              ThrowTypeError .JSERR_InconsistentTrapResult "deleteProperty"
            else pure true

/-- `JavascriptProxy::DefineOwnPropertyDescriptor` (static): `obj` is the Proxy at
address `proxy`. -/
def DefineOwnPropertyDescriptor (h : Host H) (proxy : Nat) (propId : PropertyId)
    (descriptor : PropertyDescriptor) (throwOnError : Bool) : Exec (State H) Bool := do
  let target ← readTarget proxy
  if target.isNone then
    -- the proxy has been revoked; TypeError.
    ThrowTypeError .JSERR_ErrorOnRevokedProxy "definePropertyDescriptor"
  else
    -- Reject implicit call
    let disabled ← IsDisableImplicitCall
    if disabled then
      AddImplicitCallFlags h.ImplicitCall_External
      pure false
    else
      let defineOwnPropertyMethod ← GetMethodHelper h proxy h.ids.defineProperty
      match defineOwnPropertyMethod with
      | none =>
        let targetObj ← deref (← readTarget proxy)
        h.DefineOwnPropertyDescriptor targetObj propId descriptor throwOnError
      | some method =>
        let descVar ← (match descriptor.originalVar with
          | some original => pure original
          | none => h.FromPropertyDescriptor descriptor)
        let handler ← readHandler proxy
        let target ← readTarget proxy
        let definePropertyResult ← CallTrap h method
          [handler, target, some (GetName h propId), some descVar]
        let defineResult := h.ToBoolean definePropertyResult
        if !defineResult then pure defineResult
        else
          let targetObj ← deref (← readTarget proxy)
          let targetDescriptor ← h.GetOwnPropertyDescriptor targetObj propId
          let targetObj ← deref (← readTarget proxy)
          let isExtensible ← h.IsExtensible targetObj
          let settingConfigFalse := descriptor.ConfigurableSpecified && !descriptor.IsConfigurable
          match targetDescriptor with
          | none =>
            if !isExtensible || settingConfigFalse then
              ThrowTypeError .JSERR_InconsistentTrapResult "defineProperty"
            else pure true
          | some targetDescriptor =>
            if !IsCompatiblePropertyDescriptor h descriptor (some targetDescriptor)
                isExtensible true then
              ThrowTypeError .JSERR_InconsistentTrapResult "defineProperty"
            else if settingConfigFalse && targetDescriptor.IsConfigurable then
              ThrowTypeError .JSERR_InconsistentTrapResult "defineProperty"
            else pure true

/-- `JavascriptProxy::SetPropertyTrap(receiver, kind, PropertyId, newValue, context,
skipPrototypeCheck)`. -/
def SetPropertyTrap (h : Host H) (this : Nat) (receiver : Var)
    (setPropertyTrapKind : SetPropertyTrapKind) (propertyId : PropertyId) (newValue : Var)
    (skipPrototypeCheck : Bool) : Exec (State H) Bool := do
  let target ← readTarget this
  if target.isNone then
    -- the proxy has been revoked; TypeError.
    ThrowTypeError .JSERR_ErrorOnRevokedProxy "set"
  else
    -- Reject implicit call
    let disabled ← IsDisableImplicitCall
    if disabled then
      AddImplicitCallFlags h.ImplicitCall_External
      pure false
    else
      let setMethod ← GetMethodHelper h this h.ids.set
      match setMethod with
      | none =>
        let targetObj ← deref (← readTarget this)
        match setPropertyTrapKind with
        | .SetItemOnTaggedNumberKind =>
          h.SetItemOnTaggedNumber receiver targetObj (h.IsNumericPropertyId propertyId).2 newValue
        | .SetPropertyOnTaggedNumberKind =>
          h.SetPropertyOnTaggedNumber receiver targetObj propertyId newValue
        | .SetPropertyKind =>
          h.SetProperty receiver targetObj propertyId newValue
        | .SetItemKind =>
          h.SetItem receiver targetObj (h.IsNumericPropertyId propertyId).2 newValue
            skipPrototypeCheck
        | .SetPropertyWPCacheKind =>
          h.SetPropertyWPCache receiver targetObj propertyId newValue (GetName h propertyId)
      | some method =>
        let handler ← readHandler this
        let target ← readTarget this
        let setPropertyResult ← CallTrap h method
          [handler, target, some (GetName h propertyId), some newValue, some receiver]
        let setResult := h.ToBoolean setPropertyResult
        if !setResult then pure setResult
        else
          let targetObj ← deref (← readTarget this)
          let targetDescriptor ← h.GetOwnPropertyDescriptor targetObj propertyId
          match targetDescriptor with
          | some targetDescriptor =>
            if targetDescriptor.ValueSpecified then
              if !targetDescriptor.IsConfigurable && !targetDescriptor.IsWritable
                  && !(match targetDescriptor.GetValue with
                      | some value => h.SameValue newValue value
                      | none => false) then
                ThrowTypeError .JSERR_InconsistentTrapResult "set"
              else pure true
            else
              if !targetDescriptor.IsConfigurable
                  && targetDescriptor.GetSetter == some h.DefaultAccessorFunction then
                ThrowTypeError .JSERR_InconsistentTrapResult "set"
              else pure true
          | none => pure true

/-- The filter of a kind of `ownKeys` request: the lambda `PropertyKeysTrap` passes to
`GetOwnPropertyKeysHelper`. -/
def KeysTrapKind.filter : KeysTrapKind → PropertyRecord → Bool
  | .GetOwnPropertyNamesKind => fun propertyRecord => !propertyRecord.IsSymbol
  | .GetOwnPropertySymbolKind => fun propertyRecord => propertyRecord.IsSymbol
  | .KeysKind => fun _ => true

/-- One round of the loop of `GetOwnPropertyKeysHelper`, on the element at index `i`;
the pair is the list built so far and the map (the ids it holds). -/
def GetOwnPropertyKeysHelper.step (h : Host H) (trapResultArray : Var)
    (fn : PropertyRecord → Bool) (acc : List Var × List PropertyId) (i : Nat) :
    Exec (State H) (List Var × List PropertyId) := do
  let item ← h.GetItem trapResultArray i
  match item with
  | none => ThrowTypeError .JSERR_InconsistentTrapResult "ownKeys"
  | some element =>
    if !(JavascriptString.Is element || JavascriptSymbol.Is element) then
      ThrowTypeError .JSERR_InconsistentTrapResult "ownKeys"
    else
      let propertyRecord := h.ToPropertyKey element
      let propertyId := propertyRecord.GetPropertyId
      if acc.2.contains propertyId then
        ThrowTypeError .JSERR_InconsistentTrapResult "ownKeys"
      else
        let map := if propertyId != Constants.NoProperty then acc.2 ++ [propertyId] else acc.2
        let trapResult := if fn propertyRecord then acc.1 ++ [element] else acc.1
        pure (trapResult, map)

/-- The loop of `GetOwnPropertyKeysHelper` over the indices in `indices`. -/
def GetOwnPropertyKeysHelper.loop (h : Host H) (trapResultArray : Var)
    (fn : PropertyRecord → Bool) :
    List Nat → List Var × List PropertyId → Exec (State H) (List Var × List PropertyId)
  | [], acc => pure acc
  | i :: rest, acc => do
    let acc1 ← GetOwnPropertyKeysHelper.step h trapResultArray fn acc i
    GetOwnPropertyKeysHelper.loop h trapResultArray fn rest acc1

/-- Modelled from the spec: `JavascriptProxy::GetOwnPropertyKeysHelper` is a template of
the header, which is not in the sources.  It converts the first `len` elements of the
trap result to a list of property keys: an element that is missing or neither a string
nor a symbol is an inconsistent trap result; the id of each key is recorded in the map
unless it is `NoProperty`, and an id seen before is an inconsistent trap result; a key
is appended to the list when the kind filter accepts it. -/
def GetOwnPropertyKeysHelper (h : Host H) (trapResultArray : Var) (len : Nat)
    (fn : PropertyRecord → Bool) : Exec (State H) (List Var × List PropertyId) :=
  GetOwnPropertyKeysHelper.loop h trapResultArray fn (List.range len) ([], [])

/-- The flags the loop of `PropertyKeysTrap` over the target's keys maintains, and the
map of the trap keys not matched so far. -/
structure KeysLoopState where
  targetToTrapResultMap : List PropertyId
  isConfigurableKeyMissingFromTrapResult : Bool
  isNonconfigurableKeyMissingFromTrapResult : Bool
  isAnyNonconfigurableKeyPresent : Bool
  deriving DecidableEq, Repr

/-- The bookkeeping of one round of the loop of `PropertyKeysTrap` for a target key with
id `propertyId`, given whether the target's descriptor for it is present and
non-configurable. -/
def KeysLoopState.visit (st : KeysLoopState) (propertyId : PropertyId)
    (nonconfigurable : Bool) : KeysLoopState :=
  -- If not present in intersection means either the property is not present in targetKeys
  -- or we have already visited the property in targetKeys
  let isKeyMissingFromTrapResult := !st.targetToTrapResultMap.contains propertyId
  let map := st.targetToTrapResultMap.filter (fun k => k != propertyId)
  if nonconfigurable then
    { st with
      targetToTrapResultMap := map
      isAnyNonconfigurableKeyPresent := true
      isNonconfigurableKeyMissingFromTrapResult :=
        st.isNonconfigurableKeyMissingFromTrapResult || isKeyMissingFromTrapResult }
  else
    { st with
      targetToTrapResultMap := map
      isConfigurableKeyMissingFromTrapResult :=
        st.isConfigurableKeyMissingFromTrapResult || isKeyMissingFromTrapResult }

/-- One round of the loop of `PropertyKeysTrap` over the target's keys. -/
def PropertyKeysTrap.step (h : Host H) (this : Nat) (st : KeysLoopState) (element : Var) :
    Exec (State H) KeysLoopState := do
  let propertyRecord := h.ToPropertyKey element
  let propertyId := propertyRecord.GetPropertyId
  if propertyId == Constants.NoProperty then pure st
  else
    let targetObj ← deref (← readTarget this)
    let targetKeyPropertyDescriptor ← h.GetOwnPropertyDescriptor targetObj propertyId
    let nonconfigurable := match targetKeyPropertyDescriptor with
      | some d => !d.IsConfigurable
      | none => false
    pure (st.visit propertyId nonconfigurable)

/-- The loop of `PropertyKeysTrap` over the target's keys. -/
def PropertyKeysTrap.loop (h : Host H) (this : Nat) :
    List Var → KeysLoopState → Exec (State H) KeysLoopState
  | [], st => pure st
  | element :: rest, st => do
    let st1 ← PropertyKeysTrap.step h this st element
    PropertyKeysTrap.loop h this rest st1

/-- `JavascriptProxy::PropertyKeysTrap`.  The result is a pointer to an array: `none`
is the null pointer, `some keys` an array with these elements. -/
def PropertyKeysTrap (h : Host H) (this : Nat) (keysTrapKind : KeysTrapKind) :
    Exec (State H) (Option (List Var)) := do
  -- Reject implicit call
  let disabled ← IsDisableImplicitCall
  if disabled then
    AddImplicitCallFlags h.ImplicitCall_External
    pure none
  else
    let go ← revokedGuard h this "ownKeys"
    if !go then pure none
    else
      let ownKeysMethod ← GetMethodHelper h this h.ids.ownKeys
      match ownKeysMethod with
      | none =>
        let targetObj ← deref (← readTarget this)
        let targetKeys ← (match keysTrapKind with
          | .GetOwnPropertyNamesKind => h.GetOwnPropertyNames targetObj
          | .GetOwnPropertySymbolKind => h.GetOwnPropertySymbols targetObj
          | .KeysKind => h.GetOwnPropertyKeys targetObj)
        pure (some targetKeys)
      | some method =>
        let handler ← readHandler this
        let target ← readTarget this
        let ownKeysResult ← CallTrap h method [handler, target]
        if !IsObject ownKeysResult then
          ThrowTypeError .JSERR_InconsistentTrapResult "ownKeys"
        else
          let trapResultArray := ownKeysResult
          let targetObj ← deref (← readTarget this)
          let isTargetExtensible ← h.IsExtensible targetObj
          let targetObj ← deref (← readTarget this)
          let targetKeys ← h.GetOwnPropertyKeys targetObj
          let lenValue ← h.OP_GetLength trapResultArray
          let len64 ← h.ToLength lenValue
          let len := (len64 % 2 ^ 32).toNat
          let built ← GetOwnPropertyKeysHelper h trapResultArray len keysTrapKind.filter
          let trapResult := built.1
          let st ← PropertyKeysTrap.loop h this targetKeys ⟨built.2, false, false, false⟩
          -- Keys that were not found in targetKeys will continue to remain in the map
          let isKeyMissingFromTargetResult := st.targetToTrapResultMap.length != 0
          -- 19.
          if isTargetExtensible && !st.isAnyNonconfigurableKeyPresent then
            pure (some trapResult)
          -- 21.
          else if st.isNonconfigurableKeyMissingFromTrapResult then
            ThrowTypeError .JSERR_InconsistentTrapResult "ownKeys"
          -- 22.
          else if isTargetExtensible then
            pure (some trapResult)
          -- 23.
          else if st.isConfigurableKeyMissingFromTrapResult then
            ThrowTypeError .JSERR_InconsistentTrapResult "ownKeys"
          -- 24.
          else if isKeyMissingFromTargetResult then
            ThrowTypeError .JSERR_InconsistentTrapResult "ownKeys"
          else
            pure (some trapResult)

/-- One round of the loop of `GetEnumerator` on a value of the trap result: the
dictionary of the names seen and the array of the keys to enumerate. -/
def GetEnumerator.step (h : Host H) (this : Nat) (acc : List String × List Var) (prop : Var) :
    Exec (State H) (List String × List Var) :=
  match prop with
  | .string str => do
    let desc ← h.GetOwnPropertyDescriptorByName (.proxy this) str
    match desc with
    | some desc =>
      if !acc.1.contains str then
        let dict := acc.1 ++ [str]
        if desc.IsEnumerable then pure (dict, acc.2 ++ [h.MarshalVar prop])
        else pure (dict, acc.2)
      else pure acc
    | none => pure acc
  | _ => pure acc

/-- The loop of `GetEnumerator` over the values of the trap result. -/
def GetEnumerator.loop (h : Host H) (this : Nat) :
    List Var → List String × List Var → Exec (State H) (List String × List Var)
  | [], acc => pure acc
  | prop :: rest, acc => do
    let acc1 ← GetEnumerator.step h this acc prop
    GetEnumerator.loop h this rest acc1

/-- `JavascriptProxy::GetEnumerator`: the `BOOL` returned and the keys handed to the
enumerator (`none` when the enumerator was not initialized). -/
def GetEnumerator (h : Host H) (this : Nat) : Exec (State H) (Bool × Option (List Var)) := do
  -- Reject implicit call
  let disabled ← IsDisableImplicitCall
  if disabled then
    AddImplicitCallFlags h.ImplicitCall_External
    pure (false, none)
  else
    let go ← revokedGuard h this "ownKeys"
    if !go then pure (false, none)
    else
      let trapResult ← h.GetOwnPropertyNames (.proxy this)
      let props ← h.EnumerateArray trapResult
      match props with
      | none => pure (false, none)
      | some props =>
        let acc ← GetEnumerator.loop h this props ([], [])
        let r ← h.InitializeEnumerator acc.2
        pure (r, some acc.2)

/-- `RecyclableObject::Is`: every value but a tagged number. -/
def RecyclableObject.Is : Var → Bool
  | .number _ => false
  | _ => true

/-- `JavascriptProxy::FunctionCallTrap`.  `values` are the argument values, the
implicit `this` first, followed (when `CallFlags_NewTarget` is set) by the overriding
new.target at index `callInfo.Count`. -/
def FunctionCallTrap (h : Host H) (function : Var) (callInfo : CallInfo)
    (values : List (Option Var)) : Exec (State H) Var := do
  let hasOverridingNewTarget := callInfo.CallFlags_NewTarget
  let arg0 : Option Var := (values.get? 0).join
  let isCtorSuperCall := callInfo.CallFlags_New &&
    (match arg0 with
     | some v => RecyclableObject.Is v
     | none => false)
  match function with
  | .proxy proxy =>
    let newTarget : Option Var :=
      if hasOverridingNewTarget then (values.get? callInfo.Count).join else some function
    let callMethod ← (if callInfo.CallFlags_New then GetMethodHelper h proxy h.ids.construct
      else GetMethodHelper h proxy h.ids.apply)
    let targetObj ← deref (← readTarget proxy)
    let s ← getState
    if !h.IsCallable targetObj s then
      ThrowTypeError .JSERR_NeedFunction "call"
    else
      match callMethod with
      | none =>
        if callInfo.Count ≥ USHORT_MAX then
          raise (.rangeError .JSERR_ArgListTooLarge)
        else
          let targetObj ← deref (← readTarget proxy)
          let newThisObject : Option Var ← (if callInfo.CallFlags_New then
              if !h.IsConstructor targetObj then
                ThrowTypeError .JSERR_This_NeedFunction "construct"
              else do
                let targetObj ← deref (← readTarget proxy)
                let obj ← h.NewScObjectNoCtor targetObj
                pure (some obj)
            else pure none)
          let values := if callInfo.CallFlags_New then values.set 0 newThisObject else values
          let newCount := (callInfo.Count + 1) % 2 ^ 16
          let calleeInfo : CallInfo :=
            { callInfo with CallFlags_ExtraArg := true, CallFlags_NewTarget := true,
                            Count := newCount }
          let newValues := values.take callInfo.Count ++ [newTarget]
          let targetObj ← deref (← readTarget proxy)
          let aReturnValue ← h.CallEntryPoint targetObj calleeInfo newValues
          -- If this is constructor call, return the actual object instead of function result
          if callInfo.CallFlags_New && !IsObject aReturnValue then
            deref newThisObject
          else pure aReturnValue
      | some method =>
        let argList ← h.CreateArray ((values.take callInfo.Count).drop 1)
        let handler ← readHandler proxy
        let target ← readTarget proxy
        let varArgs : List (Option Var) :=
          if callInfo.CallFlags_New then
            [handler, target, some argList,
              if hasOverridingNewTarget then newTarget
              else if isCtorSuperCall then arg0 else newTarget]
          else [handler, target, arg0, some argList]
        let trapResult ← h.CallFunction method varArgs
        if callInfo.CallFlags_New && !IsObject trapResult then
          ThrowTypeError .JSERR_InconsistentTrapResult "construct"
        else pure trapResult
  | _ =>
    if callInfo.CallFlags_New then ThrowTypeError .JSERR_NeedFunction "construct"
    else ThrowTypeError .JSERR_NeedFunction "call"

/-- The constructor `JavascriptProxy(type, scriptContext, target, handler)` run on the
object at address `addr`, with the library's Proxy type (whose entry point is the
default one). -/
def JavascriptProxy.construct (addr : Nat) (target handler : Var) : Exec (State H) Unit :=
  fun s => .ok ()
    { s with proxies := Function.update s.proxies addr ⟨some handler, some target⟩
             hasFunctionCallTrap := Function.update s.hasFunctionCallTrap addr false }

/-- `newProxy->ChangeType(); newProxy->GetDynamicType()->SetEntryPoint(FunctionCallTrap)`
on the Proxy at address `addr`. -/
def SetEntryPointFunctionCallTrap (addr : Nat) : Exec (State H) Unit :=
  fun s => .ok () { s with hasFunctionCallTrap := Function.update s.hasFunctionCallTrap addr true }

/-- `JavascriptProxy::Create`.  `values` are the argument values, the implicit `this`
first, followed (when `CallFlags_NewTarget` is set) by the new.target at index
`callInfo.Count`.  The conversion of a copy-on-access native array target
(`ENABLE_COPYONACCESS_ARRAY`) changes the representation of the array only and has no
counterpart here. -/
def Create (h : Host H) (callInfo : CallInfo) (values : List (Option Var)) :
    Exec (State H) Var := do
  let newTarget : Option Var :=
    if callInfo.CallFlags_NewTarget then (values.get? callInfo.Count).join
    else (values.get? 0).join
  let isCtorSuperCall := callInfo.CallFlags_New &&
    (match newTarget with
     | some v => !IsUndefined v
     | none => false)
  if callInfo.Count < 3 then
    ThrowTypeError .JSERR_NeedProxyArgument ""
  else
    let target ← deref (values.get? 1).join
    if !IsObjectType (GetTypeId target) then
      ThrowTypeError .JSERR_InvalidProxyArgument "target"
    else
      let checkTarget : Exec (State H) Unit :=
        match target with
        | .proxy addr => do
          let slot ← readTarget addr
          if slot.isNone then ThrowTypeError .JSERR_InvalidProxyArgument "target"
          else pure ()
        | _ => pure ()
      checkTarget
      let handler ← deref (values.get? 2).join
      if !IsObjectType (GetTypeId handler) then
        ThrowTypeError .JSERR_InvalidProxyArgument "handler"
      else
        let checkHandler : Exec (State H) Unit :=
          match handler with
          | .proxy addr => do
            let slot ← readHandler addr
            if slot.isNone then ThrowTypeError .JSERR_InvalidProxyArgument "handler"
            else pure ()
          | _ => pure ()
        checkHandler
        let s ← getState
        let newProxy := h.RecyclerNew s
        JavascriptProxy.construct newProxy target handler
        let s ← getState
        if h.IsCallable target s then
          SetEntryPointFunctionCallTrap newProxy
        else pure ()
        if isCtorSuperCall then
          let newTargetObj ← deref newTarget
          h.OrdinaryCreateFromConstructor newTargetObj (.proxy newProxy)
        else pure (.proxy newProxy)

/-- Modelled from the spec: `JavascriptLibrary::GetObjectTypeDisplayString` is not in
the sources; `typeof` answers the string "object". -/
def GetObjectTypeDisplayString : Var := .string "object"

/-- Modelled from the spec: `JavascriptLibrary::GetFunctionTypeDisplayString` is not in
the sources; `typeof` answers the string "function". -/
def GetFunctionTypeDisplayString : Var := .string "function"

/-- `JavascriptProxy::GetTypeOfString`. -/
def GetTypeOfString (this : Nat) : Exec (State H) Var := do
  let handler ← readHandler this
  if handler.isNone then
    -- even if handler is nullptr, return typeof as "object"
    pure GetObjectTypeDisplayString
  else
    -- if exotic object has [[Call]] we should return "function", otherwise return "object"
    let targetObj ← deref (← readTarget this)
    if JavascriptFunction.Is targetObj then pure GetFunctionTypeDisplayString
    else pure GetObjectTypeDisplayString

/-- `JavascriptProxy::HasProperty(PropertyId)`. -/
def HasProperty (h : Host H) (this : Nat) (propertyId : PropertyId) : Exec (State H) Bool :=
  let fn : Var → Exec (State H) Bool := fun object => h.HasProperty object propertyId
  let getPropertyId : Unit → PropertyId := fun _ => propertyId
  HasPropertyTrap h this fn getPropertyId

/-- `JavascriptProxy::GetValueFromDescriptor`. -/
def GetValueFromDescriptor (h : Host H) (instanceObj : Var)
    (propertyDescriptor : PropertyDescriptor) : Exec (State H) Var :=
  if propertyDescriptor.ValueSpecified then do
    let value ← deref propertyDescriptor.GetValue
    pure (h.MarshalVar value)
  else if propertyDescriptor.GetterSpecified then do
    let getter ← deref propertyDescriptor.GetGetter
    h.CallGetter getter instanceObj
  else pure .undefined

/-- `JavascriptProxy::GetProperty(originalInstance, PropertyId, value, info,
requestContext)`: the `BOOL` returned and the content of `*value` (`none`: not
written).  The inline-cache bookkeeping on `info` has no counterpart here. -/
def GetProperty (h : Host H) (this : Nat) (originalInstance : Var) (propertyId : PropertyId) :
    Exec (State H) (Bool × Option Var) := do
  let fn : Var → Exec (State H) (Bool × Var) := fun object =>
    h.GetProperty originalInstance object propertyId
  let getPropertyId : Unit → PropertyId := fun _ => propertyId
  let r ← GetPropertyTrap h this originalInstance {} fn getPropertyId
  let foundProperty := r.found
  if !foundProperty then
    pure (foundProperty, some h.GetMissingPropertyResult)
  else if r.propertyDescriptor.IsFromProxy then
    let value ← GetValueFromDescriptor h originalInstance r.propertyDescriptor
    pure (foundProperty, some value)
  else pure (foundProperty, r.forwarded)

/-- `IntegrityLevel`. -/
inductive IntegrityLevel where
  | IntegrityLevel_sealed
  | IntegrityLevel_frozen
  deriving DecidableEq, Repr

/-- The variables the loop of `TestIntegrityLevel` works on: the two flags and the
descriptor variable, all three declared before the loop. -/
structure TestIntegrityLevelState where
  writable : Bool
  configurable : Bool
  propertyDescriptor : PropertyDescriptor
  deriving DecidableEq, Repr

/-- One round of the loop of `TestIntegrityLevel`, on the key `itemVar`. -/
def TestIntegrityLevel.step (h : Host H) (obj : Var) (st : TestIntegrityLevelState)
    (itemVar : Var) : Exec (State H) TestIntegrityLevelState := do
  let propertyRecord := h.ToPropertyKey itemVar
  let propertyId := propertyRecord.GetPropertyId
  let r ← h.GetOwnPropertyDescriptorHelper obj propertyId st.propertyDescriptor
  if r.1 then
    let configurable := st.configurable || r.2.IsConfigurable
    let writable := if r.2.IsDataDescriptor then st.writable || r.2.IsWritable else st.writable
    pure ⟨writable, configurable, r.2⟩
  else pure { st with propertyDescriptor := r.2 }

/-- The loop of `TestIntegrityLevel` over the elements of `resultArray`. -/
def TestIntegrityLevel.loop (h : Host H) (obj : Var) :
    List Var → TestIntegrityLevelState → Exec (State H) TestIntegrityLevelState
  | [], st => pure st
  | itemVar :: rest, st => do
    let st1 ← TestIntegrityLevel.step h obj st itemVar
    TestIntegrityLevel.loop h obj rest st1

/-- `JavascriptProxy::TestIntegrityLevel` (static). -/
def TestIntegrityLevel (h : Host H) (integrityLevel : IntegrityLevel) (obj : Var) :
    Exec (State H) Bool := do
  let isExtensible ← h.IsExtensible obj
  if isExtensible then pure false
  else
    let resultArray ← h.GetOwnPropertyKeys obj
    let st ← TestIntegrityLevel.loop h obj resultArray ⟨false, false, {}⟩
    if integrityLevel == .IntegrityLevel_frozen && st.writable then pure false
    else if st.configurable then pure false
    else pure true

/-- The first loop of `SetIntegrityLevel` (level sealed) over the elements of
`resultArray`. -/
def SetIntegrityLevel.sealedLoop (h : Host H) (obj : Var) (propertyDescriptor : PropertyDescriptor) :
    List Var → Exec (State H) Unit
  | [] => pure ()
  | itemVar :: rest => do
    let propertyRecord := h.ToPropertyKey itemVar
    let propertyId := propertyRecord.GetPropertyId
    let _ ← h.DefineOwnPropertyHelper obj propertyId propertyDescriptor
    SetIntegrityLevel.sealedLoop h obj propertyDescriptor rest

/-- The second loop of `SetIntegrityLevel` (level frozen) over the elements of
`resultArray`; the descriptor variable is declared inside the loop. -/
def SetIntegrityLevel.frozenLoop (h : Host H) (obj : Var)
    (dataDescriptor accessorDescriptor : PropertyDescriptor) : List Var → Exec (State H) Unit
  | [] => pure ()
  | itemVar :: rest => do
    let propertyRecord := h.ToPropertyKey itemVar
    let propertyId := propertyRecord.GetPropertyId
    let r ← h.GetOwnPropertyDescriptorHelper obj propertyId {}
    if r.1 then
      if r.2.IsDataDescriptor then
        let _ ← h.DefineOwnPropertyHelper obj propertyRecord.GetPropertyId dataDescriptor
        pure ()
      else if r.2.IsAccessorDescriptor then
        let _ ← h.DefineOwnPropertyHelper obj propertyRecord.GetPropertyId accessorDescriptor
        pure ()
      else pure ()
    else pure ()
    SetIntegrityLevel.frozenLoop h obj dataDescriptor accessorDescriptor rest

/-- `JavascriptProxy::SetIntegrityLevel` (static). -/
def SetIntegrityLevel (h : Host H) (integrityLevel : IntegrityLevel) (obj : Var) :
    Exec (State H) Bool := do
  let status ← h.PreventExtensions obj
  if status == false then pure false
  else
    let resultArray ← h.GetOwnPropertyKeys obj
    if integrityLevel == .IntegrityLevel_sealed then
      let propertyDescriptor := ({} : PropertyDescriptor).SetConfigurable false
      SetIntegrityLevel.sealedLoop h obj propertyDescriptor resultArray
    else
      let dataDescriptor := (({} : PropertyDescriptor).SetConfigurable false).SetWritable false
      let accessorDescriptor := ({} : PropertyDescriptor).SetConfigurable false
      SetIntegrityLevel.frozenLoop h obj dataDescriptor accessorDescriptor resultArray
    pure true

/-- `JavascriptProxy::Seal`. -/
def Seal (h : Host H) (this : Nat) : Exec (State H) Bool :=
  SetIntegrityLevel h .IntegrityLevel_sealed (.proxy this)

/-- `JavascriptProxy::Freeze`. -/
def Freeze (h : Host H) (this : Nat) : Exec (State H) Bool :=
  SetIntegrityLevel h .IntegrityLevel_frozen (.proxy this)

/-- `JavascriptProxy::IsSealed`. -/
def IsSealed (h : Host H) (this : Nat) : Exec (State H) Bool :=
  TestIntegrityLevel h .IntegrityLevel_sealed (.proxy this)

/-- `JavascriptProxy::IsFrozen`. -/
def IsFrozen (h : Host H) (this : Nat) : Exec (State H) Bool :=
  TestIntegrityLevel h .IntegrityLevel_frozen (.proxy this)

/-- `JavascriptProxy::SetProperty(PropertyId, value, flags, info)`: the second half of
`[[Set]]`, with the Proxy as the receiver.  The two operations on `this` are the
generic ones of `JavascriptOperators`, which dispatch on the object they are given.  The
inline-cache bookkeeping on `info` has no counterpart here. -/
def SetProperty (h : Host H) (this : Nat) (propertyId : PropertyId) (value : Var) :
    Exec (State H) Bool := do
  -- Set implicit call flag so we bailout and not do copy-prop on field
  let saveImplicitCallFlags ← GetImplicitCallFlags
  SetImplicitCallFlags (saveImplicitCallFlags ||| h.ImplicitCall_Accessor)
  let existing ← h.GetOwnPropertyDescriptor (.proxy this) propertyId
  match existing with
  | none =>
    let resultDescriptor : PropertyDescriptor := {}
    let resultDescriptor := resultDescriptor.SetConfigurable true
    let resultDescriptor := resultDescriptor.SetWritable true
    let resultDescriptor := resultDescriptor.SetEnumerable true
    let resultDescriptor := resultDescriptor.SetValue value
    h.DefineOwnPropertyDescriptor (.proxy this) propertyId resultDescriptor true
  | some proxyPropertyDescriptor =>
    if proxyPropertyDescriptor.IsAccessorDescriptor then pure false
    else if proxyPropertyDescriptor.WritableSpecified && !proxyPropertyDescriptor.IsWritable then
      pure false
    else
      let proxyPropertyDescriptor := proxyPropertyDescriptor.SetValue value
      let proxyPropertyDescriptor := proxyPropertyDescriptor.SetOriginal none
      h.DefineOwnPropertyDescriptor (.proxy this) propertyId proxyPropertyDescriptor true

/-- Modelled from the spec: the descriptors of the own keys `keys` of `obj`, obtained in
order through `GetOwnPropertyDescriptorHelper` on one descriptor variable (`none`: the
key has no descriptor). -/
def OwnPropertyDescriptors (h : Host H) (obj : Var) :
    List Var → PropertyDescriptor → Exec (State H) (List (Option PropertyDescriptor))
  | [], _ => pure []
  | key :: rest, descriptor => do
    let r ← h.GetOwnPropertyDescriptorHelper obj (h.ToPropertyKey key).GetPropertyId descriptor
    let descriptors ← OwnPropertyDescriptors h obj rest r.2
    pure ((if r.1 then some r.2 else none) :: descriptors)

/-- Modelled from the spec: the reference definition of `TestIntegrityLevel` on what
the object reports as its extensibility and the descriptors of its own keys: false if
extensible; else false if a present descriptor is configurable; if the level is frozen,
also false if a present data descriptor is writable; else true. -/
def TestIntegrityLevelReference (level : IntegrityLevel) (extensible : Bool)
    (descriptors : List (Option PropertyDescriptor)) : Bool :=
  if extensible then false
  else if descriptors.any (fun d =>
      match d with
      | some d => d.IsConfigurable
      | none => false) then false
  else if level == .IntegrityLevel_frozen && descriptors.any (fun d =>
      match d with
      | some d => d.IsDataDescriptor && d.IsWritable
      | none => false) then false
  else true

/-- Modelled from the spec: the descriptor `SetIntegrityLevel` defines a key with, given
the key's current descriptor (`none`: the key has no descriptor); `none`: the key is
skipped.  Sealed: configurable=false.  Frozen: configurable=false and writable=false on
a data descriptor, configurable=false on an accessor descriptor. -/
def IntegrityLevelDefinition (level : IntegrityLevel) (current : Option PropertyDescriptor) :
    Option PropertyDescriptor :=
  match level with
  | .IntegrityLevel_sealed => some { Configurable := some false }
  | .IntegrityLevel_frozen =>
    match current with
    | none => none
    | some d =>
      if d.IsDataDescriptor then some { Configurable := some false, Writable := some false }
      else if d.IsAccessorDescriptor then some { Configurable := some false }
      else none

/-- Modelled from the spec: the definitions `SetIntegrityLevel` issues for the keys
`keys`, in order: for the level frozen the key's current descriptor is read first; then
the key is defined with its `IntegrityLevelDefinition`, or skipped. -/
def DefineIntegrityLevel (h : Host H) (level : IntegrityLevel) (obj : Var) :
    List Var → Exec (State H) Unit
  | [] => pure ()
  | key :: rest => do
    let propertyId := (h.ToPropertyKey key).GetPropertyId
    let current : Option PropertyDescriptor ← (match level with
      | .IntegrityLevel_sealed => pure none
      | .IntegrityLevel_frozen => do
        let r ← h.GetOwnPropertyDescriptorHelper obj propertyId {}
        pure (if r.1 then some r.2 else none))
    match IntegrityLevelDefinition level current with
    | some descriptor =>
      let _ ← h.DefineOwnPropertyHelper obj propertyId descriptor
      pure ()
    | none => pure ()
    DefineIntegrityLevel h level obj rest

/-- Modelled from the spec: the keys a `for-in` enumeration yields, given the keys of the
`ownKeys` result and the descriptor reported for each name (`none`: absent): each key of
string type whose descriptor is present and enumerable, at its first occurrence.
`yielded` holds the keys yielded so far. -/
def EnumerateObjectProperties (desc : String → Option PropertyDescriptor) :
    List Var → List Var → List Var
  | [], yielded => yielded
  | key :: rest, yielded =>
    match key with
    | .string name =>
      match desc name with
      | some d =>
        if d.IsEnumerable && !yielded.contains key then
          EnumerateObjectProperties desc rest (yielded ++ [key])
        else EnumerateObjectProperties desc rest yielded
      | none => EnumerateObjectProperties desc rest yielded
    | _ => EnumerateObjectProperties desc rest yielded

/-- Modelled from the spec: the reads a `for-in` enumeration makes on keys that are
pairwise distinct: for each key of string type, in order, the descriptor is read through
the Proxy, and the key is yielded when the descriptor is present and enumerable. -/
def ReadEnumerableKeys (h : Host H) (this : Nat) :
    List Var → List Var → Exec (State H) (List Var)
  | [], yielded => pure yielded
  | key :: rest, yielded =>
    match key with
    | .string name => do
      let d ← h.GetOwnPropertyDescriptorByName (.proxy this) name
      match d with
      | some d =>
        if d.IsEnumerable then ReadEnumerableKeys h this rest (yielded ++ [key])
        else ReadEnumerableKeys h this rest yielded
      | none => ReadEnumerableKeys h this rest yielded
    | _ => ReadEnumerableKeys h this rest yielded

/-- Modelled from the spec: whether the target's descriptor for a key is present with
configurable=false (`desc` gives the target's descriptors, `none`: absent). -/
def IsNonconfigurableKey (desc : PropertyId → Option PropertyDescriptor) (pid : PropertyId) :
    Bool :=
  match desc pid with
  | some d => !d.IsConfigurable
  | none => false

/-- Modelled from the spec: the conditions of the outcome table of `ownKeys`, computed
from the ids of the target's keys and of the trap's keys (`pidOf` gives the id of a
key; keys whose id is `NoProperty` take no part in the comparison) and the target's
descriptors.  A key counts as configurable when it is not non-configurable. -/
structure OwnKeysConditions where
  any_nonconfigurable_key : Bool
  nonconfigurable_missing : Bool
  configurable_missing : Bool
  key_not_owned_by_target : Bool
  deriving DecidableEq, Repr

/-- Modelled from the spec: the conditions for given target keys and trap keys. -/
def OwnKeysConditions.of (pidOf : Var → PropertyId)
    (desc : PropertyId → Option PropertyDescriptor) (targetKeys trapKeys : List Var) :
    OwnKeysConditions where
  any_nonconfigurable_key :=
    targetKeys.any (fun k => pidOf k != Constants.NoProperty
      && IsNonconfigurableKey desc (pidOf k))
  nonconfigurable_missing :=
    targetKeys.any (fun k => pidOf k != Constants.NoProperty
      && IsNonconfigurableKey desc (pidOf k)
      && !trapKeys.any (fun e => pidOf e == pidOf k))
  configurable_missing :=
    targetKeys.any (fun k => pidOf k != Constants.NoProperty
      && !IsNonconfigurableKey desc (pidOf k)
      && !trapKeys.any (fun e => pidOf e == pidOf k))
  key_not_owned_by_target :=
    trapKeys.any (fun e => pidOf e != Constants.NoProperty
      && !targetKeys.any (fun k => pidOf k == pidOf e))

/-- Modelled from the spec: the outcome table of `ownKeys`, first matching row:
`true` stands for "return the trap's list", `false` for *Inconsistent*. -/
def OwnKeysOutcome (extensible : Bool) (c : OwnKeysConditions) : Bool :=
  if extensible && !c.any_nonconfigurable_key then true
  else if c.nonconfigurable_missing then false
  else if extensible then true
  else if c.configurable_missing then false
  else if c.key_not_owned_by_target then false
  else true

end Dispatch

end Js

/-! ## Partial-correctness statements -/

namespace Js

/-- From every state that satisfies `P`, the code `m` does not fault, and when it
returns `a` in state `s1` then `Q a s1` holds (it may throw). -/
def Exec.Holds {S α : Type} (P : S → Prop) (m : Exec S α) (Q : α → S → Prop) : Prop :=
  ∀ s, P s →
    match m s with
    | .ok a s1 => Q a s1
    | .throw _ _ => True
    | .fault => False

/-- A script call that ends, when it returns, with the implicit-call flags set to the
flags before the call with `ImplicitCall_Accessor` added. -/
def Host.restoringCall {H : Type} (h : Host H) (method : Var) (args : List (Option Var)) :
    Exec (State H) Var := fun s =>
  match h.CallFunction method args s with
  | .ok result s1 =>
    .ok result { s1 with implicitCallFlags := s.implicitCallFlags ||| h.ImplicitCall_Accessor }
  | .throw e s1 => .throw e s1
  | .fault => .fault

/-- The host with another call of a script function. -/
def Host.withCallFunction {H : Type} (h : Host H)
    (call : Var → List (Option Var) → Exec (State H) Var) : Host H :=
  { h with CallFunction := call }

/-- The slots of the Proxy at address `p` in `s1` are those in `s`, or both are null:
between the two states the Proxy was left alone or revoked. -/
def SlotRel {H : Type} (p : Nat) (s s1 : State H) : Prop :=
  s1.proxies p = s.proxies p ∨ s1.proxies p = ⟨none, none⟩

/-- The code `m` relates the state it starts in to the state it ends in, whether it
returns or throws. -/
def Exec.Relates {S α : Type} (R : S → S → Prop) (m : Exec S α) : Prop :=
  ∀ s,
    match m s with
    | .ok _ s1 => R s s1
    | .throw _ s1 => R s s1
    | .fault => True

/-- The state in which a piece of code ends (`none` for a fault). -/
def Outcome.state? {S α : Type} : Outcome S α → Option S
  | .ok _ s => some s
  | .throw _ s => some s
  | .fault => none

/-- The calls of host operations that may change the state. -/
inductive HostOperation {H : Type} (h : Host H) : {α : Type} → Exec (State H) α → Prop
  | RecordImplicitException : HostOperation h (RecordImplicitException h)
  | GetPropertyReference (o : Var) (pid : PropertyId) :
      HostOperation h (h.GetPropertyReference o pid)
  | CallFunction (f : Var) (args : List (Option Var)) : HostOperation h (h.CallFunction f args)
  | GetOwnPropertyDescriptor (o : Var) (pid : PropertyId) :
      HostOperation h (h.GetOwnPropertyDescriptor o pid)
  | IsExtensible (o : Var) : HostOperation h (h.IsExtensible o)
  | GetPrototypeOf (o : Var) : HostOperation h (h.GetPrototypeOf o)
  | ChangePrototype (o v : Var) (b : Bool) : HostOperation h (h.ChangePrototype o v b)
  | GetOwnPropertyKeys (o : Var) : HostOperation h (h.GetOwnPropertyKeys o)
  | GetOwnPropertyNames (o : Var) : HostOperation h (h.GetOwnPropertyNames o)
  | GetOwnPropertySymbols (o : Var) : HostOperation h (h.GetOwnPropertySymbols o)
  | OP_GetLength (o : Var) : HostOperation h (h.OP_GetLength o)
  | ToLength (v : Var) : HostOperation h (h.ToLength v)
  | GetItem (o : Var) (i : Nat) : HostOperation h (h.GetItem o i)
  | ToPropertyDescriptor (v : Var) : HostOperation h (h.ToPropertyDescriptor v)
  | PreventExtensions (o : Var) : HostOperation h (h.PreventExtensions o)
  | DeleteItem (o : Var) (i flags : Nat) : HostOperation h (h.DeleteItem o i flags)
  | DeleteProperty (o : Var) (pid : PropertyId) (flags : Nat) :
      HostOperation h (h.DeleteProperty o pid flags)
  | DefineOwnPropertyDescriptor (o : Var) (pid : PropertyId) (d : PropertyDescriptor)
      (b : Bool) : HostOperation h (h.DefineOwnPropertyDescriptor o pid d b)
  | FromPropertyDescriptor (d : PropertyDescriptor) :
      HostOperation h (h.FromPropertyDescriptor d)
  | SetItemOnTaggedNumber (r o : Var) (i : Nat) (v : Var) :
      HostOperation h (h.SetItemOnTaggedNumber r o i v)
  | SetPropertyOnTaggedNumber (r o : Var) (pid : PropertyId) (v : Var) :
      HostOperation h (h.SetPropertyOnTaggedNumber r o pid v)
  | SetProperty (r o : Var) (pid : PropertyId) (v : Var) :
      HostOperation h (h.SetProperty r o pid v)
  | SetItem (r o : Var) (i : Nat) (v : Var) (b : Bool) : HostOperation h (h.SetItem r o i v b)
  | SetPropertyWPCache (r o : Var) (pid : PropertyId) (v n : Var) :
      HostOperation h (h.SetPropertyWPCache r o pid v n)
  | NewScObjectNoCtor (f : Var) : HostOperation h (h.NewScObjectNoCtor f)
  | CallEntryPoint (f : Var) (info : CallInfo) (args : List (Option Var)) :
      HostOperation h (h.CallEntryPoint f info args)
  | CreateArray (vs : List (Option Var)) : HostOperation h (h.CreateArray vs)
  | EnumerateArray (vs : List Var) : HostOperation h (h.EnumerateArray vs)
  | GetOwnPropertyDescriptorByName (o : Var) (name : String) :
      HostOperation h (h.GetOwnPropertyDescriptorByName o name)
  | InitializeEnumerator (vs : List Var) : HostOperation h (h.InitializeEnumerator vs)
  | OrdinaryCreateFromConstructor (c o : Var) :
      HostOperation h (h.OrdinaryCreateFromConstructor c o)
  | HasProperty (o : Var) (pid : PropertyId) : HostOperation h (h.HasProperty o pid)
  | GetProperty (i o : Var) (pid : PropertyId) : HostOperation h (h.GetProperty i o pid)
  | CallGetter (g i : Var) : HostOperation h (h.CallGetter g i)
  | GetOwnPropertyDescriptorHelper (o : Var) (pid : PropertyId) (d : PropertyDescriptor) :
      HostOperation h (h.GetOwnPropertyDescriptorHelper o pid d)
  | DefineOwnPropertyHelper (o : Var) (pid : PropertyId) (d : PropertyDescriptor) :
      HostOperation h (h.DefineOwnPropertyHelper o pid d)

/-- The host respects the Proxy at address `p`: whatever a host operation runs (script,
traps of other Proxies, revoke functions), it leaves the slots of that Proxy as they are
or nulls both. -/
def Host.Respects {H : Type} (h : Host H) (p : Nat) : Prop :=
  ∀ (α : Type) (m : Exec (State H) α), HostOperation h m → Exec.Relates (SlotRel p) m

/-- An invocation of an operation of the Proxy code, with its arguments. -/
inductive ProxyOperation where
  | Create (callInfo : CallInfo) (values : List (Option Var))
  | EntryRevoke (function : Nat)
  | GetProperty (this : Nat) (originalInstance : Var) (propertyId : PropertyId)
  | HasProperty (this : Nat) (propertyId : PropertyId)
  | GetOwnPropertyDescriptor (proxy : Nat) (propertyId : PropertyId)
      (propertyDescriptor : PropertyDescriptor)
  | SetPropertyTrap (this : Nat) (receiver : Var) (kind : SetPropertyTrapKind)
      (propertyId : PropertyId) (newValue : Var) (skipPrototypeCheck : Bool)
  | SetProperty (this : Nat) (propertyId : PropertyId) (value : Var)
  | DeleteProperty (this : Nat) (propertyId : PropertyId) (flags : Nat)
  | DefineOwnPropertyDescriptor (proxy : Nat) (propId : PropertyId)
      (descriptor : PropertyDescriptor) (throwOnError : Bool)
  | IsExtensible (this : Nat)
  | PreventExtensions (this : Nat)
  | GetPrototypeSpecial (this : Nat)
  | SetPrototypeTrap (this : Nat) (newPrototype : Var) (shouldThrow : Bool)
  | PropertyKeysTrap (this : Nat) (kind : KeysTrapKind)
  | GetEnumerator (this : Nat)
  | FunctionCallTrap (function : Var) (callInfo : CallInfo) (values : List (Option Var))
  | Equals (this : Nat) (other : Var)
  | StrictEquals (this : Nat) (other : Var)
  | GetTypeOfString (this : Nat)
  | TestIntegrityLevel (level : IntegrityLevel) (this : Nat)
  | SetIntegrityLevel (level : IntegrityLevel) (this : Nat)

/-- The state in which an invocation ends, whether it returns or throws (`none` for a
fault). -/
def ProxyOperation.run {H : Type} (h : Host H) (op : ProxyOperation) (s : State H) :
    Option (State H) :=
  match op with
  | .Create callInfo values => (Js.Create h callInfo values s).state?
  | .EntryRevoke function => (Js.EntryRevoke function s).state?
  | .GetProperty this originalInstance propertyId =>
    (Js.GetProperty h this originalInstance propertyId s).state?
  | .HasProperty this propertyId => (Js.HasProperty h this propertyId s).state?
  | .GetOwnPropertyDescriptor proxy propertyId propertyDescriptor =>
    (Js.GetOwnPropertyDescriptor h proxy propertyId propertyDescriptor s).state?
  | .SetPropertyTrap this receiver kind propertyId newValue skipPrototypeCheck =>
    (Js.SetPropertyTrap h this receiver kind propertyId newValue skipPrototypeCheck s).state?
  | .SetProperty this propertyId value => (Js.SetProperty h this propertyId value s).state?
  | .DeleteProperty this propertyId flags =>
    (Js.DeleteProperty h this propertyId flags s).state?
  | .DefineOwnPropertyDescriptor proxy propId descriptor throwOnError =>
    (Js.DefineOwnPropertyDescriptor h proxy propId descriptor throwOnError s).state?
  | .IsExtensible this => (Js.IsExtensible h this s).state?
  | .PreventExtensions this => (Js.PreventExtensions h this s).state?
  | .GetPrototypeSpecial this => (Js.GetPrototypeSpecial h this s).state?
  | .SetPrototypeTrap this newPrototype shouldThrow =>
    (Js.SetPrototypeTrap h this newPrototype shouldThrow s).state?
  | .PropertyKeysTrap this kind => (Js.PropertyKeysTrap h this kind s).state?
  | .GetEnumerator this => (Js.GetEnumerator h this s).state?
  | .FunctionCallTrap function callInfo values =>
    (Js.FunctionCallTrap h function callInfo values s).state?
  | .Equals this other => (Js.Equals h this other s).state?
  | .StrictEquals this other => (Js.StrictEquals h this other s).state?
  | .GetTypeOfString this => (Js.GetTypeOfString this s).state?
  | .TestIntegrityLevel level this => (Js.TestIntegrityLevel h level (.proxy this) s).state?
  | .SetIntegrityLevel level this => (Js.SetIntegrityLevel h level (.proxy this) s).state?

/-- An invocation does not allocate at the address `p`: `Create` is the one operation
that allocates, and the recycler hands out an address that holds no live object. -/
def ProxyOperation.AllocatesElsewhere {H : Type} (h : Host H) (p : Nat)
    (op : ProxyOperation) (s : State H) : Prop :=
  match op with
  | .Create _ _ => h.RecyclerNew s ≠ p
  | _ => True

/-- The states reachable from the creation of the Proxy at address `p` by `Create`
through any sequence of operations of the Proxy code (on this or any other Proxy,
revoke calls included) and of other engine steps, which leave the slots of Proxies
alone. -/
inductive Reachable {H : Type} (h : Host H) (p : Nat) : State H → Prop
  | created (callInfo : CallInfo) (values : List (Option Var)) (s0 s : State H) (v : Var) :
      h.RecyclerNew s0 = p → Js.Create h callInfo values s0 = .ok v s → Reachable h p s
  | operation (op : ProxyOperation) (s s1 : State H) :
      Reachable h p s → op.AllocatesElsewhere h p s → op.run h s = some s1 →
      Reachable h p s1
  | other (s s1 : State H) :
      Reachable h p s → s1.proxies p = s.proxies p → Reachable h p s1

/-- The states that follow the state `s` in the lifetime of the Proxy at address `p`:
any sequence of operations of the Proxy code and of other engine steps, as in
`Reachable`. -/
inductive Continues {H : Type} (h : Host H) (p : Nat) (s : State H) : State H → Prop
  | here : Continues h p s s
  | operation (op : ProxyOperation) (s1 s2 : State H) :
      Continues h p s s1 → op.AllocatesElsewhere h p s1 → op.run h s1 = some s2 →
      Continues h p s s2
  | other (s1 s2 : State H) :
      Continues h p s s1 → s2.proxies p = s1.proxies p → Continues h p s s2

end Js

/-! ## A small concrete host

One ordinary target object (address 1) with a list of own properties, a handler object
(address 2) whose traps are all the same script function (address 100) or all absent,
and an array-like (address 3) the `ownKeys` trap hands out.  It is used to evaluate the
dispatchers on concrete inputs. -/

namespace Js.Example

/-- The heap of the example host. -/
structure Heap where
  /-- Own properties of the target, in key order. -/
  props : List (PropertyId × PropertyDescriptor)
  /-- Whether the target is extensible. -/
  extensible : Bool
  /-- The prototype of the target. -/
  prototype : Var
  /-- The value the trap function returns. -/
  trapValue : Var
  /-- The elements of the array-like at address 3. -/
  trapKeys : List Var
  /-- Whether the trap function revokes the Proxy at address 0 before it returns. -/
  trapRevokes : Bool
  /-- The definitions issued through `DefineOwnPropertyHelper`, in order. -/
  defined : List (PropertyId × PropertyDescriptor) := []
  deriving DecidableEq, Repr

/-- Property names of the example host and their ids. -/
def names : List (String × Nat) :=
  [("getOwnPropertyDescriptor", 1), ("get", 2), ("set", 3), ("has", 4),
   ("deleteProperty", 5), ("defineProperty", 6), ("ownKeys", 7), ("getPrototypeOf", 8),
   ("setPrototypeOf", 9), ("isExtensible", 10), ("preventExtensions", 11), ("apply", 12),
   ("construct", 13), ("x", 20), ("k", 21), ("a", 22), ("b", 23)]

/-- The id of a property name (999 for a name outside the table). -/
def idOfName (name : String) : Nat :=
  ((names.find? (fun p => p.1 == name)).map (fun p => p.2)).getD 999

/-- The name of a property id (empty for an id outside the table). -/
def nameOfId (pid : PropertyId) : String :=
  ((names.find? (fun p => Int.ofNat p.2 == pid)).map (fun p => p.1)).getD ""

/-- The built-in ids of the example host. -/
def ids : PropertyIds :=
  { getOwnPropertyDescriptor := 1, get := 2, set := 3, has := 4, deleteProperty := 5,
    defineProperty := 6, ownKeys := 7, getPrototypeOf := 8, setPrototypeOf := 9,
    isExtensible := 10, preventExtensions := 11, apply := 12, construct := 13 }

/-- Truthiness of a value in the example host. -/
def toBoolean : Var → Bool
  | .undefined => false
  | .null => false
  | .bool b => b
  | .number n => n != 0
  | .string s => s != ""
  | _ => true

/-- The own descriptor of the target for a property id. -/
def ownDescriptor (heap : Heap) (pid : PropertyId) : Option PropertyDescriptor :=
  (heap.props.find? (fun p => p.1 == pid)).map (fun p => p.2)

/-- The example host.  `hasTrap`: whether the handler defines the traps;
`recordException`: what `RecordImplicitException` answers. -/
def host (hasTrap : Bool) (recordException : Bool) : Host Heap where
  ids := ids
  ImplicitCall_External := 16
  ImplicitCall_Accessor := 4
  RecordImplicitException := fun s => (recordException, s)
  IsHeapEnumInProgress := fun _ => false
  GetPropertyName := fun pid => ⟨pid, false, nameOfId pid⟩
  DefaultAccessorFunction := .function 0
  SameValue := fun a b => decide (a = b)
  ToBoolean := toBoolean
  IsCallable := fun v s =>
    match v with
    | .function _ => true
    | .proxy addr => s.hasFunctionCallTrap addr
    | _ => false
  MarshalVar := fun v => v
  GetPropertyReference := fun _ _ s => .ok (if hasTrap then some (.function 100) else none) s
  CallFunction := fun _ _ s =>
    .ok s.heap.trapValue
      (if s.heap.trapRevokes then { s with proxies := Function.update s.proxies 0 ⟨none, none⟩ }
       else s)
  GetOwnPropertyDescriptor := fun _ pid s => .ok (ownDescriptor s.heap pid) s
  IsExtensible := fun _ s => .ok s.heap.extensible s
  GetPrototype := fun _ s => s.heap.prototype
  GetPrototypeOf := fun _ s => .ok s.heap.prototype s
  ChangePrototype := fun _ newPrototype shouldThrow s =>
    if newPrototype = s.heap.prototype then .ok true s
    else if !s.heap.extensible then
      if shouldThrow then .throw (.thrown (.string "NonExtensibleObject")) s else .ok false s
    else .ok true { s with heap := { s.heap with prototype := newPrototype } }
  GetOwnPropertyKeys := fun _ s => .ok (s.heap.props.map (fun p => .string (nameOfId p.1))) s
  GetOwnPropertyNames := fun _ s => .ok (s.heap.props.map (fun p => .string (nameOfId p.1))) s
  GetOwnPropertySymbols := fun _ s => .ok [] s
  OP_GetLength := fun _ s => .ok (.number s.heap.trapKeys.length) s
  ToLength := fun v s =>
    match v with
    | .number n => .ok n s
    | _ => .ok 0 s
  GetItem := fun _ i s => .ok (s.heap.trapKeys.get? i) s
  ToPropertyKey := fun v =>
    match v with
    | .string name => ⟨Int.ofNat (idOfName name), false, name⟩
    | .symbol id => ⟨Int.ofNat id.natAbs, true, ""⟩
    | _ => ⟨999, false, ""⟩
  ToPropertyDescriptor := fun _ s => .ok (some {}) s
  PreventExtensions := fun _ s => .ok true { s with heap := { s.heap with extensible := false } }
  IsNumericPropertyId := fun _ => (false, 0)
  DeleteItem := fun _ _ _ s => .ok true s
  DeleteProperty := fun _ _ _ s => .ok true s
  DefineOwnPropertyDescriptor := fun _ _ _ _ s => .ok true s
  FromPropertyDescriptor := fun _ s => .ok (.object 4) s
  SetItemOnTaggedNumber := fun _ _ _ _ s => .ok true s
  SetPropertyOnTaggedNumber := fun _ _ _ _ s => .ok true s
  SetProperty := fun _ _ _ _ s => .ok true s
  SetItem := fun _ _ _ _ _ s => .ok true s
  SetPropertyWPCache := fun _ _ _ _ _ s => .ok true s
  IsConstructor := fun v => JavascriptFunction.Is v
  NewScObjectNoCtor := fun _ s => .ok (.object 5) s
  CallEntryPoint := fun _ _ _ s => .ok .undefined s
  CreateArray := fun _ s => .ok (.object 6) s
  EnumerateArray := fun keys s => .ok (some keys) s
  GetOwnPropertyDescriptorByName := fun _ name s =>
    .ok (ownDescriptor s.heap (Int.ofNat (idOfName name))) s
  InitializeEnumerator := fun _ s => .ok true s
  RecyclerNew := fun _ => 8
  OrdinaryCreateFromConstructor := fun _ obj s => .ok obj s
  HasProperty := fun _ pid s => .ok (ownDescriptor s.heap pid).isSome s
  GetProperty := fun _ _ pid s =>
    match ownDescriptor s.heap pid with
    | some d => .ok (true, d.Value.getD .undefined) s
    | none => .ok (false, .undefined) s
  GetMissingPropertyResult := .undefined
  CallGetter := fun _ _ s => .ok .undefined s
  GetOwnPropertyDescriptorHelper := fun _ pid descriptor s =>
    match ownDescriptor s.heap pid with
    | some d => .ok (true, d) s
    | none => .ok (false, descriptor) s
  DefineOwnPropertyHelper := fun _ pid descriptor s =>
    .ok true { s with heap := { s.heap with defined := s.heap.defined ++ [(pid, descriptor)] } }

/-- A state of the example host: the Proxy at address 0 wraps the target (address 1)
and the handler (address 2) unless `revoked`; the revoke function at address 7 holds
`slot` in its internal property. -/
def state (heap : Heap) (revoked : Bool) (disableImplicitCall : Bool) (slot : Option Var) :
    State Heap where
  heap := heap
  proxies := fun addr =>
    if addr = 0 ∧ revoked = false then ⟨some (.object 2), some (.object 1)⟩ else ⟨none, none⟩
  hasFunctionCallTrap := fun _ => false
  internalProperties := fun addr => if addr = 7 then slot else none
  disableImplicitCall := disableImplicitCall
  implicitCallFlags := 1

/-- A frozen data property `x` with value 1 on a non-extensible target; the trap
function returns 2. -/
def heapFrozenX : Heap :=
  { props := [(20, { Value := some (.number 1), Writable := some false,
                     Enumerable := some true, Configurable := some false })],
    extensible := false, prototype := .null, trapValue := .number 2, trapKeys := [],
    trapRevokes := false }

/-- The example invariant: the Proxy at address 0 is not revoked, implicit calls are
enabled and the heap is `heap`. -/
def Inv (heap : Heap) (s : State Heap) : Prop :=
  s.heap = heap ∧ s.disableImplicitCall = false
    ∧ s.proxies 0 = ⟨some (.object 2), some (.object 1)⟩

/-- An extensible target with a non-configurable property `k`; the `ownKeys` trap
returns the array-like at address 3, which is empty. -/
def heapNonconfigurableK : Heap :=
  { props := [(21, { Value := some (.number 1), Writable := some false,
                     Enumerable := some false, Configurable := some false })],
    extensible := true, prototype := .null, trapValue := .object 3, trapKeys := [],
    trapRevokes := false }

/-- A non-extensible target with a non-configurable property `x` and a configurable
property `k`; the `ownKeys` trap returns the array-like at address 3, which lists `k`
and `x`. -/
def heapSealedKeys : Heap :=
  { props := [(20, { Value := some (.number 1), Writable := some false,
                     Enumerable := some true, Configurable := some false }),
              (21, { Value := some (.number 2), Writable := some true,
                     Enumerable := some true, Configurable := some true })],
    extensible := false, prototype := .null, trapValue := .object 3,
    trapKeys := [.string "k", .string "x"], trapRevokes := false }

/-- An extensible target without properties behind a trap function that revokes the
Proxy at address 0 and returns true. -/
def heapRevokingTrap : Heap :=
  { props := [], extensible := true, prototype := .null, trapValue := .bool true,
    trapKeys := [], trapRevokes := true }

/-- A non-extensible target whose prototype is null, behind a handler without traps
or with traps that return the object at address 9. -/
def heapSealedProto : Heap :=
  { props := [], extensible := false, prototype := .null, trapValue := .object 9,
    trapKeys := [], trapRevokes := false }

/-- An extensible target without properties behind a trap function that returns
true. -/
def heapTruthyTrap : Heap :=
  { props := [], extensible := true, prototype := .null, trapValue := .bool true,
    trapKeys := [], trapRevokes := false }

/-- The frozen data property `x` with value 1 on a non-extensible target, behind a trap
function that returns false. -/
def heapFrozenXDenied : Heap :=
  { props := [(20, { Value := some (.number 1), Writable := some false,
                     Enumerable := some true, Configurable := some false })],
    extensible := false, prototype := .null, trapValue := .bool false, trapKeys := [],
    trapRevokes := false }

/-- A state of the example host in which the Proxy at address 0 wraps the script
function at address 100 (with the handler at address 2) and is callable. -/
def stateCallableProxy (heap : Heap) : State Heap where
  heap := heap
  proxies := fun addr =>
    if addr = 0 then ⟨some (.object 2), some (.function 100)⟩ else ⟨none, none⟩
  hasFunctionCallTrap := fun addr => decide (addr = 0)
  internalProperties := fun _ => none
  disableImplicitCall := false
  implicitCallFlags := 1

/-- The state `Create` leaves when, in `stateCallableProxy`, it is given the callable
Proxy at address 0 as the target and the object at address 2 as the handler: the new
Proxy is at address 8 and its entry point is `FunctionCallTrap`. -/
def stateNestedProxy (heap : Heap) : State Heap :=
  { stateCallableProxy heap with
    proxies := Function.update (stateCallableProxy heap).proxies 8
      ⟨some (.object 2), some (.proxy 0)⟩
    hasFunctionCallTrap := Function.update
      (Function.update (stateCallableProxy heap).hasFunctionCallTrap 8 false) 8 true }

/-- The frozen data property `x` with value 1 on a non-extensible target, behind a trap
function that returns undefined. -/
def heapFrozenXUndefined : Heap :=
  { props := [(20, { Value := some (.number 1), Writable := some false,
                     Enumerable := some true, Configurable := some false })],
    extensible := false, prototype := .null, trapValue := .undefined, trapKeys := [],
    trapRevokes := false }

/-- A non-configurable accessor property `x` without getter (both accessors are the
default accessor function) on an extensible target, behind a trap function that
returns 2. -/
def heapAccessorX : Heap :=
  { props := [(20, { Getter := some (.function 0), Setter := some (.function 0),
                     Enumerable := some false, Configurable := some false })],
    extensible := true, prototype := .null, trapValue := .number 2, trapKeys := [],
    trapRevokes := false }

/-- The example host without traps, with a target function that returns the trailing
argument it was given (its new.target). -/
def hostEchoTarget : Host Heap :=
  { host false true with
    CallEntryPoint := fun _ _ values s => .ok (values.getLast?.join.getD .undefined) s }

/-- The example host with traps, with a trap function that returns its fourth argument
(the new.target of a `construct` trap). -/
def hostEchoTrap : Host Heap :=
  { host true true with
    CallFunction := fun _ args s => .ok ((args.get? 3).join.getD .undefined) s }

/-- The example host with a handler whose trap properties all hold the Proxy at
address 0. -/
def hostProxyTrap : Host Heap :=
  { host true true with
    GetPropertyReference := fun _ _ s => .ok (some (.proxy 0)) s }

/-- The example host without traps, with a `DefineOwnPropertyDescriptor` that records
the definition it is asked for and answers TRUE. -/
def hostLogDefine : Host Heap :=
  { host false true with
    DefineOwnPropertyDescriptor := fun _ pid descriptor _ s =>
      .ok true
        { s with heap := { s.heap with defined := s.heap.defined ++ [(pid, descriptor)] } } }

/-- The example host with traps, with a trap function that adds the bit 64 to the
implicit-call flags before it returns. -/
def hostFlaggingTrap : Host Heap :=
  { host true true with
    CallFunction := fun _ _ s =>
      .ok s.heap.trapValue { s with implicitCallFlags := s.implicitCallFlags ||| 64 } }

end Js.Example

/-! ## The ARM function-table registration

The definitions follow `lib/Common/Memory/arm/XDataAllocator.cpp`.  `DWORD`s are natural
numbers below `2 ^ 32` and `DWORD` arithmetic is taken modulo `2 ^ 32`. -/

namespace Memory

/-- Subtraction of two `DWORD`s. -/
def DWORD.sub (a b : Nat) : Nat := (a + 2 ^ 32 - b % 2 ^ 32) % 2 ^ 32

/-- Addition of two `DWORD`s. -/
def DWORD.add (a b : Nat) : Nat := (a + b) % 2 ^ 32

/-- An entry of the function table (`RUNTIME_FUNCTION`): the two `DWORD`s the code
writes.  The declaration is in the platform headers; how the `Flag` of an entry is read
from it is a parameter of `XDataAllocator.Register`. -/
structure RUNTIME_FUNCTION where
  BeginAddress : Nat
  UnwindData : Nat
  deriving DecidableEq, Repr

/-- What `Register` uses of an `XDataAllocation`: the entries `GetPdataArray()` points
to, by index; the count of entries; the handle of the registered function table, a null
pointer (`none`) before the registration. -/
structure XDataAllocation where
  pdataArray : Nat → RUNTIME_FUNCTION
  pdataCount : Nat
  functionTable : Option Nat

/-- The body of the loop of `XDataAllocator::Register` on the entry at index `i`. -/
def XDataAllocator.Register.body (Flag : RUNTIME_FUNCTION → Nat) (functionStart : Nat)
    (pdataArray : Nat → RUNTIME_FUNCTION) (i : Nat) : Nat → RUNTIME_FUNCTION :=
  let pdata := pdataArray i
  let pdata := { pdata with BeginAddress := DWORD.sub pdata.BeginAddress functionStart }
  -- if it is not packed unwind data
  let pdata :=
    if Flag pdata != 1 then
      { pdata with UnwindData := DWORD.sub pdata.UnwindData functionStart }
    else pdata
  Function.update pdataArray i pdata

/-- The loop `for (ushort i = 0; i < xdataInfo->pdataCount; i++)` from the counter value
`i`: the counter is a 16-bit integer, so the increment is taken modulo `2 ^ 16`.  The
first argument bounds the number of tests of the loop condition; the result is `none`
when the bound is reached before the loop ends. -/
def XDataAllocator.Register.loop (Flag : RUNTIME_FUNCTION → Nat)
    (functionStart pdataCount : Nat) :
    Nat → Nat → (Nat → RUNTIME_FUNCTION) → Option (Nat → RUNTIME_FUNCTION)
  | 0, _, _ => none
  | fuel + 1, i, pdataArray =>
    if i < pdataCount then
      XDataAllocator.Register.loop Flag functionStart pdataCount fuel ((i + 1) % 2 ^ 16)
        (XDataAllocator.Register.body Flag functionStart pdataArray i)
    else some pdataArray

/-- `XDataAllocator::Register`.  `AddGrowableFunctionTable` is the system call made
through `NtdllLibrary`: given the entries, the two counts and the two ends of the range,
it answers the handle it stored in `functionTable` and whether the status is a success.
The result is the allocation after the call and whether
`CheckAndThrowOutOfMemory` throws; it is `none` when the loop does not end (a 16-bit
counter that has not left the loop after `2 ^ 16 + 1` tests of the condition never
does). -/
def XDataAllocator.Register (Flag : RUNTIME_FUNCTION → Nat)
    (AddGrowableFunctionTable :
      (Nat → RUNTIME_FUNCTION) → Nat → Nat → Nat → Nat → Option Nat × Bool)
    (xdataInfo : XDataAllocation) (functionStart functionSize : Nat) :
    Option (XDataAllocation × Bool) :=
  match XDataAllocator.Register.loop Flag functionStart xdataInfo.pdataCount (2 ^ 16 + 1) 0
      xdataInfo.pdataArray with
  | none => none
  | some pdataArray =>
    -- Since we do not expect many thunk functions to be created, we are using 1
    -- table/function for now.
    let status := AddGrowableFunctionTable pdataArray xdataInfo.pdataCount
      xdataInfo.pdataCount functionStart (DWORD.add functionStart functionSize)
    some ({ xdataInfo with pdataArray := pdataArray, functionTable := status.1 }, !status.2)

end Memory

/-! ## Theorems -/

namespace Js

/-! ### Lemmas -/

theorem Exec.bind_apply {S α β : Type} (m : Exec S α) (f : α → Exec S β) (s : S) :
    (m >>= f) s = match m s with
      | .ok a s1 => f a s1
      | .throw e s1 => .throw e s1
      | .fault => .fault := rfl

theorem Exec.pure_apply {S α : Type} (a : α) (s : S) :
    (pure a : Exec S α) s = .ok a s := rfl

theorem CompletePropertyDescriptor_data {H : Type} (h : Host H) (d : PropertyDescriptor)
    (hData : d.IsDataDescriptor = true) :
    (CompletePropertyDescriptor h d).Value = some (d.Value.getD .undefined)
    ∧ (CompletePropertyDescriptor h d).IsConfigurable = d.IsConfigurable
    ∧ (CompletePropertyDescriptor h d).IsWritable = d.IsWritable := by
  rcases d with ⟨v, g, st, w, e, c, fp, o⟩
  cases v <;> cases w <;> cases e <;> cases c <;>
    simp_all [CompletePropertyDescriptor, PropertyDescriptor.IsDataDescriptor,
      PropertyDescriptor.IsGenericDescriptor, PropertyDescriptor.IsAccessorDescriptor,
      PropertyDescriptor.ValueSpecified, PropertyDescriptor.WritableSpecified,
      PropertyDescriptor.EnumerableSpecified, PropertyDescriptor.ConfigurableSpecified,
      PropertyDescriptor.SetValue, PropertyDescriptor.SetWritable,
      PropertyDescriptor.SetEnumerable, PropertyDescriptor.SetConfigurable,
      PropertyDescriptor.IsConfigurable, PropertyDescriptor.IsWritable]

theorem CompletePropertyDescriptor_configurable {H : Type} (h : Host H) (d : PropertyDescriptor) :
    (CompletePropertyDescriptor h d).Configurable
      = some (CompletePropertyDescriptor h d).IsConfigurable := by
  rcases d with ⟨v, g, st, w, e, c, fp, o⟩
  cases v <;> cases g <;> cases st <;> cases w <;> cases e <;> cases c <;>
    simp [CompletePropertyDescriptor, PropertyDescriptor.IsDataDescriptor,
      PropertyDescriptor.IsGenericDescriptor, PropertyDescriptor.IsAccessorDescriptor,
      PropertyDescriptor.ValueSpecified, PropertyDescriptor.WritableSpecified,
      PropertyDescriptor.GetterSpecified, PropertyDescriptor.SetterSpecified,
      PropertyDescriptor.EnumerableSpecified, PropertyDescriptor.ConfigurableSpecified,
      PropertyDescriptor.SetValue, PropertyDescriptor.SetWritable,
      PropertyDescriptor.SetGetter, PropertyDescriptor.SetSetter,
      PropertyDescriptor.SetEnumerable, PropertyDescriptor.SetConfigurable,
      PropertyDescriptor.IsConfigurable]

theorem IsCompatiblePropertyDescriptor_configurable {H : Type} (h : Host H)
    (descriptor current : PropertyDescriptor) (isExtensible throwOnError : Bool)
    (hCurrent : current.IsConfigurable = false)
    (hDescriptor : descriptor.Configurable = some true) :
    IsCompatiblePropertyDescriptor h descriptor (some current) isExtensible throwOnError
      = false := by
  simp [IsCompatiblePropertyDescriptor, hCurrent, hDescriptor,
    PropertyDescriptor.ConfigurableSpecified]

theorem GetMethodHelper_holds {H : Type} (h : Host H) (this : Nat) (methodId : PropertyId)
    (Inv : State H → Prop) (handlerObj targetObj : Var)
    (hSlots : ∀ s, Inv s → (s.proxies this).target = some targetObj
      ∧ (s.proxies this).handler = some handlerObj)
    (hGetRef : ∀ pid, Exec.Holds Inv (h.GetPropertyReference handlerObj pid) (fun _ s => Inv s)) :
    Exec.Holds Inv (GetMethodHelper h this methodId) (fun _ s => Inv s) := by
  intro s hs
  obtain ⟨ht, hh⟩ := hSlots s hs
  have h1 := hGetRef methodId s hs
  unfold GetMethodHelper
  cases hr : h.GetPropertyReference handlerObj methodId s with
  | fault => rw [hr] at h1; exact h1.elim
  | throw e s1 =>
    simp [Exec.bind_apply, readTarget, ht, readHandler, hh, deref, Exec.pure_apply, hr]
  | ok r s1 =>
    rw [hr] at h1
    simp only at h1
    cases r with
    | none =>
      simp [Exec.bind_apply, readTarget, ht, readHandler, hh, deref, Exec.pure_apply, hr, h1]
    | some v =>
      simp only [Exec.bind_apply, readTarget, ht, readHandler, hh, deref, Exec.pure_apply, hr,
        Option.isNone_some, Bool.false_eq_true, ↓reduceIte]
      by_cases hu : IsUndefinedOrNull v = true
      · simp [hu, Exec.pure_apply, h1]
      · by_cases hf : JavascriptFunction.Is v = true
        · simp [hu, hf, Exec.pure_apply, h1]
        · simp [hu, hf, ThrowTypeError, raise]

theorem CallTrap_holds {H : Type} (h : Host H) (method : Var) (args : List (Option Var))
    (Inv : State H → Prop)
    (hFlags : ∀ s f, Inv s → Inv { s with implicitCallFlags := f })
    (hCall : ∀ f args, Exec.Holds Inv (h.CallFunction f args) (fun _ s => Inv s)) :
    Exec.Holds Inv (CallTrap h method args) (fun _ s => Inv s) := by
  intro s hs
  have h1 := hCall method args s hs
  unfold CallTrap
  simp only [Exec.bind_apply, GetImplicitCallFlags, SetImplicitCallFlags, Exec.pure_apply]
  cases hr : h.CallFunction method args s with
  | fault => rw [hr] at h1; exact h1
  | throw e s1 => trivial
  | ok r s1 =>
    rw [hr] at h1
    exact hFlags s1 _ h1

/-- What a round of the helper's loop does when it returns. -/
theorem GetOwnPropertyKeysHelper_step_ok {H : Type} (h : Host H) (arr : Var) (fn : PropertyRecord → Bool)
    (l : List Var) (m : List PropertyId) (i : Nat) (s s1 : State H)
    (l1 : List Var) (m1 : List PropertyId)
    (hStep : GetOwnPropertyKeysHelper.step h arr fn (l, m) i s = .ok (l1, m1) s1) :
    ∃ e, h.GetItem arr i s = .ok (some e) s1
      ∧ (JavascriptString.Is e || JavascriptSymbol.Is e) = true
      ∧ (h.ToPropertyKey e).pid ∉ m
      ∧ m1 = (if (h.ToPropertyKey e).pid = Constants.NoProperty then m
              else m ++ [(h.ToPropertyKey e).pid])
      ∧ l1 = (if fn (h.ToPropertyKey e) = true then l ++ [e] else l) := by
  unfold GetOwnPropertyKeysHelper.step at hStep
  rw [Exec.bind_apply] at hStep
  cases hg : h.GetItem arr i s with
  | fault => simp [hg] at hStep
  | throw e s2 => simp [hg] at hStep
  | ok r s2 =>
    cases r with
    | none => simp [hg, ThrowTypeError, raise] at hStep
    | some e =>
      simp only [hg] at hStep
      by_cases hk : (JavascriptString.Is e || JavascriptSymbol.Is e) = true
      · by_cases hc : (h.ToPropertyKey e).pid ∈ m
        · simp [hk, PropertyRecord.GetPropertyId, hc, ThrowTypeError, raise] at hStep
        · simp [hk, PropertyRecord.GetPropertyId, hc, Exec.pure_apply] at hStep
          obtain ⟨⟨h1, h2⟩, h3⟩ := hStep
          exact ⟨e, by rw [h3], hk, hc, h2.symm, h1.symm⟩
      · simp [hk, ThrowTypeError, raise] at hStep

/-- A round of the helper's loop with another filter: same element, same map, same
state. -/
theorem GetOwnPropertyKeysHelper_step_filter {H : Type} (h : Host H) (arr : Var)
    (fn : PropertyRecord → Bool) (l : List Var) (m : List PropertyId) (i : Nat)
    (s s1 : State H) (e : Var)
    (hItem : h.GetItem arr i s = .ok (some e) s1)
    (hKey : (JavascriptString.Is e || JavascriptSymbol.Is e) = true)
    (hNew : (h.ToPropertyKey e).pid ∉ m) :
    GetOwnPropertyKeysHelper.step h arr fn (l, m) i s
      = .ok (if fn (h.ToPropertyKey e) = true then l ++ [e] else l,
             if (h.ToPropertyKey e).pid = Constants.NoProperty then m
             else m ++ [(h.ToPropertyKey e).pid]) s1 := by
  unfold GetOwnPropertyKeysHelper.step
  have hKey2 : ¬ (JavascriptString.Is e = false ∧ JavascriptSymbol.Is e = false) := by
    intro hc
    simp [hc.1, hc.2] at hKey
  simp [Exec.bind_apply, hItem, hKey2, PropertyRecord.GetPropertyId, hNew, Exec.pure_apply]

/-- The helper's loop run with the filter that accepts every key determines its run
with any filter: the same map and state, and the accepted keys filtered. -/
theorem GetOwnPropertyKeysHelper_loop_spec {H : Type} (h : Host H) (arr : Var) :
    ∀ (indices : List Nat) (l : List Var) (m : List PropertyId) (s s1 : State H)
      (l1 : List Var) (m1 : List PropertyId),
      GetOwnPropertyKeysHelper.loop h arr (fun _ => true) indices (l, m) s = .ok (l1, m1) s1 →
      ∃ new : List Var, l1 = l ++ new
        ∧ (∀ pid, pid ∈ m1 ↔ pid ∈ m ∨
            (pid ≠ Constants.NoProperty ∧ ∃ e ∈ new, (h.ToPropertyKey e).pid = pid))
        ∧ (∀ (fn : PropertyRecord → Bool) (l0 : List Var),
            GetOwnPropertyKeysHelper.loop h arr fn indices (l0, m) s
              = .ok (l0 ++ new.filter (fun e => fn (h.ToPropertyKey e)), m1) s1) := by
  intro indices
  induction indices with
  | nil =>
    intro l m s s1 l1 m1 hRun
    simp only [GetOwnPropertyKeysHelper.loop, Exec.pure_apply, Outcome.ok.injEq,
      Prod.mk.injEq] at hRun
    obtain ⟨⟨rfl, rfl⟩, rfl⟩ := hRun
    refine ⟨[], by simp, by simp, ?_⟩
    intro fn l0
    simp [GetOwnPropertyKeysHelper.loop, Exec.pure_apply]
  | cons i rest ih =>
    intro l m s s1 l1 m1 hRun
    simp only [GetOwnPropertyKeysHelper.loop, Exec.bind_apply] at hRun
    cases hs : GetOwnPropertyKeysHelper.step h arr (fun _ => true) (l, m) i s with
    | fault => simp [hs] at hRun
    | throw e s2 => simp [hs] at hRun
    | ok acc s2 =>
      obtain ⟨l2, m2⟩ := acc
      simp only [hs] at hRun
      obtain ⟨e, hItem, hKey, hNew, hm2, hl2⟩ :=
        GetOwnPropertyKeysHelper_step_ok h arr (fun _ => true) l m i s s2 l2 m2 hs
      obtain ⟨new, hl1, hmap, hfn⟩ := ih l2 m2 s2 s1 l1 m1 hRun
      simp only [↓reduceIte] at hl2
      refine ⟨e :: new, by rw [hl1, hl2]; simp, ?_, ?_⟩
      · intro pid
        rw [hmap pid, hm2]
        by_cases hp : (h.ToPropertyKey e).pid = Constants.NoProperty
        · simp only [hp, ↓reduceIte, List.mem_cons, exists_eq_or_imp]
          constructor
          · rintro (hin | ⟨hne, e1, he1, hpe⟩)
            · exact Or.inl hin
            · exact Or.inr ⟨hne, Or.inr ⟨e1, he1, hpe⟩⟩
          · rintro (hin | ⟨hne, hcase⟩)
            · exact Or.inl hin
            · rcases hcase with heq | ⟨e1, he1, hpe⟩
              · exact absurd heq.symm hne
              · exact Or.inr ⟨hne, e1, he1, hpe⟩
        · simp only [hp, ↓reduceIte, List.mem_append, List.mem_cons, List.not_mem_nil,
            or_false, exists_eq_or_imp]
          constructor
          · rintro ((hin | heq) | ⟨hne, e1, he1, hpe⟩)
            · exact Or.inl hin
            · exact Or.inr ⟨by rw [heq]; exact hp, Or.inl heq.symm⟩
            · exact Or.inr ⟨hne, Or.inr ⟨e1, he1, hpe⟩⟩
          · rintro (hin | ⟨hne, hcase⟩)
            · exact Or.inl (Or.inl hin)
            · rcases hcase with heq | ⟨e1, he1, hpe⟩
              · exact Or.inl (Or.inr heq.symm)
              · exact Or.inr ⟨hne, e1, he1, hpe⟩
      · intro fn l0
        simp only [GetOwnPropertyKeysHelper.loop, Exec.bind_apply]
        rw [GetOwnPropertyKeysHelper_step_filter h arr fn l0 m i s s2 e hItem hKey hNew]
        simp only
        rw [← hm2, hfn fn]
        by_cases hf : fn (h.ToPropertyKey e) = true
        · simp [hf, List.filter_cons]
        · simp [hf, List.filter_cons]

/-- The keys helper with the filter of a kind, from its run with the filter that accepts
every key. -/
theorem GetOwnPropertyKeysHelper_filter {H : Type} (h : Host H) (arr : Var) (len : Nat)
    (fn : PropertyRecord → Bool) (s s1 : State H) (trapKeys : List Var)
    (map : List PropertyId)
    (hKeys : GetOwnPropertyKeysHelper h arr len (fun _ => true) s = .ok (trapKeys, map) s1) :
    GetOwnPropertyKeysHelper h arr len fn s
        = .ok (trapKeys.filter (fun e => fn (h.ToPropertyKey e)), map) s1
    ∧ ∀ pid, pid ∈ map ↔
        (pid ≠ Constants.NoProperty ∧ ∃ e ∈ trapKeys, (h.ToPropertyKey e).pid = pid) := by
  unfold GetOwnPropertyKeysHelper at hKeys ⊢
  obtain ⟨new, hl, hmap, hfn⟩ :=
    GetOwnPropertyKeysHelper_loop_spec h arr (List.range len) [] [] s s1 trapKeys map hKeys
  simp only [List.nil_append] at hl
  subst hl
  refine ⟨by simpa using hfn fn [], ?_⟩
  intro pid
  simpa using hmap pid

theorem KeysLoopState_visit_map (st : KeysLoopState) (p : PropertyId) (b : Bool) :
    (st.visit p b).targetToTrapResultMap = st.targetToTrapResultMap.filter (fun k => k != p) := by
  cases b <;> simp [KeysLoopState.visit]

theorem KeysLoopState_visit_missing (st : KeysLoopState) (p : PropertyId) (b : Bool) :
    ((st.visit p b).isConfigurableKeyMissingFromTrapResult
        || (st.visit p b).isNonconfigurableKeyMissingFromTrapResult)
      = (st.isConfigurableKeyMissingFromTrapResult
          || st.isNonconfigurableKeyMissingFromTrapResult
          || !decide (p ∈ st.targetToTrapResultMap)) := by
  rcases st with ⟨m, c, n, a⟩
  cases b <;> cases c <;> cases n <;> simp [KeysLoopState.visit]

theorem KeysLoopState_visit_nonconfigurable (st : KeysLoopState) (p : PropertyId) (b : Bool) :
    (st.visit p b).isNonconfigurableKeyMissingFromTrapResult
        = (st.isNonconfigurableKeyMissingFromTrapResult
            || (b && !decide (p ∈ st.targetToTrapResultMap)))
    ∧ (st.visit p b).isAnyNonconfigurableKeyPresent
        = (st.isAnyNonconfigurableKeyPresent || b) := by
  rcases st with ⟨m, c, n, a⟩
  cases b <;> simp [KeysLoopState.visit]

/-- What a round of the loop over the target's keys does when it returns. -/
theorem PropertyKeysTrap_step_ok {H : Type} (h : Host H) (this : Nat) (st st1 : KeysLoopState)
    (k : Var) (s s1 : State H)
    (hStep : PropertyKeysTrap.step h this st k s = .ok st1 s1) :
    ((h.ToPropertyKey k).pid = Constants.NoProperty ∧ st1 = st ∧ s1 = s)
    ∨ ((h.ToPropertyKey k).pid ≠ Constants.NoProperty
        ∧ ∃ (t : Var) (desc : Option PropertyDescriptor),
            (s.proxies this).target = some t
            ∧ h.GetOwnPropertyDescriptor t (h.ToPropertyKey k).pid s = .ok desc s1
            ∧ st1 = st.visit (h.ToPropertyKey k).pid
                (match desc with
                 | some d => !d.IsConfigurable
                 | none => false)) := by
  unfold PropertyKeysTrap.step at hStep
  by_cases hp : (h.ToPropertyKey k).pid = Constants.NoProperty
  · left
    simp [PropertyRecord.GetPropertyId, hp, Exec.pure_apply] at hStep
    exact ⟨hp, hStep.1.symm, hStep.2.symm⟩
  · right
    refine ⟨hp, ?_⟩
    cases ht : (s.proxies this).target with
    | none =>
      simp [PropertyRecord.GetPropertyId, hp, Exec.bind_apply, readTarget, ht, deref,
        nullDereference] at hStep
    | some t =>
      cases hd : h.GetOwnPropertyDescriptor t (h.ToPropertyKey k).pid s with
      | fault =>
        simp [PropertyRecord.GetPropertyId, hp, Exec.bind_apply, readTarget, ht, deref,
          Exec.pure_apply, hd] at hStep
      | throw e s2 =>
        simp [PropertyRecord.GetPropertyId, hp, Exec.bind_apply, readTarget, ht, deref,
          Exec.pure_apply, hd] at hStep
      | ok desc s2 =>
        simp only [PropertyRecord.GetPropertyId, hp, Exec.bind_apply, readTarget, ht, deref,
          Exec.pure_apply, hd, beq_iff_eq, ↓reduceIte, Outcome.ok.injEq] at hStep
        obtain ⟨h1, h2⟩ := hStep
        exact ⟨t, desc, rfl, h2 ▸ hd, h1.symm⟩

/-- The loop over the target's keys, whatever the descriptors read: the map loses the
ids of the target's keys, and no key is flagged missing only if every target key was in
the map. -/
theorem PropertyKeysTrap_loop_general {H : Type} (h : Host H) (this : Nat) :
    ∀ (keys : List Var) (st st1 : KeysLoopState) (s s1 : State H),
      PropertyKeysTrap.loop h this keys st s = .ok st1 s1 →
      (∀ p, p ∈ st1.targetToTrapResultMap ↔
          p ∈ st.targetToTrapResultMap
          ∧ ¬ (p ≠ Constants.NoProperty ∧ ∃ k ∈ keys, (h.ToPropertyKey k).pid = p))
      ∧ ((st1.isConfigurableKeyMissingFromTrapResult
            || st1.isNonconfigurableKeyMissingFromTrapResult) = false →
          (st.isConfigurableKeyMissingFromTrapResult
            || st.isNonconfigurableKeyMissingFromTrapResult) = false
          ∧ ∀ k ∈ keys, (h.ToPropertyKey k).pid ≠ Constants.NoProperty →
              (h.ToPropertyKey k).pid ∈ st.targetToTrapResultMap) := by
  intro keys
  induction keys with
  | nil =>
    intro st st1 s s1 hRun
    simp only [PropertyKeysTrap.loop, Exec.pure_apply, Outcome.ok.injEq] at hRun
    obtain ⟨rfl, rfl⟩ := hRun
    simp
  | cons k rest ih =>
    intro st st1 s s1 hRun
    simp only [PropertyKeysTrap.loop, Exec.bind_apply] at hRun
    cases hs : PropertyKeysTrap.step h this st k s with
    | fault => simp [hs] at hRun
    | throw e s2 => simp [hs] at hRun
    | ok st2 s2 =>
      simp only [hs] at hRun
      obtain ⟨hmap, hmiss⟩ := ih st2 st1 s2 s1 hRun
      rcases PropertyKeysTrap_step_ok h this st st2 k s s2 hs with
        ⟨hp, rfl, rfl⟩ | ⟨hp, t, desc, _, _, rfl⟩
      · constructor
        · intro p
          rw [hmap p]
          simp only [List.mem_cons, exists_eq_or_imp]
          constructor
          · rintro ⟨hin, hno⟩
            refine ⟨hin, ?_⟩
            rintro ⟨hne, heq | hex⟩
            · exact hne (heq ▸ hp)
            · exact hno ⟨hne, hex⟩
          · rintro ⟨hin, hno⟩
            exact ⟨hin, fun ⟨hne, hex⟩ => hno ⟨hne, Or.inr hex⟩⟩
        · intro hfalse
          obtain ⟨h1, h2⟩ := hmiss hfalse
          refine ⟨h1, ?_⟩
          intro k1 hk1 hne
          rcases List.mem_cons.mp hk1 with rfl | hin
          · exact absurd hp hne
          · exact h2 k1 hin hne
      · constructor
        · intro p
          rw [hmap p, KeysLoopState_visit_map]
          simp only [List.mem_filter, bne_iff_ne, ne_eq, List.mem_cons, exists_eq_or_imp]
          constructor
          · rintro ⟨⟨hin, hpk⟩, hno⟩
            refine ⟨hin, ?_⟩
            rintro ⟨hne, heq | hex⟩
            · exact hpk heq.symm
            · exact hno ⟨hne, hex⟩
          · rintro ⟨hin, hno⟩
            refine ⟨⟨hin, ?_⟩, fun ⟨hne, hex⟩ => hno ⟨hne, Or.inr hex⟩⟩
            intro heq
            exact hno ⟨by rw [heq]; exact hp, Or.inl heq.symm⟩
        · intro hfalse
          obtain ⟨h1, h2⟩ := hmiss hfalse
          rw [KeysLoopState_visit_missing] at h1
          simp only [Bool.or_eq_false_iff, Bool.not_eq_false', decide_eq_true_eq] at h1
          refine ⟨by simp [h1.1.1, h1.1.2], ?_⟩
          intro k1 hk1 hne
          rcases List.mem_cons.mp hk1 with rfl | hin
          · simpa using h1.2
          · have := h2 k1 hin hne
            rw [KeysLoopState_visit_map] at this
            exact (List.mem_filter.mp this).1

/-- The loop over the target's keys when the target's descriptors are read without
effect: it returns in the same state, and the non-configurable flags tell whether a
non-configurable target key exists and whether one is missing from the map. -/
theorem PropertyKeysTrap_loop_pure {H : Type} (h : Host H) (this : Nat) (s : State H)
    (t : Var) (desc : PropertyId → Option PropertyDescriptor)
    (hTarget : (s.proxies this).target = some t)
    (hPure : ∀ pid, h.GetOwnPropertyDescriptor t pid s = .ok (desc pid) s) :
    ∀ (keys : List Var) (st : KeysLoopState), ∃ st1,
      PropertyKeysTrap.loop h this keys st s = .ok st1 s
      ∧ (st.isNonconfigurableKeyMissingFromTrapResult = true →
          st1.isNonconfigurableKeyMissingFromTrapResult = true)
      ∧ (st.isAnyNonconfigurableKeyPresent = true → st1.isAnyNonconfigurableKeyPresent = true)
      ∧ (st1.isNonconfigurableKeyMissingFromTrapResult = false →
          ∀ k ∈ keys, (h.ToPropertyKey k).pid ≠ Constants.NoProperty →
            ∀ d, desc (h.ToPropertyKey k).pid = some d → d.IsConfigurable = false →
              (h.ToPropertyKey k).pid ∈ st.targetToTrapResultMap)
      ∧ ((∃ k ∈ keys, (h.ToPropertyKey k).pid ≠ Constants.NoProperty
            ∧ (∃ d, desc (h.ToPropertyKey k).pid = some d ∧ d.IsConfigurable = false)
            ∧ (h.ToPropertyKey k).pid ∉ st.targetToTrapResultMap) →
          st1.isNonconfigurableKeyMissingFromTrapResult = true
          ∧ st1.isAnyNonconfigurableKeyPresent = true)
      ∧ (st1.isAnyNonconfigurableKeyPresent = false →
          ∀ k ∈ keys, (h.ToPropertyKey k).pid ≠ Constants.NoProperty →
            ∀ d, desc (h.ToPropertyKey k).pid = some d → d.IsConfigurable = true) := by
  intro keys
  induction keys with
  | nil =>
    intro st
    refine ⟨st, by simp [PropertyKeysTrap.loop, Exec.pure_apply], fun hx => hx, fun hx => hx,
      ?_, ?_, ?_⟩
    · intro _ k hk
      simp at hk
    · rintro ⟨k, hk, _⟩
      simp at hk
    · intro _ k hk
      simp at hk
  | cons k rest ih =>
    intro st
    by_cases hp : (h.ToPropertyKey k).pid = Constants.NoProperty
    · obtain ⟨st1, hRun, hMono, hAnyMono, hIn, hMiss, hAny⟩ := ih st
      refine ⟨st1, ?_, hMono, hAnyMono, ?_, ?_, ?_⟩
      · simp [PropertyKeysTrap.loop, PropertyKeysTrap.step, Exec.bind_apply,
          PropertyRecord.GetPropertyId, hp, Exec.pure_apply, hRun]
      · intro hf k1 hk1 hne
        rcases List.mem_cons.mp hk1 with rfl | hin
        · exact absurd hp hne
        · exact hIn hf k1 hin hne
      · rintro ⟨k1, hk1, hne, hd, hnot⟩
        rcases List.mem_cons.mp hk1 with rfl | hin
        · exact absurd hp hne
        · exact hMiss ⟨k1, hin, hne, hd, hnot⟩
      · intro hf k1 hk1 hne
        rcases List.mem_cons.mp hk1 with rfl | hin
        · exact absurd hp hne
        · exact hAny hf k1 hin hne
    · obtain ⟨st1, hRun, hMono, hAnyMono, hIn, hMiss, hAny⟩ :=
        ih (st.visit (h.ToPropertyKey k).pid
          (match desc (h.ToPropertyKey k).pid with
           | some d => !d.IsConfigurable
           | none => false))
      obtain ⟨hvN, hvA⟩ := KeysLoopState_visit_nonconfigurable st (h.ToPropertyKey k).pid
        (match desc (h.ToPropertyKey k).pid with
         | some d => !d.IsConfigurable
         | none => false)
      have hvM := KeysLoopState_visit_map st (h.ToPropertyKey k).pid
        (match desc (h.ToPropertyKey k).pid with
         | some d => !d.IsConfigurable
         | none => false)
      refine ⟨st1, ?_, ?_, ?_, ?_, ?_, ?_⟩
      · simp [PropertyKeysTrap.loop, PropertyKeysTrap.step, Exec.bind_apply,
          PropertyRecord.GetPropertyId, hp, Exec.pure_apply, readTarget, hTarget, deref,
          hPure, hRun]
      · intro hx
        exact hMono (by rw [hvN, hx]; rfl)
      · intro hx
        exact hAnyMono (by rw [hvA, hx]; rfl)
      · intro hf k1 hk1 hne d hd hc
        rcases List.mem_cons.mp hk1 with rfl | hin
        · by_contra hnot
          have : st1.isNonconfigurableKeyMissingFromTrapResult = true := by
            apply hMono
            rw [hvN, hd]
            simp [hc, hnot]
          rw [hf] at this
          exact Bool.false_ne_true this
        · have := hIn hf k1 hin hne d hd hc
          rw [hvM] at this
          exact (List.mem_filter.mp this).1
      · rintro ⟨k1, hk1, hne, ⟨d, hd, hc⟩, hnot⟩
        rcases List.mem_cons.mp hk1 with rfl | hin
        · constructor
          · apply hMono
            rw [hvN, hd]
            simp [hc, hnot]
          · apply hAnyMono
            rw [hvA, hd]
            simp [hc]
        · apply hMiss
          refine ⟨k1, hin, hne, ⟨d, hd, hc⟩, ?_⟩
          rw [hvM]
          intro hmem
          exact hnot (List.mem_filter.mp hmem).1
      · intro hf k1 hk1 hne d hd
        rcases List.mem_cons.mp hk1 with rfl | hin
        · by_contra hc
          have hc2 : d.IsConfigurable = false := by simpa using hc
          have : st1.isAnyNonconfigurableKeyPresent = true := by
            apply hAnyMono
            rw [hvA, hd]
            simp [hc2]
          rw [hf] at this
          exact Bool.false_ne_true this
        · exact hAny hf k1 hin hne d hd

/-- `PropertyKeysTrap` on a non-revoked Proxy with an `ownKeys` trap, up to the loop over
the target's keys. -/
theorem PropertyKeysTrap_trace {H : Type} (h : Host H) (this : Nat) (kind : KeysTrapKind)
    (s s1 s2 s3 s4 s5 s6 s7 : State H)
    (handlerObj targetObj method ownKeysResult lenValue : Var) (len64 : Int)
    (targetKeys trapKeys : List Var) (map : List PropertyId) (isTargetExtensible : Bool)
    (hEnabled : s.disableImplicitCall = false)
    (hHandler : (s.proxies this).handler = some handlerObj)
    (hTrap : GetMethodHelper h this h.ids.ownKeys s = .ok (some method) s1)
    (hCall : CallTrap h method [(s1.proxies this).handler, (s1.proxies this).target] s1
      = .ok ownKeysResult s2)
    (hObject : IsObject ownKeysResult = true)
    (hTarget2 : (s2.proxies this).target = some targetObj)
    (hExtensible : h.IsExtensible targetObj s2 = .ok isTargetExtensible s3)
    (hTarget3 : (s3.proxies this).target = some targetObj)
    (hTargetKeys : h.GetOwnPropertyKeys targetObj s3 = .ok targetKeys s4)
    (hLength : h.OP_GetLength ownKeysResult s4 = .ok lenValue s5)
    (hToLength : h.ToLength lenValue s5 = .ok len64 s6)
    (hKeys : GetOwnPropertyKeysHelper h ownKeysResult (len64 % 2 ^ 32).toNat (fun _ => true) s6
      = .ok (trapKeys, map) s7) :
    PropertyKeysTrap h this kind s =
      (do
        let st ← PropertyKeysTrap.loop h this targetKeys ⟨map, false, false, false⟩
        if isTargetExtensible && !st.isAnyNonconfigurableKeyPresent then
          pure (some (trapKeys.filter (fun e => kind.filter (h.ToPropertyKey e))))
        else if st.isNonconfigurableKeyMissingFromTrapResult then
          ThrowTypeError .JSERR_InconsistentTrapResult "ownKeys"
        else if isTargetExtensible then
          pure (some (trapKeys.filter (fun e => kind.filter (h.ToPropertyKey e))))
        else if st.isConfigurableKeyMissingFromTrapResult then
          ThrowTypeError .JSERR_InconsistentTrapResult "ownKeys"
        else if st.targetToTrapResultMap.length != 0 then
          ThrowTypeError .JSERR_InconsistentTrapResult "ownKeys"
        else
          pure (some (trapKeys.filter (fun e => kind.filter (h.ToPropertyKey e))))) s7 := by
  have hHelper := (GetOwnPropertyKeysHelper_filter h ownKeysResult (len64 % 2 ^ 32).toNat
    kind.filter s6 s7 trapKeys map hKeys).1
  unfold PropertyKeysTrap
  simp only [Exec.bind_apply, IsDisableImplicitCall, hEnabled, revokedGuard, readHandler,
    hHandler, readTarget, hTrap, hCall, hObject, hTarget2, deref, Exec.pure_apply, hExtensible,
    hTarget3, hTargetKeys, hLength, hToLength, hHelper, Bool.false_eq_true, ↓reduceIte,
    Option.isNone_some, Bool.not_true, Bool.not_false]

/-- With no `setPrototypeOf` trap, `SetPrototypeTrap` returns TRUE whenever the
target's `ChangePrototype` returns, whatever that call answered. -/
theorem SetPrototypeTrap_trap_absent {H : Type} (h : Host H) (this : Nat)
    (newPrototype : Var) (s s1 s2 : State H) (targetObj : Var) (changed : Bool)
    (hEnabled : s.disableImplicitCall = false)
    (hTrap : GetMethodHelper h this h.ids.setPrototypeOf s = .ok none s1)
    (hTarget : (s1.proxies this).target = some targetObj)
    (hChange : h.ChangePrototype targetObj newPrototype false s1 = .ok changed s2) :
    SetPrototypeTrap h this newPrototype false s = .ok true s2 := by
  unfold SetPrototypeTrap
  simp [Exec.bind_apply, IsDisableImplicitCall, hEnabled, Exec.pure_apply, hTrap, readTarget,
    hTarget, deref, hChange]

/-- A trap that revokes its own Proxy: `IsExtensible` reads the member `target` again
after the trap returned and dereferences the null pointer. -/
theorem IsExtensible_faults_when_trap_revokes :
    IsExtensible (Example.host true true) 0
        (Example.state Example.heapRevokingTrap false false none) = .fault := rfl

/-- The same trap under `GetPropertyTrap`, which keeps the target in a local variable:
the get completes. -/
theorem GetPropertyTrap_completes_when_trap_revokes :
    GetPropertyTrap (Example.host true true) 0 (.proxy 0) {}
        (fun _ s => .ok (true, .undefined) s) (fun _ => 20)
        (Example.state Example.heapRevokingTrap false false none)
      = .ok ⟨true, { Value := some (.bool true), fromProxy := true }, none⟩
          { Example.state Example.heapRevokingTrap false false none with
            proxies := Function.update
              (Example.state Example.heapRevokingTrap false false none).proxies 0 ⟨none, none⟩
            implicitCallFlags := 5 } := rfl

/-! ### Properties of the dispatchers -/

/-- C1: on a non-revoked Proxy with a `get` trap, implicit calls enabled and no heap
enumeration, when the target's own descriptor for the property, read after the trap
returned, is a data descriptor with configurable=false and writable=false, then
`GetPropertyTrap` returns the trap result if it is `SameValue` to the target's stored
value and otherwise throws TypeError InconsistentTrapResult("get"); it returns no other
value. -/
theorem C1_get_nonwritable_value_agreement {H : Type} (h : Host H) (this : Nat)
    (originalInstance : Var)
    (propertyDescriptor : PropertyDescriptor) (fn : Var → Exec (State H) (Bool × Var))
    (getPropertyId : Unit → PropertyId) (s s1 s2 s3 : State H)
    (handlerObj targetObj method trapResult : Var) (targetDesc : PropertyDescriptor)
    (hEnabled : s.disableImplicitCall = false)
    (hHandler : (s.proxies this).handler = some handlerObj)
    (hTarget : (s.proxies this).target = some targetObj)
    (hTrap : GetMethodHelper h this h.ids.get s = .ok (some method) s1)
    (hHeapEnum : h.IsHeapEnumInProgress s1 = false)
    (hCall : CallTrap h method [(s1.proxies this).handler, some targetObj,
      some (GetName h (getPropertyId ())), some originalInstance] s1 = .ok trapResult s2)
    (hDesc : h.GetOwnPropertyDescriptor targetObj (getPropertyId ()) s2
      = .ok (some targetDesc) s3)
    (hData : targetDesc.IsDataDescriptor = true)
    (hConfigurable : targetDesc.IsConfigurable = false)
    (hWritable : targetDesc.IsWritable = false) :
    GetPropertyTrap h this originalInstance propertyDescriptor fn getPropertyId s =
      if h.SameValue trapResult (targetDesc.Value.getD .undefined) then
        .ok ⟨true, (propertyDescriptor.SetFromProxy true).SetValue trapResult, none⟩ s3
      else .throw (.typeError .JSERR_InconsistentTrapResult "get") s3 := by
  obtain ⟨hv, hc, hw⟩ := CompletePropertyDescriptor_data h targetDesc hData
  unfold GetPropertyTrap
  simp [Exec.bind_apply, IsDisableImplicitCall, hEnabled, revokedGuard, readHandler, hHandler,
    readTarget, hTarget, hTrap, IsHeapEnumInProgress, hHeapEnum, hCall, deref, Exec.pure_apply,
    hDesc, PropertyDescriptor.ValueSpecified, PropertyDescriptor.GetValue, hv, hc, hw,
    hConfigurable, hWritable]
  cases hsv : h.SameValue trapResult (targetDesc.Value.getD .undefined) <;>
    simp [ThrowTypeError, raise, Exec.pure_apply]

/-- The frozen `x` example: the trap returns 2, the target stores 1, and the get
throws. -/
theorem C1_witness :
    GetPropertyTrap (Example.host true true) 0 (.proxy 0) {} (fun _ s => .ok (true, .undefined) s)
        (fun _ => 20) (Example.state Example.heapFrozenX false false none)
      = .throw (.typeError .JSERR_InconsistentTrapResult "get")
          { Example.state Example.heapFrozenX false false none with implicitCallFlags := 5 } :=
  C1_get_nonwritable_value_agreement (Example.host true true) 0 (.proxy 0) {}
    (fun _ s => .ok (true, .undefined) s) (fun _ => 20)
    (Example.state Example.heapFrozenX false false none)
    (Example.state Example.heapFrozenX false false none)
    { Example.state Example.heapFrozenX false false none with implicitCallFlags := 5 }
    { Example.state Example.heapFrozenX false false none with implicitCallFlags := 5 }
    (.object 2) (.object 1) (.function 100) (.number 2)
    { Value := some (.number 1), Writable := some false,
      Enumerable := some true, Configurable := some false }
    rfl rfl rfl rfl rfl rfl rfl rfl rfl rfl

/-- While the Proxy still holds its target where the code reads the member again after the
trap call: on a Proxy with an `ownKeys` trap that is not revoked at entry nor where the
code reads `this->target` again after the trap (implicit calls enabled; the trap result is
an object), whatever the kind of request and whether the target is extensible or not, with
`trapKeys` the keys read from the trap result, `targetKeys` the target's own keys and
`desc` the target's descriptors as read, without side effect, in the loop: if
`PropertyKeysTrap` returns, every target key whose descriptor has configurable=false
occurs among `trapKeys` (keys are compared by property id); and if such a key is missing
from `trapKeys` then `PropertyKeysTrap` throws TypeError
InconsistentTrapResult("ownKeys"). -/
theorem PropertyKeysTrap_nonconfigurable_total {H : Type} (h : Host H) (this : Nat)
    (kind : KeysTrapKind) (s s1 s2 s3 s4 s5 s6 s7 : State H)
    (handlerObj targetObj method ownKeysResult lenValue : Var) (len64 : Int)
    (targetKeys trapKeys : List Var) (map : List PropertyId) (isTargetExtensible : Bool)
    (desc : PropertyId → Option PropertyDescriptor)
    (hEnabled : s.disableImplicitCall = false)
    (hHandler : (s.proxies this).handler = some handlerObj)
    (hTrap : GetMethodHelper h this h.ids.ownKeys s = .ok (some method) s1)
    (hCall : CallTrap h method [(s1.proxies this).handler, (s1.proxies this).target] s1
      = .ok ownKeysResult s2)
    (hObject : IsObject ownKeysResult = true)
    (hTarget2 : (s2.proxies this).target = some targetObj)
    (hExtensible : h.IsExtensible targetObj s2 = .ok isTargetExtensible s3)
    (hTarget3 : (s3.proxies this).target = some targetObj)
    (hTargetKeys : h.GetOwnPropertyKeys targetObj s3 = .ok targetKeys s4)
    (hLength : h.OP_GetLength ownKeysResult s4 = .ok lenValue s5)
    (hToLength : h.ToLength lenValue s5 = .ok len64 s6)
    (hKeys : GetOwnPropertyKeysHelper h ownKeysResult (len64 % 2 ^ 32).toNat (fun _ => true) s6
      = .ok (trapKeys, map) s7)
    (hTarget7 : (s7.proxies this).target = some targetObj)
    (hDescriptors : ∀ pid, h.GetOwnPropertyDescriptor targetObj pid s7 = .ok (desc pid) s7) :
    (∀ r s8, PropertyKeysTrap h this kind s = .ok r s8 →
      ∀ k ∈ targetKeys, (h.ToPropertyKey k).pid ≠ Constants.NoProperty →
        ∀ d, desc (h.ToPropertyKey k).pid = some d → d.IsConfigurable = false →
          ∃ e ∈ trapKeys, (h.ToPropertyKey e).pid = (h.ToPropertyKey k).pid)
    ∧ ((∃ k ∈ targetKeys, (h.ToPropertyKey k).pid ≠ Constants.NoProperty
          ∧ (∃ d, desc (h.ToPropertyKey k).pid = some d ∧ d.IsConfigurable = false)
          ∧ ¬ ∃ e ∈ trapKeys, (h.ToPropertyKey e).pid = (h.ToPropertyKey k).pid) →
        PropertyKeysTrap h this kind s
          = .throw (.typeError .JSERR_InconsistentTrapResult "ownKeys") s7) := by
  have hTrace := PropertyKeysTrap_trace h this kind s s1 s2 s3 s4 s5 s6 s7 handlerObj
    targetObj method ownKeysResult lenValue len64 targetKeys trapKeys map isTargetExtensible
    hEnabled hHandler hTrap hCall hObject hTarget2 hExtensible hTarget3 hTargetKeys hLength
    hToLength hKeys
  have hMap := (GetOwnPropertyKeysHelper_filter h ownKeysResult (len64 % 2 ^ 32).toNat
    (fun _ => true) s6 s7 trapKeys map hKeys).2
  obtain ⟨st, hLoop, _, _, hIn, hMiss, hAny⟩ :=
    PropertyKeysTrap_loop_pure h this s7 targetObj desc hTarget7 hDescriptors targetKeys
      ⟨map, false, false, false⟩
  rw [Exec.bind_apply, hLoop] at hTrace
  simp only at hTrace
  constructor
  · intro r s8 hRet k hk hne d hd hc
    rw [hTrace] at hRet
    cases ha : st.isAnyNonconfigurableKeyPresent with
    | false =>
      have := hAny ha k hk hne d hd
      rw [hc] at this
      exact absurd this Bool.false_ne_true
    | true =>
      cases hn : st.isNonconfigurableKeyMissingFromTrapResult with
      | true => simp [ha, hn, ThrowTypeError, raise] at hRet
      | false =>
        have hin := hIn hn k hk hne d hd hc
        exact ((hMap _).mp hin).2
  · rintro ⟨k, hk, hne, hd, hnot⟩
    have hnotin : (h.ToPropertyKey k).pid ∉
        (⟨map, false, false, false⟩ : KeysLoopState).targetToTrapResultMap := by
      intro hin
      exact hnot ((hMap _).mp hin).2
    obtain ⟨hn, ha⟩ := hMiss ⟨k, hk, hne, hd, hnotin⟩
    rw [hTrace]
    simp [ha, hn, ThrowTypeError, raise]

/-- Scenario "ownKeys missing non-configurable": the target owns `k` with
configurable=false, the trap returns an empty list, and listing the names throws. -/
theorem PropertyKeysTrap_nonconfigurable_total_example :
    (∀ r s8, PropertyKeysTrap (Example.host true true) 0 .GetOwnPropertyNamesKind
        (Example.state Example.heapNonconfigurableK false false none) = .ok r s8 →
      ∀ k ∈ [Var.string "k"],
        ((Example.host true true).ToPropertyKey k).pid ≠ Constants.NoProperty →
        ∀ d, Example.ownDescriptor Example.heapNonconfigurableK
            ((Example.host true true).ToPropertyKey k).pid = some d →
          d.IsConfigurable = false →
          ∃ e ∈ ([] : List Var), ((Example.host true true).ToPropertyKey e).pid
            = ((Example.host true true).ToPropertyKey k).pid)
    ∧ ((∃ k ∈ [Var.string "k"],
          ((Example.host true true).ToPropertyKey k).pid ≠ Constants.NoProperty
          ∧ (∃ d, Example.ownDescriptor Example.heapNonconfigurableK
              ((Example.host true true).ToPropertyKey k).pid = some d
            ∧ d.IsConfigurable = false)
          ∧ ¬ ∃ e ∈ ([] : List Var), ((Example.host true true).ToPropertyKey e).pid
              = ((Example.host true true).ToPropertyKey k).pid) →
        PropertyKeysTrap (Example.host true true) 0 .GetOwnPropertyNamesKind
            (Example.state Example.heapNonconfigurableK false false none)
          = .throw (.typeError .JSERR_InconsistentTrapResult "ownKeys")
              { Example.state Example.heapNonconfigurableK false false none with
                implicitCallFlags := 5 }) :=
  PropertyKeysTrap_nonconfigurable_total (Example.host true true) 0 .GetOwnPropertyNamesKind
    (Example.state Example.heapNonconfigurableK false false none)
    (Example.state Example.heapNonconfigurableK false false none)
    { Example.state Example.heapNonconfigurableK false false none with implicitCallFlags := 5 }
    { Example.state Example.heapNonconfigurableK false false none with implicitCallFlags := 5 }
    { Example.state Example.heapNonconfigurableK false false none with implicitCallFlags := 5 }
    { Example.state Example.heapNonconfigurableK false false none with implicitCallFlags := 5 }
    { Example.state Example.heapNonconfigurableK false false none with implicitCallFlags := 5 }
    { Example.state Example.heapNonconfigurableK false false none with implicitCallFlags := 5 }
    (.object 2) (.object 1) (.function 100) (.object 3) (.number 0) 0
    [.string "k"] [] [] true
    (Example.ownDescriptor Example.heapNonconfigurableK)
    rfl rfl rfl rfl rfl rfl rfl rfl rfl rfl rfl rfl rfl (fun _ => rfl)

/-- C2 (the code at the failing input): a non-revoked Proxy over an extensible target that
owns `k` with configurable=false, behind an `ownKeys` trap that revokes the Proxy and
returns an empty list.  The claim names TypeError InconsistentTrapResult("ownKeys"), which
is what the same call yields when the trap does not revoke; `PropertyKeysTrap` reads the
member `target` again after the trap returned (lines 2200-2202) and dereferences the null
pointer: it neither returns nor throws. -/
theorem C2_ownKeys_faults_when_trap_revokes :
    PropertyKeysTrap (Example.host true true) 0 .GetOwnPropertyNamesKind
        (Example.state { Example.heapNonconfigurableK with trapRevokes := true }
          false false none) = .fault
    ∧ PropertyKeysTrap (Example.host true true) 0 .GetOwnPropertyNamesKind
        (Example.state Example.heapNonconfigurableK false false none)
      = .throw (.typeError .JSERR_InconsistentTrapResult "ownKeys")
          { Example.state Example.heapNonconfigurableK false false none with
            implicitCallFlags := 5 } :=
  ⟨rfl, rfl⟩

/-- While the Proxy still holds its target where the code reads the member again after the
trap call: on a Proxy with an `ownKeys` trap that is not revoked at entry nor where the
code reads `this->target` again after the trap, and whose target is non-extensible
(implicit calls enabled; the trap result is an object; no key at hand has the id
`NoProperty`), with `trapKeys` the keys read from the trap result and `targetKeys` the
target's own keys: if `PropertyKeysTrap` of kind Keys returns, it returns `trapKeys` and
the keys of `trapKeys` are exactly the keys of `targetKeys` (compared by property id); and
once the target's descriptors have been read, it either returns or throws TypeError
InconsistentTrapResult("ownKeys"), so it throws that error whenever the two sets differ.
-/
theorem PropertyKeysTrap_exact_on_nonextensible {H : Type} (h : Host H) (this : Nat)
    (s s1 s2 s3 s4 s5 s6 s7 : State H)
    (handlerObj targetObj method ownKeysResult lenValue : Var) (len64 : Int)
    (targetKeys trapKeys : List Var) (map : List PropertyId)
    (hEnabled : s.disableImplicitCall = false)
    (hHandler : (s.proxies this).handler = some handlerObj)
    (hTrap : GetMethodHelper h this h.ids.ownKeys s = .ok (some method) s1)
    (hCall : CallTrap h method [(s1.proxies this).handler, (s1.proxies this).target] s1
      = .ok ownKeysResult s2)
    (hObject : IsObject ownKeysResult = true)
    (hTarget2 : (s2.proxies this).target = some targetObj)
    (hExtensible : h.IsExtensible targetObj s2 = .ok false s3)
    (hTarget3 : (s3.proxies this).target = some targetObj)
    (hTargetKeys : h.GetOwnPropertyKeys targetObj s3 = .ok targetKeys s4)
    (hLength : h.OP_GetLength ownKeysResult s4 = .ok lenValue s5)
    (hToLength : h.ToLength lenValue s5 = .ok len64 s6)
    (hKeys : GetOwnPropertyKeysHelper h ownKeysResult (len64 % 2 ^ 32).toNat (fun _ => true) s6
      = .ok (trapKeys, map) s7)
    (hTrapIds : ∀ e ∈ trapKeys, (h.ToPropertyKey e).pid ≠ Constants.NoProperty)
    (hTargetIds : ∀ k ∈ targetKeys, (h.ToPropertyKey k).pid ≠ Constants.NoProperty) :
    (∀ r s8, PropertyKeysTrap h this .KeysKind s = .ok r s8 →
      r = some trapKeys
      ∧ ∀ pid, (∃ e ∈ trapKeys, (h.ToPropertyKey e).pid = pid)
          ↔ (∃ k ∈ targetKeys, (h.ToPropertyKey k).pid = pid))
    ∧ (∀ st s8, PropertyKeysTrap.loop h this targetKeys ⟨map, false, false, false⟩ s7
          = .ok st s8 →
        (PropertyKeysTrap h this .KeysKind s = .ok (some trapKeys) s8
          ∨ PropertyKeysTrap h this .KeysKind s
              = .throw (.typeError .JSERR_InconsistentTrapResult "ownKeys") s8)
        ∧ ((¬ ∀ pid, (∃ e ∈ trapKeys, (h.ToPropertyKey e).pid = pid)
              ↔ (∃ k ∈ targetKeys, (h.ToPropertyKey k).pid = pid)) →
            PropertyKeysTrap h this .KeysKind s
              = .throw (.typeError .JSERR_InconsistentTrapResult "ownKeys") s8)) := by
  have hTrace := PropertyKeysTrap_trace h this .KeysKind s s1 s2 s3 s4 s5 s6 s7 handlerObj
    targetObj method ownKeysResult lenValue len64 targetKeys trapKeys map false hEnabled
    hHandler hTrap hCall hObject hTarget2 hExtensible hTarget3 hTargetKeys hLength hToLength
    hKeys
  have hMap := (GetOwnPropertyKeysHelper_filter h ownKeysResult (len64 % 2 ^ 32).toNat
    (fun _ => true) s6 s7 trapKeys map hKeys).2
  have hFilter : trapKeys.filter (fun e => KeysTrapKind.KeysKind.filter (h.ToPropertyKey e))
      = trapKeys := by
    simp [KeysTrapKind.filter]
  rw [hFilter] at hTrace
  simp only [Bool.false_and, Bool.false_eq_true, ↓reduceIte] at hTrace
  have first : ∀ r s8, PropertyKeysTrap h this .KeysKind s = .ok r s8 →
      r = some trapKeys
      ∧ ∀ pid, (∃ e ∈ trapKeys, (h.ToPropertyKey e).pid = pid)
          ↔ (∃ k ∈ targetKeys, (h.ToPropertyKey k).pid = pid) := by
    intro r s8 hRet
    rw [hTrace, Exec.bind_apply] at hRet
    cases hl : PropertyKeysTrap.loop h this targetKeys ⟨map, false, false, false⟩ s7 with
    | fault => simp [hl] at hRet
    | throw e s9 => simp [hl] at hRet
    | ok st s9 =>
      simp only [hl] at hRet
      obtain ⟨hFinal, hMissing⟩ := PropertyKeysTrap_loop_general h this targetKeys
        ⟨map, false, false, false⟩ st s7 s9 hl
      cases hn : st.isNonconfigurableKeyMissingFromTrapResult with
      | true => simp [hn, ThrowTypeError, raise] at hRet
      | false =>
        cases hc : st.isConfigurableKeyMissingFromTrapResult with
        | true => simp [hn, hc, ThrowTypeError, raise] at hRet
        | false =>
          cases hm : st.targetToTrapResultMap with
          | cons p rest => simp [hn, hc, hm, ThrowTypeError, raise] at hRet
          | nil =>
            simp [hn, hc, hm, Exec.pure_apply] at hRet
            refine ⟨hRet.1.symm, ?_⟩
            obtain ⟨_, hAll⟩ := hMissing (by simp [hn, hc])
            intro pid
            constructor
            · rintro ⟨e, he, hpe⟩
              have hin : pid ∈ map := (hMap pid).mpr ⟨hpe ▸ hTrapIds e he, e, he, hpe⟩
              have hnot := (hFinal pid).not.mp (by rw [hm]; simp)
              by_contra hno
              exact hnot ⟨hin, fun ⟨_, hex⟩ => hno hex⟩
            · rintro ⟨k, hk, hpk⟩
              have hin := hAll k hk (hTargetIds k hk)
              rw [hpk] at hin
              exact ((hMap pid).mp hin).2
  refine ⟨first, ?_⟩
  intro st s8 hl
  have hOr : PropertyKeysTrap h this .KeysKind s = .ok (some trapKeys) s8
      ∨ PropertyKeysTrap h this .KeysKind s
          = .throw (.typeError .JSERR_InconsistentTrapResult "ownKeys") s8 := by
    rw [hTrace, Exec.bind_apply, hl]
    simp only
    cases st.isNonconfigurableKeyMissingFromTrapResult <;>
      cases st.isConfigurableKeyMissingFromTrapResult <;>
      cases st.targetToTrapResultMap <;>
      simp [ThrowTypeError, raise, Exec.pure_apply]
  refine ⟨hOr, ?_⟩
  intro hDiffer
  rcases hOr with hOk | hThrow
  · exact absurd (first _ _ hOk).2 hDiffer
  · exact hThrow

/-- A sealed target with keys `x` and `k` behind a trap that lists `k` and `x`: the
hypotheses of `PropertyKeysTrap_exact_on_nonextensible` hold and the trap's list is what the Proxy may return. -/
theorem PropertyKeysTrap_exact_on_nonextensible_example :
    (∀ r s8, PropertyKeysTrap (Example.host true true) 0 .KeysKind
        (Example.state Example.heapSealedKeys false false none) = .ok r s8 →
      r = some [.string "k", .string "x"]
      ∧ ∀ pid, (∃ e ∈ [Var.string "k", Var.string "x"],
            ((Example.host true true).ToPropertyKey e).pid = pid)
          ↔ (∃ k ∈ [Var.string "x", Var.string "k"],
            ((Example.host true true).ToPropertyKey k).pid = pid))
    ∧ (∀ st s8, PropertyKeysTrap.loop (Example.host true true) 0
          [.string "x", .string "k"] ⟨[21, 20], false, false, false⟩
          { Example.state Example.heapSealedKeys false false none with implicitCallFlags := 5 }
          = .ok st s8 →
        (PropertyKeysTrap (Example.host true true) 0 .KeysKind
            (Example.state Example.heapSealedKeys false false none)
            = .ok (some [.string "k", .string "x"]) s8
          ∨ PropertyKeysTrap (Example.host true true) 0 .KeysKind
              (Example.state Example.heapSealedKeys false false none)
              = .throw (.typeError .JSERR_InconsistentTrapResult "ownKeys") s8)
        ∧ ((¬ ∀ pid, (∃ e ∈ [Var.string "k", Var.string "x"],
              ((Example.host true true).ToPropertyKey e).pid = pid)
            ↔ (∃ k ∈ [Var.string "x", Var.string "k"],
              ((Example.host true true).ToPropertyKey k).pid = pid)) →
            PropertyKeysTrap (Example.host true true) 0 .KeysKind
              (Example.state Example.heapSealedKeys false false none)
              = .throw (.typeError .JSERR_InconsistentTrapResult "ownKeys") s8)) :=
  PropertyKeysTrap_exact_on_nonextensible (Example.host true true) 0
    (Example.state Example.heapSealedKeys false false none)
    (Example.state Example.heapSealedKeys false false none)
    { Example.state Example.heapSealedKeys false false none with implicitCallFlags := 5 }
    { Example.state Example.heapSealedKeys false false none with implicitCallFlags := 5 }
    { Example.state Example.heapSealedKeys false false none with implicitCallFlags := 5 }
    { Example.state Example.heapSealedKeys false false none with implicitCallFlags := 5 }
    { Example.state Example.heapSealedKeys false false none with implicitCallFlags := 5 }
    { Example.state Example.heapSealedKeys false false none with implicitCallFlags := 5 }
    (.object 2) (.object 1) (.function 100) (.object 3) (.number 2) 2
    [.string "x", .string "k"] [.string "k", .string "x"] [21, 20]
    rfl rfl rfl rfl rfl rfl rfl rfl rfl rfl rfl rfl
    (by decide) (by decide)

/-- C3 (the code at the failing input): a non-revoked Proxy over a non-extensible target
with the keys `x` and `k`, behind an `ownKeys` trap that revokes the Proxy and lists `k`
and `x`.  The claim names the return of that list, which is what the same call yields when
the trap does not revoke; `PropertyKeysTrap` reads the member `target` again after the
trap returned (lines 2200-2202) and dereferences the null pointer: it neither returns nor
throws. -/
theorem C3_ownKeys_nonextensible_faults_when_trap_revokes :
    PropertyKeysTrap (Example.host true true) 0 .KeysKind
        (Example.state { Example.heapSealedKeys with trapRevokes := true }
          false false none) = .fault
    ∧ PropertyKeysTrap (Example.host true true) 0 .KeysKind
        (Example.state Example.heapSealedKeys false false none)
      = .ok (some [.string "k", .string "x"])
          { Example.state Example.heapSealedKeys false false none with
            implicitCallFlags := 5 } :=
  ⟨rfl, rfl⟩

/-- C4: the revoke function whose internal slot holds the Proxy (as `Proxy.revocable`
leaves it) sets the Proxy's target and handler to null, nulls its own slot and returns
undefined; and in every state where the slot is null it returns undefined and leaves
the state as it is. -/
theorem C4_revoke_idempotent {H : Type} (function proxy : Nat) (s : State H)
    (hSlot : s.internalProperties function = some (.proxy proxy)) :
    ∃ s1 : State H, EntryRevoke function s = .ok .undefined s1
      ∧ (s1.proxies proxy).target = none ∧ (s1.proxies proxy).handler = none
      ∧ s1.internalProperties function = some .null
      ∧ EntryRevoke function s1 = .ok .undefined s1
      ∧ ∀ s2 : State H, s2.internalProperties function = some .null →
          EntryRevoke function s2 = .ok .undefined s2 := by
  have later : ∀ s2 : State H, s2.internalProperties function = some .null →
      EntryRevoke function s2 = .ok .undefined s2 := by
    intro s2 h2
    simp [EntryRevoke, Exec.bind_apply, GetInternalProperty, h2, GetTypeId, Exec.pure_apply]
  refine ⟨{ s with
      internalProperties := Function.update s.internalProperties function (some .null)
      proxies := Function.update s.proxies proxy ⟨none, none⟩ }, ?_, ?_, ?_, ?_, ?_, later⟩
  · simp [EntryRevoke, Exec.bind_apply, GetInternalProperty, hSlot, GetTypeId,
      SetInternalProperty, RevokeObject, Exec.pure_apply]
  · simp
  · simp
  · simp
  · exact later _ (by simp)

/-- The revoke function at address 7 of the example state, called twice. -/
theorem C4_witness :
    ∃ s1 : State Example.Heap,
      EntryRevoke 7 (Example.state Example.heapFrozenX false false (some (.proxy 0)))
        = .ok .undefined s1
      ∧ (s1.proxies 0).target = none ∧ (s1.proxies 0).handler = none
      ∧ s1.internalProperties 7 = some .null
      ∧ EntryRevoke 7 s1 = .ok .undefined s1
      ∧ ∀ s2 : State Example.Heap, s2.internalProperties 7 = some .null →
          EntryRevoke 7 s2 = .ok .undefined s2 :=
  C4_revoke_idempotent 7 0 (Example.state Example.heapFrozenX false false (some (.proxy 0))) rfl

/-- C5 (as stated, refuted): on the revoked Proxy of the example state, with implicit
calls disabled, the get dispatcher raises nothing: it returns FALSE. -/
theorem C5_counterexample :
    GetPropertyTrap (Example.host true true) 0 (.proxy 0) {}
        (fun _ s => .ok (true, .undefined) s) (fun _ => 20)
        (Example.state Example.heapFrozenX true true none)
      = .ok ⟨false, {}, none⟩
          { Example.state Example.heapFrozenX true true none with implicitCallFlags := 17 } :=
  rfl

/-- C5 (amended): on a revoked Proxy, set, deleteProperty, defineProperty,
getOwnPropertyDescriptor, apply and construct throw TypeError ErrorOnRevokedProxy in
every thread state; get, has, getPrototypeOf, isExtensible, preventExtensions, ownKeys,
for-in enumeration and setPrototypeOf throw it when implicit calls are enabled and
`RecordImplicitException` answers that the error is to be thrown (setPrototypeOf with
shouldThrow clear needs only implicit calls enabled). -/
theorem C5_revoked_operations_throw {H : Type} (h : Host H) (this : Nat) (s : State H)
    (hRevoked : s.proxies this = ⟨none, none⟩) :
    (∀ receiver kind propertyId newValue skip,
      SetPropertyTrap h this receiver kind propertyId newValue skip s
        = .throw (.typeError .JSERR_ErrorOnRevokedProxy "set") s)
    ∧ (∀ propertyId flags,
      DeleteProperty h this propertyId flags s
        = .throw (.typeError .JSERR_ErrorOnRevokedProxy "deleteProperty") s)
    ∧ (∀ propertyId descriptor throwOnError,
      DefineOwnPropertyDescriptor h this propertyId descriptor throwOnError s
        = .throw (.typeError .JSERR_ErrorOnRevokedProxy "definePropertyDescriptor") s)
    ∧ (∀ propertyId descriptor,
      GetOwnPropertyDescriptor h this propertyId descriptor s
        = .throw (.typeError .JSERR_ErrorOnRevokedProxy
            (h.GetPropertyName h.ids.getOwnPropertyDescriptor).buffer) s)
    ∧ (∀ callInfo values,
      FunctionCallTrap h (.proxy this) callInfo values s
        = .throw (.typeError .JSERR_ErrorOnRevokedProxy
            (h.GetPropertyName
              (if callInfo.CallFlags_New then h.ids.construct else h.ids.apply)).buffer) s)
    ∧ (s.disableImplicitCall = false →
        ∀ newPrototype, SetPrototypeTrap h this newPrototype false s
          = .throw (.typeError .JSERR_ErrorOnRevokedProxy
              (h.GetPropertyName h.ids.setPrototypeOf).buffer) s)
    ∧ (s.disableImplicitCall = false → (h.RecordImplicitException s).1 = true →
        (∀ originalInstance descriptor fn getPropertyId,
          GetPropertyTrap h this originalInstance descriptor fn getPropertyId s
            = .throw (.typeError .JSERR_ErrorOnRevokedProxy "get")
                (h.RecordImplicitException s).2)
        ∧ (∀ fn getPropertyId,
          HasPropertyTrap h this fn getPropertyId s
            = .throw (.typeError .JSERR_ErrorOnRevokedProxy "has")
                (h.RecordImplicitException s).2)
        ∧ GetPrototypeSpecial h this s
            = .throw (.typeError .JSERR_ErrorOnRevokedProxy "getPrototypeOf")
                (h.RecordImplicitException s).2
        ∧ (∀ newPrototype, SetPrototypeTrap h this newPrototype true s
            = .throw (.typeError .JSERR_ErrorOnRevokedProxy "setPrototypeOf")
                (h.RecordImplicitException s).2)
        ∧ IsExtensible h this s
            = .throw (.typeError .JSERR_ErrorOnRevokedProxy "isExtensible")
                (h.RecordImplicitException s).2
        ∧ PreventExtensions h this s
            = .throw (.typeError .JSERR_ErrorOnRevokedProxy "preventExtensions")
                (h.RecordImplicitException s).2
        ∧ (∀ kind, PropertyKeysTrap h this kind s
            = .throw (.typeError .JSERR_ErrorOnRevokedProxy "ownKeys")
                (h.RecordImplicitException s).2)
        ∧ GetEnumerator h this s
            = .throw (.typeError .JSERR_ErrorOnRevokedProxy "ownKeys")
                (h.RecordImplicitException s).2) := by
  have hT : (s.proxies this).target = none := by rw [hRevoked]
  have hHd : (s.proxies this).handler = none := by rw [hRevoked]
  have hMethod : ∀ methodId, GetMethodHelper h this methodId s
      = .throw (.typeError .JSERR_ErrorOnRevokedProxy (h.GetPropertyName methodId).buffer) s := by
    intro methodId
    simp [GetMethodHelper, Exec.bind_apply, readTarget, hT, ThrowTypeError, raise]
  refine ⟨?_, ?_, ?_, ?_, ?_, ?_, ?_⟩
  · intro receiver kind propertyId newValue skip
    simp [SetPropertyTrap, Exec.bind_apply, readTarget, hT, ThrowTypeError, raise]
  · intro propertyId flags
    simp [DeleteProperty, Exec.bind_apply, readTarget, hT, ThrowTypeError, raise]
  · intro propertyId descriptor throwOnError
    simp [DefineOwnPropertyDescriptor, Exec.bind_apply, readTarget, hT, ThrowTypeError, raise]
  · intro propertyId descriptor
    simp [GetOwnPropertyDescriptor, GetPropertyDescriptorTrap, Exec.bind_apply, hMethod]
  · intro callInfo values
    cases hNew : callInfo.CallFlags_New <;>
      simp [FunctionCallTrap, Exec.bind_apply, hMethod, hNew]
  · intro hEnabled newPrototype
    simp [SetPrototypeTrap, Exec.bind_apply, IsDisableImplicitCall, hEnabled, Exec.pure_apply,
      hMethod]
  · intro hEnabled hRecord
    have hGuard : ∀ name, revokedGuard h this name s
        = .throw (.typeError .JSERR_ErrorOnRevokedProxy name) (h.RecordImplicitException s).2 := by
      intro name
      simp [revokedGuard, Exec.bind_apply, readHandler, hHd, RecordImplicitException, hRecord,
        ThrowTypeError, raise]
    refine ⟨?_, ?_, ?_, ?_, ?_, ?_, ?_, ?_⟩
    · intro originalInstance descriptor fn getPropertyId
      simp [GetPropertyTrap, Exec.bind_apply, IsDisableImplicitCall, hEnabled, hGuard]
    · intro fn getPropertyId
      simp [HasPropertyTrap, Exec.bind_apply, IsDisableImplicitCall, hEnabled, hGuard]
    · simp [GetPrototypeSpecial, Exec.bind_apply, IsDisableImplicitCall, hEnabled, hGuard]
    · intro newPrototype
      simp [SetPrototypeTrap, Exec.bind_apply, IsDisableImplicitCall, hEnabled, hGuard]
    · simp [IsExtensible, Exec.bind_apply, IsDisableImplicitCall, hEnabled, hGuard]
    · simp [PreventExtensions, Exec.bind_apply, IsDisableImplicitCall, hEnabled, hGuard]
    · intro kind
      simp [PropertyKeysTrap, Exec.bind_apply, IsDisableImplicitCall, hEnabled, hGuard]
    · simp [GetEnumerator, Exec.bind_apply, IsDisableImplicitCall, hEnabled, hGuard]

/-- The revoked Proxy of the example state, implicit calls enabled: a set and a get. -/
theorem C5_witness :
    SetPropertyTrap (Example.host true true) 0 (.proxy 0) .SetPropertyKind 20 (.number 1) false
        (Example.state Example.heapFrozenX true false none)
      = .throw (.typeError .JSERR_ErrorOnRevokedProxy "set")
          (Example.state Example.heapFrozenX true false none)
    ∧ GetPropertyTrap (Example.host true true) 0 (.proxy 0) {}
        (fun _ s => .ok (true, .undefined) s) (fun _ => 20)
        (Example.state Example.heapFrozenX true false none)
      = .throw (.typeError .JSERR_ErrorOnRevokedProxy "get")
          (Example.state Example.heapFrozenX true false none) :=
  ⟨(C5_revoked_operations_throw (Example.host true true) 0
      (Example.state Example.heapFrozenX true false none) rfl).1 _ _ _ _ _,
   ((C5_revoked_operations_throw (Example.host true true) 0
      (Example.state Example.heapFrozenX true false none) rfl).2.2.2.2.2.2 rfl rfl).1 _ _ _ _⟩

/-- C6 (as stated, refuted): on the revoked Proxy of the example state, `Equals` with
the Proxy itself does not complete; it throws TypeError ErrorOnRevokedProxy. -/
theorem C6_counterexample :
    Equals (Example.host true true) 0 (.proxy 0)
        (Example.state Example.heapFrozenX true false none)
      = .throw (.typeError .JSERR_ErrorOnRevokedProxy "equal")
          (Example.state Example.heapFrozenX true false none) := rfl

/-- C6 (amended): on a revoked Proxy, for every value and in every thread state,
`Equals` and `StrictEquals` throw TypeError ErrorOnRevokedProxy and leave the state as
it is. -/
theorem C6_equals_on_revoked_throws {H : Type} (h : Host H) (this : Nat) (other : Var)
    (s : State H) (hRevoked : (s.proxies this).target = none) :
    Equals h this other s = .throw (.typeError .JSERR_ErrorOnRevokedProxy "equal") s
    ∧ StrictEquals h this other s
        = .throw (.typeError .JSERR_ErrorOnRevokedProxy "strict equal") s := by
  constructor <;>
    simp [Equals, StrictEquals, Exec.bind_apply, readTarget, hRevoked, ThrowTypeError, raise]

/-- The revoked Proxy of the example state compared with another object. -/
theorem C6_witness :
    Equals (Example.host true true) 0 (.object 1)
        (Example.state Example.heapFrozenX true true none)
      = .throw (.typeError .JSERR_ErrorOnRevokedProxy "equal")
          (Example.state Example.heapFrozenX true true none)
    ∧ StrictEquals (Example.host true true) 0 (.object 1)
        (Example.state Example.heapFrozenX true true none)
      = .throw (.typeError .JSERR_ErrorOnRevokedProxy "strict equal")
          (Example.state Example.heapFrozenX true true none) :=
  C6_equals_on_revoked_throws (Example.host true true) 0 (.object 1)
    (Example.state Example.heapFrozenX true true none) rfl

/-- While the Proxy still holds its target where the code reads the member again after the
trap call: on a Proxy with an `isExtensible` trap that is not revoked at entry nor when
the trap has returned (implicit calls enabled), `IsExtensible` returns ToBoolean of the
trap result when that equals the target's own `IsExtensible()` read after the trap
returned, and otherwise throws TypeError InconsistentTrapResult("isExtensible"); so on a
non-extensible target it never returns true. -/
theorem IsExtensible_agreement {H : Type} (h : Host H) (this : Nat)
    (s s1 s2 s3 : State H) (handlerObj targetObj method trapResult : Var)
    (targetIsExtensible : Bool)
    (hEnabled : s.disableImplicitCall = false)
    (hHandler : (s.proxies this).handler = some handlerObj)
    (hTrap : GetMethodHelper h this h.ids.isExtensible s = .ok (some method) s1)
    (hCall : CallTrap h method [(s1.proxies this).handler, (s1.proxies this).target] s1
      = .ok trapResult s2)
    (hTarget : (s2.proxies this).target = some targetObj)
    (hExtensible : h.IsExtensible targetObj s2 = .ok targetIsExtensible s3) :
    IsExtensible h this s =
        (if h.ToBoolean trapResult = targetIsExtensible then .ok (h.ToBoolean trapResult) s3
         else .throw (.typeError .JSERR_InconsistentTrapResult "isExtensible") s3)
    ∧ (targetIsExtensible = false → ∀ s4, IsExtensible h this s ≠ .ok true s4) := by
  have key : IsExtensible h this s =
      (if h.ToBoolean trapResult = targetIsExtensible then .ok (h.ToBoolean trapResult) s3
       else .throw (.typeError .JSERR_InconsistentTrapResult "isExtensible") s3) := by
    unfold IsExtensible
    simp [Exec.bind_apply, IsDisableImplicitCall, hEnabled, revokedGuard, readHandler,
      hHandler, readTarget, hTrap, hCall, hTarget, deref, Exec.pure_apply, hExtensible]
    cases hb : h.ToBoolean trapResult <;> cases targetIsExtensible <;>
      simp [ThrowTypeError, raise, Exec.pure_apply]
  refine ⟨key, ?_⟩
  intro hFalse s4
  rw [key, hFalse]
  cases hb : h.ToBoolean trapResult <;> simp

/-- The non-extensible example target behind a trap that answers a truthy value: the
Proxy throws. -/
theorem IsExtensible_agreement_example :
    IsExtensible (Example.host true true) 0
        (Example.state Example.heapFrozenX false false none)
      = .throw (.typeError .JSERR_InconsistentTrapResult "isExtensible")
          { Example.state Example.heapFrozenX false false none with implicitCallFlags := 5 }
    ∧ (false = false → ∀ s4, IsExtensible (Example.host true true) 0
        (Example.state Example.heapFrozenX false false none) ≠ .ok true s4) :=
  IsExtensible_agreement (Example.host true true) 0
    (Example.state Example.heapFrozenX false false none)
    (Example.state Example.heapFrozenX false false none)
    { Example.state Example.heapFrozenX false false none with implicitCallFlags := 5 }
    { Example.state Example.heapFrozenX false false none with implicitCallFlags := 5 }
    (.object 2) (.object 1) (.function 100) (.number 2) false rfl rfl rfl rfl rfl rfl

/-- C7 (the code at the failing input): a non-revoked Proxy over an extensible target,
behind an `isExtensible` trap that revokes the Proxy and answers true.  The claim names
the return of TRUE, which is what the same call yields when the trap does not revoke;
`IsExtensible` reads the member `target` again after the trap returned (line 1108) and
dereferences the null pointer: it neither returns nor throws. -/
theorem C7_isExtensible_faults_when_trap_revokes :
    IsExtensible (Example.host true true) 0
        (Example.state Example.heapRevokingTrap false false none) = .fault
    ∧ IsExtensible (Example.host true true) 0
        (Example.state Example.heapTruthyTrap false false none)
      = .ok true
          { Example.state Example.heapTruthyTrap false false none with
            implicitCallFlags := 5 } :=
  ⟨rfl, rfl⟩

/-- C8 (as stated, refuted): the example target owns `x` with configurable=false and the
handler has a `getOwnPropertyDescriptor` trap; with implicit calls disabled the Proxy
reports `x` absent. -/
theorem C8_counterexample :
    GetOwnPropertyDescriptor (Example.host true true) 0 20 {}
        (Example.state Example.heapFrozenX false true none)
      = .ok (false, {})
          { Example.state Example.heapFrozenX false true none with implicitCallFlags := 17 }
    ∧ (Example.host true true).GetOwnPropertyDescriptor (.object 1) 20
        (Example.state Example.heapFrozenX false true none)
      = .ok (some { Value := some (.number 1), Writable := some false,
                    Enumerable := some true, Configurable := some false })
          (Example.state Example.heapFrozenX false true none) :=
  ⟨rfl, rfl⟩

/-- C8 (amended): with implicit calls enabled, on a non-revoked Proxy whose target owns
the key with configurable=false, for every handler whose code leaves the Proxy
unrevoked (`Inv` is any invariant of the states the handler's code and the target's
operations lead to under which the Proxy holds its target and handler, implicit calls
are enabled and the target's descriptor for the key has configurable=false; a converted
trap result is a descriptor), `GetOwnPropertyDescriptor` on the Proxy either throws or
returns TRUE with a descriptor whose configurable is false; it neither reports the
property absent nor returns a configurable descriptor.  What the code does when the
trap revokes the Proxy is left out. -/
theorem C8_nonconfigurable_preserved {H : Type} (h : Host H) (proxy : Nat) (K : PropertyId)
    (propertyDescriptor : PropertyDescriptor) (Inv : State H → Prop)
    (handlerObj targetObj : Var)
    (hEnabled : ∀ s, Inv s → s.disableImplicitCall = false)
    (hSlots : ∀ s, Inv s → (s.proxies proxy).target = some targetObj
      ∧ (s.proxies proxy).handler = some handlerObj)
    (hFlags : ∀ s f, Inv s → Inv { s with implicitCallFlags := f })
    (hGetRef : ∀ pid, Exec.Holds Inv (h.GetPropertyReference handlerObj pid) (fun _ s => Inv s))
    (hCall : ∀ f args, Exec.Holds Inv (h.CallFunction f args) (fun _ s => Inv s))
    (hOwn : Exec.Holds Inv (h.GetOwnPropertyDescriptor targetObj K)
      (fun r s => Inv s ∧ ∃ d, r = some d ∧ d.IsConfigurable = false))
    (hExt : Exec.Holds Inv (h.IsExtensible targetObj) (fun _ s => Inv s))
    (hToPD : ∀ v, IsObject v = true →
      Exec.Holds Inv (h.ToPropertyDescriptor v) (fun r s => Inv s ∧ r.isSome = true)) :
    Exec.Holds Inv (GetOwnPropertyDescriptor h proxy K propertyDescriptor)
      (fun r _ => r.1 = true ∧ r.2.IsConfigurable = false) := by
  intro s hs
  have hM := GetMethodHelper_holds h proxy h.ids.getOwnPropertyDescriptor Inv handlerObj
    targetObj hSlots hGetRef s hs
  unfold GetOwnPropertyDescriptor GetPropertyDescriptorTrap
  cases hm : GetMethodHelper h proxy h.ids.getOwnPropertyDescriptor s with
  | fault => rw [hm] at hM; exact hM.elim
  | throw e s1 => simp [Exec.bind_apply, hm]
  | ok m s1 =>
    rw [hm] at hM
    simp only at hM
    obtain ⟨ht1, hh1⟩ := hSlots s1 hM
    have hOwn1 := hOwn s1 hM
    have forward : Exec.Holds Inv (do
          let r ← (do
            let targetObj ← deref (← readTarget proxy)
            h.GetOwnPropertyDescriptor targetObj K : Exec (State H) _)
          match r with
          | some d => pure (true, d)
          | none => pure (false, propertyDescriptor.SetFromProxy false) :
            Exec (State H) (Bool × PropertyDescriptor))
        (fun r _ => r.1 = true ∧ r.2.IsConfigurable = false) := by
      intro s1 hM
      obtain ⟨ht1, hh1⟩ := hSlots s1 hM
      have hOwn1 := hOwn s1 hM
      cases hd : h.GetOwnPropertyDescriptor targetObj K s1 with
      | fault => rw [hd] at hOwn1; exact hOwn1.elim
      | throw e s2 => simp [Exec.bind_apply, readTarget, ht1, deref, Exec.pure_apply, hd]
      | ok r s2 =>
        rw [hd] at hOwn1
        obtain ⟨_, d, rfl, hc⟩ := hOwn1
        simp [Exec.bind_apply, readTarget, ht1, deref, Exec.pure_apply, hd, hc]
    cases m with
    | none =>
      simpa [Exec.bind_apply, hm, IsHeapEnumInProgress] using forward s1 hM
    | some method =>
      by_cases hHeap : h.IsHeapEnumInProgress s1 = true
      · simpa [Exec.bind_apply, hm, IsHeapEnumInProgress, hHeap] using forward s1 hM
      · have hHeap1 : h.IsHeapEnumInProgress s1 = false := by simpa using hHeap
        have hC := CallTrap_holds h method
          [some handlerObj, some targetObj, some (GetName h K)] Inv hFlags hCall s1 hM
        cases hc : CallTrap h method
            [some handlerObj, some targetObj, some (GetName h K)] s1 with
        | fault => rw [hc] at hC; exact hC.elim
        | throw e s2 =>
          simp [Exec.bind_apply, hm, IsHeapEnumInProgress, hHeap1, IsDisableImplicitCall,
            hEnabled s1 hM, readHandler, readTarget, ht1, hh1, hc]
        | ok getResult s2 =>
          rw [hc] at hC
          simp only at hC
          obtain ⟨ht2, hh2⟩ := hSlots s2 hC
          have hOwn2 := hOwn s2 hC
          by_cases hStatic : StaticType.Is (GetTypeId getResult) = true
              ∧ ¬ GetTypeId getResult = .TypeIds_Undefined
          · simp [Exec.bind_apply, hm, IsHeapEnumInProgress, hHeap1, IsDisableImplicitCall,
              hEnabled s1 hM, readHandler, readTarget, ht1, hh1, hc, hStatic, ThrowTypeError,
              raise]
          · cases hd : h.GetOwnPropertyDescriptor targetObj K s2 with
            | fault => rw [hd] at hOwn2; exact hOwn2.elim
            | throw e s3 =>
              simp [Exec.bind_apply, hm, IsHeapEnumInProgress, hHeap1, IsDisableImplicitCall,
                hEnabled s1 hM, readHandler, readTarget, ht1, hh1, hc, hStatic, ht2, deref,
                Exec.pure_apply, hd]
            | ok r s3 =>
              rw [hd] at hOwn2
              obtain ⟨hInv3, d, rfl, hdc⟩ := hOwn2
              obtain ⟨ht3, hh3⟩ := hSlots s3 hInv3
              by_cases hUndef : GetTypeId getResult = .TypeIds_Undefined
              · simp [Exec.bind_apply, hm, IsHeapEnumInProgress, hHeap1, IsDisableImplicitCall,
                  hEnabled s1 hM, readHandler, readTarget, ht1, hh1, hc, hStatic, ht2, deref,
                  Exec.pure_apply, hd, hUndef, hdc, ThrowTypeError, raise]
              · have hObj : IsObject getResult = true := by
                  cases getResult <;> simp_all [IsObject, IsObjectType, StaticType.Is, GetTypeId]
                have hS : StaticType.Is (GetTypeId getResult) = false := by
                  simpa [IsObject, IsObjectType] using hObj
                have hExt3 := hExt s3 hInv3
                cases he : h.IsExtensible targetObj s3 with
                | fault => rw [he] at hExt3; exact hExt3.elim
                | throw e s4 =>
                  simp [Exec.bind_apply, hm, IsHeapEnumInProgress, hHeap1,
                    IsDisableImplicitCall, hEnabled s1 hM, readHandler, readTarget, ht1, hh1,
                    hc, hS, ht2, deref, Exec.pure_apply, hd, hUndef, ht3, he]
                | ok ext s4 =>
                  rw [he] at hExt3
                  simp only at hExt3
                  have hTo := hToPD getResult hObj s4 hExt3
                  cases hp : h.ToPropertyDescriptor getResult s4 with
                  | fault => rw [hp] at hTo; exact hTo.elim
                  | throw e s5 =>
                    simp [Exec.bind_apply, hm, IsHeapEnumInProgress, hHeap1,
                      IsDisableImplicitCall, hEnabled s1 hM, readHandler, readTarget, ht1, hh1,
                      hc, hS, ht2, deref, Exec.pure_apply, hd, hUndef, ht3, he, hp]
                  | ok rd s5 =>
                    rw [hp] at hTo
                    obtain ⟨_, hSome⟩ := hTo
                    obtain ⟨rd, rfl⟩ := Option.isSome_iff_exists.mp hSome
                    have hCfg := CompletePropertyDescriptor_configurable h rd
                    cases hrc : (CompletePropertyDescriptor h rd).IsConfigurable with
                    | true =>
                      rw [hrc] at hCfg
                      have hIncompat := IsCompatiblePropertyDescriptor_configurable h
                        (CompletePropertyDescriptor h rd) d ext true hdc hCfg
                      simp [Exec.bind_apply, hm, IsHeapEnumInProgress, hHeap1,
                        IsDisableImplicitCall, hEnabled s1 hM, readHandler, readTarget, ht1,
                        hh1, hc, hS, ht2, deref, Exec.pure_apply, hd, hUndef, ht3, he, hp,
                        hIncompat, ThrowTypeError, raise]
                    | false =>
                      cases hCompat : IsCompatiblePropertyDescriptor h
                          (CompletePropertyDescriptor h rd) (some d) ext true
                      swap
                      · simp [Exec.bind_apply, hm, IsHeapEnumInProgress, hHeap1,
                          IsDisableImplicitCall, hEnabled s1 hM, readHandler, readTarget, ht1,
                          hh1, hc, hS, ht2, deref, Exec.pure_apply, hd, hUndef, ht3, he,
                          hp, hCompat, hrc, hdc]
                        simpa [PropertyDescriptor.SetFromProxy,
                          PropertyDescriptor.IsConfigurable] using hrc
                      · simp [Exec.bind_apply, hm, IsHeapEnumInProgress, hHeap1,
                          IsDisableImplicitCall, hEnabled s1 hM, readHandler, readTarget, ht1,
                          hh1, hc, hS, ht2, deref, Exec.pure_apply, hd, hUndef, ht3, he,
                          hp, hCompat, ThrowTypeError, raise]

/-- The frozen `x` example with implicit calls enabled: whatever the Proxy returns for
`x` is present and non-configurable. -/
theorem C8_witness :
    Exec.Holds (Example.Inv Example.heapFrozenX)
      (GetOwnPropertyDescriptor (Example.host true true) 0 20 {})
      (fun r _ => r.1 = true ∧ r.2.IsConfigurable = false) :=
  C8_nonconfigurable_preserved (Example.host true true) 0 20 {}
    (Example.Inv Example.heapFrozenX) (.object 2) (.object 1)
    (fun _ hs => hs.2.1)
    (fun s hs => by simp [hs.2.2])
    (fun _ _ hs => hs)
    (fun _ _ hs => hs)
    (fun _ _ s hs => by
      obtain ⟨h1, h2, h3⟩ := hs
      simp only [Example.host, h1, Example.heapFrozenX]
      exact ⟨h1, h2, h3⟩)
    (fun s hs => by
      obtain ⟨h1, h2, h3⟩ := hs
      simp only [Example.host, h1, Example.heapFrozenX]
      exact ⟨⟨h1, h2, h3⟩, _, rfl, rfl⟩)
    (fun _ hs => hs)
    (fun _ _ _ hs => ⟨hs, rfl⟩)

/-- While the Proxy still holds its target where the code reads the member again after the
trap call: on a non-revoked Proxy with a `getPrototypeOf` trap (implicit calls enabled, no
heap enumeration): a trap result that is neither an object nor null throws TypeError
InconsistentTrapResult; otherwise, with the Proxy still holding its target after the trap
returned and the target's extensibility and prototype read then, a non-extensible target
whose prototype is not `SameValue` to the trap result throws the same error, and in every
remaining case the trap result is returned. So on a non-extensible target every prototype
the Proxy returns is `SameValue` to the target's. -/
theorem GetPrototypeSpecial_checked {H : Type} (h : Host H) (this : Nat)
    (s s1 s2 : State H) (handlerObj method trapResult : Var)
    (hEnabled : s.disableImplicitCall = false)
    (hHandler : (s.proxies this).handler = some handlerObj)
    (hTrap : GetMethodHelper h this h.ids.getPrototypeOf s = .ok (some method) s1)
    (hHeapEnum : h.IsHeapEnumInProgress s1 = false)
    (hCall : CallTrap h method [(s1.proxies this).handler, (s1.proxies this).target] s1
      = .ok trapResult s2) :
    (IsObjectOrNull trapResult = false →
      GetPrototypeSpecial h this s
        = .throw (.typeError .JSERR_InconsistentTrapResult "getPrototypeOf") s2)
    ∧ (IsObjectOrNull trapResult = true →
        ∀ (targetObj : Var) (targetIsExtensible : Bool) (s3 : State H),
          (s2.proxies this).target = some targetObj →
          h.IsExtensible targetObj s2 = .ok targetIsExtensible s3 →
          (targetIsExtensible = false → (s3.proxies this).target = some targetObj) →
          GetPrototypeSpecial h this s =
            (if targetIsExtensible = false
                ∧ h.SameValue trapResult (h.GetPrototype targetObj s3) = false then
              .throw (.typeError .JSERR_InconsistentTrapResult "getPrototypeOf") s3
             else .ok (some trapResult) s3)
          ∧ (targetIsExtensible = false → ∀ r s4,
              GetPrototypeSpecial h this s = .ok r s4 →
                r = some trapResult
                ∧ h.SameValue trapResult (h.GetPrototype targetObj s3) = true)) := by
  have start : GetPrototypeSpecial h this s =
      (if (!IsObjectType (GetTypeId trapResult) && GetTypeId trapResult != .TypeIds_Null) then
          ThrowTypeError .JSERR_InconsistentTrapResult "getPrototypeOf"
        else do
          let targetObj ← deref (← readTarget this)
          let extensible ← h.IsExtensible targetObj
          if !extensible then
            let targetObj ← deref (← readTarget this)
            let s ← getState
            if !h.SameValue trapResult (h.GetPrototype targetObj s) then
              ThrowTypeError .JSERR_InconsistentTrapResult "getPrototypeOf"
            else pure (some trapResult)
          else pure (some trapResult)) s2 := by
    unfold GetPrototypeSpecial
    simp [Exec.bind_apply, IsDisableImplicitCall, hEnabled, revokedGuard, readHandler,
      hHandler, readTarget, hTrap, IsHeapEnumInProgress, hHeapEnum, hCall, Exec.pure_apply]
  constructor
  · intro hType
    rw [start]
    have : (!IsObjectType (GetTypeId trapResult) && GetTypeId trapResult != .TypeIds_Null)
        = true := by
      simpa [IsObjectOrNull, IsObject] using hType
    simp [this, ThrowTypeError, raise]
  · intro hType targetObj targetIsExtensible s3 hTarget2 hExt hTarget3
    have hNot : (!IsObjectType (GetTypeId trapResult) && GetTypeId trapResult != .TypeIds_Null)
        = false := by
      cases hT : IsObjectType (GetTypeId trapResult) <;>
        simp_all [IsObjectOrNull, IsObject]
    have key : GetPrototypeSpecial h this s =
        (if targetIsExtensible = false
            ∧ h.SameValue trapResult (h.GetPrototype targetObj s3) = false then
          .throw (.typeError .JSERR_InconsistentTrapResult "getPrototypeOf") s3
         else .ok (some trapResult) s3) := by
      rw [start]
      simp only [hNot]
      simp [Exec.bind_apply, readTarget, hTarget2, deref, Exec.pure_apply, hExt, getState]
      cases targetIsExtensible with
      | true => simp [Exec.pure_apply]
      | false =>
        have hT3 := hTarget3 rfl
        cases hsv : h.SameValue trapResult (h.GetPrototype targetObj s3) <;>
          simp [ThrowTypeError, raise, Exec.pure_apply, Exec.bind_apply, readTarget, hT3,
            deref, getState, hsv]
    refine ⟨key, ?_⟩
    intro hFalse r s4 hRet
    rw [key, hFalse] at hRet
    cases hsv : h.SameValue trapResult (h.GetPrototype targetObj s3) <;>
      simp [hsv] at hRet
    exact ⟨hRet.1.symm, rfl⟩

/-- The non-extensible example target with prototype null behind a `getPrototypeOf`
trap that answers another object: the Proxy throws. -/
theorem GetPrototypeSpecial_checked_example :
    (IsObjectOrNull (.object 9) = false →
      GetPrototypeSpecial (Example.host true true) 0
          (Example.state Example.heapSealedProto false false none)
        = .throw (.typeError .JSERR_InconsistentTrapResult "getPrototypeOf")
            { Example.state Example.heapSealedProto false false none with
              implicitCallFlags := 5 })
    ∧ (IsObjectOrNull (.object 9) = true →
        ∀ (targetObj : Var) (targetIsExtensible : Bool) (s3 : State Example.Heap),
          (({ Example.state Example.heapSealedProto false false none with
              implicitCallFlags := 5 } : State Example.Heap).proxies 0).target
            = some targetObj →
          (Example.host true true).IsExtensible targetObj
            { Example.state Example.heapSealedProto false false none with
              implicitCallFlags := 5 } = .ok targetIsExtensible s3 →
          (targetIsExtensible = false → (s3.proxies 0).target = some targetObj) →
          GetPrototypeSpecial (Example.host true true) 0
              (Example.state Example.heapSealedProto false false none) =
            (if targetIsExtensible = false
                ∧ (Example.host true true).SameValue (.object 9)
                    ((Example.host true true).GetPrototype targetObj s3) = false then
              .throw (.typeError .JSERR_InconsistentTrapResult "getPrototypeOf") s3
             else .ok (some (.object 9)) s3)
          ∧ (targetIsExtensible = false → ∀ r s4,
              GetPrototypeSpecial (Example.host true true) 0
                  (Example.state Example.heapSealedProto false false none) = .ok r s4 →
                r = some (.object 9)
                ∧ (Example.host true true).SameValue (.object 9)
                    ((Example.host true true).GetPrototype targetObj s3) = true)) :=
  GetPrototypeSpecial_checked (Example.host true true) 0
    (Example.state Example.heapSealedProto false false none)
    (Example.state Example.heapSealedProto false false none)
    { Example.state Example.heapSealedProto false false none with implicitCallFlags := 5 }
    (.object 2) (.function 100) (.object 9) rfl rfl rfl rfl rfl

/-- C9 (the code at the failing input): a non-revoked Proxy over a non-extensible target
with prototype null, behind a `getPrototypeOf` trap that revokes the Proxy and answers
null.  The claim names the return of the trap result, which is what the same call yields
when the trap does not revoke; `GetPrototypeSpecial` reads the member `target` again after
the trap returned (line 1418) and dereferences the null pointer: it neither returns nor
throws. -/
theorem C9_getPrototypeOf_faults_when_trap_revokes :
    GetPrototypeSpecial (Example.host true true) 0
        (Example.state { Example.heapSealedProto with trapValue := .null, trapRevokes := true }
          false false none) = .fault
    ∧ GetPrototypeSpecial (Example.host true true) 0
        (Example.state { Example.heapSealedProto with trapValue := .null } false false none)
      = .ok (some .null)
          { Example.state { Example.heapSealedProto with trapValue := .null }
              false false none with implicitCallFlags := 5 } :=
  ⟨rfl, rfl⟩

/-- C10 (the code at the failing input): the example Proxy has no `setPrototypeOf`
trap, its target is non-extensible with prototype null, and `SetPrototypeTrap` is
asked, with shouldThrow clear, to set the object at address 9 as the prototype: the
target refuses (`ChangePrototype` answers FALSE and the prototype stays null) and
`SetPrototypeTrap` returns TRUE all the same. -/
theorem C10_setPrototype_true_on_refused_change :
    SetPrototypeTrap (Example.host false true) 0 (.object 9) false
        (Example.state Example.heapSealedProto false false none)
      = .ok true (Example.state Example.heapSealedProto false false none)
    ∧ (Example.host false true).ChangePrototype (.object 1) (.object 9) false
        (Example.state Example.heapSealedProto false false none)
      = .ok false (Example.state Example.heapSealedProto false false none)
    ∧ (Example.host false true).IsExtensible (.object 1)
        (Example.state Example.heapSealedProto false false none)
      = .ok false (Example.state Example.heapSealedProto false false none)
    ∧ (Example.host false true).SameValue (.object 9)
        ((Example.host false true).GetPrototype (.object 1)
          (Example.state Example.heapSealedProto false false none)) = false :=
  ⟨SetPrototypeTrap_trap_absent (Example.host false true) 0 (.object 9)
      (Example.state Example.heapSealedProto false false none)
      (Example.state Example.heapSealedProto false false none)
      (Example.state Example.heapSealedProto false false none)
      (.object 1) false rfl rfl rfl rfl, rfl, rfl, rfl⟩

/-- C11: a Proxy invoked through `FunctionCallTrap` whose target is callable and whose
handler has the trap for the invocation (`construct` with `CallFlags_New`, `apply`
without), with `argList` the array built from the arguments: on a construct invocation
a trap result that is not an object throws TypeError InconsistentTrapResult("construct")
and an object is returned as it is; on an apply invocation the trap result is returned
as it is, whatever it is. -/
theorem C11_construct_result_checked {H : Type} (h : Host H) (proxy : Nat)
    (callInfo : CallInfo) (values : List (Option Var))
    (s s1 s2 s3 : State H) (targetObj method argList trapResult : Var)
    (hTarget : (s1.proxies proxy).target = some targetObj)
    (hCallable : h.IsCallable targetObj s1 = true)
    (hArgs : h.CreateArray ((values.take callInfo.Count).drop 1) s1 = .ok argList s2) :
    (callInfo.CallFlags_New = true →
      GetMethodHelper h proxy h.ids.construct s = .ok (some method) s1 →
      h.CallFunction method
        [(s2.proxies proxy).handler, (s2.proxies proxy).target, some argList,
          if callInfo.CallFlags_NewTarget = true then (values.get? callInfo.Count).join
          else if (match (values.get? 0).join with
                   | some v => RecyclableObject.Is v
                   | none => false) = true then (values.get? 0).join
          else some (.proxy proxy)] s2 = .ok trapResult s3 →
      FunctionCallTrap h (.proxy proxy) callInfo values s =
        (if IsObject trapResult = true then .ok trapResult s3
         else .throw (.typeError .JSERR_InconsistentTrapResult "construct") s3))
    ∧ (callInfo.CallFlags_New = false →
        GetMethodHelper h proxy h.ids.apply s = .ok (some method) s1 →
        h.CallFunction method
          [(s2.proxies proxy).handler, (s2.proxies proxy).target, (values.get? 0).join,
            some argList] s2 = .ok trapResult s3 →
        FunctionCallTrap h (.proxy proxy) callInfo values s = .ok trapResult s3) := by
  constructor
  · intro hNew hTrap hCall
    unfold FunctionCallTrap
    simp only [hNew, ↓reduceIte, Exec.bind_apply, hTrap, readTarget, hTarget, deref,
      Exec.pure_apply, getState, hCallable, Bool.not_true, Bool.false_eq_true, hArgs,
      readHandler, Bool.true_and]
    cases hNT : callInfo.CallFlags_NewTarget
    · simp only [hNT, Bool.false_eq_true, ↓reduceIte] at hCall ⊢
      cases hS : (match (values.get? 0).join with
                  | some v => RecyclableObject.Is v
                  | none => false)
      · simp only [hS, Bool.false_eq_true, ↓reduceIte] at hCall ⊢
        rw [hCall]
        cases hO : IsObject trapResult <;> simp [hO, ThrowTypeError, raise, Exec.pure_apply]
      · simp only [hS, ↓reduceIte] at hCall ⊢
        rw [hCall]
        cases hO : IsObject trapResult <;> simp [hO, ThrowTypeError, raise, Exec.pure_apply]
    · simp only [hNT, ↓reduceIte] at hCall ⊢
      rw [hCall]
      cases hO : IsObject trapResult <;> simp [hO, ThrowTypeError, raise, Exec.pure_apply]
  · intro hNew hTrap hCall
    unfold FunctionCallTrap
    simp only [hNew, Bool.false_eq_true, ↓reduceIte, Exec.bind_apply, hTrap, readTarget,
      hTarget, deref, Exec.pure_apply, getState, hCallable, Bool.not_true, hArgs,
      readHandler, hCall, Bool.false_and]

/-- The callable example Proxy constructed through a `construct` trap that answers the
number 2: the call throws. -/
theorem C11_witness :
    FunctionCallTrap (Example.host true true) (.proxy 0) ⟨true, false, false, false, 1⟩ [none]
        (Example.stateCallableProxy Example.heapFrozenX)
      = .throw (.typeError .JSERR_InconsistentTrapResult "construct")
          (Example.stateCallableProxy Example.heapFrozenX) :=
  (C11_construct_result_checked (Example.host true true) 0 ⟨true, false, false, false, 1⟩ [none]
    (Example.stateCallableProxy Example.heapFrozenX)
    (Example.stateCallableProxy Example.heapFrozenX)
    (Example.stateCallableProxy Example.heapFrozenX)
    (Example.stateCallableProxy Example.heapFrozenX)
    (.function 100) (.function 100) (.object 6) (.number 2) rfl rfl rfl).1 rfl rfl rfl

/-- C12: `Create` on a call with `callInfo.Count` argument values (the implicit `this`
included): with fewer than 2 explicit arguments it throws TypeError NeedProxyArgument;
when the target argument is not an object, or is a Proxy whose `target` slot is null,
it throws TypeError InvalidProxyArgument("target"); otherwise, when the handler
argument is not an object, or is a Proxy whose `handler` slot is null, it throws
TypeError InvalidProxyArgument("handler"); otherwise it allocates a Proxy whose handler
and target slots are exactly the two arguments (both non-null) and whose entry point is
`FunctionCallTrap` exactly when the target is callable, and returns it, directly, or
through `OrdinaryCreateFromConstructor` on a super-constructor call. -/
theorem C12_create_validates {H : Type} (h : Host H) (callInfo : CallInfo)
    (values : List (Option Var)) (s : State H) :
    (callInfo.Count < 3 →
      Create h callInfo values s = .throw (.typeError .JSERR_NeedProxyArgument "") s)
    ∧ (3 ≤ callInfo.Count → ∀ target, (values.get? 1).join = some target →
        ((IsObject target = false
            ∨ ∃ addr, target = .proxy addr ∧ (s.proxies addr).target = none) →
          Create h callInfo values s
            = .throw (.typeError .JSERR_InvalidProxyArgument "target") s)
        ∧ (IsObject target = true →
            (∀ addr, target = .proxy addr → (s.proxies addr).target ≠ none) →
            ∀ handler, (values.get? 2).join = some handler →
              ((IsObject handler = false
                  ∨ ∃ addr, handler = .proxy addr ∧ (s.proxies addr).handler = none) →
                Create h callInfo values s
                  = .throw (.typeError .JSERR_InvalidProxyArgument "handler") s)
              ∧ (IsObject handler = true →
                  (∀ addr, handler = .proxy addr → (s.proxies addr).handler ≠ none) →
                  ∀ (s1 s2 : State H),
                    s1 = { s with
                      proxies := Function.update s.proxies (h.RecyclerNew s)
                        ⟨some handler, some target⟩
                      hasFunctionCallTrap :=
                        Function.update s.hasFunctionCallTrap (h.RecyclerNew s) false } →
                    s2 = { s1 with
                      hasFunctionCallTrap :=
                        Function.update s.hasFunctionCallTrap (h.RecyclerNew s)
                          (h.IsCallable target s1) } →
                    (s2.proxies (h.RecyclerNew s)).target = some target
                    ∧ (s2.proxies (h.RecyclerNew s)).handler = some handler
                    ∧ s2.hasFunctionCallTrap (h.RecyclerNew s) = h.IsCallable target s1
                    ∧ ((callInfo.CallFlags_New
                          && (match (if callInfo.CallFlags_NewTarget = true then
                                      (values.get? callInfo.Count).join
                                    else (values.get? 0).join) with
                              | some v => !IsUndefined v
                              | none => false)) = false →
                        Create h callInfo values s = .ok (.proxy (h.RecyclerNew s)) s2)
                    ∧ (callInfo.CallFlags_New = true →
                        ∀ newTarget,
                          (if callInfo.CallFlags_NewTarget = true then
                            (values.get? callInfo.Count).join
                           else (values.get? 0).join) = some newTarget →
                          IsUndefined newTarget = false →
                          Create h callInfo values s
                            = h.OrdinaryCreateFromConstructor newTarget
                                (.proxy (h.RecyclerNew s)) s2)))) := by
  have hCheck : ∀ t : Var, (∀ addr, t = .proxy addr → (s.proxies addr).target ≠ none) →
      (match t with
        | .proxy addr => (do
          let slot ← readTarget addr
          if slot.isNone then ThrowTypeError .JSERR_InvalidProxyArgument "target"
          else pure ())
        | _ => pure () : Exec (State H) Unit) s = .ok () s := by
    intro t ht
    cases t with
    | proxy addr =>
      have := ht addr rfl
      cases hs : (s.proxies addr).target with
      | none => exact absurd hs this
      | some t => simp [Exec.bind_apply, readTarget, hs, Exec.pure_apply]
    | _ => rfl
  have hHCheck : ∀ t : Var, (∀ addr, t = .proxy addr → (s.proxies addr).handler ≠ none) →
      (match t with
        | .proxy addr => (do
          let slot ← readHandler addr
          if slot.isNone then ThrowTypeError .JSERR_InvalidProxyArgument "handler"
          else pure ())
        | _ => pure () : Exec (State H) Unit) s = .ok () s := by
    intro t ht
    cases t with
    | proxy addr =>
      have := ht addr rfl
      cases hs : (s.proxies addr).handler with
      | none => exact absurd hs this
      | some t => simp [Exec.bind_apply, readHandler, hs, Exec.pure_apply]
    | _ => rfl
  constructor
  · intro hCount
    unfold Create
    simp [hCount, ThrowTypeError, raise]
  · intro hCount target hArg1
    have hNot : ¬ callInfo.Count < 3 := by omega
    constructor
    · intro hBad
      unfold Create
      rcases hBad with hObj | ⟨addr, rfl, hSlot⟩
      · have hObj2 : IsObjectType (GetTypeId target) = false := hObj
        simp only [hArg1]
        simp [hNot, Exec.bind_apply, deref, Exec.pure_apply, hObj2, ThrowTypeError, raise]
      · simp only [hArg1]
        simp [hNot, Exec.bind_apply, deref, Exec.pure_apply, GetTypeId, IsObjectType,
          StaticType.Is, readTarget, hSlot, ThrowTypeError, raise]
    · intro hObj hLive handler hArg2
      have hObj2 : IsObjectType (GetTypeId target) = true := hObj
      constructor
      · intro hBad
        unfold Create
        rcases hBad with hHObj | ⟨addr, rfl, hSlot⟩
        · have hHObj2 : IsObjectType (GetTypeId handler) = false := hHObj
          simp only [hNot, ↓reduceIte, Exec.bind_apply, hArg1, deref, Exec.pure_apply, hObj2,
            Bool.not_true, Bool.false_eq_true, hCheck target hLive, hArg2, hHObj2,
            Bool.not_false]
          rfl
        · simp only [hNot, ↓reduceIte, Exec.bind_apply, hArg1, deref, Exec.pure_apply, hObj2,
            Bool.not_true, Bool.false_eq_true, hCheck target hLive, hArg2]
          simp [GetTypeId, IsObjectType, StaticType.Is, Exec.bind_apply, readHandler, hSlot,
            ThrowTypeError, raise]
      · intro hHObj hHLive s1 s2 hs1 hs2
        have hHObj2 : IsObjectType (GetTypeId handler) = true := hHObj
        subst hs1
        subst hs2
        refine ⟨by simp, by simp, by simp, ?_, ?_⟩
        · intro hSuper
          unfold Create
          simp only [hNot, ↓reduceIte, Exec.bind_apply, hArg1, deref, Exec.pure_apply, hObj2,
            Bool.not_true, Bool.false_eq_true, hCheck target hLive, hArg2, hHObj2,
            hHCheck handler hHLive, getState, JavascriptProxy.construct, hSuper]
          cases hc : h.IsCallable target
              { s with
                proxies := Function.update s.proxies (h.RecyclerNew s) ⟨some handler, some target⟩
                hasFunctionCallTrap :=
                  Function.update s.hasFunctionCallTrap (h.RecyclerNew s) false }
          · simp [Exec.bind_apply, Exec.pure_apply, hc]
          · simp [Exec.bind_apply, Exec.pure_apply, SetEntryPointFunctionCallTrap, hc]
        · intro hNew newTarget hNT hUndef
          have hSuper : (callInfo.CallFlags_New
              && (match (if callInfo.CallFlags_NewTarget = true then
                          (values.get? callInfo.Count).join
                        else (values.get? 0).join) with
                  | some v => !IsUndefined v
                  | none => false)) = true := by
            simp only [hNew, hNT, hUndef, Bool.not_false, Bool.and_self]
          unfold Create
          simp only [hNot, ↓reduceIte, Exec.bind_apply, hArg1, deref, Exec.pure_apply, hObj2,
            Bool.not_true, Bool.false_eq_true, hCheck target hLive, hArg2, hHObj2,
            hHCheck handler hHLive, getState, JavascriptProxy.construct, hSuper, hNT]
          cases hc : h.IsCallable target
              { s with
                proxies := Function.update s.proxies (h.RecyclerNew s) ⟨some handler, some target⟩
                hasFunctionCallTrap :=
                  Function.update s.hasFunctionCallTrap (h.RecyclerNew s) false }
          · simp [Exec.bind_apply, Exec.pure_apply, hc, hNew, hUndef]
          · simp [Exec.bind_apply, Exec.pure_apply, SetEntryPointFunctionCallTrap, hc, hNew,
              hUndef]

/-- A Proxy made from the script function at address 100 and the handler at address 2:
the slots of the new Proxy, at address 8, are the two arguments. -/
theorem C12_witness :
    Create (Example.host true true) ⟨true, false, false, false, 3⟩
        [none, some (.function 100), some (.object 2)]
        (Example.state Example.heapFrozenX true false none)
      = .ok (.proxy 8)
          { Example.state Example.heapFrozenX true false none with
            proxies := Function.update (Example.state Example.heapFrozenX true false none).proxies
              8 ⟨some (.object 2), some (.function 100)⟩
            hasFunctionCallTrap := Function.update
              (Example.state Example.heapFrozenX true false none).hasFunctionCallTrap 8 true } :=
  ((((C12_create_validates (Example.host true true) ⟨true, false, false, false, 3⟩
      [none, some (.function 100), some (.object 2)]
      (Example.state Example.heapFrozenX true false none)).2 (by decide) (.function 100) rfl).2
        rfl (fun _ hp => nomatch hp) (.object 2) rfl).2 rfl (fun _ hp => nomatch hp) _ _ rfl
          rfl).2.2.2.1 rfl

/-- What `GetTypeOfString` answers on a Proxy that holds a handler and a target: the
function string exactly when the target is a `JavascriptFunction`. -/
theorem GetTypeOfString_live {H : Type} (this : Nat) (s : State H) (handlerObj targetObj : Var)
    (hHandler : (s.proxies this).handler = some handlerObj)
    (hTarget : (s.proxies this).target = some targetObj) :
    GetTypeOfString this s =
      .ok (if JavascriptFunction.Is targetObj = true then GetFunctionTypeDisplayString
           else GetObjectTypeDisplayString) s := by
  unfold GetTypeOfString
  cases hF : JavascriptFunction.Is targetObj <;>
    simp [Exec.bind_apply, readHandler, hHandler, readTarget, hTarget, deref, Exec.pure_apply,
      hF]

/-- What `GetTypeOfString` answers on a revoked Proxy: the object string. -/
theorem GetTypeOfString_revoked {H : Type} (this : Nat) (s : State H)
    (hHandler : (s.proxies this).handler = none) :
    GetTypeOfString this s = .ok GetObjectTypeDisplayString s := by
  unfold GetTypeOfString
  simp [Exec.bind_apply, readHandler, hHandler, Exec.pure_apply]

/-- C13 (the code at the failing input): in the example state the Proxy at address 0
wraps a script function and is callable.  `Create` with that Proxy as the target and
the object at address 2 as the handler makes the Proxy at address 8 and, the target
being callable, installs `FunctionCallTrap` as its entry point, so the new Proxy is
callable; it is not revoked; and `GetTypeOfString` on it answers "object", because its
target is a Proxy and not a `JavascriptFunction`. -/
theorem C13_typeof_callable_proxy_target :
    (Example.host true true).IsCallable (.proxy 0)
        (Example.stateCallableProxy Example.heapTruthyTrap) = true
    ∧ Create (Example.host true true) ⟨true, false, false, false, 3⟩
        [none, some (.proxy 0), some (.object 2)]
        (Example.stateCallableProxy Example.heapTruthyTrap)
      = .ok (.proxy 8) (Example.stateNestedProxy Example.heapTruthyTrap)
    ∧ (Example.stateNestedProxy Example.heapTruthyTrap).proxies 8
      = ⟨some (.object 2), some (.proxy 0)⟩
    ∧ (Example.stateNestedProxy Example.heapTruthyTrap).hasFunctionCallTrap 8 = true
    ∧ (Example.host true true).IsCallable (.proxy 8)
        (Example.stateNestedProxy Example.heapTruthyTrap) = true
    ∧ GetTypeOfString 8 (Example.stateNestedProxy Example.heapTruthyTrap)
      = .ok (.string "object") (Example.stateNestedProxy Example.heapTruthyTrap) :=
  ⟨rfl, rfl, rfl, rfl, rfl, rfl⟩

/-- C14: on a non-revoked Proxy with implicit calls enabled, for every value, `Equals`
and `StrictEquals` return TRUE and store in `*value` whether the value is the Proxy
itself; they leave the state as it is and give the same answer for every host, so no
trap is resolved or called; the Proxy compared with itself gives true, and with its own
target (another object) false. -/
theorem C14_equals_is_identity {H : Type} (h : Host H) (this : Nat) (other : Var)
    (s : State H) (targetObj : Var)
    (hEnabled : s.disableImplicitCall = false)
    (hTarget : (s.proxies this).target = some targetObj) :
    Equals h this other s = .ok (true, decide (other = .proxy this)) s
    ∧ StrictEquals h this other s = .ok (true, decide (other = .proxy this)) s
    ∧ (∀ h2 : Host H, Equals h2 this other s = Equals h this other s
        ∧ StrictEquals h2 this other s = StrictEquals h this other s)
    ∧ Equals h this (.proxy this) s = .ok (true, true) s
    ∧ StrictEquals h this (.proxy this) s = .ok (true, true) s
    ∧ (targetObj ≠ .proxy this →
        Equals h this targetObj s = .ok (true, false) s
        ∧ StrictEquals h this targetObj s = .ok (true, false) s) := by
  have key : ∀ (h2 : Host H) (v : Var),
      Equals h2 this v s = .ok (true, decide (v = .proxy this)) s
      ∧ StrictEquals h2 this v s = .ok (true, decide (v = .proxy this)) s := by
    intro h2 v
    constructor <;>
      simp [Equals, StrictEquals, Exec.bind_apply, readTarget, hTarget, IsDisableImplicitCall,
        hEnabled, Exec.pure_apply]
  refine ⟨(key h other).1, (key h other).2, ?_, ?_, ?_, ?_⟩
  · intro h2
    rw [(key h2 other).1, (key h other).1, (key h2 other).2, (key h other).2]
    exact ⟨rfl, rfl⟩
  · simpa using (key h (.proxy this)).1
  · simpa using (key h (.proxy this)).2
  · intro hne
    have h1 := (key h targetObj).1
    have h2 := (key h targetObj).2
    simp only [hne, decide_False] at h1 h2
    exact ⟨h1, h2⟩

/-- The example Proxy compared with its target, the object at address 1. -/
theorem C14_witness :
    Equals (Example.host true true) 0 (.object 1)
        (Example.state Example.heapFrozenX false false none)
      = .ok (true, false) (Example.state Example.heapFrozenX false false none)
    ∧ StrictEquals (Example.host true true) 0 (.proxy 0)
        (Example.state Example.heapFrozenX false false none)
      = .ok (true, true) (Example.state Example.heapFrozenX false false none) :=
  ⟨((C14_equals_is_identity (Example.host true true) 0 (.object 1)
      (Example.state Example.heapFrozenX false false none) (.object 1) rfl rfl).2.2.2.2.2
        (by decide)).1,
   (C14_equals_is_identity (Example.host true true) 0 (.object 1)
      (Example.state Example.heapFrozenX false false none) (.object 1) rfl rfl).2.2.2.2.1⟩

/-- While the Proxy still holds its target where the code reads the member again after the
trap call: on a non-revoked Proxy with a `preventExtensions` trap (implicit calls
enabled), `PreventExtensions` returns FALSE when ToBoolean of the trap result is false;
when it is true, with the target's extensibility read after the trap returned (the Proxy
still holds its target), it throws TypeError InconsistentTrapResult("preventExtensions")
if the target is still extensible and returns TRUE otherwise. -/
theorem PreventExtensions_checked {H : Type} (h : Host H) (this : Nat)
    (s s1 s2 : State H) (handlerObj method trapResult : Var)
    (hEnabled : s.disableImplicitCall = false)
    (hHandler : (s.proxies this).handler = some handlerObj)
    (hTrap : GetMethodHelper h this h.ids.preventExtensions s = .ok (some method) s1)
    (hCall : CallTrap h method [(s1.proxies this).handler, (s1.proxies this).target] s1
      = .ok trapResult s2) :
    (h.ToBoolean trapResult = false → PreventExtensions h this s = .ok false s2)
    ∧ (h.ToBoolean trapResult = true →
        ∀ (targetObj : Var) (targetIsExtensible : Bool) (s3 : State H),
          (s2.proxies this).target = some targetObj →
          h.IsExtensible targetObj s2 = .ok targetIsExtensible s3 →
          PreventExtensions h this s =
            (if targetIsExtensible = true then
              .throw (.typeError .JSERR_InconsistentTrapResult "preventExtensions") s3
             else .ok (h.ToBoolean trapResult) s3)) := by
  constructor
  · intro hFalse
    unfold PreventExtensions
    simp [Exec.bind_apply, IsDisableImplicitCall, hEnabled, revokedGuard, readHandler,
      hHandler, readTarget, hTrap, hCall, Exec.pure_apply, hFalse]
  · intro hTrue targetObj targetIsExtensible s3 hTarget hExt
    unfold PreventExtensions
    simp [Exec.bind_apply, IsDisableImplicitCall, hEnabled, revokedGuard, readHandler,
      hHandler, readTarget, hTrap, hCall, Exec.pure_apply, hTrue, hTarget, deref, hExt]
    cases targetIsExtensible <;> simp [ThrowTypeError, raise, Exec.pure_apply]

/-- The extensible example target behind a `preventExtensions` trap that answers true
without making the target non-extensible: the Proxy throws. -/
theorem PreventExtensions_checked_example :
    PreventExtensions (Example.host true true) 0
        (Example.state Example.heapTruthyTrap false false none)
      = .throw (.typeError .JSERR_InconsistentTrapResult "preventExtensions")
          { Example.state Example.heapTruthyTrap false false none with
            implicitCallFlags := 5 } :=
  (PreventExtensions_checked (Example.host true true) 0
    (Example.state Example.heapTruthyTrap false false none)
    (Example.state Example.heapTruthyTrap false false none)
    { Example.state Example.heapTruthyTrap false false none with
      implicitCallFlags := 5 }
    (.object 2) (.function 100) (.bool true) rfl rfl rfl rfl).2 rfl (.object 1) true
    { Example.state Example.heapTruthyTrap false false none with
      implicitCallFlags := 5 } rfl rfl

/-- C16 (the code at the failing input): a non-revoked Proxy over a non-extensible target,
behind a `preventExtensions` trap that revokes the Proxy and answers true.  The claim
names the return of TRUE, which is what the same call yields when the trap does not
revoke; `PreventExtensions` reads the member `target` again after the trap returned (line
1169) and dereferences the null pointer: it neither returns nor throws. -/
theorem C16_preventExtensions_faults_when_trap_revokes :
    PreventExtensions (Example.host true true) 0
        (Example.state { Example.heapFrozenX with trapValue := .bool true, trapRevokes := true }
          false false none) = .fault
    ∧ PreventExtensions (Example.host true true) 0
        (Example.state { Example.heapFrozenX with trapValue := .bool true } false false none)
      = .ok true
          { Example.state { Example.heapFrozenX with trapValue := .bool true }
              false false none with implicitCallFlags := 5 } :=
  ⟨rfl, rfl⟩

/-- While the Proxy still holds its target where the code reads the member again after the
trap call: on a non-revoked Proxy with a `has` trap (implicit calls enabled, no heap
enumeration), for every property: `HasPropertyTrap` returns TRUE when ToBoolean of the
trap result is true; when it is false, with the target's descriptor and extensibility read
after the trap returned (the Proxy still holds its target), it throws TypeError
InconsistentTrapResult("has") if the target owns the property and the descriptor is
non-configurable or the target is non-extensible, and returns FALSE in every other case.
-/
theorem HasPropertyTrap_checked {H : Type} (h : Host H) (this : Nat)
    (fn : Var → Exec (State H) Bool) (getPropertyId : Unit → PropertyId)
    (s s1 s2 : State H) (handlerObj method trapResult : Var)
    (hEnabled : s.disableImplicitCall = false)
    (hHandler : (s.proxies this).handler = some handlerObj)
    (hTrap : GetMethodHelper h this h.ids.has s = .ok (some method) s1)
    (hHeapEnum : h.IsHeapEnumInProgress s1 = false)
    (hCall : CallTrap h method [(s1.proxies this).handler, (s1.proxies this).target,
      some (GetName h (getPropertyId ()))] s1 = .ok trapResult s2) :
    (h.ToBoolean trapResult = true →
      HasPropertyTrap h this fn getPropertyId s = .ok (h.ToBoolean trapResult) s2)
    ∧ (h.ToBoolean trapResult = false →
        ∀ (targetObj : Var) (targetDesc : Option PropertyDescriptor) (s3 : State H),
          (s2.proxies this).target = some targetObj →
          h.GetOwnPropertyDescriptor targetObj (getPropertyId ()) s2 = .ok targetDesc s3 →
          (targetDesc = none →
            HasPropertyTrap h this fn getPropertyId s = .ok (h.ToBoolean trapResult) s3)
          ∧ (∀ d, targetDesc = some d → d.IsConfigurable = false →
              HasPropertyTrap h this fn getPropertyId s
                = .throw (.typeError .JSERR_InconsistentTrapResult "has") s3)
          ∧ (∀ d, targetDesc = some d → d.IsConfigurable = true →
              ∀ (extensible : Bool) (s4 : State H),
                (s3.proxies this).target = some targetObj →
                h.IsExtensible targetObj s3 = .ok extensible s4 →
                HasPropertyTrap h this fn getPropertyId s =
                  (if extensible = false then
                    .throw (.typeError .JSERR_InconsistentTrapResult "has") s4
                   else .ok (h.ToBoolean trapResult) s4))) := by
  constructor
  · intro hTrue
    unfold HasPropertyTrap
    simp [Exec.bind_apply, IsDisableImplicitCall, hEnabled, revokedGuard, readHandler,
      hHandler, readTarget, hTrap, IsHeapEnumInProgress, hHeapEnum, hCall, Exec.pure_apply,
      hTrue]
  · intro hFalse targetObj targetDesc s3 hTarget hDesc
    refine ⟨?_, ?_, ?_⟩
    · intro hNone
      subst hNone
      unfold HasPropertyTrap
      simp [Exec.bind_apply, IsDisableImplicitCall, hEnabled, revokedGuard, readHandler,
        hHandler, readTarget, hTrap, IsHeapEnumInProgress, hHeapEnum, hCall, Exec.pure_apply,
        hFalse, hTarget, deref, hDesc]
    · intro d hSome hConf
      subst hSome
      unfold HasPropertyTrap
      simp [Exec.bind_apply, IsDisableImplicitCall, hEnabled, revokedGuard, readHandler,
        hHandler, readTarget, hTrap, IsHeapEnumInProgress, hHeapEnum, hCall, Exec.pure_apply,
        hFalse, hTarget, deref, hDesc, hConf, ThrowTypeError, raise]
    · intro d hSome hConf extensible s4 hTarget3 hExt
      subst hSome
      unfold HasPropertyTrap
      simp [Exec.bind_apply, IsDisableImplicitCall, hEnabled, revokedGuard, readHandler,
        hHandler, readTarget, hTrap, IsHeapEnumInProgress, hHeapEnum, hCall, Exec.pure_apply,
        hFalse, hTarget, deref, hDesc, hConf, hTarget3, hExt]
      cases extensible <;> simp [ThrowTypeError, raise, Exec.pure_apply]

/-- The frozen `x` example behind a `has` trap that answers false: the Proxy throws. -/
theorem HasPropertyTrap_checked_example :
    HasPropertyTrap (Example.host true true) 0 (fun _ s => .ok true s) (fun _ => 20)
        (Example.state Example.heapFrozenXDenied false false none)
      = .throw (.typeError .JSERR_InconsistentTrapResult "has")
          { Example.state Example.heapFrozenXDenied false false none with
            implicitCallFlags := 5 } :=
  ((HasPropertyTrap_checked (Example.host true true) 0 (fun _ s => .ok true s) (fun _ => 20)
    (Example.state Example.heapFrozenXDenied false false none)
    (Example.state Example.heapFrozenXDenied false false none)
    { Example.state Example.heapFrozenXDenied false false none with implicitCallFlags := 5 }
    (.object 2) (.function 100) (.bool false) rfl rfl rfl rfl rfl).2 rfl (.object 1)
    (some { Value := some (.number 1), Writable := some false,
            Enumerable := some true, Configurable := some false })
    { Example.state Example.heapFrozenXDenied false false none with implicitCallFlags := 5 }
    rfl rfl).2.1 _ rfl rfl

/-- C17 (the code at the failing input): a non-revoked Proxy over an extensible target
that does not own `x`, behind a `has` trap that revokes the Proxy and answers false.  The
claim names the return of FALSE, which is what the same call yields when the trap does not
revoke; `HasPropertyTrap` reads the member `target` again after the trap returned (line
440) and dereferences the null pointer: it neither returns nor throws. -/
theorem C17_has_faults_when_trap_revokes :
    HasPropertyTrap (Example.host true true) 0 (fun _ s => .ok false s) (fun _ => 20)
        (Example.state { Example.heapRevokingTrap with trapValue := .bool false }
          false false none) = .fault
    ∧ HasPropertyTrap (Example.host true true) 0 (fun _ s => .ok false s) (fun _ => 20)
        (Example.state { Example.heapTruthyTrap with trapValue := .bool false }
          false false none)
      = .ok false
          { Example.state { Example.heapTruthyTrap with trapValue := .bool false }
              false false none with implicitCallFlags := 5 } :=
  ⟨rfl, rfl⟩

/-- While the Proxy still holds its target where the code reads the member again after the
trap call: on a non-revoked Proxy with a `set` trap (implicit calls enabled), for every
property, value, receiver and kind of set: `SetPropertyTrap` returns FALSE when ToBoolean
of the trap result is false; when it is true, with the target's descriptor read after the
trap returned (the Proxy still holds its target), it throws TypeError
InconsistentTrapResult("set") if the descriptor carries a value, has configurable=false
and writable=false and the value is not `SameValue` to the new value, or carries no value,
has configurable=false and its setter is the library's default accessor function (which
stands for an undefined setter), and returns TRUE otherwise. For a descriptor as an object
yields it (a data descriptor carries its value, and no descriptor is both a data and an
accessor descriptor) these are the data-descriptor and accessor-descriptor conditions. The
kind of set does not occur in the outcome. -/
theorem SetPropertyTrap_checked {H : Type} (h : Host H) (this : Nat) (receiver : Var)
    (setPropertyTrapKind : SetPropertyTrapKind) (propertyId : PropertyId) (newValue : Var)
    (skipPrototypeCheck : Bool)
    (s s1 s2 : State H) (targetObj0 method trapResult : Var)
    (hEnabled : s.disableImplicitCall = false)
    (hTarget0 : (s.proxies this).target = some targetObj0)
    (hTrap : GetMethodHelper h this h.ids.set s = .ok (some method) s1)
    (hCall : CallTrap h method [(s1.proxies this).handler, (s1.proxies this).target,
      some (GetName h propertyId), some newValue, some receiver] s1 = .ok trapResult s2) :
    (h.ToBoolean trapResult = false →
      SetPropertyTrap h this receiver setPropertyTrapKind propertyId newValue
        skipPrototypeCheck s = .ok false s2)
    ∧ (h.ToBoolean trapResult = true →
        ∀ (targetObj : Var) (targetDesc : Option PropertyDescriptor) (s3 : State H),
          (s2.proxies this).target = some targetObj →
          h.GetOwnPropertyDescriptor targetObj propertyId s2 = .ok targetDesc s3 →
          SetPropertyTrap h this receiver setPropertyTrapKind propertyId newValue
              skipPrototypeCheck s =
            (match targetDesc with
             | none => .ok true s3
             | some d =>
               match d.Value with
               | some value =>
                 if d.IsConfigurable = false ∧ d.IsWritable = false
                     ∧ h.SameValue newValue value = false then
                   .throw (.typeError .JSERR_InconsistentTrapResult "set") s3
                 else .ok true s3
               | none =>
                 if d.IsConfigurable = false ∧ d.Setter = some h.DefaultAccessorFunction then
                   .throw (.typeError .JSERR_InconsistentTrapResult "set") s3
                 else .ok true s3)
          ∧ (∀ d, targetDesc = some d →
              (d.IsDataDescriptor = true → d.ValueSpecified = true) →
              (d.IsDataDescriptor = true → d.IsAccessorDescriptor = false) →
              SetPropertyTrap h this receiver setPropertyTrapKind propertyId newValue
                  skipPrototypeCheck s =
                (if (d.IsDataDescriptor = true ∧ d.IsConfigurable = false
                      ∧ d.IsWritable = false
                      ∧ h.SameValue newValue (d.Value.getD .undefined) = false)
                    ∨ (d.IsAccessorDescriptor = true ∧ d.IsConfigurable = false
                      ∧ d.Setter = some h.DefaultAccessorFunction) then
                  .throw (.typeError .JSERR_InconsistentTrapResult "set") s3
                 else .ok true s3))) := by
  constructor
  · intro hFalse
    unfold SetPropertyTrap
    simp [Exec.bind_apply, IsDisableImplicitCall, hEnabled, readTarget, hTarget0, readHandler,
      hTrap, hCall, Exec.pure_apply, hFalse]
  · intro hTrue targetObj targetDesc s3 hTarget
    have key : h.GetOwnPropertyDescriptor targetObj propertyId s2 = .ok targetDesc s3 →
        SetPropertyTrap h this receiver setPropertyTrapKind propertyId newValue
          skipPrototypeCheck s =
        (match targetDesc with
         | none => .ok true s3
         | some d =>
           match d.Value with
           | some value =>
             if d.IsConfigurable = false ∧ d.IsWritable = false
                 ∧ h.SameValue newValue value = false then
               .throw (.typeError .JSERR_InconsistentTrapResult "set") s3
             else .ok true s3
           | none =>
             if d.IsConfigurable = false ∧ d.Setter = some h.DefaultAccessorFunction then
               .throw (.typeError .JSERR_InconsistentTrapResult "set") s3
             else .ok true s3) := by
      intro hDesc
      unfold SetPropertyTrap
      simp [Exec.bind_apply, IsDisableImplicitCall, hEnabled, readTarget, hTarget0,
        readHandler, hTrap, hCall, Exec.pure_apply, hTrue, hTarget, deref, hDesc]
      cases targetDesc with
      | none => simp [Exec.pure_apply]
      | some d =>
        cases hv : d.Value with
        | none =>
          by_cases hset : d.Setter = some h.DefaultAccessorFunction
          · cases hc : d.IsConfigurable <;>
              simp [PropertyDescriptor.ValueSpecified, PropertyDescriptor.GetSetter, hv, hc,
                hset, ThrowTypeError, raise, Exec.pure_apply]
          · cases hc : d.IsConfigurable <;>
              simp [PropertyDescriptor.ValueSpecified, PropertyDescriptor.GetSetter, hv, hc,
                hset, ThrowTypeError, raise, Exec.pure_apply]
        | some value =>
          cases hc : d.IsConfigurable <;> cases hw : d.IsWritable <;>
            cases hsv : h.SameValue newValue value <;>
            simp [PropertyDescriptor.ValueSpecified, PropertyDescriptor.GetValue, hv, hc, hw,
              hsv, ThrowTypeError, raise, Exec.pure_apply]
    intro hDesc
    refine ⟨key hDesc, ?_⟩
    intro d hSome hData hExclusive
    rw [key hDesc]
    subst hSome
    simp only
    cases hv : d.Value with
    | none =>
      have hNotData : d.IsDataDescriptor = false := by
        cases hd : d.IsDataDescriptor
        · rfl
        · have := hData hd
          simp [PropertyDescriptor.ValueSpecified, hv] at this
      by_cases hset : d.Setter = some h.DefaultAccessorFunction
      · have hAcc : d.IsAccessorDescriptor = true := by
          simp [PropertyDescriptor.IsAccessorDescriptor, PropertyDescriptor.SetterSpecified,
            hset]
        simp [hNotData, hAcc, hset]
      · simp [hNotData, hset]
    | some value =>
      have hIsData : d.IsDataDescriptor = true := by
        simp [PropertyDescriptor.IsDataDescriptor, PropertyDescriptor.ValueSpecified, hv]
      have hNotAcc := hExclusive hIsData
      simp [hIsData, hNotAcc]

/-- The frozen `x` example (value 1) behind a `set` trap that answers a truthy value, on
a set of the value 5: the Proxy throws. -/
theorem SetPropertyTrap_checked_example :
    SetPropertyTrap (Example.host true true) 0 (.proxy 0) .SetPropertyKind 20 (.number 5) false
        (Example.state Example.heapFrozenX false false none)
      = .throw (.typeError .JSERR_InconsistentTrapResult "set")
          { Example.state Example.heapFrozenX false false none with implicitCallFlags := 5 } :=
  ((SetPropertyTrap_checked (Example.host true true) 0 (.proxy 0) .SetPropertyKind 20 (.number 5) false
    (Example.state Example.heapFrozenX false false none)
    (Example.state Example.heapFrozenX false false none)
    { Example.state Example.heapFrozenX false false none with implicitCallFlags := 5 }
    (.object 1) (.function 100) (.number 2) rfl rfl rfl rfl).2 rfl (.object 1)
    (some { Value := some (.number 1), Writable := some false,
            Enumerable := some true, Configurable := some false })
    { Example.state Example.heapFrozenX false false none with implicitCallFlags := 5 }
    rfl rfl).2 _ rfl (fun _ => rfl) (fun _ => rfl)

/-- C18 (the code at the failing input): a non-revoked Proxy over a target that does not
own `x`, behind a `set` trap that revokes the Proxy and answers true.  The claim names the
return of TRUE, which is what the same call yields when the trap does not revoke;
`SetPropertyTrap` reads the member `target` again after the trap returned (line 1809) and
dereferences the null pointer: it neither returns nor throws. -/
theorem C18_set_faults_when_trap_revokes :
    SetPropertyTrap (Example.host true true) 0 (.proxy 0) .SetPropertyKind 20 (.number 5) false
        (Example.state Example.heapRevokingTrap false false none) = .fault
    ∧ SetPropertyTrap (Example.host true true) 0 (.proxy 0) .SetPropertyKind 20 (.number 5)
        false (Example.state Example.heapTruthyTrap false false none)
      = .ok true
          { Example.state Example.heapTruthyTrap false false none with
            implicitCallFlags := 5 } :=
  ⟨rfl, rfl⟩

/-- While the Proxy still holds its target where the code reads the member again after the
trap call: on a non-revoked Proxy with a `deleteProperty` trap (implicit calls enabled),
for every property: `DeleteProperty` returns FALSE in the state the trap left when
ToBoolean of the trap result is false, whatever the target's operations would do; when it
is true, with the target's descriptor read after the trap returned (the Proxy still holds
its target), it throws TypeError InconsistentTrapResult("deleteProperty") if the target
owns the property with configurable=false and returns TRUE in every other case. -/
theorem DeleteProperty_checked {H : Type} (h : Host H) (this : Nat)
    (propertyId : PropertyId) (flags : Nat)
    (s s1 s2 : State H) (targetObj0 method trapResult : Var)
    (hEnabled : s.disableImplicitCall = false)
    (hTarget0 : (s.proxies this).target = some targetObj0)
    (hTrap : GetMethodHelper h this h.ids.deleteProperty s = .ok (some method) s1)
    (hCall : CallTrap h method [(s1.proxies this).handler, (s1.proxies this).target,
      some (GetName h propertyId)] s1 = .ok trapResult s2) :
    (h.ToBoolean trapResult = false →
      DeleteProperty h this propertyId flags s = .ok false s2)
    ∧ (h.ToBoolean trapResult = true →
        ∀ (targetObj : Var) (targetDesc : Option PropertyDescriptor) (s3 : State H),
          (s2.proxies this).target = some targetObj →
          h.GetOwnPropertyDescriptor targetObj propertyId s2 = .ok targetDesc s3 →
          DeleteProperty h this propertyId flags s =
            (match targetDesc with
             | some d =>
               if d.IsConfigurable = false then
                 .throw (.typeError .JSERR_InconsistentTrapResult "deleteProperty") s3
               else .ok true s3
             | none => .ok true s3)) := by
  constructor
  · intro hFalse
    unfold DeleteProperty
    simp [Exec.bind_apply, IsDisableImplicitCall, hEnabled, readTarget, hTarget0, readHandler,
      hTrap, hCall, Exec.pure_apply, hFalse]
  · intro hTrue targetObj targetDesc s3 hTarget hDesc
    unfold DeleteProperty
    simp [Exec.bind_apply, IsDisableImplicitCall, hEnabled, readTarget, hTarget0, readHandler,
      hTrap, hCall, Exec.pure_apply, hTrue, hTarget, deref, hDesc]
    cases targetDesc with
    | none => simp [Exec.pure_apply]
    | some d => cases hc : d.IsConfigurable <;> simp [hc, ThrowTypeError, raise, Exec.pure_apply]

/-- The frozen `x` example behind a `deleteProperty` trap that answers a truthy value:
the Proxy throws. -/
theorem DeleteProperty_checked_example :
    DeleteProperty (Example.host true true) 0 20 0
        (Example.state Example.heapFrozenX false false none)
      = .throw (.typeError .JSERR_InconsistentTrapResult "deleteProperty")
          { Example.state Example.heapFrozenX false false none with implicitCallFlags := 5 } :=
  (DeleteProperty_checked (Example.host true true) 0 20 0
    (Example.state Example.heapFrozenX false false none)
    (Example.state Example.heapFrozenX false false none)
    { Example.state Example.heapFrozenX false false none with implicitCallFlags := 5 }
    (.object 1) (.function 100) (.number 2) rfl rfl rfl rfl).2 rfl (.object 1)
    (some { Value := some (.number 1), Writable := some false,
            Enumerable := some true, Configurable := some false })
    { Example.state Example.heapFrozenX false false none with implicitCallFlags := 5 }
    rfl rfl

/-- C19 (the code at the failing input): a non-revoked Proxy over a target that does not
own `x`, behind a `deleteProperty` trap that revokes the Proxy and answers true.  The
claim names the return of TRUE, which is what the same call yields when the trap does not
revoke; `DeleteProperty` reads the member `target` again after the trap returned (line
792) and dereferences the null pointer: it neither returns nor throws. -/
theorem C19_deleteProperty_faults_when_trap_revokes :
    DeleteProperty (Example.host true true) 0 20 0
        (Example.state Example.heapRevokingTrap false false none) = .fault
    ∧ DeleteProperty (Example.host true true) 0 20 0
        (Example.state Example.heapTruthyTrap false false none)
      = .ok true
          { Example.state Example.heapTruthyTrap false false none with
            implicitCallFlags := 5 } :=
  ⟨rfl, rfl⟩

/-- While the Proxy still holds its target where the code reads the member again after the
trap call: on a non-revoked Proxy with a `defineProperty` trap (implicit calls enabled),
for every property, descriptor and `throwOnError`, with `descVar` the object handed to the
trap (the descriptor's original object, or the one `FromPropertyDescriptor` builds): when
ToBoolean of the trap result is false, `DefineOwnPropertyDescriptor` returns FALSE without
throwing, also with `throwOnError` set; when it is true, with the target's descriptor and
then its extensibility read after the trap returned (the Proxy still holds its target) and
settingConfigFalse = the descriptor specifies configurable and it is false, it throws
TypeError InconsistentTrapResult("defineProperty") if the target lacks the property and is
non-extensible or settingConfigFalse holds, or if the target owns the property and the
descriptor is not compatible with the target's or settingConfigFalse holds and the
target's is configurable; otherwise it returns TRUE. -/
theorem DefineOwnPropertyDescriptor_checked {H : Type} (h : Host H) (proxy : Nat)
    (propId : PropertyId) (descriptor : PropertyDescriptor) (throwOnError : Bool)
    (s s1 s2 s3 : State H) (targetObj0 method descVar trapResult : Var)
    (hEnabled : s.disableImplicitCall = false)
    (hTarget0 : (s.proxies proxy).target = some targetObj0)
    (hTrap : GetMethodHelper h proxy h.ids.defineProperty s = .ok (some method) s1)
    (hDescVar : (descriptor.originalVar = some descVar ∧ s2 = s1)
      ∨ (descriptor.originalVar = none
          ∧ h.FromPropertyDescriptor descriptor s1 = .ok descVar s2))
    (hCall : CallTrap h method [(s2.proxies proxy).handler, (s2.proxies proxy).target,
      some (GetName h propId), some descVar] s2 = .ok trapResult s3) :
    (h.ToBoolean trapResult = false →
      DefineOwnPropertyDescriptor h proxy propId descriptor throwOnError s = .ok false s3)
    ∧ (h.ToBoolean trapResult = true →
        ∀ (targetObj : Var) (targetDesc : Option PropertyDescriptor) (isExtensible : Bool)
          (s4 s5 : State H),
          (s3.proxies proxy).target = some targetObj →
          h.GetOwnPropertyDescriptor targetObj propId s3 = .ok targetDesc s4 →
          (s4.proxies proxy).target = some targetObj →
          h.IsExtensible targetObj s4 = .ok isExtensible s5 →
          DefineOwnPropertyDescriptor h proxy propId descriptor throwOnError s =
            (match targetDesc with
             | none =>
               if isExtensible = false ∨ descriptor.Configurable = some false then
                 .throw (.typeError .JSERR_InconsistentTrapResult "defineProperty") s5
               else .ok true s5
             | some d =>
               if IsCompatiblePropertyDescriptor h descriptor (some d) isExtensible true = false
                   ∨ (descriptor.Configurable = some false ∧ d.IsConfigurable = true) then
                 .throw (.typeError .JSERR_InconsistentTrapResult "defineProperty") s5
               else .ok true s5)) := by
  have hSetting : (descriptor.ConfigurableSpecified && !descriptor.IsConfigurable)
      = decide (descriptor.Configurable = some false) := by
    rcases descriptor with ⟨v, g, st, w, e, c, fp, o⟩
    cases c with
    | none =>
      simp [PropertyDescriptor.ConfigurableSpecified, PropertyDescriptor.IsConfigurable]
    | some b =>
      cases b <;>
        simp [PropertyDescriptor.ConfigurableSpecified, PropertyDescriptor.IsConfigurable]
  have start : DefineOwnPropertyDescriptor h proxy propId descriptor throwOnError s =
      (do
        let defineResult := h.ToBoolean trapResult
        if !defineResult then pure defineResult
        else
          let targetObj ← deref (← readTarget proxy)
          let targetDescriptor ← h.GetOwnPropertyDescriptor targetObj propId
          let targetObj ← deref (← readTarget proxy)
          let isExtensible ← h.IsExtensible targetObj
          let settingConfigFalse :=
            descriptor.ConfigurableSpecified && !descriptor.IsConfigurable
          match targetDescriptor with
          | none =>
            if !isExtensible || settingConfigFalse then
              ThrowTypeError .JSERR_InconsistentTrapResult "defineProperty"
            else pure true
          | some targetDescriptor =>
            if !IsCompatiblePropertyDescriptor h descriptor (some targetDescriptor)
                isExtensible true then
              ThrowTypeError .JSERR_InconsistentTrapResult "defineProperty"
            else if settingConfigFalse && targetDescriptor.IsConfigurable then
              ThrowTypeError .JSERR_InconsistentTrapResult "defineProperty"
            else pure true) s3 := by
    unfold DefineOwnPropertyDescriptor
    rcases hDescVar with ⟨hOrig, rfl⟩ | ⟨hOrig, hFrom⟩
    · simp [Exec.bind_apply, IsDisableImplicitCall, hEnabled, readTarget, hTarget0,
        readHandler, hTrap, hOrig, hCall, Exec.pure_apply]
    · simp [Exec.bind_apply, IsDisableImplicitCall, hEnabled, readTarget, hTarget0,
        readHandler, hTrap, hOrig, hFrom, hCall, Exec.pure_apply]
  constructor
  · intro hFalse
    rw [start]
    simp [hFalse, Exec.pure_apply]
  · intro hTrue targetObj targetDesc isExtensible s4 s5 hTarget3 hDesc hTarget4 hExt
    rw [start]
    simp only [hTrue, hSetting]
    simp [Exec.bind_apply, readTarget, hTarget3, deref, Exec.pure_apply, hDesc, hTarget4, hExt]
    cases targetDesc with
    | none =>
      by_cases hc : descriptor.Configurable = some false
      · cases isExtensible <;> simp [hc, ThrowTypeError, raise, Exec.pure_apply]
      · cases isExtensible <;> simp [hc, ThrowTypeError, raise, Exec.pure_apply]
    | some d =>
      by_cases hc : descriptor.Configurable = some false
      · cases hk : IsCompatiblePropertyDescriptor h descriptor (some d) isExtensible true <;>
          cases hd : d.IsConfigurable <;>
          simp [hc, hk, hd, ThrowTypeError, raise, Exec.pure_apply]
      · cases hk : IsCompatiblePropertyDescriptor h descriptor (some d) isExtensible true <;>
          cases hd : d.IsConfigurable <;>
          simp [hc, hk, hd, ThrowTypeError, raise, Exec.pure_apply]

/-- The non-extensible example target, which lacks `k`, behind a `defineProperty` trap
that answers a truthy value: the Proxy throws. -/
theorem DefineOwnPropertyDescriptor_checked_example :
    DefineOwnPropertyDescriptor (Example.host true true) 0 21 { Value := some (.number 7) } true
        (Example.state Example.heapFrozenX false false none)
      = .throw (.typeError .JSERR_InconsistentTrapResult "defineProperty")
          { Example.state Example.heapFrozenX false false none with implicitCallFlags := 5 } :=
  (DefineOwnPropertyDescriptor_checked (Example.host true true) 0 21 { Value := some (.number 7) } true
    (Example.state Example.heapFrozenX false false none)
    (Example.state Example.heapFrozenX false false none)
    (Example.state Example.heapFrozenX false false none)
    { Example.state Example.heapFrozenX false false none with implicitCallFlags := 5 }
    (.object 1) (.function 100) (.object 4) (.number 2) rfl rfl rfl (Or.inr ⟨rfl, rfl⟩)
    rfl).2 rfl (.object 1) none false
    { Example.state Example.heapFrozenX false false none with implicitCallFlags := 5 }
    { Example.state Example.heapFrozenX false false none with implicitCallFlags := 5 }
    rfl rfl rfl rfl

/-- C20 (the code at the failing input): a non-revoked Proxy over an extensible target
that does not own `k`, behind a `defineProperty` trap that revokes the Proxy and answers
true, asked to define `k` with a value.  The claim names the return of TRUE, which is what
the same call yields when the trap does not revoke; `DefineOwnPropertyDescriptor` reads
`proxy->target` after the trap returned (lines 1682-1683) and dereferences the null
pointer: it neither returns nor throws. -/
theorem C20_defineProperty_faults_when_trap_revokes :
    DefineOwnPropertyDescriptor (Example.host true true) 0 21 { Value := some (.number 7) }
        true (Example.state Example.heapRevokingTrap false false none) = .fault
    ∧ DefineOwnPropertyDescriptor (Example.host true true) 0 21 { Value := some (.number 7) }
        true (Example.state Example.heapTruthyTrap false false none)
      = .ok true
          { Example.state Example.heapTruthyTrap false false none with
            implicitCallFlags := 5 } :=
  ⟨rfl, rfl⟩

/-- While the Proxy still holds its target where the code reads the member again after the
trap call: on a non-revoked Proxy with a `getOwnPropertyDescriptor` trap (no heap
enumeration, implicit calls enabled when the trap is about to be called): a trap result
that is neither an object nor undefined throws TypeError NeedObject in the state the trap
left, with no operation on the target; and when the trap result is undefined, with the
target's descriptor and extensibility read after the trap returned (the Proxy still holds
its target), the call returns FALSE (the property is absent) if the target does not own
the property, throws TypeError InconsistentTrapResult if the target's descriptor is
non-configurable or else the target is non-extensible, and returns FALSE if the target
owns the property configurably and is extensible. -/
theorem GetPropertyDescriptorTrap_undefined_result {H : Type} (h : Host H) (this : Nat)
    (originalInstance : Var) (fn : Unit → Exec (State H) (Option PropertyDescriptor))
    (getPropertyId : Unit → PropertyId) (resultDescriptor : PropertyDescriptor)
    (s s1 s2 : State H) (method trapResult : Var)
    (hTrap : GetMethodHelper h this h.ids.getOwnPropertyDescriptor s = .ok (some method) s1)
    (hHeapEnum : h.IsHeapEnumInProgress s1 = false)
    (hEnabled : s1.disableImplicitCall = false)
    (hCall : CallTrap h method [(s1.proxies this).handler, (s1.proxies this).target,
      some (GetName h (getPropertyId ()))] s1 = .ok trapResult s2) :
    (IsObject trapResult = false → IsUndefined trapResult = false →
      GetPropertyDescriptorTrap h this originalInstance fn getPropertyId resultDescriptor s
        = .throw (.typeError .JSERR_NeedObject "getOwnPropertyDescriptor") s2)
    ∧ (IsUndefined trapResult = true →
        ∀ (targetObj : Var) (targetDesc : Option PropertyDescriptor) (s3 : State H),
          (s2.proxies this).target = some targetObj →
          h.GetOwnPropertyDescriptor targetObj (getPropertyId ()) s2 = .ok targetDesc s3 →
          (targetDesc = none →
            GetPropertyDescriptorTrap h this originalInstance fn getPropertyId
              resultDescriptor s = .ok (false, resultDescriptor) s3)
          ∧ (∀ d, targetDesc = some d → d.IsConfigurable = false →
              GetPropertyDescriptorTrap h this originalInstance fn getPropertyId
                resultDescriptor s
                = .throw (.typeError .JSERR_InconsistentTrapResult
                    "getOwnPropertyDescriptor") s3)
          ∧ (∀ d, targetDesc = some d → d.IsConfigurable = true →
              ∀ (extensible : Bool) (s4 : State H),
                (s3.proxies this).target = some targetObj →
                h.IsExtensible targetObj s3 = .ok extensible s4 →
                GetPropertyDescriptorTrap h this originalInstance fn getPropertyId
                    resultDescriptor s =
                  (if extensible = false then
                    .throw (.typeError .JSERR_InconsistentTrapResult
                      "getOwnPropertyDescriptor") s4
                   else .ok (false, resultDescriptor) s4))) := by
  constructor
  · intro hObj hUndef
    have hStatic : StaticType.Is (GetTypeId trapResult) = true := by
      simpa [IsObject, IsObjectType] using hObj
    have hNotU : (GetTypeId trapResult != .TypeIds_Undefined) = true := by
      simp only [IsUndefined] at hUndef
      simp only [bne, hUndef, Bool.not_false]
    unfold GetPropertyDescriptorTrap
    simp only [Exec.bind_apply, hTrap, IsHeapEnumInProgress, hHeapEnum, IsDisableImplicitCall,
      hEnabled, Bool.false_eq_true, ↓reduceIte, readHandler, readTarget, hCall, hStatic, hNotU,
      Bool.and_self, ThrowTypeError, raise]
  · intro hUndef targetObj targetDesc s3 hTarget
    have hU : GetTypeId trapResult = .TypeIds_Undefined := by
      simpa [IsUndefined] using hUndef
    have start : h.GetOwnPropertyDescriptor targetObj (getPropertyId ()) s2
          = .ok targetDesc s3 →
        GetPropertyDescriptorTrap h this originalInstance fn getPropertyId
        resultDescriptor s =
        (match targetDesc with
          | none => pure (false, resultDescriptor)
          | some targetDescriptor =>
            if !targetDescriptor.IsConfigurable then
              ThrowTypeError .JSERR_InconsistentTrapResult "getOwnPropertyDescriptor"
            else do
              let targetObj ← deref (← readTarget this)
              let extensible ← h.IsExtensible targetObj
              if !extensible then
                ThrowTypeError .JSERR_InconsistentTrapResult "getOwnPropertyDescriptor"
              else pure (false, resultDescriptor) : Exec (State H) (Bool × PropertyDescriptor))
          s3 := by
      intro hDesc
      unfold GetPropertyDescriptorTrap
      simp [Exec.bind_apply, hTrap, IsHeapEnumInProgress, hHeapEnum, IsDisableImplicitCall,
        hEnabled, readHandler, readTarget, hCall, hU, StaticType.Is, hTarget, deref,
        Exec.pure_apply, hDesc]
    intro hDesc
    refine ⟨?_, ?_, ?_⟩
    · intro hNone
      rw [start hDesc, hNone]
      rfl
    · intro d hSome hConf
      rw [start hDesc, hSome]
      simp [hConf, ThrowTypeError, raise]
    · intro d hSome hConf extensible s4 hTarget3 hExt
      rw [start hDesc, hSome]
      simp [hConf, Exec.bind_apply, readTarget, hTarget3, deref, Exec.pure_apply, hExt]
      cases extensible <;> simp [ThrowTypeError, raise, Exec.pure_apply]

/-- The frozen `x` example behind a `getOwnPropertyDescriptor` trap that answers
undefined: the target owns `x` with configurable=false, and the call throws. -/
theorem GetPropertyDescriptorTrap_undefined_result_example :
    GetPropertyDescriptorTrap (Example.host true true) 0 (.proxy 0)
        (fun _ s => .ok none s) (fun _ => 20) {}
        (Example.state Example.heapFrozenXUndefined false false none)
      = .throw (.typeError .JSERR_InconsistentTrapResult "getOwnPropertyDescriptor")
          { Example.state Example.heapFrozenXUndefined false false none with
            implicitCallFlags := 5 } :=
  ((GetPropertyDescriptorTrap_undefined_result (Example.host true true) 0 (.proxy 0)
    (fun _ s => .ok none s) (fun _ => 20) {}
    (Example.state Example.heapFrozenXUndefined false false none)
    (Example.state Example.heapFrozenXUndefined false false none)
    { Example.state Example.heapFrozenXUndefined false false none with implicitCallFlags := 5 }
    (.function 100) .undefined rfl rfl rfl rfl).2 rfl (.object 1)
    (some { Value := some (.number 1), Writable := some false,
            Enumerable := some true, Configurable := some false })
    { Example.state Example.heapFrozenXUndefined false false none with implicitCallFlags := 5 }
    rfl rfl).2.1 _ rfl rfl

/-- C21 (the code at the failing input): a non-revoked Proxy over an extensible target
that does not own `x`, behind a `getOwnPropertyDescriptor` trap that revokes the Proxy and
answers undefined.  The claim names the result 'absent' (FALSE), which is what the same
call yields when the trap does not revoke; `GetPropertyDescriptorTrap` reads the member
`target` again after the trap returned (line 243) and dereferences the null pointer: it
neither returns nor throws. -/
theorem C21_getOwnPropertyDescriptor_faults_when_trap_revokes :
    GetPropertyDescriptorTrap (Example.host true true) 0 (.proxy 0)
        (fun _ s => .ok none s) (fun _ => 20) {}
        (Example.state { Example.heapRevokingTrap with trapValue := .undefined }
          false false none) = .fault
    ∧ GetPropertyDescriptorTrap (Example.host true true) 0 (.proxy 0)
        (fun _ s => .ok none s) (fun _ => 20) {}
        (Example.state { Example.heapTruthyTrap with trapValue := .undefined }
          false false none)
      = .ok (false, {})
          { Example.state { Example.heapTruthyTrap with trapValue := .undefined }
              false false none with implicitCallFlags := 5 } :=
  ⟨rfl, rfl⟩

/-- While the Proxy still holds its target where the code reads the member again after the
trap call: on a non-revoked Proxy with a `getOwnPropertyDescriptor` trap that returns an
object (no heap enumeration, implicit calls enabled when the trap is about to be called),
with the target's descriptor and extensibility read after the trap returned (the Proxy
still holds its target) and `converted` the descriptor `ToPropertyDescriptor` makes of the
trap result: with `result` the completed descriptor, the call throws TypeError
InconsistentTrapResult if `result` is not compatible with the target's descriptor under
the target's extensibility, or if `result` has configurable=false while the target lacks
the property or owns it with configurable=true; otherwise it returns TRUE with `result`
marked fromProxy=true. When the trap is absent the call returns what the target's
`GetOwnPropertyDescriptor` yields, and the fromProxy bit of the descriptor is false unless
the target's own operation set it. -/
theorem GetPropertyDescriptorTrap_object_result {H : Type} (h : Host H) (proxy : Nat)
    (propertyId : PropertyId) (propertyDescriptor : PropertyDescriptor)
    (s s1 : State H) :
    (∀ (method trapResult : Var) (s2 : State H),
      GetMethodHelper h proxy h.ids.getOwnPropertyDescriptor s = .ok (some method) s1 →
      h.IsHeapEnumInProgress s1 = false →
      s1.disableImplicitCall = false →
      CallTrap h method [(s1.proxies proxy).handler, (s1.proxies proxy).target,
        some (GetName h propertyId)] s1 = .ok trapResult s2 →
      IsObject trapResult = true →
      ∀ (targetObj : Var) (targetDesc : Option PropertyDescriptor) (isTargetExtensible : Bool)
        (converted : PropertyDescriptor) (s3 s4 s5 : State H),
        (s2.proxies proxy).target = some targetObj →
        h.GetOwnPropertyDescriptor targetObj propertyId s2 = .ok targetDesc s3 →
        (s3.proxies proxy).target = some targetObj →
        h.IsExtensible targetObj s3 = .ok isTargetExtensible s4 →
        h.ToPropertyDescriptor trapResult s4 = .ok (some converted) s5 →
        GetOwnPropertyDescriptor h proxy propertyId propertyDescriptor s =
          (if IsCompatiblePropertyDescriptor h (CompletePropertyDescriptor h converted)
                targetDesc isTargetExtensible true = false
              ∨ ((CompletePropertyDescriptor h converted).IsConfigurable = false
                  ∧ (targetDesc = none
                      ∨ ∃ d, targetDesc = some d ∧ d.IsConfigurable = true)) then
            .throw (.typeError .JSERR_InconsistentTrapResult "getOwnPropertyDescriptor") s5
           else
            .ok (true, (CompletePropertyDescriptor h converted).SetFromProxy true) s5))
    ∧ (GetMethodHelper h proxy h.ids.getOwnPropertyDescriptor s = .ok none s1 →
        ∀ (targetObj0 : Var) (r : Option PropertyDescriptor) (s2 : State H),
          (s1.proxies proxy).target = some targetObj0 →
          h.GetOwnPropertyDescriptor targetObj0 propertyId s1 = .ok r s2 →
          GetOwnPropertyDescriptor h proxy propertyId propertyDescriptor s =
            .ok (r.isSome, r.getD (propertyDescriptor.SetFromProxy false)) s2
          ∧ (r = none → (r.getD (propertyDescriptor.SetFromProxy false)).IsFromProxy = false)
          ∧ (∀ d, r = some d → d.IsFromProxy = false →
              (r.getD (propertyDescriptor.SetFromProxy false)).IsFromProxy = false)) := by
  constructor
  · intro method trapResult s2 hTrap hHeapEnum hEnabled hCall hObj targetObj targetDesc
      isTargetExtensible converted s3 s4 s5 hTarget2 hDesc hTarget3 hExt hConv
    have hStatic : StaticType.Is (GetTypeId trapResult) = false := by
      simpa [IsObject, IsObjectType] using hObj
    have hNotU : (GetTypeId trapResult == .TypeIds_Undefined) = false := by
      cases trapResult <;> simp_all [GetTypeId, StaticType.Is]
    unfold GetOwnPropertyDescriptor GetPropertyDescriptorTrap
    simp only [Exec.bind_apply, hTrap, IsHeapEnumInProgress, hHeapEnum, IsDisableImplicitCall,
      hEnabled, Bool.false_eq_true, ↓reduceIte, readHandler, readTarget, hCall, hStatic,
      Bool.false_and, hTarget2, deref, Exec.pure_apply, hDesc, hNotU, hTarget3, hExt, hConv,
      Option.isNone_some, Option.getD_some, Option.isSome_some]
    cases hk : IsCompatiblePropertyDescriptor h (CompletePropertyDescriptor h converted)
        targetDesc isTargetExtensible true with
    | false => simp [ThrowTypeError, raise]
    | true =>
      cases hc : (CompletePropertyDescriptor h converted).IsConfigurable with
      | true => simp [Exec.pure_apply]
      | false =>
        cases targetDesc with
        | none => simp [ThrowTypeError, raise]
        | some d =>
          cases hd : d.IsConfigurable <;> simp [hd, ThrowTypeError, raise, Exec.pure_apply]
  · intro hTrap targetObj0 r s2 hTarget0 hDesc
    refine ⟨?_, ?_, ?_⟩
    · unfold GetOwnPropertyDescriptor GetPropertyDescriptorTrap
      cases hE : h.IsHeapEnumInProgress s1 <;> cases r <;>
        simp [Exec.bind_apply, hTrap, IsHeapEnumInProgress, hE, readTarget, hTarget0, deref,
          Exec.pure_apply, hDesc]
    · intro hNone
      subst hNone
      rfl
    · intro d hSome hBit
      subst hSome
      exact hBit

/-- The frozen `x` example behind a `getOwnPropertyDescriptor` trap that answers an
object, which converts to the empty descriptor: the completed result is not compatible
with the target's descriptor, and the call throws. -/
theorem GetPropertyDescriptorTrap_object_result_example :
    GetOwnPropertyDescriptor (Example.host true true) 0 20 {}
        (Example.state { Example.heapFrozenX with trapValue := .object 9 } false false none)
      = .throw (.typeError .JSERR_InconsistentTrapResult "getOwnPropertyDescriptor")
          { Example.state { Example.heapFrozenX with trapValue := .object 9 }
              false false none with implicitCallFlags := 5 } :=
  ((GetPropertyDescriptorTrap_object_result (Example.host true true) 0 20 {}
    (Example.state { Example.heapFrozenX with trapValue := .object 9 } false false none)
    (Example.state { Example.heapFrozenX with trapValue := .object 9 } false false none)).1
    (.function 100) (.object 9)
    { Example.state { Example.heapFrozenX with trapValue := .object 9 }
        false false none with implicitCallFlags := 5 }
    rfl rfl rfl rfl rfl (.object 1)
    (some { Value := some (.number 1), Writable := some false,
            Enumerable := some true, Configurable := some false })
    false {}
    { Example.state { Example.heapFrozenX with trapValue := .object 9 }
        false false none with implicitCallFlags := 5 }
    { Example.state { Example.heapFrozenX with trapValue := .object 9 }
        false false none with implicitCallFlags := 5 }
    { Example.state { Example.heapFrozenX with trapValue := .object 9 }
        false false none with implicitCallFlags := 5 }
    rfl rfl rfl rfl rfl).trans rfl

/-- C22 (the code at the failing input): a non-revoked Proxy over the non-extensible
target that owns `x` as a frozen data property, behind a `getOwnPropertyDescriptor` trap
that revokes the Proxy and answers an object (which converts to the empty descriptor).
The claim names TypeError InconsistentTrapResult, the completed result being incompatible
with the target's descriptor, which is what the same call yields when the trap does not
revoke; `GetPropertyDescriptorTrap` reads the member `target` again after the trap
returned (line 243) and dereferences the null pointer: it neither returns nor throws. -/
theorem C22_getOwnPropertyDescriptor_object_faults_when_trap_revokes :
    GetPropertyDescriptorTrap (Example.host true true) 0 (.proxy 0)
        (fun _ s => .ok none s) (fun _ => 20) {}
        (Example.state { Example.heapFrozenX with trapValue := .object 9, trapRevokes := true }
          false false none) = .fault
    ∧ GetPropertyDescriptorTrap (Example.host true true) 0 (.proxy 0)
        (fun _ s => .ok none s) (fun _ => 20) {}
        (Example.state { Example.heapFrozenX with trapValue := .object 9 } false false none)
      = .throw (.typeError .JSERR_InconsistentTrapResult "getOwnPropertyDescriptor")
          { Example.state { Example.heapFrozenX with trapValue := .object 9 }
              false false none with implicitCallFlags := 5 } :=
  ⟨rfl, rfl⟩

/-- Completion of an accessor descriptor: no value is added, the getter becomes the
stored getter or else the library's default accessor function, and configurable is
kept. -/
theorem CompletePropertyDescriptor_accessor {H : Type} (h : Host H) (d : PropertyDescriptor)
    (hAccessor : d.IsAccessorDescriptor = true) (hData : d.IsDataDescriptor = false) :
    (CompletePropertyDescriptor h d).ValueSpecified = false
    ∧ ((CompletePropertyDescriptor h d).GetterSpecified
        || (CompletePropertyDescriptor h d).SetterSpecified) = true
    ∧ (CompletePropertyDescriptor h d).GetGetter = some (d.Getter.getD h.DefaultAccessorFunction)
    ∧ (CompletePropertyDescriptor h d).IsConfigurable = d.IsConfigurable := by
  rcases d with ⟨v, g, st, w, e, c, fp, o⟩
  cases v <;> cases w <;> cases g <;> cases st <;> cases e <;> cases c <;>
    simp_all [CompletePropertyDescriptor, PropertyDescriptor.IsDataDescriptor,
      PropertyDescriptor.IsGenericDescriptor, PropertyDescriptor.IsAccessorDescriptor,
      PropertyDescriptor.ValueSpecified, PropertyDescriptor.WritableSpecified,
      PropertyDescriptor.GetterSpecified, PropertyDescriptor.SetterSpecified,
      PropertyDescriptor.EnumerableSpecified, PropertyDescriptor.ConfigurableSpecified,
      PropertyDescriptor.SetValue, PropertyDescriptor.SetWritable,
      PropertyDescriptor.SetGetter, PropertyDescriptor.SetSetter,
      PropertyDescriptor.SetEnumerable, PropertyDescriptor.SetConfigurable,
      PropertyDescriptor.IsConfigurable, PropertyDescriptor.GetGetter]

/-- Completion of a data descriptor that is not an accessor descriptor adds no
accessor. -/
theorem CompletePropertyDescriptor_data_no_accessor {H : Type} (h : Host H)
    (d : PropertyDescriptor)
    (hData : d.IsDataDescriptor = true) (hAccessor : d.IsAccessorDescriptor = false) :
    ((CompletePropertyDescriptor h d).GetterSpecified
        || (CompletePropertyDescriptor h d).SetterSpecified) = false
    ∧ (CompletePropertyDescriptor h d).ValueSpecified = true := by
  rcases d with ⟨v, g, st, w, e, c, fp, o⟩
  cases v <;> cases w <;> cases g <;> cases st <;> cases e <;> cases c <;>
    simp_all [CompletePropertyDescriptor, PropertyDescriptor.IsDataDescriptor,
      PropertyDescriptor.IsGenericDescriptor, PropertyDescriptor.IsAccessorDescriptor,
      PropertyDescriptor.ValueSpecified, PropertyDescriptor.WritableSpecified,
      PropertyDescriptor.GetterSpecified, PropertyDescriptor.SetterSpecified,
      PropertyDescriptor.EnumerableSpecified, PropertyDescriptor.ConfigurableSpecified,
      PropertyDescriptor.SetValue, PropertyDescriptor.SetWritable,
      PropertyDescriptor.SetGetter, PropertyDescriptor.SetSetter,
      PropertyDescriptor.SetEnumerable, PropertyDescriptor.SetConfigurable]

/-- C23: on a non-revoked Proxy with a `get` trap (implicit calls enabled, no heap
enumeration), with the target's own descriptor for the property read after the trap
returned: when it is an accessor descriptor with configurable=false whose getter is
undefined (not stored, or the library's default accessor function), `GetPropertyTrap`
returns the trap result if that is undefined and throws TypeError
InconsistentTrapResult("get") otherwise; when the target lacks the property, or the
descriptor is an accessor descriptor that is configurable or has a getter, or a data
descriptor that is configurable or writable, the trap result is returned as it is.
(A descriptor is taken as an object yields it: a data or an accessor descriptor, not
both.) -/
theorem C23_get_accessor_without_getter {H : Type} (h : Host H) (this : Nat)
    (originalInstance : Var)
    (propertyDescriptor : PropertyDescriptor) (fn : Var → Exec (State H) (Bool × Var))
    (getPropertyId : Unit → PropertyId) (s s1 s2 s3 : State H)
    (handlerObj targetObj method trapResult : Var) (targetDesc : Option PropertyDescriptor)
    (hEnabled : s.disableImplicitCall = false)
    (hHandler : (s.proxies this).handler = some handlerObj)
    (hTarget : (s.proxies this).target = some targetObj)
    (hTrap : GetMethodHelper h this h.ids.get s = .ok (some method) s1)
    (hHeapEnum : h.IsHeapEnumInProgress s1 = false)
    (hCall : CallTrap h method [(s1.proxies this).handler, some targetObj,
      some (GetName h (getPropertyId ())), some originalInstance] s1 = .ok trapResult s2)
    (hDesc : h.GetOwnPropertyDescriptor targetObj (getPropertyId ()) s2
      = .ok targetDesc s3) :
    (∀ d, targetDesc = some d → d.IsAccessorDescriptor = true → d.IsDataDescriptor = false →
      d.IsConfigurable = false →
      d.Getter.getD h.DefaultAccessorFunction = h.DefaultAccessorFunction →
      GetPropertyTrap h this originalInstance propertyDescriptor fn getPropertyId s =
        (if IsUndefined trapResult = true then
          .ok ⟨true, (propertyDescriptor.SetFromProxy true).SetValue trapResult, none⟩ s3
         else .throw (.typeError .JSERR_InconsistentTrapResult "get") s3))
    ∧ (targetDesc = none →
        GetPropertyTrap h this originalInstance propertyDescriptor fn getPropertyId s =
          .ok ⟨true, (propertyDescriptor.SetFromProxy true).SetValue trapResult, none⟩ s3)
    ∧ (∀ d, targetDesc = some d → d.IsAccessorDescriptor = true → d.IsDataDescriptor = false →
        (d.IsConfigurable = true
          ∨ d.Getter.getD h.DefaultAccessorFunction ≠ h.DefaultAccessorFunction) →
        GetPropertyTrap h this originalInstance propertyDescriptor fn getPropertyId s =
          .ok ⟨true, (propertyDescriptor.SetFromProxy true).SetValue trapResult, none⟩ s3)
    ∧ (∀ d, targetDesc = some d → d.IsDataDescriptor = true → d.IsAccessorDescriptor = false →
        (d.IsConfigurable = true ∨ d.IsWritable = true) →
        GetPropertyTrap h this originalInstance propertyDescriptor fn getPropertyId s =
          .ok ⟨true, (propertyDescriptor.SetFromProxy true).SetValue trapResult, none⟩ s3) := by
  refine ⟨?_, ?_, ?_, ?_⟩
  · intro d hSome hAcc hData hConf hGetter
    subst hSome
    obtain ⟨hv, hgs, hg, hc⟩ := CompletePropertyDescriptor_accessor h d hAcc hData
    simp only [Bool.or_eq_true] at hgs
    unfold GetPropertyTrap
    simp [Exec.bind_apply, IsDisableImplicitCall, hEnabled, revokedGuard, readHandler, hHandler,
      readTarget, hTarget, hTrap, IsHeapEnumInProgress, hHeapEnum, hCall, deref,
      Exec.pure_apply, hDesc, hv, hgs, hg, hc, hConf, hGetter]
    cases hu : IsUndefined trapResult <;>
      simp_all [IsUndefined, ThrowTypeError, raise, Exec.pure_apply]
  · intro hNone
    subst hNone
    unfold GetPropertyTrap
    simp [Exec.bind_apply, IsDisableImplicitCall, hEnabled, revokedGuard, readHandler, hHandler,
      readTarget, hTarget, hTrap, IsHeapEnumInProgress, hHeapEnum, hCall, deref,
      Exec.pure_apply, hDesc]
  · intro d hSome hAcc hData hOr
    subst hSome
    obtain ⟨hv, hgs, hg, hc⟩ := CompletePropertyDescriptor_accessor h d hAcc hData
    simp only [Bool.or_eq_true] at hgs
    unfold GetPropertyTrap
    rcases hOr with hConf | hGetter
    · simp [Exec.bind_apply, IsDisableImplicitCall, hEnabled, revokedGuard, readHandler,
        hHandler, readTarget, hTarget, hTrap, IsHeapEnumInProgress, hHeapEnum, hCall, deref,
        Exec.pure_apply, hDesc, hv, hgs, hg, hc, hConf]
    · simp [Exec.bind_apply, IsDisableImplicitCall, hEnabled, revokedGuard, readHandler,
        hHandler, readTarget, hTarget, hTrap, IsHeapEnumInProgress, hHeapEnum, hCall, deref,
        Exec.pure_apply, hDesc, hv, hgs, hg, hc, hGetter]
  · intro d hSome hData hAcc hOr
    subst hSome
    obtain ⟨hv, hc, hw⟩ := CompletePropertyDescriptor_data h d hData
    obtain ⟨hgs, hvs⟩ := CompletePropertyDescriptor_data_no_accessor h d hData hAcc
    simp only [Bool.or_eq_false_iff] at hgs
    unfold GetPropertyTrap
    rcases hOr with hConf | hWrit
    · simp [Exec.bind_apply, IsDisableImplicitCall, hEnabled, revokedGuard, readHandler,
        hHandler, readTarget, hTarget, hTrap, IsHeapEnumInProgress, hHeapEnum, hCall, deref,
        Exec.pure_apply, hDesc, hvs, hgs.1, hgs.2, hc, hw, hConf]
    · simp [Exec.bind_apply, IsDisableImplicitCall, hEnabled, revokedGuard, readHandler,
        hHandler, readTarget, hTarget, hTrap, IsHeapEnumInProgress, hHeapEnum, hCall, deref,
        Exec.pure_apply, hDesc, hvs, hgs.1, hgs.2, hc, hw, hWrit]

/-- The example target with a non-configurable accessor `x` without getter, behind a
`get` trap that answers 2: the get throws. -/
theorem C23_witness :
    GetPropertyTrap (Example.host true true) 0 (.proxy 0) {} (fun _ s => .ok (true, .undefined) s)
        (fun _ => 20) (Example.state Example.heapAccessorX false false none)
      = .throw (.typeError .JSERR_InconsistentTrapResult "get")
          { Example.state Example.heapAccessorX false false none with implicitCallFlags := 5 } :=
  (C23_get_accessor_without_getter (Example.host true true) 0 (.proxy 0) {}
    (fun _ s => .ok (true, .undefined) s) (fun _ => 20)
    (Example.state Example.heapAccessorX false false none)
    (Example.state Example.heapAccessorX false false none)
    { Example.state Example.heapAccessorX false false none with implicitCallFlags := 5 }
    { Example.state Example.heapAccessorX false false none with implicitCallFlags := 5 }
    (.object 2) (.object 1) (.function 100) (.number 2)
    (some { Getter := some (.function 0), Setter := some (.function 0),
            Enumerable := some false, Configurable := some false })
    rfl rfl rfl rfl rfl rfl rfl).1 _ rfl rfl rfl rfl rfl

/-- `SetPrototypeTrap` on a non-revoked Proxy with a `setPrototypeOf` trap, once the
trap has returned and the target's extensibility has been read: on an extensible target
a falsy trap result with shouldThrow set throws ProxyTrapReturnedFalse and otherwise
ToBoolean of the trap result is returned; on a non-extensible target the outcome is
decided by `SameValue` of the target's prototype and the new one, and by shouldThrow. -/
theorem SetPrototypeTrap_trap_present {H : Type} (h : Host H) (this : Nat)
    (newPrototype : Var) (shouldThrow : Bool) (s s1 s2 s3 : State H)
    (handlerObj targetObj method trapResult : Var) (isExtensible : Bool)
    (hEnabled : s.disableImplicitCall = false)
    (hHandler : (s.proxies this).handler = some handlerObj)
    (hTrap : GetMethodHelper h this h.ids.setPrototypeOf s = .ok (some method) s1)
    (hCall : CallTrap h method [(s1.proxies this).handler, (s1.proxies this).target,
      some newPrototype] s1 = .ok trapResult s2)
    (hTarget2 : (s2.proxies this).target = some targetObj)
    (hExtensible : h.IsExtensible targetObj s2 = .ok isExtensible s3)
    (hTarget3 : (s3.proxies this).target = some targetObj) :
    SetPrototypeTrap h this newPrototype shouldThrow s =
      (if isExtensible = true then
        if h.ToBoolean trapResult = false ∧ shouldThrow = true then
          .throw (.typeError .JSERR_ProxyTrapReturnedFalse "setPrototypeOf") s3
        else .ok (h.ToBoolean trapResult) s3
       else if h.SameValue (h.GetPrototype targetObj s3) newPrototype = false then
        if shouldThrow = true then
          .throw (.typeError .JSERR_InconsistentTrapResult "setPrototypeOf") s3
        else .ok false s3
       else .ok true s3) := by
  unfold SetPrototypeTrap
  cases shouldThrow <;> cases isExtensible <;> cases hb : h.ToBoolean trapResult <;>
    cases hsv : h.SameValue (h.GetPrototype targetObj s3) newPrototype <;>
    simp [Exec.bind_apply, IsDisableImplicitCall, hEnabled, revokedGuard, readHandler,
      hHandler, readTarget, hTrap, hCall, hTarget2, deref, Exec.pure_apply, hExtensible,
      hTarget3, getState, hb, hsv, ThrowTypeError, raise]

/-- C25 (the code at the failing input): the example target is non-extensible with
prototype null and the `setPrototypeOf` trap answers false; asked, with shouldThrow
set, to set null as the prototype, `SetPrototypeTrap` returns TRUE and throws nothing;
the same call on the extensible example target throws ProxyTrapReturnedFalse. -/
theorem C25_setPrototype_false_trap_nonextensible :
    (Example.host true true).ToBoolean Example.heapFrozenXDenied.trapValue = false
    ∧ SetPrototypeTrap (Example.host true true) 0 .null true
        (Example.state Example.heapFrozenXDenied false false none)
      = .ok true
          { Example.state Example.heapFrozenXDenied false false none with
            implicitCallFlags := 5 }
    ∧ SetPrototypeTrap (Example.host true true) 0 .null true
        (Example.state { Example.heapFrozenXDenied with extensible := true } false false none)
      = .throw (.typeError .JSERR_ProxyTrapReturnedFalse "setPrototypeOf")
          { Example.state { Example.heapFrozenXDenied with extensible := true }
              false false none with implicitCallFlags := 5 } :=
  ⟨rfl, rfl, rfl⟩

/-- `FunctionCallTrap` on a construct invocation of a Proxy whose handler has no
`construct` trap, with fewer than 65535 argument values and a constructor target: the
target's entry point is called with the argument values (the new object in place of
`this`) followed by one trailing value, which is the value at index `Count` when
`CallFlags_NewTarget` is set and the Proxy otherwise, whatever the `this` argument
is. -/
theorem FunctionCallTrap_construct_trap_absent {H : Type} (h : Host H) (proxy : Nat)
    (callInfo : CallInfo) (values : List (Option Var))
    (s s1 s2 s3 : State H) (targetObj newThisObject aReturnValue : Var)
    (hNew : callInfo.CallFlags_New = true)
    (hTrap : GetMethodHelper h proxy h.ids.construct s = .ok none s1)
    (hTarget : (s1.proxies proxy).target = some targetObj)
    (hCallable : h.IsCallable targetObj s1 = true)
    (hCount : callInfo.Count < USHORT_MAX)
    (hCtor : h.IsConstructor targetObj = true)
    (hObj : h.NewScObjectNoCtor targetObj s1 = .ok newThisObject s2)
    (hTarget2 : (s2.proxies proxy).target = some targetObj)
    (hCall : h.CallEntryPoint targetObj
      { callInfo with CallFlags_ExtraArg := true, CallFlags_NewTarget := true,
                      Count := (callInfo.Count + 1) % 2 ^ 16 }
      ((values.set 0 (some newThisObject)).take callInfo.Count ++
        [if callInfo.CallFlags_NewTarget = true then (values.get? callInfo.Count).join
         else some (.proxy proxy)]) s2 = .ok aReturnValue s3) :
    FunctionCallTrap h (.proxy proxy) callInfo values s =
      .ok (if IsObject aReturnValue = true then aReturnValue else newThisObject) s3 := by
  have hC : ¬ callInfo.Count ≥ USHORT_MAX := Nat.not_le.mpr hCount
  simp only [hNew] at hCall
  unfold FunctionCallTrap
  simp only [hNew, ↓reduceIte, Exec.bind_apply, hTrap, readTarget, hTarget, deref,
    Exec.pure_apply, getState, hCallable, Bool.not_true, Bool.false_eq_true, hC, hCtor,
    hObj, hTarget2, hCall, Bool.true_and]
  cases hO : IsObject aReturnValue <;> simp [hO, deref, Exec.pure_apply]

/-- C26: the new.target `FunctionCallTrap` hands on in a super-constructor call without
an overriding new.target differs between its two paths.  The callable example Proxy is
constructed with `CallFlags_New` set, `CallFlags_NewTarget` clear and the object at
address 9 as the `this` argument (a super-constructor call).  With a `construct` trap
that returns its fourth argument the result is the object at address 9, the `this`
argument; without a trap, with a target function that returns its trailing argument,
the result is the Proxy itself and not the `this` argument. -/
theorem C26_newTarget_without_trap_is_proxy :
    (⟨true, false, false, false, 1⟩ : CallInfo).CallFlags_New = true
    ∧ (⟨true, false, false, false, 1⟩ : CallInfo).CallFlags_NewTarget = false
    ∧ RecyclableObject.Is (.object 9) = true
    ∧ FunctionCallTrap Example.hostEchoTrap (.proxy 0) ⟨true, false, false, false, 1⟩
          [some (.object 9)] (Example.stateCallableProxy Example.heapFrozenX)
        = .ok (.object 9) (Example.stateCallableProxy Example.heapFrozenX)
    ∧ FunctionCallTrap Example.hostEchoTarget (.proxy 0) ⟨true, false, false, false, 1⟩
          [some (.object 9)] (Example.stateCallableProxy Example.heapFrozenX)
        = .ok (.proxy 0) (Example.stateCallableProxy Example.heapFrozenX) :=
  ⟨rfl, rfl, rfl, rfl,
    FunctionCallTrap_construct_trap_absent Example.hostEchoTarget 0
      ⟨true, false, false, false, 1⟩ [some (.object 9)]
      (Example.stateCallableProxy Example.heapFrozenX)
      (Example.stateCallableProxy Example.heapFrozenX)
      (Example.stateCallableProxy Example.heapFrozenX)
      (Example.stateCallableProxy Example.heapFrozenX)
      (.function 100) (.object 5) (.proxy 0) rfl rfl rfl rfl (by decide) rfl rfl rfl rfl⟩

/-- `GetMethodHelper` on a non-revoked Proxy, where `r` is what the read of the
handler's property `methodId` gives (`none` when the property is absent):
it returns the null pointer when the property is absent, undefined or null; it returns
the marshalled value for every `JavascriptFunction`; and it throws TypeError
NeedFunction(name) for every other value, which includes every Proxy, callable or
not. -/
theorem GetMethodHelper_resolves {H : Type} (h : Host H) (this : Nat)
    (methodId : PropertyId) (s s1 : State H) (targetObj handlerObj : Var) (r : Option Var)
    (hTarget : (s.proxies this).target = some targetObj)
    (hHandler : (s.proxies this).handler = some handlerObj)
    (hRef : h.GetPropertyReference handlerObj methodId s = .ok r s1) :
    ((r = none ∨ r = some .undefined ∨ r = some .null) →
      GetMethodHelper h this methodId s = .ok none s1)
    ∧ (∀ addr, r = some (.function addr) →
        GetMethodHelper h this methodId s = .ok (some (h.MarshalVar (.function addr))) s1)
    ∧ (∀ v, r = some v → v ≠ .undefined → v ≠ .null → (∀ addr, v ≠ .function addr) →
        GetMethodHelper h this methodId s
          = .throw (.typeError .JSERR_NeedFunction (h.GetPropertyName methodId).buffer) s1)
    ∧ (∀ addr, r = some (.proxy addr) →
        GetMethodHelper h this methodId s
          = .throw (.typeError .JSERR_NeedFunction (h.GetPropertyName methodId).buffer) s1) := by
  have key : ∀ v, r = some v → v ≠ .undefined → v ≠ .null → (∀ addr, v ≠ .function addr) →
      GetMethodHelper h this methodId s
        = .throw (.typeError .JSERR_NeedFunction (h.GetPropertyName methodId).buffer) s1 := by
    intro v hv hU hN hF
    subst hv
    cases v <;>
      first
      | exact absurd rfl hU
      | exact absurd rfl hN
      | exact absurd rfl (hF _)
      | simp [GetMethodHelper, Exec.bind_apply, readTarget, hTarget, readHandler, hHandler,
          deref, Exec.pure_apply, hRef, IsUndefinedOrNull, JavascriptFunction.Is, GetTypeId,
          ThrowTypeError, raise]
  refine ⟨?_, ?_, key, ?_⟩
  · rintro (hr | hr | hr) <;> subst hr <;>
      simp [GetMethodHelper, Exec.bind_apply, readTarget, hTarget, readHandler, hHandler,
        deref, Exec.pure_apply, hRef, IsUndefinedOrNull, GetTypeId]
  · intro addr hr
    subst hr
    simp [GetMethodHelper, Exec.bind_apply, readTarget, hTarget, readHandler, hHandler,
      deref, Exec.pure_apply, hRef, IsUndefinedOrNull, JavascriptFunction.Is, GetTypeId]
  · intro addr hr
    exact key _ hr (by intro hc; cases hc) (by intro hc; cases hc)
      (by intro a hc; cases hc)

/-- C28: a trap that is a callable Proxy is rejected.  In the example state the Proxy at
address 0 wraps a function and is callable, the Proxy at address 8 is not revoked, and
the `get` property of its handler holds the Proxy at address 0: `GetMethodHelper`
throws TypeError NeedFunction("get") instead of returning the callable, while a handler
whose `get` property holds the function at address 100 gets it returned. -/
theorem C28_callable_proxy_trap_rejected :
    Example.hostProxyTrap.IsCallable (.proxy 0)
        (Example.stateNestedProxy Example.heapFrozenX) = true
    ∧ ((Example.stateNestedProxy Example.heapFrozenX).proxies 0).target
        = some (.function 100)
    ∧ ((Example.stateNestedProxy Example.heapFrozenX).proxies 8).target = some (.proxy 0)
    ∧ Example.hostProxyTrap.GetPropertyReference (.object 2) Example.ids.get
          (Example.stateNestedProxy Example.heapFrozenX)
        = .ok (some (.proxy 0)) (Example.stateNestedProxy Example.heapFrozenX)
    ∧ GetMethodHelper Example.hostProxyTrap 8 Example.ids.get
          (Example.stateNestedProxy Example.heapFrozenX)
        = .throw (.typeError .JSERR_NeedFunction "get")
            (Example.stateNestedProxy Example.heapFrozenX)
    ∧ GetMethodHelper (Example.host true true) 8 Example.ids.get
          (Example.stateNestedProxy Example.heapFrozenX)
        = .ok (some (.function 100)) (Example.stateNestedProxy Example.heapFrozenX) :=
  ⟨rfl, rfl, rfl, rfl,
    (GetMethodHelper_resolves Example.hostProxyTrap 8 Example.ids.get
      (Example.stateNestedProxy Example.heapFrozenX)
      (Example.stateNestedProxy Example.heapFrozenX)
      (.proxy 0) (.object 2) (some (.proxy 0)) rfl rfl rfl).2.2.2 0 rfl,
    (GetMethodHelper_resolves (Example.host true true) 8 Example.ids.get
      (Example.stateNestedProxy Example.heapFrozenX)
      (Example.stateNestedProxy Example.heapFrozenX)
      (.proxy 0) (.object 2) (some (.function 100)) rfl rfl rfl).2.1 100 rfl⟩

/-- The loop of `TestIntegrityLevel` reads the descriptors of the keys in order and
accumulates whether one is configurable and whether a data descriptor is writable. -/
theorem TestIntegrityLevel_loop_spec {H : Type} (h : Host H) (obj : Var) :
    ∀ (keys : List Var) (st : TestIntegrityLevelState) (s : State H),
      (do
        let st1 ← TestIntegrityLevel.loop h obj keys st
        pure (st1.writable, st1.configurable) : Exec (State H) (Bool × Bool)) s
      = (do
        let descriptors ← OwnPropertyDescriptors h obj keys st.propertyDescriptor
        pure (st.writable || descriptors.any (fun d =>
                match d with
                | some d => d.IsDataDescriptor && d.IsWritable
                | none => false),
              st.configurable || descriptors.any (fun d =>
                match d with
                | some d => d.IsConfigurable
                | none => false))) s := by
  intro keys
  induction keys with
  | nil =>
    intro st s
    simp [TestIntegrityLevel.loop, OwnPropertyDescriptors, Exec.bind_apply, Exec.pure_apply]
  | cons key rest ih =>
    intro st s
    simp only [TestIntegrityLevel.loop, OwnPropertyDescriptors, TestIntegrityLevel.step,
      Exec.bind_apply]
    cases hr : h.GetOwnPropertyDescriptorHelper obj (h.ToPropertyKey key).GetPropertyId
        st.propertyDescriptor s with
    | fault => rfl
    | throw e s1 => rfl
    | ok r s1 =>
      obtain ⟨found, d⟩ := r
      cases found with
      | false =>
        have := ih { st with propertyDescriptor := d } s1
        simp only [Exec.bind_apply, Exec.pure_apply] at this
        simp only [Bool.false_eq_true, ↓reduceIte, Exec.pure_apply]
        rw [this]
        cases hd : OwnPropertyDescriptors h obj rest d s1 <;>
          simp [Exec.pure_apply]
      | true =>
        have := ih ⟨if d.IsDataDescriptor then st.writable || d.IsWritable else st.writable,
          st.configurable || d.IsConfigurable, d⟩ s1
        simp only [Exec.bind_apply, Exec.pure_apply] at this
        simp only [↓reduceIte, Exec.pure_apply]
        rw [this]
        cases hd : OwnPropertyDescriptors h obj rest d s1 with
        | fault => rfl
        | throw e s2 => rfl
        | ok ds s2 =>
          cases hD : d.IsDataDescriptor <;>
            simp [Exec.pure_apply, hD, Bool.or_assoc]

/-- C29: `TestIntegrityLevel` on an object (a Proxy) is the reference definition applied
to the extensibility the object reports and to the descriptors obtained through it for
all of its own keys, in order: it returns false without reading a key when the object
reports extensible; otherwise false if a present descriptor is configurable, or if the
level is frozen and a present data descriptor is writable; else true.  For the level
sealed the result is decided by the extensibility and the configurable attributes
alone. -/
theorem C29_testIntegrityLevel_is_reference {H : Type} (h : Host H) (level : IntegrityLevel)
    (obj : Var) (s : State H) :
    TestIntegrityLevel h level obj s =
      (do
        let extensible ← h.IsExtensible obj
        if extensible then pure (TestIntegrityLevelReference level true [])
        else
          let keys ← h.GetOwnPropertyKeys obj
          let descriptors ← OwnPropertyDescriptors h obj keys {}
          pure (TestIntegrityLevelReference level false descriptors)) s
    ∧ (∀ (descriptors : List (Option PropertyDescriptor)),
        TestIntegrityLevelReference level true descriptors = false)
    ∧ (∀ (extensible : Bool) (descriptors : List (Option PropertyDescriptor)),
        TestIntegrityLevelReference .IntegrityLevel_sealed extensible descriptors
          = (!extensible && !descriptors.any (fun d =>
              match d with
              | some d => d.IsConfigurable
              | none => false))) := by
  refine ⟨?_, ?_, ?_⟩
  · unfold TestIntegrityLevel
    simp only [Exec.bind_apply]
    cases he : h.IsExtensible obj s with
    | fault => rfl
    | throw e s1 => rfl
    | ok ext s1 =>
      cases ext with
      | true => simp [TestIntegrityLevelReference, Exec.pure_apply]
      | false =>
        simp only [Bool.false_eq_true, ↓reduceIte, Exec.bind_apply]
        cases hk : h.GetOwnPropertyKeys obj s1 with
        | fault => rfl
        | throw e s2 => rfl
        | ok keys s2 =>
          have hl := TestIntegrityLevel_loop_spec h obj keys ⟨false, false, {}⟩ s2
          simp only [Exec.bind_apply] at hl
          simp only
          cases hloop : TestIntegrityLevel.loop h obj keys ⟨false, false, {}⟩ s2 with
          | fault =>
            rw [hloop] at hl
            cases hd : OwnPropertyDescriptors h obj keys {} s2 <;> simp_all [Exec.pure_apply]
          | throw e s3 =>
            rw [hloop] at hl
            cases hd : OwnPropertyDescriptors h obj keys {} s2 <;> simp_all [Exec.pure_apply]
          | ok st s3 =>
            rw [hloop] at hl
            cases hd : OwnPropertyDescriptors h obj keys {} s2 with
            | fault => simp_all [Exec.pure_apply]
            | throw e s4 => simp_all [Exec.pure_apply]
            | ok ds s4 =>
              rw [hd] at hl
              simp only [Exec.pure_apply, Bool.false_or, Outcome.ok.injEq, Prod.mk.injEq] at hl
              obtain ⟨⟨hw, hc⟩, hs⟩ := hl
              subst hs
              cases level <;>
                cases hcv : st.configurable <;> cases hwv : st.writable <;>
                simp_all [TestIntegrityLevelReference, Exec.pure_apply]
  · intro descriptors
    simp [TestIntegrityLevelReference]
  · intro extensible descriptors
    simp only [TestIntegrityLevelReference]
    generalize (descriptors.any fun d =>
      match d with
      | some d => d.IsConfigurable
      | none => false) = a
    cases extensible <;> cases a <;> rfl

/-- The example Proxy over the frozen `x` target tests as frozen. -/
theorem C29_witness :
    TestIntegrityLevel (Example.host false true) .IntegrityLevel_frozen (.proxy 0)
        (Example.state Example.heapFrozenX false false none)
      = .ok true (Example.state Example.heapFrozenX false false none) :=
  (C29_testIntegrityLevel_is_reference (Example.host false true) .IntegrityLevel_frozen
    (.proxy 0) (Example.state Example.heapFrozenX false false none)).1.trans rfl

/-- The loop of `SetIntegrityLevel` for the level sealed issues the sealed definition
for each key in order. -/
theorem SetIntegrityLevel_sealedLoop_spec {H : Type} (h : Host H) (obj : Var) :
    ∀ (keys : List Var) (s : State H),
      SetIntegrityLevel.sealedLoop h obj (({} : PropertyDescriptor).SetConfigurable false) keys s
        = DefineIntegrityLevel h .IntegrityLevel_sealed obj keys s := by
  intro keys
  induction keys with
  | nil => intro s; rfl
  | cons key rest ih =>
    intro s
    simp only [SetIntegrityLevel.sealedLoop, DefineIntegrityLevel, IntegrityLevelDefinition,
      Exec.bind_apply, Exec.pure_apply, PropertyDescriptor.SetConfigurable]
    cases hd : h.DefineOwnPropertyHelper obj (h.ToPropertyKey key).GetPropertyId
        { Configurable := some false } s with
    | fault => rfl
    | throw e s1 => rfl
    | ok b s1 => exact ih s1

/-- The loop of `SetIntegrityLevel` for the level frozen reads the current descriptor of
each key in order and issues the frozen definition for it, or skips the key. -/
theorem SetIntegrityLevel_frozenLoop_spec {H : Type} (h : Host H) (obj : Var) :
    ∀ (keys : List Var) (s : State H),
      SetIntegrityLevel.frozenLoop h obj
          ((({} : PropertyDescriptor).SetConfigurable false).SetWritable false)
          (({} : PropertyDescriptor).SetConfigurable false) keys s
        = DefineIntegrityLevel h .IntegrityLevel_frozen obj keys s := by
  intro keys
  induction keys with
  | nil => intro s; rfl
  | cons key rest ih =>
    intro s
    simp only [SetIntegrityLevel.frozenLoop, DefineIntegrityLevel, Exec.bind_apply,
      Exec.pure_apply, PropertyDescriptor.SetConfigurable, PropertyDescriptor.SetWritable]
    cases hr : h.GetOwnPropertyDescriptorHelper obj (h.ToPropertyKey key).GetPropertyId {} s with
    | fault => rfl
    | throw e s1 => rfl
    | ok r s1 =>
      obtain ⟨found, d⟩ := r
      cases found with
      | false =>
        simp only [Bool.false_eq_true, ↓reduceIte, IntegrityLevelDefinition, Exec.pure_apply]
        exact ih s1
      | true =>
        cases hD : d.IsDataDescriptor with
        | true =>
          simp only [↓reduceIte, IntegrityLevelDefinition, hD, Exec.bind_apply, Exec.pure_apply,
            PropertyRecord.GetPropertyId]
          cases hdef : h.DefineOwnPropertyHelper obj (h.ToPropertyKey key).pid
              { Configurable := some false, Writable := some false } s1 with
          | fault => rfl
          | throw e s2 => rfl
          | ok b s2 => exact ih s2
        | false =>
          cases hA : d.IsAccessorDescriptor with
          | true =>
            simp only [↓reduceIte, IntegrityLevelDefinition, hD, hA, Bool.false_eq_true,
              Exec.bind_apply, Exec.pure_apply, PropertyRecord.GetPropertyId]
            cases hdef : h.DefineOwnPropertyHelper obj (h.ToPropertyKey key).pid
                { Configurable := some false } s1 with
            | fault => rfl
            | throw e s2 => rfl
            | ok b s2 => exact ih s2
          | false =>
            simp only [↓reduceIte, IntegrityLevelDefinition, hD, hA, Bool.false_eq_true,
              Exec.pure_apply]
            exact ih s1

/-- C30: `SetIntegrityLevel` on an object (a Proxy) first calls the object's
`PreventExtensions`; when that returns false it returns false at once, with no read of a
key and no definition; otherwise it obtains the object's own keys and, for each key in
order, issues the definition of the level through `DefineOwnPropertyHelper` on the
object (sealed: configurable=false, with no read of the current descriptor; frozen: the
current descriptor is read, and the key is defined with configurable=false and
writable=false when it is a data descriptor, with configurable=false when it is an
accessor descriptor, and skipped when there is none), and returns true. -/
theorem C30_setIntegrityLevel_definitions {H : Type} (h : Host H) (level : IntegrityLevel)
    (obj : Var) (s : State H) :
    SetIntegrityLevel h level obj s =
      (do
        let status ← h.PreventExtensions obj
        if status = false then pure false
        else
          let keys ← h.GetOwnPropertyKeys obj
          DefineIntegrityLevel h level obj keys
          pure true) s
    ∧ (∀ current, IntegrityLevelDefinition .IntegrityLevel_sealed current
        = some { Configurable := some false })
    ∧ IntegrityLevelDefinition .IntegrityLevel_frozen none = none
    ∧ (∀ d : PropertyDescriptor, d.IsDataDescriptor = true →
        IntegrityLevelDefinition .IntegrityLevel_frozen (some d)
          = some { Configurable := some false, Writable := some false })
    ∧ (∀ d : PropertyDescriptor, d.IsDataDescriptor = false → d.IsAccessorDescriptor = true →
        IntegrityLevelDefinition .IntegrityLevel_frozen (some d)
          = some { Configurable := some false }) := by
  refine ⟨?_, fun _ => rfl, rfl, ?_, ?_⟩
  · unfold SetIntegrityLevel
    simp only [Exec.bind_apply]
    cases hp : h.PreventExtensions obj s with
    | fault => rfl
    | throw e s1 => rfl
    | ok status s1 =>
      cases status with
      | false => simp [Exec.pure_apply]
      | true =>
        simp only [beq_iff_eq, Bool.true_eq_false, ↓reduceIte, Exec.bind_apply]
        cases hk : h.GetOwnPropertyKeys obj s1 with
        | fault => rfl
        | throw e s2 => rfl
        | ok keys s2 =>
          cases level with
          | IntegrityLevel_sealed =>
            simp [Exec.bind_apply, SetIntegrityLevel_sealedLoop_spec]
          | IntegrityLevel_frozen =>
            simp [Exec.bind_apply, SetIntegrityLevel_frozenLoop_spec]
  · intro d hD
    simp [IntegrityLevelDefinition, hD]
  · intro d hD hA
    simp [IntegrityLevelDefinition, hD, hA]

/-- The example Proxy over a target with the frozen data property `x` and the writable
property `k`, frozen: one definition for each key, in key order. -/
theorem C30_witness :
    SetIntegrityLevel (Example.host false true) .IntegrityLevel_frozen (.proxy 0)
        (Example.state Example.heapSealedKeys false false none)
      = .ok true
          { Example.state Example.heapSealedKeys false false none with
            heap := { Example.heapSealedKeys with
              defined := [(20, { Configurable := some false, Writable := some false }),
                          (21, { Configurable := some false, Writable := some false })] } } :=
  (C30_setIntegrityLevel_definitions (Example.host false true) .IntegrityLevel_frozen (.proxy 0)
    (Example.state Example.heapSealedKeys false false none)).1.trans rfl

/-! ### The slot invariant -/

theorem SlotRel_refl {H : Type} (p : Nat) (s : State H) : SlotRel p s s := Or.inl rfl

theorem SlotRel_trans {H : Type} {p : Nat} {s s1 s2 : State H}
    (h1 : SlotRel p s s1) (h2 : SlotRel p s1 s2) : SlotRel p s s2 := by
  rcases h2 with h2 | h2
  · rcases h1 with h1 | h1
    · exact Or.inl (h2.trans h1)
    · exact Or.inr (h2.trans h1)
  · exact Or.inr h2

/-- A step that leaves the slots of every Proxy alone. -/
theorem SlotRel_of_proxies {H : Type} (p : Nat) {s s1 : State H}
    (h : s1.proxies = s.proxies) : SlotRel p s s1 := Or.inl (by rw [h])

theorem Relates_pure {H α : Type} (p : Nat) (a : α) :
    Exec.Relates (SlotRel p) (pure a : Exec (State H) α) :=
  fun s => SlotRel_refl p s

theorem Relates_bind {H α β : Type} {p : Nat} {m : Exec (State H) α}
    {f : α → Exec (State H) β}
    (hm : Exec.Relates (SlotRel p) m) (hf : ∀ a, Exec.Relates (SlotRel p) (f a)) :
    Exec.Relates (SlotRel p) (m >>= f) := by
  intro s
  have h1 := hm s
  rw [Exec.bind_apply]
  cases hr : m s with
  | fault => trivial
  | throw e s1 =>
    rw [hr] at h1
    exact h1
  | ok a s1 =>
    rw [hr] at h1
    have h2 := hf a s1
    simp only
    cases hr2 : f a s1 with
    | fault => trivial
    | throw e s2 =>
      rw [hr2] at h2
      exact SlotRel_trans h1 h2
    | ok b s2 =>
      rw [hr2] at h2
      exact SlotRel_trans h1 h2

theorem Relates_raise {H α : Type} (p : Nat) (e : JsError) :
    Exec.Relates (SlotRel p) (raise e : Exec (State H) α) :=
  fun s => SlotRel_refl p s

theorem Relates_ThrowTypeError {H α : Type} (p : Nat) (code : ErrorCode) (arg : String) :
    Exec.Relates (SlotRel p) (ThrowTypeError code arg : Exec (State H) α) :=
  fun s => SlotRel_refl p s

theorem Relates_nullDereference {H α : Type} (p : Nat) :
    Exec.Relates (SlotRel p) (nullDereference : Exec (State H) α) :=
  fun _ => trivial

theorem Relates_getState {H : Type} (p : Nat) :
    Exec.Relates (SlotRel p) (getState : Exec (State H) (State H)) :=
  fun s => SlotRel_refl p s

theorem Relates_readTarget {H : Type} (p this : Nat) :
    Exec.Relates (SlotRel p) (readTarget this : Exec (State H) (Option Var)) :=
  fun s => SlotRel_refl p s

theorem Relates_readHandler {H : Type} (p this : Nat) :
    Exec.Relates (SlotRel p) (readHandler this : Exec (State H) (Option Var)) :=
  fun s => SlotRel_refl p s

theorem Relates_deref {H : Type} (p : Nat) (v : Option Var) :
    Exec.Relates (SlotRel p) (deref v : Exec (State H) Var) := by
  intro s
  cases v
  · trivial
  · exact SlotRel_refl p s

theorem Relates_IsDisableImplicitCall {H : Type} (p : Nat) :
    Exec.Relates (SlotRel p) (IsDisableImplicitCall : Exec (State H) Bool) :=
  fun s => SlotRel_refl p s

theorem Relates_AddImplicitCallFlags {H : Type} (p flags : Nat) :
    Exec.Relates (SlotRel p) (AddImplicitCallFlags flags : Exec (State H) Unit) :=
  fun _ => Or.inl rfl

theorem Relates_GetImplicitCallFlags {H : Type} (p : Nat) :
    Exec.Relates (SlotRel p) (GetImplicitCallFlags : Exec (State H) Nat) :=
  fun s => SlotRel_refl p s

theorem Relates_SetImplicitCallFlags {H : Type} (p flags : Nat) :
    Exec.Relates (SlotRel p) (SetImplicitCallFlags flags : Exec (State H) Unit) :=
  fun _ => Or.inl rfl

theorem Relates_IsHeapEnumInProgress {H : Type} (h : Host H) (p : Nat) :
    Exec.Relates (SlotRel p) (IsHeapEnumInProgress h) :=
  fun s => SlotRel_refl p s

theorem Relates_GetInternalProperty {H : Type} (p function : Nat) :
    Exec.Relates (SlotRel p) (GetInternalProperty function : Exec (State H) (Option Var)) :=
  fun s => SlotRel_refl p s

theorem Relates_SetInternalProperty {H : Type} (p function : Nat) (v : Var) :
    Exec.Relates (SlotRel p) (SetInternalProperty function v : Exec (State H) Unit) :=
  fun _ => Or.inl rfl

/-- Revocation of any Proxy leaves the Proxy at `p` alone or nulls both its slots. -/
theorem Relates_RevokeObject {H : Type} (p this : Nat) :
    Exec.Relates (SlotRel p) (RevokeObject this : Exec (State H) Unit) := by
  intro s
  by_cases hp : p = this
  · subst hp
    right
    exact Function.update_same _ _ _
  · left
    exact Function.update_noteq hp _ _

/-- The constructor run at another address leaves the Proxy at `p` alone. -/
theorem Relates_construct {H : Type} (p addr : Nat) (target handler : Var) (hne : addr ≠ p) :
    Exec.Relates (SlotRel p)
      (JavascriptProxy.construct addr target handler : Exec (State H) Unit) := by
  intro s
  left
  exact Function.update_noteq (Ne.symm hne) _ _

theorem Relates_SetEntryPoint {H : Type} (p addr : Nat) :
    Exec.Relates (SlotRel p) (SetEntryPointFunctionCallTrap addr : Exec (State H) Unit) :=
  fun _ => Or.inl rfl

/-- The state a related piece of code ends in. -/
theorem Relates_state {H α : Type} {p : Nat} {m : Exec (State H) α}
    (hm : Exec.Relates (SlotRel p) m) (s s1 : State H) (h : (m s).state? = some s1) :
    SlotRel p s s1 := by
  have h1 := hm s
  cases hr : m s with
  | fault => rw [hr] at h; cases h
  | throw e s2 =>
    rw [hr] at h h1
    cases h
    exact h1
  | ok a s2 =>
    rw [hr] at h h1
    cases h
    exact h1

theorem Relates_CallTrap {H : Type} (h : Host H) (p : Nat) (hR : h.Respects p)
    (method : Var) (args : List (Option Var)) :
    Exec.Relates (SlotRel p) (CallTrap h method args) := by
  unfold CallTrap
  repeat' first
    | exact Relates_pure _ _
    | exact Relates_GetImplicitCallFlags _
    | exact Relates_SetImplicitCallFlags _ _
    | exact hR _ _ (by constructor)
    | refine Relates_bind ?_ (fun _ => ?_)

theorem Relates_GetMethodHelper {H : Type} (h : Host H) (p : Nat) (hR : h.Respects p)
    (this : Nat) (methodId : PropertyId) :
    Exec.Relates (SlotRel p) (GetMethodHelper h this methodId) := by
  unfold GetMethodHelper
  repeat' first
    | exact Relates_pure _ _
    | exact Relates_ThrowTypeError _ _ _
    | exact Relates_readTarget _ _
    | exact Relates_readHandler _ _
    | exact Relates_deref _ _
    | exact hR _ _ (by constructor)
    | refine Relates_bind ?_ (fun _ => ?_)
    | split

theorem Relates_revokedGuard {H : Type} (h : Host H) (p : Nat) (hR : h.Respects p)
    (this : Nat) (name : String) :
    Exec.Relates (SlotRel p) (revokedGuard h this name) := by
  unfold revokedGuard
  repeat' first
    | exact Relates_pure _ _
    | exact Relates_ThrowTypeError _ _ _
    | exact Relates_readHandler _ _
    | exact hR _ _ (by constructor)
    | refine Relates_bind ?_ (fun _ => ?_)
    | split

theorem Relates_GetPropertyTrap {H : Type} (h : Host H) (p : Nat) (hR : h.Respects p)
    (this : Nat) (originalInstance : Var) (propertyDescriptor : PropertyDescriptor)
    (fn : Var → Exec (State H) (Bool × Var)) (getPropertyId : Unit → PropertyId)
    (hfn : ∀ a, Exec.Relates (SlotRel p) (fn a)) :
    Exec.Relates (SlotRel p) (GetPropertyTrap h this originalInstance propertyDescriptor fn getPropertyId) := by
  unfold GetPropertyTrap
  repeat' first
    | exact hfn _
    | exact Relates_pure _ _
    | exact Relates_ThrowTypeError _ _ _
    | exact Relates_raise _ _
    | exact Relates_nullDereference _
    | exact Relates_getState _
    | exact Relates_readTarget _ _
    | exact Relates_readHandler _ _
    | exact Relates_deref _ _
    | exact Relates_IsDisableImplicitCall _
    | exact Relates_AddImplicitCallFlags _ _
    | exact Relates_GetImplicitCallFlags _
    | exact Relates_SetImplicitCallFlags _ _
    | exact Relates_IsHeapEnumInProgress _ _
    | exact Relates_revokedGuard h p hR _ _
    | exact Relates_GetMethodHelper h p hR _ _
    | exact Relates_CallTrap h p hR _ _
    | exact hR _ _ (by constructor)
    | refine Relates_bind ?_ (fun _ => ?_)
    | split
    | dsimp only

theorem Relates_HasPropertyTrap {H : Type} (h : Host H) (p : Nat) (hR : h.Respects p)
    (this : Nat) (fn : Var → Exec (State H) Bool) (getPropertyId : Unit → PropertyId)
    (hfn : ∀ a, Exec.Relates (SlotRel p) (fn a)) :
    Exec.Relates (SlotRel p) (HasPropertyTrap h this fn getPropertyId) := by
  unfold HasPropertyTrap
  repeat' first
    | exact hfn _
    | exact Relates_pure _ _
    | exact Relates_ThrowTypeError _ _ _
    | exact Relates_raise _ _
    | exact Relates_nullDereference _
    | exact Relates_getState _
    | exact Relates_readTarget _ _
    | exact Relates_readHandler _ _
    | exact Relates_deref _ _
    | exact Relates_IsDisableImplicitCall _
    | exact Relates_AddImplicitCallFlags _ _
    | exact Relates_GetImplicitCallFlags _
    | exact Relates_SetImplicitCallFlags _ _
    | exact Relates_IsHeapEnumInProgress _ _
    | exact Relates_revokedGuard h p hR _ _
    | exact Relates_GetMethodHelper h p hR _ _
    | exact Relates_CallTrap h p hR _ _
    | exact hR _ _ (by constructor)
    | refine Relates_bind ?_ (fun _ => ?_)
    | split
    | dsimp only

theorem Relates_GetPropertyDescriptorTrap {H : Type} (h : Host H) (p : Nat) (hR : h.Respects p)
    (this : Nat) (originalInstance : Var)
    (fn : Unit → Exec (State H) (Option PropertyDescriptor))
    (getPropertyId : Unit → PropertyId) (resultDescriptor : PropertyDescriptor)
    (hfn : ∀ a, Exec.Relates (SlotRel p) (fn a)) :
    Exec.Relates (SlotRel p) (GetPropertyDescriptorTrap h this originalInstance fn getPropertyId resultDescriptor) := by
  unfold GetPropertyDescriptorTrap
  repeat' first
    | exact hfn _
    | exact Relates_pure _ _
    | exact Relates_ThrowTypeError _ _ _
    | exact Relates_raise _ _
    | exact Relates_nullDereference _
    | exact Relates_getState _
    | exact Relates_readTarget _ _
    | exact Relates_readHandler _ _
    | exact Relates_deref _ _
    | exact Relates_IsDisableImplicitCall _
    | exact Relates_AddImplicitCallFlags _ _
    | exact Relates_GetImplicitCallFlags _
    | exact Relates_SetImplicitCallFlags _ _
    | exact Relates_IsHeapEnumInProgress _ _
    | exact Relates_revokedGuard h p hR _ _
    | exact Relates_GetMethodHelper h p hR _ _
    | exact Relates_CallTrap h p hR _ _
    | exact hR _ _ (by constructor)
    | refine Relates_bind ?_ (fun _ => ?_)
    | split
    | dsimp only

theorem Relates_IsExtensible {H : Type} (h : Host H) (p : Nat) (hR : h.Respects p)
    (this : Nat) :
    Exec.Relates (SlotRel p) (IsExtensible h this) := by
  unfold IsExtensible
  repeat' first
    | exact Relates_pure _ _
    | exact Relates_ThrowTypeError _ _ _
    | exact Relates_raise _ _
    | exact Relates_nullDereference _
    | exact Relates_getState _
    | exact Relates_readTarget _ _
    | exact Relates_readHandler _ _
    | exact Relates_deref _ _
    | exact Relates_IsDisableImplicitCall _
    | exact Relates_AddImplicitCallFlags _ _
    | exact Relates_GetImplicitCallFlags _
    | exact Relates_SetImplicitCallFlags _ _
    | exact Relates_IsHeapEnumInProgress _ _
    | exact Relates_revokedGuard h p hR _ _
    | exact Relates_GetMethodHelper h p hR _ _
    | exact Relates_CallTrap h p hR _ _
    | exact hR _ _ (by constructor)
    | refine Relates_bind ?_ (fun _ => ?_)
    | split

theorem Relates_PreventExtensions {H : Type} (h : Host H) (p : Nat) (hR : h.Respects p)
    (this : Nat) :
    Exec.Relates (SlotRel p) (PreventExtensions h this) := by
  unfold PreventExtensions
  repeat' first
    | exact Relates_pure _ _
    | exact Relates_ThrowTypeError _ _ _
    | exact Relates_raise _ _
    | exact Relates_nullDereference _
    | exact Relates_getState _
    | exact Relates_readTarget _ _
    | exact Relates_readHandler _ _
    | exact Relates_deref _ _
    | exact Relates_IsDisableImplicitCall _
    | exact Relates_AddImplicitCallFlags _ _
    | exact Relates_GetImplicitCallFlags _
    | exact Relates_SetImplicitCallFlags _ _
    | exact Relates_IsHeapEnumInProgress _ _
    | exact Relates_revokedGuard h p hR _ _
    | exact Relates_GetMethodHelper h p hR _ _
    | exact Relates_CallTrap h p hR _ _
    | exact hR _ _ (by constructor)
    | refine Relates_bind ?_ (fun _ => ?_)
    | split
    | dsimp only

theorem Relates_GetPrototypeSpecial {H : Type} (h : Host H) (p : Nat) (hR : h.Respects p)
    (this : Nat) :
    Exec.Relates (SlotRel p) (GetPrototypeSpecial h this) := by
  unfold GetPrototypeSpecial
  repeat' first
    | exact Relates_pure _ _
    | exact Relates_ThrowTypeError _ _ _
    | exact Relates_raise _ _
    | exact Relates_nullDereference _
    | exact Relates_getState _
    | exact Relates_readTarget _ _
    | exact Relates_readHandler _ _
    | exact Relates_deref _ _
    | exact Relates_IsDisableImplicitCall _
    | exact Relates_AddImplicitCallFlags _ _
    | exact Relates_GetImplicitCallFlags _
    | exact Relates_SetImplicitCallFlags _ _
    | exact Relates_IsHeapEnumInProgress _ _
    | exact Relates_revokedGuard h p hR _ _
    | exact Relates_GetMethodHelper h p hR _ _
    | exact Relates_CallTrap h p hR _ _
    | exact hR _ _ (by constructor)
    | refine Relates_bind ?_ (fun _ => ?_)
    | split
    | dsimp only

theorem Relates_SetPrototypeTrap {H : Type} (h : Host H) (p : Nat) (hR : h.Respects p)
    (this : Nat) (newPrototype : Var) (shouldThrow : Bool) :
    Exec.Relates (SlotRel p) (SetPrototypeTrap h this newPrototype shouldThrow) := by
  unfold SetPrototypeTrap
  repeat' first
    | exact Relates_pure _ _
    | exact Relates_ThrowTypeError _ _ _
    | exact Relates_raise _ _
    | exact Relates_nullDereference _
    | exact Relates_getState _
    | exact Relates_readTarget _ _
    | exact Relates_readHandler _ _
    | exact Relates_deref _ _
    | exact Relates_IsDisableImplicitCall _
    | exact Relates_AddImplicitCallFlags _ _
    | exact Relates_GetImplicitCallFlags _
    | exact Relates_SetImplicitCallFlags _ _
    | exact Relates_IsHeapEnumInProgress _ _
    | exact Relates_revokedGuard h p hR _ _
    | exact Relates_GetMethodHelper h p hR _ _
    | exact Relates_CallTrap h p hR _ _
    | exact hR _ _ (by constructor)
    | refine Relates_bind ?_ (fun _ => ?_)
    | split
    | dsimp only

theorem Relates_DeleteProperty {H : Type} (h : Host H) (p : Nat) (hR : h.Respects p)
    (this : Nat) (propertyId : PropertyId) (flags : Nat) :
    Exec.Relates (SlotRel p) (DeleteProperty h this propertyId flags) := by
  unfold DeleteProperty
  repeat' first
    | exact Relates_pure _ _
    | exact Relates_ThrowTypeError _ _ _
    | exact Relates_raise _ _
    | exact Relates_nullDereference _
    | exact Relates_getState _
    | exact Relates_readTarget _ _
    | exact Relates_readHandler _ _
    | exact Relates_deref _ _
    | exact Relates_IsDisableImplicitCall _
    | exact Relates_AddImplicitCallFlags _ _
    | exact Relates_GetImplicitCallFlags _
    | exact Relates_SetImplicitCallFlags _ _
    | exact Relates_IsHeapEnumInProgress _ _
    | exact Relates_revokedGuard h p hR _ _
    | exact Relates_GetMethodHelper h p hR _ _
    | exact Relates_CallTrap h p hR _ _
    | exact hR _ _ (by constructor)
    | refine Relates_bind ?_ (fun _ => ?_)
    | split
    | dsimp only

theorem Relates_DefineOwnPropertyDescriptor {H : Type} (h : Host H) (p : Nat) (hR : h.Respects p)
    (proxy : Nat) (propId : PropertyId) (descriptor : PropertyDescriptor)
    (throwOnError : Bool) :
    Exec.Relates (SlotRel p) (DefineOwnPropertyDescriptor h proxy propId descriptor throwOnError) := by
  unfold DefineOwnPropertyDescriptor
  repeat' first
    | exact Relates_pure _ _
    | exact Relates_ThrowTypeError _ _ _
    | exact Relates_raise _ _
    | exact Relates_nullDereference _
    | exact Relates_getState _
    | exact Relates_readTarget _ _
    | exact Relates_readHandler _ _
    | exact Relates_deref _ _
    | exact Relates_IsDisableImplicitCall _
    | exact Relates_AddImplicitCallFlags _ _
    | exact Relates_GetImplicitCallFlags _
    | exact Relates_SetImplicitCallFlags _ _
    | exact Relates_IsHeapEnumInProgress _ _
    | exact Relates_revokedGuard h p hR _ _
    | exact Relates_GetMethodHelper h p hR _ _
    | exact Relates_CallTrap h p hR _ _
    | exact hR _ _ (by constructor)
    | refine Relates_bind ?_ (fun _ => ?_)
    | split
    | dsimp only

theorem Relates_SetPropertyTrap {H : Type} (h : Host H) (p : Nat) (hR : h.Respects p)
    (this : Nat) (receiver : Var) (kind : SetPropertyTrapKind)
    (propertyId : PropertyId) (newValue : Var) (skipPrototypeCheck : Bool) :
    Exec.Relates (SlotRel p) (SetPropertyTrap h this receiver kind propertyId newValue skipPrototypeCheck) := by
  unfold SetPropertyTrap
  repeat' first
    | exact Relates_pure _ _
    | exact Relates_ThrowTypeError _ _ _
    | exact Relates_raise _ _
    | exact Relates_nullDereference _
    | exact Relates_getState _
    | exact Relates_readTarget _ _
    | exact Relates_readHandler _ _
    | exact Relates_deref _ _
    | exact Relates_IsDisableImplicitCall _
    | exact Relates_AddImplicitCallFlags _ _
    | exact Relates_GetImplicitCallFlags _
    | exact Relates_SetImplicitCallFlags _ _
    | exact Relates_IsHeapEnumInProgress _ _
    | exact Relates_revokedGuard h p hR _ _
    | exact Relates_GetMethodHelper h p hR _ _
    | exact Relates_CallTrap h p hR _ _
    | exact hR _ _ (by constructor)
    | refine Relates_bind ?_ (fun _ => ?_)
    | split
    | dsimp only

theorem Relates_SetProperty {H : Type} (h : Host H) (p : Nat) (hR : h.Respects p)
    (this : Nat) (propertyId : PropertyId) (value : Var) :
    Exec.Relates (SlotRel p) (SetProperty h this propertyId value) := by
  unfold SetProperty
  repeat' first
    | exact Relates_pure _ _
    | exact Relates_ThrowTypeError _ _ _
    | exact Relates_raise _ _
    | exact Relates_nullDereference _
    | exact Relates_getState _
    | exact Relates_readTarget _ _
    | exact Relates_readHandler _ _
    | exact Relates_deref _ _
    | exact Relates_IsDisableImplicitCall _
    | exact Relates_AddImplicitCallFlags _ _
    | exact Relates_GetImplicitCallFlags _
    | exact Relates_SetImplicitCallFlags _ _
    | exact Relates_IsHeapEnumInProgress _ _
    | exact Relates_revokedGuard h p hR _ _
    | exact Relates_GetMethodHelper h p hR _ _
    | exact Relates_CallTrap h p hR _ _
    | exact hR _ _ (by constructor)
    | refine Relates_bind ?_ (fun _ => ?_)
    | split

theorem Relates_FunctionCallTrap {H : Type} (h : Host H) (p : Nat) (hR : h.Respects p)
    (function : Var) (callInfo : CallInfo) (values : List (Option Var)) :
    Exec.Relates (SlotRel p) (FunctionCallTrap h function callInfo values) := by
  unfold FunctionCallTrap
  repeat' first
    | exact Relates_pure _ _
    | exact Relates_ThrowTypeError _ _ _
    | exact Relates_raise _ _
    | exact Relates_nullDereference _
    | exact Relates_getState _
    | exact Relates_readTarget _ _
    | exact Relates_readHandler _ _
    | exact Relates_deref _ _
    | exact Relates_IsDisableImplicitCall _
    | exact Relates_AddImplicitCallFlags _ _
    | exact Relates_GetImplicitCallFlags _
    | exact Relates_SetImplicitCallFlags _ _
    | exact Relates_IsHeapEnumInProgress _ _
    | exact Relates_revokedGuard h p hR _ _
    | exact Relates_GetMethodHelper h p hR _ _
    | exact Relates_CallTrap h p hR _ _
    | exact hR _ _ (by constructor)
    | refine Relates_bind ?_ (fun _ => ?_)
    | split

theorem Relates_GetValueFromDescriptor {H : Type} (h : Host H) (p : Nat) (hR : h.Respects p)
    (instanceObj : Var) (propertyDescriptor : PropertyDescriptor) :
    Exec.Relates (SlotRel p) (GetValueFromDescriptor h instanceObj propertyDescriptor) := by
  unfold GetValueFromDescriptor
  repeat' first
    | exact Relates_pure _ _
    | exact Relates_ThrowTypeError _ _ _
    | exact Relates_raise _ _
    | exact Relates_nullDereference _
    | exact Relates_getState _
    | exact Relates_readTarget _ _
    | exact Relates_readHandler _ _
    | exact Relates_deref _ _
    | exact Relates_IsDisableImplicitCall _
    | exact Relates_AddImplicitCallFlags _ _
    | exact Relates_GetImplicitCallFlags _
    | exact Relates_SetImplicitCallFlags _ _
    | exact Relates_IsHeapEnumInProgress _ _
    | exact Relates_revokedGuard h p hR _ _
    | exact Relates_GetMethodHelper h p hR _ _
    | exact Relates_CallTrap h p hR _ _
    | exact hR _ _ (by constructor)
    | refine Relates_bind ?_ (fun _ => ?_)
    | split

theorem Relates_Equals {H : Type} (h : Host H) (p this : Nat) (other : Var) :
    Exec.Relates (SlotRel p) (Equals h this other) := by
  unfold Equals
  repeat' first
    | exact Relates_pure _ _
    | exact Relates_ThrowTypeError _ _ _
    | exact Relates_readTarget _ _
    | exact Relates_IsDisableImplicitCall _
    | exact Relates_AddImplicitCallFlags _ _
    | refine Relates_bind ?_ (fun _ => ?_)
    | split

theorem Relates_StrictEquals {H : Type} (h : Host H) (p this : Nat) (other : Var) :
    Exec.Relates (SlotRel p) (StrictEquals h this other) := by
  unfold StrictEquals
  repeat' first
    | exact Relates_pure _ _
    | exact Relates_ThrowTypeError _ _ _
    | exact Relates_readTarget _ _
    | exact Relates_IsDisableImplicitCall _
    | exact Relates_AddImplicitCallFlags _ _
    | refine Relates_bind ?_ (fun _ => ?_)
    | split

theorem Relates_GetTypeOfString {H : Type} (p this : Nat) :
    Exec.Relates (SlotRel p) (GetTypeOfString this : Exec (State H) Var) := by
  unfold GetTypeOfString
  repeat' first
    | exact Relates_pure _ _
    | exact Relates_readTarget _ _
    | exact Relates_readHandler _ _
    | exact Relates_deref _ _
    | refine Relates_bind ?_ (fun _ => ?_)
    | split

/-- The revoke function nulls both slots of the Proxy it holds and touches no other
Proxy. -/
theorem Relates_EntryRevoke {H : Type} (p function : Nat) :
    Exec.Relates (SlotRel p) (EntryRevoke function : Exec (State H) Var) := by
  unfold EntryRevoke
  repeat' first
    | exact Relates_pure _ _
    | exact Relates_ThrowTypeError _ _ _
    | exact Relates_GetInternalProperty _ _
    | exact Relates_SetInternalProperty _ _ _
    | exact Relates_RevokeObject _ _
    | refine Relates_bind ?_ (fun _ => ?_)
    | split
    | dsimp only

theorem Relates_GetOwnPropertyDescriptor {H : Type} (h : Host H) (p : Nat) (hR : h.Respects p)
    (proxy : Nat) (propertyId : PropertyId) (propertyDescriptor : PropertyDescriptor) :
    Exec.Relates (SlotRel p) (GetOwnPropertyDescriptor h proxy propertyId propertyDescriptor) := by
  unfold GetOwnPropertyDescriptor
  apply Relates_GetPropertyDescriptorTrap h p hR
  intro _
  repeat' first
    | exact Relates_readTarget _ _
    | exact Relates_deref _ _
    | exact hR _ _ (by constructor)
    | refine Relates_bind ?_ (fun _ => ?_)

theorem Relates_HasProperty {H : Type} (h : Host H) (p : Nat) (hR : h.Respects p)
    (this : Nat) (propertyId : PropertyId) :
    Exec.Relates (SlotRel p) (HasProperty h this propertyId) := by
  unfold HasProperty
  apply Relates_HasPropertyTrap h p hR
  intro _
  exact hR _ _ (by constructor)

theorem Relates_GetProperty {H : Type} (h : Host H) (p : Nat) (hR : h.Respects p)
    (this : Nat) (originalInstance : Var) (propertyId : PropertyId) :
    Exec.Relates (SlotRel p) (GetProperty h this originalInstance propertyId) := by
  unfold GetProperty
  repeat' first
    | exact Relates_pure _ _
    | exact Relates_GetValueFromDescriptor h p hR _ _
    | exact Relates_GetPropertyTrap h p hR _ _ _ _ _ (fun _ => hR _ _ (by constructor))
    | refine Relates_bind ?_ (fun _ => ?_)
    | split
    | dsimp only

theorem Relates_GetOwnPropertyKeysHelper_loop {H : Type} (h : Host H) (p : Nat)
    (hR : h.Respects p) (arr : Var) (fn : PropertyRecord → Bool) :
    ∀ (indices : List Nat) (acc : List Var × List PropertyId),
      Exec.Relates (SlotRel p) (GetOwnPropertyKeysHelper.loop h arr fn indices acc) := by
  intro indices
  induction indices with
  | nil => intro acc; exact Relates_pure _ _
  | cons i rest ih =>
    intro acc
    unfold GetOwnPropertyKeysHelper.loop GetOwnPropertyKeysHelper.step
    repeat' first
      | exact Relates_pure _ _
      | exact Relates_ThrowTypeError _ _ _
      | exact ih _
      | exact hR _ _ (by constructor)
      | refine Relates_bind ?_ (fun _ => ?_)
      | split
      | dsimp only

theorem Relates_PropertyKeysTrap_loop {H : Type} (h : Host H) (p : Nat) (hR : h.Respects p)
    (this : Nat) :
    ∀ (keys : List Var) (st : KeysLoopState),
      Exec.Relates (SlotRel p) (PropertyKeysTrap.loop h this keys st) := by
  intro keys
  induction keys with
  | nil => intro st; exact Relates_pure _ _
  | cons k rest ih =>
    intro st
    unfold PropertyKeysTrap.loop PropertyKeysTrap.step
    repeat' first
      | exact Relates_pure _ _
      | exact Relates_readTarget _ _
      | exact Relates_deref _ _
      | exact ih _
      | exact hR _ _ (by constructor)
      | refine Relates_bind ?_ (fun _ => ?_)
      | split
      | dsimp only

theorem Relates_GetEnumerator_loop {H : Type} (h : Host H) (p : Nat) (hR : h.Respects p)
    (this : Nat) :
    ∀ (props : List Var) (acc : List String × List Var),
      Exec.Relates (SlotRel p) (GetEnumerator.loop h this props acc) := by
  intro props
  induction props with
  | nil => intro acc; exact Relates_pure _ _
  | cons k rest ih =>
    intro acc
    unfold GetEnumerator.loop GetEnumerator.step
    repeat' first
      | exact Relates_pure _ _
      | exact ih _
      | exact hR _ _ (by constructor)
      | refine Relates_bind ?_ (fun _ => ?_)
      | split

theorem Relates_TestIntegrityLevel_loop {H : Type} (h : Host H) (p : Nat) (hR : h.Respects p)
    (obj : Var) :
    ∀ (keys : List Var) (st : TestIntegrityLevelState),
      Exec.Relates (SlotRel p) (TestIntegrityLevel.loop h obj keys st) := by
  intro keys
  induction keys with
  | nil => intro st; exact Relates_pure _ _
  | cons k rest ih =>
    intro st
    unfold TestIntegrityLevel.loop TestIntegrityLevel.step
    repeat' first
      | exact Relates_pure _ _
      | exact ih _
      | exact hR _ _ (by constructor)
      | refine Relates_bind ?_ (fun _ => ?_)
      | split

theorem Relates_SetIntegrityLevel_sealedLoop {H : Type} (h : Host H) (p : Nat)
    (hR : h.Respects p) (obj : Var) (d : PropertyDescriptor) :
    ∀ (keys : List Var),
      Exec.Relates (SlotRel p) (SetIntegrityLevel.sealedLoop h obj d keys) := by
  intro keys
  induction keys with
  | nil => exact Relates_pure _ _
  | cons k rest ih =>
    unfold SetIntegrityLevel.sealedLoop
    repeat' first
      | exact Relates_pure _ _
      | exact ih
      | exact hR _ _ (by constructor)
      | refine Relates_bind ?_ (fun _ => ?_)

theorem Relates_SetIntegrityLevel_frozenLoop {H : Type} (h : Host H) (p : Nat)
    (hR : h.Respects p) (obj : Var) (d a : PropertyDescriptor) :
    ∀ (keys : List Var),
      Exec.Relates (SlotRel p) (SetIntegrityLevel.frozenLoop h obj d a keys) := by
  intro keys
  induction keys with
  | nil => exact Relates_pure _ _
  | cons k rest ih =>
    unfold SetIntegrityLevel.frozenLoop
    repeat' first
      | exact Relates_pure _ _
      | exact ih
      | exact hR _ _ (by constructor)
      | refine Relates_bind ?_ (fun _ => ?_)
      | split

theorem Relates_PropertyKeysTrap {H : Type} (h : Host H) (p : Nat) (hR : h.Respects p)
    (this : Nat) (kind : KeysTrapKind) :
    Exec.Relates (SlotRel p) (PropertyKeysTrap h this kind) := by
  unfold PropertyKeysTrap GetOwnPropertyKeysHelper
  repeat' first
    | exact Relates_GetOwnPropertyKeysHelper_loop h p hR _ _ _ _
    | exact Relates_PropertyKeysTrap_loop h p hR _ _ _
    | exact Relates_pure _ _
    | exact Relates_ThrowTypeError _ _ _
    | exact Relates_raise _ _
    | exact Relates_nullDereference _
    | exact Relates_getState _
    | exact Relates_readTarget _ _
    | exact Relates_readHandler _ _
    | exact Relates_deref _ _
    | exact Relates_IsDisableImplicitCall _
    | exact Relates_AddImplicitCallFlags _ _
    | exact Relates_GetImplicitCallFlags _
    | exact Relates_SetImplicitCallFlags _ _
    | exact Relates_IsHeapEnumInProgress _ _
    | exact Relates_revokedGuard h p hR _ _
    | exact Relates_GetMethodHelper h p hR _ _
    | exact Relates_CallTrap h p hR _ _
    | exact hR _ _ (by constructor)
    | refine Relates_bind ?_ (fun _ => ?_)
    | split
    | dsimp only

theorem Relates_GetEnumerator {H : Type} (h : Host H) (p : Nat) (hR : h.Respects p)
    (this : Nat) :
    Exec.Relates (SlotRel p) (GetEnumerator h this) := by
  unfold GetEnumerator
  repeat' first
    | exact Relates_GetEnumerator_loop h p hR _ _ _
    | exact Relates_pure _ _
    | exact Relates_ThrowTypeError _ _ _
    | exact Relates_raise _ _
    | exact Relates_nullDereference _
    | exact Relates_getState _
    | exact Relates_readTarget _ _
    | exact Relates_readHandler _ _
    | exact Relates_deref _ _
    | exact Relates_IsDisableImplicitCall _
    | exact Relates_AddImplicitCallFlags _ _
    | exact Relates_GetImplicitCallFlags _
    | exact Relates_SetImplicitCallFlags _ _
    | exact Relates_IsHeapEnumInProgress _ _
    | exact Relates_revokedGuard h p hR _ _
    | exact Relates_GetMethodHelper h p hR _ _
    | exact Relates_CallTrap h p hR _ _
    | exact hR _ _ (by constructor)
    | refine Relates_bind ?_ (fun _ => ?_)
    | split

theorem Relates_TestIntegrityLevel {H : Type} (h : Host H) (p : Nat) (hR : h.Respects p)
    (level : IntegrityLevel) (obj : Var) :
    Exec.Relates (SlotRel p) (TestIntegrityLevel h level obj) := by
  unfold TestIntegrityLevel
  repeat' first
    | exact Relates_TestIntegrityLevel_loop h p hR _ _ _
    | exact Relates_pure _ _
    | exact Relates_ThrowTypeError _ _ _
    | exact Relates_raise _ _
    | exact Relates_nullDereference _
    | exact Relates_getState _
    | exact Relates_readTarget _ _
    | exact Relates_readHandler _ _
    | exact Relates_deref _ _
    | exact Relates_IsDisableImplicitCall _
    | exact Relates_AddImplicitCallFlags _ _
    | exact Relates_GetImplicitCallFlags _
    | exact Relates_SetImplicitCallFlags _ _
    | exact Relates_IsHeapEnumInProgress _ _
    | exact Relates_revokedGuard h p hR _ _
    | exact Relates_GetMethodHelper h p hR _ _
    | exact Relates_CallTrap h p hR _ _
    | exact hR _ _ (by constructor)
    | refine Relates_bind ?_ (fun _ => ?_)
    | split

theorem Relates_SetIntegrityLevel {H : Type} (h : Host H) (p : Nat) (hR : h.Respects p)
    (level : IntegrityLevel) (obj : Var) :
    Exec.Relates (SlotRel p) (SetIntegrityLevel h level obj) := by
  unfold SetIntegrityLevel
  repeat' first
    | exact Relates_SetIntegrityLevel_sealedLoop h p hR _ _ _
    | exact Relates_SetIntegrityLevel_frozenLoop h p hR _ _ _ _
    | exact Relates_pure _ _
    | exact Relates_ThrowTypeError _ _ _
    | exact Relates_raise _ _
    | exact Relates_nullDereference _
    | exact Relates_getState _
    | exact Relates_readTarget _ _
    | exact Relates_readHandler _ _
    | exact Relates_deref _ _
    | exact Relates_IsDisableImplicitCall _
    | exact Relates_AddImplicitCallFlags _ _
    | exact Relates_GetImplicitCallFlags _
    | exact Relates_SetImplicitCallFlags _ _
    | exact Relates_IsHeapEnumInProgress _ _
    | exact Relates_revokedGuard h p hR _ _
    | exact Relates_GetMethodHelper h p hR _ _
    | exact Relates_CallTrap h p hR _ _
    | exact hR _ _ (by constructor)
    | refine Relates_bind ?_ (fun _ => ?_)
    | split

/-- A step that only reads the state, followed by code that relates the states,
relates the states. -/
theorem SlotRel_bind_reader {H α β : Type} {p : Nat} (m : Exec (State H) α)
    (f : α → Exec (State H) β) (s s1 : State H)
    (hm : ∀ o, m s = o → o.state? = none ∨ o.state? = some s)
    (hf : ∀ a, m s = .ok a s → ((f a) s).state? = some s1 → SlotRel p s s1)
    (hRun : ((m >>= f) s).state? = some s1) : SlotRel p s s1 := by
  rw [Exec.bind_apply] at hRun
  have h1 := hm _ rfl
  cases hr : m s with
  | fault =>
    rw [hr] at hRun
    cases hRun
  | throw e s2 =>
    rw [hr] at hRun h1
    rcases h1 with h1 | h1
    · cases h1
    · cases h1
      cases hRun
      exact SlotRel_refl p s
  | ok a s2 =>
    rw [hr] at hRun h1
    rcases h1 with h1 | h1
    · cases h1
    · cases h1
      exact hf a hr hRun

/-- `Create` writes the slots of the object it allocates only: when that is not the
Proxy at `p`, the Proxy at `p` is left as it is or revoked. -/
theorem Relates_Create {H : Type} (h : Host H) (p : Nat) (hR : h.Respects p)
    (callInfo : CallInfo) (values : List (Option Var)) (s s1 : State H)
    (hFresh : h.RecyclerNew s ≠ p)
    (hRun : (Create h callInfo values s).state? = some s1) : SlotRel p s s1 := by
  have hderef : ∀ (x : Option Var) (o : Outcome (State H) Var), deref x s = o →
      o.state? = none ∨ o.state? = some s := by
    intro x o ho
    subst ho
    cases x
    · left; rfl
    · right; rfl
  unfold Create at hRun
  dsimp only at hRun
  split at hRun
  · cases hRun
    exact SlotRel_refl p s
  refine SlotRel_bind_reader _ _ s s1 (hderef _) (fun target _ hRun => ?_) hRun
  split at hRun
  · cases hRun
    exact SlotRel_refl p s
  refine SlotRel_bind_reader _ _ s s1 ?_ (fun _ _ hRun => ?_) hRun
  · intro o ho
    subst ho
    split
    · rw [Exec.bind_apply]
      dsimp only [readTarget]
      split
      · right; rfl
      · right; rfl
    · right; rfl
  refine SlotRel_bind_reader _ _ s s1 (hderef _) (fun handler _ hRun => ?_) hRun
  split at hRun
  · cases hRun
    exact SlotRel_refl p s
  refine SlotRel_bind_reader _ _ s s1 ?_ (fun _ _ hRun => ?_) hRun
  · intro o ho
    subst ho
    split
    · rw [Exec.bind_apply]
      dsimp only [readHandler]
      split
      · right; rfl
      · right; rfl
    · right; rfl
  refine SlotRel_bind_reader _ _ s s1 ?_ (fun s0 hs0 hRun => ?_) hRun
  · intro o ho
    subst ho
    right; rfl
  cases hs0
  refine Relates_state ?_ s s1 hRun
  repeat' first
    | exact Relates_pure _ _
    | exact Relates_getState _
    | exact Relates_deref _ _
    | exact Relates_construct _ _ _ _ hFresh
    | exact Relates_SetEntryPoint _ _
    | exact hR _ _ (by constructor)
    | refine Relates_bind ?_ (fun _ => ?_)
    | split

/-- A step that only reads the state and then returns leaves the state alone and hands
its value to the code that follows. -/
theorem bind_reader_ok {H α β : Type} (m : Exec (State H) α)
    (f : α → Exec (State H) β) (s s1 : State H) (b : β)
    (hm : ∀ o, m s = o → o.state? = none ∨ o.state? = some s)
    (hRun : (m >>= f) s = .ok b s1) : ∃ a, m s = .ok a s ∧ f a s = .ok b s1 := by
  rw [Exec.bind_apply] at hRun
  have h1 := hm _ rfl
  cases hr : m s with
  | fault =>
    rw [hr] at hRun
    cases hRun
  | throw e s2 =>
    rw [hr] at hRun
    cases hRun
  | ok a s2 =>
    rw [hr] at hRun h1
    rcases h1 with h1 | h1
    · cases h1
    · cases h1
      exact ⟨a, rfl, hRun⟩

/-- Both slots of a Proxy are present or both are absent, and a step that leaves the
slots alone or nulls both keeps it so. -/
theorem SlotRel_paired {H : Type} {p : Nat} {s s1 : State H} (hrel : SlotRel p s s1)
    (hs : (s.proxies p).target.isSome = (s.proxies p).handler.isSome) :
    (s1.proxies p).target.isSome = (s1.proxies p).handler.isSome := by
  rcases hrel with h1 | h1
  · rw [h1]
    exact hs
  · rw [h1]

/-- A step that leaves the slots alone or nulls both keeps a revoked Proxy revoked. -/
theorem SlotRel_revoked {H : Type} {p : Nat} {s s1 : State H} (hrel : SlotRel p s s1)
    (hs : s.proxies p = ⟨none, none⟩) : s1.proxies p = ⟨none, none⟩ := by
  rcases hrel with h1 | h1
  · rw [h1]
    exact hs
  · exact h1

/-- The Proxy that `Create` returns holds both slots or, when the host's
`OrdinaryCreateFromConstructor` revoked it, none. -/
theorem Create_paired {H : Type} (h : Host H) (callInfo : CallInfo)
    (values : List (Option Var)) (s s1 : State H) (v : Var)
    (hR : h.Respects (h.RecyclerNew s))
    (hRun : Create h callInfo values s = .ok v s1) :
    (s1.proxies (h.RecyclerNew s)).target.isSome
      = (s1.proxies (h.RecyclerNew s)).handler.isSome := by
  have hderef : ∀ (x : Option Var) (o : Outcome (State H) Var), deref x s = o →
      o.state? = none ∨ o.state? = some s := by
    intro x o ho
    subst ho
    cases x
    · left; rfl
    · right; rfl
  unfold Create at hRun
  dsimp only at hRun
  split at hRun
  · cases hRun
  obtain ⟨target, _, hRun⟩ := bind_reader_ok _ _ s s1 v (hderef _) hRun
  split at hRun
  · cases hRun
  have hct : ∀ o, (match target with
      | .proxy addr => do
        let slot ← readTarget addr
        if slot.isNone then ThrowTypeError .JSERR_InvalidProxyArgument "target"
        else pure ()
      | _ => pure () : Exec (State H) Unit) s = o →
      o.state? = none ∨ o.state? = some s := by
    intro o ho
    subst ho
    split
    · rw [Exec.bind_apply]
      dsimp only [readTarget]
      split
      · right; rfl
      · right; rfl
    · right; rfl
  obtain ⟨_, _, hRun⟩ := bind_reader_ok _ _ s s1 v hct hRun
  obtain ⟨handler, _, hRun⟩ := bind_reader_ok _ _ s s1 v (hderef _) hRun
  split at hRun
  · cases hRun
  have hch : ∀ o, (match handler with
      | .proxy addr => do
        let slot ← readHandler addr
        if slot.isNone then ThrowTypeError .JSERR_InvalidProxyArgument "handler"
        else pure ()
      | _ => pure () : Exec (State H) Unit) s = o →
      o.state? = none ∨ o.state? = some s := by
    intro o ho
    subst ho
    split
    · rw [Exec.bind_apply]
      dsimp only [readHandler]
      split
      · right; rfl
      · right; rfl
    · right; rfl
  obtain ⟨_, _, hRun⟩ := bind_reader_ok _ _ s s1 v hch hRun
  have hgs : ∀ o, (getState : Exec (State H) (State H)) s = o →
      o.state? = none ∨ o.state? = some s := by
    intro o ho
    subst ho
    right; rfl
  obtain ⟨s0, hs0, hRun⟩ := bind_reader_ok _ _ s s1 v hgs hRun
  cases hs0
  rw [Exec.bind_apply] at hRun
  have hc : ∃ s2, JavascriptProxy.construct (h.RecyclerNew s) target handler s = .ok () s2
      ∧ s2.proxies (h.RecyclerNew s) = ⟨some handler, some target⟩ :=
    ⟨_, rfl, Function.update_same _ _ _⟩
  obtain ⟨s2, hc, hp⟩ := hc
  rw [hc] at hRun
  dsimp only at hRun
  have hrel : SlotRel (h.RecyclerNew s) s2 s1 := by
    refine Relates_state ?_ s2 s1 (congrArg Outcome.state? hRun)
    repeat' first
      | exact Relates_pure _ _
      | exact Relates_getState _
      | exact Relates_deref _ _
      | exact Relates_SetEntryPoint _ _
      | exact hR _ _ (by constructor)
      | refine Relates_bind ?_ (fun _ => ?_)
      | split
  refine SlotRel_paired hrel ?_
  rw [hp]
  rfl

/-- Every invocation of an operation of the Proxy code that does not allocate at `p`
leaves the slots of the Proxy at `p` as they are or nulls both. -/
theorem ProxyOperation_run_relates {H : Type} (h : Host H) (p : Nat) (hR : h.Respects p)
    (op : ProxyOperation) (s s1 : State H) (hAlloc : op.AllocatesElsewhere h p s)
    (hRun : op.run h s = some s1) : SlotRel p s s1 := by
  cases op with
  | Create callInfo values => exact Relates_Create h p hR callInfo values s s1 hAlloc hRun
  | EntryRevoke function => exact Relates_state (Relates_EntryRevoke p function) s s1 hRun
  | GetProperty this originalInstance propertyId =>
    exact Relates_state (Relates_GetProperty h p hR this originalInstance propertyId) s s1 hRun
  | HasProperty this propertyId =>
    exact Relates_state (Relates_HasProperty h p hR this propertyId) s s1 hRun
  | GetOwnPropertyDescriptor proxy propertyId propertyDescriptor =>
    exact Relates_state
      (Relates_GetOwnPropertyDescriptor h p hR proxy propertyId propertyDescriptor) s s1 hRun
  | SetPropertyTrap this receiver kind propertyId newValue skipPrototypeCheck =>
    exact Relates_state
      (Relates_SetPropertyTrap h p hR this receiver kind propertyId newValue
        skipPrototypeCheck) s s1 hRun
  | SetProperty this propertyId value =>
    exact Relates_state (Relates_SetProperty h p hR this propertyId value) s s1 hRun
  | DeleteProperty this propertyId flags =>
    exact Relates_state (Relates_DeleteProperty h p hR this propertyId flags) s s1 hRun
  | DefineOwnPropertyDescriptor proxy propId descriptor throwOnError =>
    exact Relates_state
      (Relates_DefineOwnPropertyDescriptor h p hR proxy propId descriptor throwOnError)
      s s1 hRun
  | IsExtensible this => exact Relates_state (Relates_IsExtensible h p hR this) s s1 hRun
  | PreventExtensions this =>
    exact Relates_state (Relates_PreventExtensions h p hR this) s s1 hRun
  | GetPrototypeSpecial this =>
    exact Relates_state (Relates_GetPrototypeSpecial h p hR this) s s1 hRun
  | SetPrototypeTrap this newPrototype shouldThrow =>
    exact Relates_state (Relates_SetPrototypeTrap h p hR this newPrototype shouldThrow)
      s s1 hRun
  | PropertyKeysTrap this kind =>
    exact Relates_state (Relates_PropertyKeysTrap h p hR this kind) s s1 hRun
  | GetEnumerator this => exact Relates_state (Relates_GetEnumerator h p hR this) s s1 hRun
  | FunctionCallTrap function callInfo values =>
    exact Relates_state (Relates_FunctionCallTrap h p hR function callInfo values) s s1 hRun
  | Equals this other => exact Relates_state (Relates_Equals h p this other) s s1 hRun
  | StrictEquals this other =>
    exact Relates_state (Relates_StrictEquals h p this other) s s1 hRun
  | GetTypeOfString this => exact Relates_state (Relates_GetTypeOfString p this) s s1 hRun
  | TestIntegrityLevel level this =>
    exact Relates_state (Relates_TestIntegrityLevel h p hR level (.proxy this)) s s1 hRun
  | SetIntegrityLevel level this =>
    exact Relates_state (Relates_SetIntegrityLevel h p hR level (.proxy this)) s s1 hRun

/-- Along the lifetime of the Proxy at `p` its slots stay as they are or are nulled
together. -/
theorem Continues_relates {H : Type} (h : Host H) (p : Nat) (hR : h.Respects p)
    (s s1 : State H) (hc : Continues h p s s1) : SlotRel p s s1 := by
  induction hc with
  | here => exact SlotRel_refl p s
  | operation op s1 s2 _ hAlloc hRun ih =>
    exact SlotRel_trans ih (ProxyOperation_run_relates h p hR op s1 s2 hAlloc hRun)
  | other s1 s2 _ hEq ih => exact SlotRel_trans ih (Or.inl hEq)

/-- In every state reachable from `Create` both slots of the Proxy are present or both
are absent. -/
theorem Reachable_paired {H : Type} (h : Host H) (p : Nat) (hR : h.Respects p)
    (s : State H) (hs : Reachable h p s) :
    (s.proxies p).target.isSome = (s.proxies p).handler.isSome := by
  induction hs with
  | created callInfo values s0 s v hp hRun =>
    subst hp
    exact Create_paired h callInfo values s0 s v hR hRun
  | operation op s s1 _ hAlloc hRun ih =>
    exact SlotRel_paired (ProxyOperation_run_relates h p hR op s s1 hAlloc hRun) ih
  | other s s1 _ hEq ih =>
    rw [hEq]
    exact ih

/-- C31 (slot invariant).  Let the host respect the Proxy at address `p`: whatever a
host operation runs (script, traps, revoke functions), it leaves the slots of that Proxy
as they are or nulls both, which is all that code outside `JavascriptProxy.cpp` can do
to them.  Then in every state reachable from the `Create` that allocated the Proxy, by
any sequence of operations of the Proxy code (revoke calls included, on this or any
other Proxy, returning or throwing) in which no later `Create` is handed the address of
the live Proxy again, the target and the handler are both present or both absent; after
a state in which one of them is absent both stay absent in every later state; and while
they are present they are the ones the Proxy had. -/
theorem C31_slot_invariant {H : Type} (h : Host H) (p : Nat) (hR : h.Respects p) :
    (∀ s, Reachable h p s →
        ((s.proxies p).target.isSome = (s.proxies p).handler.isSome))
    ∧ (∀ s s1, Reachable h p s → Continues h p s s1 →
        ((s.proxies p).target = none ∨ (s.proxies p).handler = none) →
        (s1.proxies p).target = none ∧ (s1.proxies p).handler = none)
    ∧ (∀ s s1, Reachable h p s → Continues h p s s1 →
        Reachable h p s1
        ∧ (s1.proxies p = s.proxies p ∨ s1.proxies p = ⟨none, none⟩)) := by
  refine ⟨fun s hs => Reachable_paired h p hR s hs, ?_, ?_⟩
  · intro s s1 hs hc hnone
    have hpair := Reachable_paired h p hR s hs
    have hrev : s.proxies p = ⟨none, none⟩ := by
      rcases hp : s.proxies p with ⟨hd, tg⟩
      rw [hp] at hpair hnone
      cases hd <;> cases tg <;> simp at hpair hnone ⊢
    have h1 := SlotRel_revoked (Continues_relates h p hR s s1 hc) hrev
    rw [h1]
    exact ⟨rfl, rfl⟩
  · intro s s1 hs hc
    refine ⟨?_, Continues_relates h p hR s s1 hc⟩
    induction hc with
    | here => exact hs
    | operation op s1 s2 _ hAlloc hRun ih => exact Reachable.operation op s1 s2 ih hAlloc hRun
    | other s1 s2 _ hEq ih => exact Reachable.other s1 s2 ih hEq

/-- The example host respects every Proxy: its trap function revokes the Proxy at
address 0 or leaves the Proxies alone, and its other operations never write a slot. -/
theorem Example_host_respects (hasTrap recordException : Bool) (p : Nat) :
    (Example.host hasTrap recordException).Respects p := by
  intro α m hm
  cases hm <;> intro s
  case CallFunction f args =>
    dsimp only [Example.host]
    split
    · by_cases hp : p = 0
      · subst hp
        refine Or.inr ?_
        dsimp only
        exact Function.update_same _ _ _
      · refine Or.inl ?_
        dsimp only
        exact Function.update_noteq hp _ _
    · exact Or.inl rfl
  case ChangePrototype o v b =>
    dsimp only [Example.host]
    by_cases h1 : v = s.heap.prototype
    · rw [if_pos h1]
      exact Or.inl rfl
    · rw [if_neg h1]
      cases s.heap.extensible <;> cases b <;> exact Or.inl rfl
  case ToLength v =>
    cases v <;> exact Or.inl rfl
  case GetProperty i o pid =>
    dsimp only [Example.host]
    cases Example.ownDescriptor s.heap pid <;> exact Or.inl rfl
  case GetOwnPropertyDescriptorHelper o pid d =>
    dsimp only [Example.host]
    cases Example.ownDescriptor s.heap pid <;> exact Or.inl rfl
  all_goals exact Or.inl rfl

/-- C31 at the example host, which respects every Proxy: the Proxy that `Create`
allocates at address 8 holds both slots, the revoke function at address 7 nulls both,
and the invariant holds in every reachable state. -/
theorem C31_witness :
    (Example.host true false).Respects 8
    ∧ (∃ s, Reachable (Example.host true false) 8 s
        ∧ s.proxies 8 = ⟨some (.object 2), some (.object 1)⟩)
    ∧ (∃ s, Reachable (Example.host true false) 8 s ∧ s.proxies 8 = ⟨none, none⟩)
    ∧ ((∀ s, Reachable (Example.host true false) 8 s →
          ((s.proxies 8).target.isSome = (s.proxies 8).handler.isSome))
      ∧ (∀ s s1, Reachable (Example.host true false) 8 s →
          Continues (Example.host true false) 8 s s1 →
          ((s.proxies 8).target = none ∨ (s.proxies 8).handler = none) →
          (s1.proxies 8).target = none ∧ (s1.proxies 8).handler = none)
      ∧ (∀ s s1, Reachable (Example.host true false) 8 s →
          Continues (Example.host true false) 8 s s1 →
          Reachable (Example.host true false) 8 s1
          ∧ (s1.proxies 8 = s.proxies 8 ∨ s1.proxies 8 = ⟨none, none⟩))) := by
  refine ⟨Example_host_respects true false 8, ?_, ?_,
    C31_slot_invariant (Example.host true false) 8 (Example_host_respects true false 8)⟩
  · exact ⟨_, Reachable.created ⟨false, false, false, false, 3⟩
        [some .undefined, some (.object 1), some (.object 2)]
        (Example.state Example.heapFrozenX false false (some (.proxy 8))) _ (.proxy 8)
        rfl rfl, rfl⟩
  · exact ⟨_, Reachable.operation (.EntryRevoke 7) _ _
        (Reachable.created ⟨false, false, false, false, 3⟩
          [some .undefined, some (.object 1), some (.object 2)]
          (Example.state Example.heapFrozenX false false (some (.proxy 8))) _ (.proxy 8)
          rfl rfl)
        trivial rfl, rfl⟩

theorem KeysLoopState_visit_configurable (st : KeysLoopState) (p : PropertyId) (b : Bool) :
    (st.visit p b).isConfigurableKeyMissingFromTrapResult
      = (st.isConfigurableKeyMissingFromTrapResult
          || (!b && !decide (p ∈ st.targetToTrapResultMap))) := by
  rcases st with ⟨m, c, n, a⟩
  cases b <;> simp [KeysLoopState.visit]

/-- The loop over the target's keys when the target's descriptors are read without
effect and the ids of the target's keys are pairwise distinct: what each flag and the
map hold when the loop ends. -/
theorem PropertyKeysTrap_loop_exact {H : Type} (h : Host H) (this : Nat) (s : State H)
    (t : Var) (desc : PropertyId → Option PropertyDescriptor)
    (hTarget : (s.proxies this).target = some t)
    (hPure : ∀ pid, h.GetOwnPropertyDescriptor t pid s = .ok (desc pid) s) :
    ∀ (keys : List Var) (st : KeysLoopState),
      keys.Pairwise (fun a b => (h.ToPropertyKey a).pid ≠ (h.ToPropertyKey b).pid) →
      ∃ st1, PropertyKeysTrap.loop h this keys st s = .ok st1 s
        ∧ (st1.isAnyNonconfigurableKeyPresent = true ↔
            st.isAnyNonconfigurableKeyPresent = true
            ∨ ∃ k ∈ keys, (h.ToPropertyKey k).pid ≠ Constants.NoProperty
                ∧ IsNonconfigurableKey desc (h.ToPropertyKey k).pid = true)
        ∧ (st1.isNonconfigurableKeyMissingFromTrapResult = true ↔
            st.isNonconfigurableKeyMissingFromTrapResult = true
            ∨ ∃ k ∈ keys, (h.ToPropertyKey k).pid ≠ Constants.NoProperty
                ∧ IsNonconfigurableKey desc (h.ToPropertyKey k).pid = true
                ∧ (h.ToPropertyKey k).pid ∉ st.targetToTrapResultMap)
        ∧ (st1.isConfigurableKeyMissingFromTrapResult = true ↔
            st.isConfigurableKeyMissingFromTrapResult = true
            ∨ ∃ k ∈ keys, (h.ToPropertyKey k).pid ≠ Constants.NoProperty
                ∧ IsNonconfigurableKey desc (h.ToPropertyKey k).pid = false
                ∧ (h.ToPropertyKey k).pid ∉ st.targetToTrapResultMap)
        ∧ (∀ p, p ∈ st1.targetToTrapResultMap ↔
            p ∈ st.targetToTrapResultMap
            ∧ ¬ ∃ k ∈ keys, (h.ToPropertyKey k).pid ≠ Constants.NoProperty
                ∧ (h.ToPropertyKey k).pid = p) := by
  intro keys
  induction keys with
  | nil =>
    intro st _
    exact ⟨st, by simp [PropertyKeysTrap.loop, Exec.pure_apply], by simp, by simp, by simp,
      by simp⟩
  | cons k rest ih =>
    intro st hPair
    obtain ⟨hHead, hRest⟩ := List.pairwise_cons.mp hPair
    by_cases hp : (h.ToPropertyKey k).pid = Constants.NoProperty
    · obtain ⟨st1, hRun, hA, hN, hC, hM⟩ := ih st hRest
      refine ⟨st1, ?_, ?_, ?_, ?_, ?_⟩
      · simp [PropertyKeysTrap.loop, PropertyKeysTrap.step, Exec.bind_apply,
          PropertyRecord.GetPropertyId, hp, Exec.pure_apply, hRun]
      · rw [hA]
        simp [hp]
      · rw [hN]
        simp [hp]
      · rw [hC]
        simp [hp]
      · intro p
        rw [hM p]
        simp [hp]
    · obtain ⟨st1, hRun, hA, hN, hC, hM⟩ :=
        ih (st.visit (h.ToPropertyKey k).pid
          (IsNonconfigurableKey desc (h.ToPropertyKey k).pid)) hRest
      obtain ⟨hvN, hvA⟩ := KeysLoopState_visit_nonconfigurable st (h.ToPropertyKey k).pid
        (IsNonconfigurableKey desc (h.ToPropertyKey k).pid)
      have hvC := KeysLoopState_visit_configurable st (h.ToPropertyKey k).pid
        (IsNonconfigurableKey desc (h.ToPropertyKey k).pid)
      have hvM := KeysLoopState_visit_map st (h.ToPropertyKey k).pid
        (IsNonconfigurableKey desc (h.ToPropertyKey k).pid)
      have hmem : ∀ k1 ∈ rest,
          ((h.ToPropertyKey k1).pid ∉ (st.visit (h.ToPropertyKey k).pid
              (IsNonconfigurableKey desc (h.ToPropertyKey k).pid)).targetToTrapResultMap
            ↔ (h.ToPropertyKey k1).pid ∉ st.targetToTrapResultMap) := by
        intro k1 hk1
        rw [hvM]
        have hne := hHead k1 hk1
        simp only [List.mem_filter, bne_iff_ne, ne_eq, not_and, not_not]
        constructor
        · intro hx hin
          exact hne (hx hin).symm
        · intro hx hin
          exact absurd hin hx
      refine ⟨st1, ?_, ?_, ?_, ?_, ?_⟩
      · have hStep : PropertyKeysTrap.step h this st k s
            = .ok (st.visit (h.ToPropertyKey k).pid
                (IsNonconfigurableKey desc (h.ToPropertyKey k).pid)) s := by
          simp [PropertyKeysTrap.step, Exec.bind_apply, PropertyRecord.GetPropertyId, hp,
            Exec.pure_apply, readTarget, hTarget, deref, hPure, IsNonconfigurableKey]
        simp only [PropertyKeysTrap.loop, Exec.bind_apply, hStep]
        exact hRun
      · rw [hA, hvA]
        simp only [Bool.or_eq_true, List.mem_cons, exists_eq_or_imp]
        constructor
        · rintro ((hx | hx) | hx)
          · exact Or.inl hx
          · exact Or.inr (Or.inl ⟨hp, hx⟩)
          · exact Or.inr (Or.inr hx)
        · rintro (hx | ⟨_, hx⟩ | hx)
          · exact Or.inl (Or.inl hx)
          · exact Or.inl (Or.inr hx)
          · exact Or.inr hx
      · rw [hN, hvN]
        simp only [Bool.or_eq_true, Bool.and_eq_true, Bool.not_eq_true', decide_eq_false_iff_not,
          List.mem_cons, exists_eq_or_imp]
        constructor
        · rintro ((hx | ⟨hb, hnot⟩) | ⟨k1, hk1, hv, hb, hnot⟩)
          · exact Or.inl hx
          · exact Or.inr (Or.inl ⟨hp, hb, hnot⟩)
          · exact Or.inr (Or.inr ⟨k1, hk1, hv, hb, (hmem k1 hk1).mp hnot⟩)
        · rintro (hx | ⟨_, hb, hnot⟩ | ⟨k1, hk1, hv, hb, hnot⟩)
          · exact Or.inl (Or.inl hx)
          · exact Or.inl (Or.inr ⟨hb, hnot⟩)
          · exact Or.inr ⟨k1, hk1, hv, hb, (hmem k1 hk1).mpr hnot⟩
      · rw [hC, hvC]
        simp only [Bool.or_eq_true, Bool.and_eq_true, Bool.not_eq_true', decide_eq_false_iff_not,
          List.mem_cons, exists_eq_or_imp]
        constructor
        · rintro ((hx | ⟨hb, hnot⟩) | ⟨k1, hk1, hv, hb, hnot⟩)
          · exact Or.inl hx
          · exact Or.inr (Or.inl ⟨hp, hb, hnot⟩)
          · exact Or.inr (Or.inr ⟨k1, hk1, hv, hb, (hmem k1 hk1).mp hnot⟩)
        · rintro (hx | ⟨_, hb, hnot⟩ | ⟨k1, hk1, hv, hb, hnot⟩)
          · exact Or.inl (Or.inl hx)
          · exact Or.inl (Or.inr ⟨hb, hnot⟩)
          · exact Or.inr ⟨k1, hk1, hv, hb, (hmem k1 hk1).mpr hnot⟩
      · intro p
        rw [hM p, hvM]
        simp only [List.mem_filter, bne_iff_ne, ne_eq, List.mem_cons, exists_eq_or_imp]
        constructor
        · rintro ⟨⟨hin, hpk⟩, hno⟩
          refine ⟨hin, ?_⟩
          rintro (⟨_, heq⟩ | hex)
          · exact hpk heq.symm
          · exact hno hex
        · rintro ⟨hin, hno⟩
          refine ⟨⟨hin, ?_⟩, fun hex => hno (Or.inr hex)⟩
          intro heq
          exact hno (Or.inl ⟨hp, heq.symm⟩)

/-- While the Proxy still holds its target where the code reads the member again after the
trap call: the outcome table of `ownKeys`. On a Proxy with an `ownKeys` trap that is not
revoked at entry nor where the code reads `this->target` again (implicit calls enabled): a
trap result that is not an object throws TypeError InconsistentTrapResult("ownKeys") in
the state the trap left. When it is an object whose elements, read as `trapKeys`, are
strings and symbols without a repeated id, with `targetKeys` the target's own keys (their
ids pairwise distinct) and `desc` the target's descriptors as read, without side effect,
in the loop: the outcome is the first matching row of the table: target extensible and no
non-configurable target key, the list is returned; a non-configurable target key missing
from the trap's keys, Inconsistent; target extensible, returned; a configurable target key
missing, Inconsistent; a trap key the target does not own, Inconsistent; otherwise
returned. The list returned is always the trap's keys that pass the filter of the kind, in
the trap's order. -/
theorem PropertyKeysTrap_outcome_table {H : Type} (h : Host H) (this : Nat) (kind : KeysTrapKind)
    (s s1 s2 : State H) (handlerObj method ownKeysResult : Var)
    (hEnabled : s.disableImplicitCall = false)
    (hHandler : (s.proxies this).handler = some handlerObj)
    (hTrap : GetMethodHelper h this h.ids.ownKeys s = .ok (some method) s1)
    (hCall : CallTrap h method [(s1.proxies this).handler, (s1.proxies this).target] s1
      = .ok ownKeysResult s2) :
    (IsObject ownKeysResult = false →
      PropertyKeysTrap h this kind s
        = .throw (.typeError .JSERR_InconsistentTrapResult "ownKeys") s2)
    ∧ (IsObject ownKeysResult = true →
        ∀ (s3 s4 s5 s6 s7 : State H) (targetObj lenValue : Var) (len64 : Int)
          (targetKeys trapKeys : List Var) (map : List PropertyId) (isTargetExtensible : Bool)
          (desc : PropertyId → Option PropertyDescriptor),
          (s2.proxies this).target = some targetObj →
          h.IsExtensible targetObj s2 = .ok isTargetExtensible s3 →
          (s3.proxies this).target = some targetObj →
          h.GetOwnPropertyKeys targetObj s3 = .ok targetKeys s4 →
          h.OP_GetLength ownKeysResult s4 = .ok lenValue s5 →
          h.ToLength lenValue s5 = .ok len64 s6 →
          GetOwnPropertyKeysHelper h ownKeysResult (len64 % 2 ^ 32).toNat (fun _ => true) s6
            = .ok (trapKeys, map) s7 →
          (s7.proxies this).target = some targetObj →
          (∀ pid, h.GetOwnPropertyDescriptor targetObj pid s7 = .ok (desc pid) s7) →
          targetKeys.Pairwise
            (fun a b => (h.ToPropertyKey a).pid ≠ (h.ToPropertyKey b).pid) →
          PropertyKeysTrap h this kind s =
            (if OwnKeysOutcome isTargetExtensible
                (OwnKeysConditions.of (fun k => (h.ToPropertyKey k).pid) desc targetKeys
                  trapKeys) = true then
              .ok (some (trapKeys.filter (fun e => kind.filter (h.ToPropertyKey e)))) s7
             else .throw (.typeError .JSERR_InconsistentTrapResult "ownKeys") s7)) := by
  constructor
  · intro hObject
    unfold PropertyKeysTrap
    simp [Exec.bind_apply, IsDisableImplicitCall, hEnabled, revokedGuard, readHandler,
      hHandler, readTarget, hTrap, hCall, hObject, Exec.pure_apply, ThrowTypeError, raise]
  · intro hObject s3 s4 s5 s6 s7 targetObj lenValue len64 targetKeys trapKeys map
      isTargetExtensible desc hTarget2 hExtensible hTarget3 hTargetKeys hLength hToLength
      hKeys hTarget7 hDescriptors hDistinct
    have hTrace := PropertyKeysTrap_trace h this kind s s1 s2 s3 s4 s5 s6 s7 handlerObj
      targetObj method ownKeysResult lenValue len64 targetKeys trapKeys map isTargetExtensible
      hEnabled hHandler hTrap hCall hObject hTarget2 hExtensible hTarget3 hTargetKeys hLength
      hToLength hKeys
    have hMap := (GetOwnPropertyKeysHelper_filter h ownKeysResult (len64 % 2 ^ 32).toNat
      (fun _ => true) s6 s7 trapKeys map hKeys).2
    obtain ⟨st, hLoop, hA, hN, hC, hM⟩ :=
      PropertyKeysTrap_loop_exact h this s7 targetObj desc hTarget7 hDescriptors targetKeys
        ⟨map, false, false, false⟩ hDistinct
    simp only [Bool.false_eq_true, false_or] at hA hN hC
    have hInMap : ∀ k, (h.ToPropertyKey k).pid ≠ Constants.NoProperty →
        ((h.ToPropertyKey k).pid ∉ map ↔
          ¬ ∃ e ∈ trapKeys, (h.ToPropertyKey e).pid = (h.ToPropertyKey k).pid) := by
      intro k hv
      rw [hMap]
      constructor
      · intro hx hex
        exact hx ⟨hv, hex⟩
      · intro hx hex
        exact hx hex.2
    have eA : st.isAnyNonconfigurableKeyPresent
        = (OwnKeysConditions.of (fun k => (h.ToPropertyKey k).pid) desc targetKeys
            trapKeys).any_nonconfigurable_key := by
      rw [Bool.eq_iff_iff, hA]
      simp [OwnKeysConditions.of, List.any_eq_true]
    have eN : st.isNonconfigurableKeyMissingFromTrapResult
        = (OwnKeysConditions.of (fun k => (h.ToPropertyKey k).pid) desc targetKeys
            trapKeys).nonconfigurable_missing := by
      rw [Bool.eq_iff_iff, hN]
      simp only [OwnKeysConditions.of, List.any_eq_true, Bool.and_eq_true, bne_iff_ne, ne_eq,
        Bool.not_eq_true', List.any_eq_false, beq_iff_eq]
      constructor
      · rintro ⟨k, hk, hv, hb, hnot⟩
        refine ⟨k, hk, ⟨hv, hb⟩, ?_⟩
        intro e he heq
        exact (hInMap k hv).mp hnot ⟨e, he, heq⟩
      · rintro ⟨k, hk, ⟨hv, hb⟩, hnot⟩
        refine ⟨k, hk, hv, hb, (hInMap k hv).mpr ?_⟩
        rintro ⟨e, he, heq⟩
        exact hnot e he heq
    have eC : st.isConfigurableKeyMissingFromTrapResult
        = (OwnKeysConditions.of (fun k => (h.ToPropertyKey k).pid) desc targetKeys
            trapKeys).configurable_missing := by
      rw [Bool.eq_iff_iff, hC]
      simp only [OwnKeysConditions.of, List.any_eq_true, Bool.and_eq_true, bne_iff_ne, ne_eq,
        Bool.not_eq_true', List.any_eq_false, beq_iff_eq]
      constructor
      · rintro ⟨k, hk, hv, hb, hnot⟩
        refine ⟨k, hk, ⟨hv, hb⟩, ?_⟩
        intro e he heq
        exact (hInMap k hv).mp hnot ⟨e, he, heq⟩
      · rintro ⟨k, hk, ⟨hv, hb⟩, hnot⟩
        refine ⟨k, hk, hv, hb, (hInMap k hv).mpr ?_⟩
        rintro ⟨e, he, heq⟩
        exact hnot e he heq
    have eM : (st.targetToTrapResultMap.length != 0)
        = (OwnKeysConditions.of (fun k => (h.ToPropertyKey k).pid) desc targetKeys
            trapKeys).key_not_owned_by_target := by
      rw [Bool.eq_iff_iff]
      simp only [OwnKeysConditions.of, List.any_eq_true, Bool.and_eq_true, bne_iff_ne, ne_eq,
        Bool.not_eq_true', List.any_eq_false, beq_iff_eq, List.length_eq_zero]
      constructor
      · intro hne
        obtain ⟨p, hp⟩ := List.exists_mem_of_ne_nil _ hne
        obtain ⟨hin, hno⟩ := (hM p).mp hp
        obtain ⟨hv, e, he, heq⟩ := (hMap p).mp hin
        refine ⟨e, he, by rw [heq]; exact hv, ?_⟩
        intro k hk hkeq
        exact hno ⟨k, hk, by rw [hkeq, heq]; exact hv, by rw [hkeq, heq]⟩
      · rintro ⟨e, he, hv, hno⟩ hnil
        have hin : (h.ToPropertyKey e).pid ∈ st.targetToTrapResultMap := by
          rw [hM]
          refine ⟨(hMap _).mpr ⟨hv, e, he, rfl⟩, ?_⟩
          rintro ⟨k, hk, _, hkeq⟩
          exact hno k hk hkeq
        rw [hnil] at hin
        exact List.not_mem_nil _ hin
    rw [hTrace, Exec.bind_apply, hLoop]
    simp only [eA, eN, eC, eM, OwnKeysOutcome]
    generalize OwnKeysConditions.of (fun k => (h.ToPropertyKey k).pid) desc targetKeys
      trapKeys = c
    rcases c with ⟨a, n, cm, ko⟩
    cases isTargetExtensible <;> cases a <;> cases n <;> cases cm <;> cases ko <;>
      simp [Exec.pure_apply, ThrowTypeError, raise]

/-- The non-extensible example target with the keys `x` and `k` behind an `ownKeys` trap
that lists `k` and `x`: no key is missing and none is foreign, so the trap's list is
returned, in the trap's order. -/
theorem PropertyKeysTrap_outcome_table_example :
    PropertyKeysTrap (Example.host true true) 0 .KeysKind
        (Example.state Example.heapSealedKeys false false none)
      = .ok (some [.string "k", .string "x"])
          { Example.state Example.heapSealedKeys false false none with
            implicitCallFlags := 5 } :=
  ((PropertyKeysTrap_outcome_table (Example.host true true) 0 .KeysKind
    (Example.state Example.heapSealedKeys false false none)
    (Example.state Example.heapSealedKeys false false none)
    { Example.state Example.heapSealedKeys false false none with implicitCallFlags := 5 }
    (.object 2) (.function 100) (.object 3) rfl rfl rfl rfl).2 rfl
    { Example.state Example.heapSealedKeys false false none with implicitCallFlags := 5 }
    { Example.state Example.heapSealedKeys false false none with implicitCallFlags := 5 }
    { Example.state Example.heapSealedKeys false false none with implicitCallFlags := 5 }
    { Example.state Example.heapSealedKeys false false none with implicitCallFlags := 5 }
    { Example.state Example.heapSealedKeys false false none with implicitCallFlags := 5 }
    (.object 1) (.number 2) 2 [.string "x", .string "k"] [.string "k", .string "x"] [21, 20]
    false (Example.ownDescriptor Example.heapSealedKeys)
    rfl rfl rfl rfl rfl rfl rfl rfl (fun _ => rfl) (by decide)).trans rfl

/-- C32 (the code at the failing input): a non-revoked Proxy over an extensible target
without own keys, behind an `ownKeys` trap that revokes the Proxy and returns the list
["a"].  The claim names the return of the trap's list (the first row of the table), which
is what the same call yields when the trap does not revoke; `PropertyKeysTrap` reads the
member `target` again after the trap returned (lines 2200-2202) and dereferences the null
pointer: it neither returns nor throws. -/
theorem C32_ownKeys_table_faults_when_trap_revokes :
    PropertyKeysTrap (Example.host true true) 0 .KeysKind
        (Example.state
          { Example.heapRevokingTrap with trapValue := .object 3, trapKeys := [.string "a"] }
          false false none) = .fault
    ∧ PropertyKeysTrap (Example.host true true) 0 .KeysKind
        (Example.state
          { Example.heapTruthyTrap with trapValue := .object 3, trapKeys := [.string "a"] }
          false false none)
      = .ok (some [.string "a"])
          { Example.state
              { Example.heapTruthyTrap with trapValue := .object 3, trapKeys := [.string "a"] }
              false false none with implicitCallFlags := 5 } :=
  ⟨rfl, rfl⟩

/-- C33: the implicit-call gate.  On a non-revoked Proxy (its target slot is set) with
implicit calls disabled,
each of the dispatchers for get, has, set, deleteProperty, defineProperty, isExtensible,
preventExtensions, getPrototypeOf, setPrototypeOf, ownKeys and for-in enumeration adds
`ImplicitCall_External` to the implicit-call flags and returns its sentinel (FALSE;
undefined for getPrototypeOf; the null pointer for ownKeys), leaving the rest of the
state as it was: the outcome is the same for every host, so no trap and no operation of
the target takes part in it. -/
theorem C33_implicit_call_gate {H : Type} (h : Host H) (this : Nat) (s : State H)
    (targetObj : Var)
    (hTarget : (s.proxies this).target = some targetObj)
    (hDisabled : s.disableImplicitCall = true) :
    (∀ originalInstance propertyDescriptor fn getPropertyId,
      GetPropertyTrap h this originalInstance propertyDescriptor fn getPropertyId s
        = .ok ⟨false, propertyDescriptor, none⟩
            { s with implicitCallFlags := s.implicitCallFlags ||| h.ImplicitCall_External })
    ∧ (∀ fn getPropertyId,
        HasPropertyTrap h this fn getPropertyId s
          = .ok false
              { s with implicitCallFlags := s.implicitCallFlags ||| h.ImplicitCall_External })
    ∧ (∀ receiver kind propertyId newValue skipPrototypeCheck,
        SetPropertyTrap h this receiver kind propertyId newValue skipPrototypeCheck s
          = .ok false
              { s with implicitCallFlags := s.implicitCallFlags ||| h.ImplicitCall_External })
    ∧ (∀ propertyId flags,
        DeleteProperty h this propertyId flags s
          = .ok false
              { s with implicitCallFlags := s.implicitCallFlags ||| h.ImplicitCall_External })
    ∧ (∀ propId descriptor throwOnError,
        DefineOwnPropertyDescriptor h this propId descriptor throwOnError s
          = .ok false
              { s with implicitCallFlags := s.implicitCallFlags ||| h.ImplicitCall_External })
    ∧ IsExtensible h this s
        = .ok false
            { s with implicitCallFlags := s.implicitCallFlags ||| h.ImplicitCall_External }
    ∧ PreventExtensions h this s
        = .ok false
            { s with implicitCallFlags := s.implicitCallFlags ||| h.ImplicitCall_External }
    ∧ GetPrototypeSpecial h this s
        = .ok (some .undefined)
            { s with implicitCallFlags := s.implicitCallFlags ||| h.ImplicitCall_External }
    ∧ (∀ newPrototype shouldThrow,
        SetPrototypeTrap h this newPrototype shouldThrow s
          = .ok false
              { s with implicitCallFlags := s.implicitCallFlags ||| h.ImplicitCall_External })
    ∧ (∀ keysTrapKind,
        PropertyKeysTrap h this keysTrapKind s
          = .ok none
              { s with implicitCallFlags := s.implicitCallFlags ||| h.ImplicitCall_External })
    ∧ GetEnumerator h this s
        = .ok (false, none)
            { s with implicitCallFlags := s.implicitCallFlags ||| h.ImplicitCall_External } := by
  refine ⟨?_, ?_, ?_, ?_, ?_, ?_, ?_, ?_, ?_, ?_, ?_⟩
  · intro originalInstance propertyDescriptor fn getPropertyId
    simp [GetPropertyTrap, Exec.bind_apply, IsDisableImplicitCall, hDisabled,
      AddImplicitCallFlags, Exec.pure_apply]
  · intro fn getPropertyId
    simp [HasPropertyTrap, Exec.bind_apply, IsDisableImplicitCall, hDisabled,
      AddImplicitCallFlags, Exec.pure_apply]
  · intro receiver kind propertyId newValue skipPrototypeCheck
    simp [SetPropertyTrap, Exec.bind_apply, readTarget, hTarget, IsDisableImplicitCall,
      hDisabled, AddImplicitCallFlags, Exec.pure_apply]
  · intro propertyId flags
    simp [DeleteProperty, Exec.bind_apply, readTarget, hTarget, IsDisableImplicitCall,
      hDisabled, AddImplicitCallFlags, Exec.pure_apply]
  · intro propId descriptor throwOnError
    simp [DefineOwnPropertyDescriptor, Exec.bind_apply, readTarget, hTarget,
      IsDisableImplicitCall, hDisabled, AddImplicitCallFlags, Exec.pure_apply]
  · simp [IsExtensible, Exec.bind_apply, IsDisableImplicitCall, hDisabled,
      AddImplicitCallFlags, Exec.pure_apply]
  · simp [PreventExtensions, Exec.bind_apply, IsDisableImplicitCall, hDisabled,
      AddImplicitCallFlags, Exec.pure_apply]
  · simp [GetPrototypeSpecial, Exec.bind_apply, IsDisableImplicitCall, hDisabled,
      AddImplicitCallFlags, Exec.pure_apply]
  · intro newPrototype shouldThrow
    simp [SetPrototypeTrap, Exec.bind_apply, IsDisableImplicitCall, hDisabled,
      AddImplicitCallFlags, Exec.pure_apply]
  · intro keysTrapKind
    simp [PropertyKeysTrap, Exec.bind_apply, IsDisableImplicitCall, hDisabled,
      AddImplicitCallFlags, Exec.pure_apply]
  · simp [GetEnumerator, Exec.bind_apply, IsDisableImplicitCall, hDisabled,
      AddImplicitCallFlags, Exec.pure_apply]

/-- The example Proxy with implicit calls disabled: `has` answers FALSE and only the
flag `ImplicitCall_External` is added. -/
theorem C33_witness :
    HasPropertyTrap (Example.host true true) 0 (fun _ s => .ok true s) (fun _ => 20)
        (Example.state Example.heapFrozenX false true none)
      = .ok false
          { Example.state Example.heapFrozenX false true none with implicitCallFlags := 17 } :=
  (C33_implicit_call_gate (Example.host true true) 0
    (Example.state Example.heapFrozenX false true none) (.object 1)
    rfl rfl).2.1 (fun _ s => .ok true s) (fun _ => 20)

/-- The trap call of the dispatchers: when the trap returns, the flags are the ones
saved before the call with `ImplicitCall_Accessor` added. -/
theorem CallTrap_restores {H : Type} (h : Host H) (method : Var) (args : List (Option Var)) :
    CallTrap h method args = h.restoringCall method args := by
  funext s
  unfold CallTrap Host.restoringCall
  simp only [Exec.bind_apply, GetImplicitCallFlags, SetImplicitCallFlags, Exec.pure_apply]
  cases h.CallFunction method args s <;> rfl

/-- The trap call of the dispatchers discards what the script call did to the flags: it
is the same with the restoring call in place of the host's. -/
theorem CallTrap_withRestoringCall {H : Type} (h : Host H) (method : Var)
    (args : List (Option Var)) :
    CallTrap (h.withCallFunction h.restoringCall) method args = CallTrap h method args := by
  funext s
  unfold CallTrap Host.withCallFunction Host.restoringCall
  simp only [Exec.bind_apply, GetImplicitCallFlags, SetImplicitCallFlags, Exec.pure_apply]
  cases h.CallFunction method args s <;> rfl

theorem GetOwnPropertyKeysHelper_loop_withCall {H : Type} (h : Host H)
    (call : Var → List (Option Var) → Exec (State H) Var) (arr : Var)
    (fn : PropertyRecord → Bool) :
    ∀ (indices : List Nat) (acc : List Var × List PropertyId),
      GetOwnPropertyKeysHelper.loop (h.withCallFunction call) arr fn indices acc
        = GetOwnPropertyKeysHelper.loop h arr fn indices acc := by
  intro indices
  induction indices with
  | nil => intro acc; rfl
  | cons i rest ih =>
    intro acc
    simp only [GetOwnPropertyKeysHelper.loop]
    have hStep : GetOwnPropertyKeysHelper.step (h.withCallFunction call) arr fn acc i
        = GetOwnPropertyKeysHelper.step h arr fn acc i := rfl
    rw [hStep]
    congr 1
    funext acc1
    exact ih acc1

theorem PropertyKeysTrap_loop_withCall {H : Type} (h : Host H)
    (call : Var → List (Option Var) → Exec (State H) Var) (this : Nat) :
    ∀ (keys : List Var) (st : KeysLoopState),
      PropertyKeysTrap.loop (h.withCallFunction call) this keys st
        = PropertyKeysTrap.loop h this keys st := by
  intro keys
  induction keys with
  | nil => intro st; rfl
  | cons k rest ih =>
    intro st
    simp only [PropertyKeysTrap.loop]
    have hStep : PropertyKeysTrap.step (h.withCallFunction call) this st k
        = PropertyKeysTrap.step h this st k := rfl
    rw [hStep]
    congr 1
    funext st1
    exact ih st1

/-- `FunctionCallTrap` on a Proxy whose target is callable and whose handler has the
trap for the invocation: the state in which it returns or throws is the state the trap
call left. -/
theorem FunctionCallTrap_trap_present {H : Type} (h : Host H) (proxy : Nat)
    (callInfo : CallInfo) (values : List (Option Var))
    (s s1 s2 s3 : State H) (targetObj method argList trapResult : Var)
    (hTrap : (if callInfo.CallFlags_New = true then GetMethodHelper h proxy h.ids.construct
      else GetMethodHelper h proxy h.ids.apply) s = .ok (some method) s1)
    (hTarget : (s1.proxies proxy).target = some targetObj)
    (hCallable : h.IsCallable targetObj s1 = true)
    (hArgs : h.CreateArray ((values.take callInfo.Count).drop 1) s1 = .ok argList s2)
    (hCall : h.CallFunction method
      (if callInfo.CallFlags_New = true then
        [(s2.proxies proxy).handler, (s2.proxies proxy).target, some argList,
          if callInfo.CallFlags_NewTarget = true then (values.get? callInfo.Count).join
          else if (callInfo.CallFlags_New && match (values.get? 0).join with
                   | some v => RecyclableObject.Is v
                   | none => false) = true then (values.get? 0).join
          else some (.proxy proxy)]
       else [(s2.proxies proxy).handler, (s2.proxies proxy).target, (values.get? 0).join,
          some argList]) s2 = .ok trapResult s3) :
    FunctionCallTrap h (.proxy proxy) callInfo values s =
      (if callInfo.CallFlags_New = true ∧ IsObject trapResult = false then
        .throw (.typeError .JSERR_InconsistentTrapResult "construct") s3
       else .ok trapResult s3) := by
  unfold FunctionCallTrap
  simp only [Exec.bind_apply, hTrap, readTarget, hTarget, deref, Exec.pure_apply, getState,
    hCallable, Bool.not_true, Bool.false_eq_true, ↓reduceIte, hArgs, readHandler]
  cases hNew : callInfo.CallFlags_New
  · simp only [hNew, Bool.false_eq_true, ↓reduceIte] at hCall
    simp only [Bool.false_eq_true, ↓reduceIte, Bool.false_and, hCall, Exec.pure_apply,
      false_and]
  · simp only [hNew, ↓reduceIte, Bool.true_and] at hCall
    cases hNT : callInfo.CallFlags_NewTarget
    · simp only [hNT, Bool.false_eq_true, ↓reduceIte] at hCall
      simp only [↓reduceIte, Bool.false_eq_true, Bool.true_and, hCall]
      cases hO : IsObject trapResult <;> simp [ThrowTypeError, raise, Exec.pure_apply]
    · simp only [hNT, ↓reduceIte] at hCall
      simp only [↓reduceIte, hCall]
      cases hO : IsObject trapResult <;> simp [ThrowTypeError, raise, Exec.pure_apply]

/-- C34 (as stated, refuted): the callable example Proxy is called through an `apply` trap
that adds the bit 64 to the implicit-call flags.  `FunctionCallTrap` returns the trap
result with the flags as the trap left them (65), not the flags before the call with
`ImplicitCall_Accessor` added (5), which is what it would end with if the trap call
restored the flags. -/
theorem C34_counterexample :
    FunctionCallTrap Example.hostFlaggingTrap (.proxy 0) ⟨false, false, false, false, 1⟩
        [some .undefined] (Example.stateCallableProxy Example.heapFrozenX)
      = .ok (.number 2)
          { Example.stateCallableProxy Example.heapFrozenX with implicitCallFlags := 65 }
    ∧ (Example.stateCallableProxy Example.heapFrozenX).implicitCallFlags
        ||| Example.hostFlaggingTrap.ImplicitCall_Accessor = 5
    ∧ FunctionCallTrap
        (Example.hostFlaggingTrap.withCallFunction Example.hostFlaggingTrap.restoringCall)
        (.proxy 0) ⟨false, false, false, false, 1⟩ [some .undefined]
        (Example.stateCallableProxy Example.heapFrozenX)
      = .ok (.number 2)
          { Example.stateCallableProxy Example.heapFrozenX with implicitCallFlags := 5 } :=
  ⟨rfl, rfl, rfl⟩

/-- C34 (amended): the trap call of the dispatchers for get, has, set, deleteProperty,
defineProperty, getOwnPropertyDescriptor, getPrototypeOf, setPrototypeOf, isExtensible,
preventExtensions and ownKeys leaves the implicit-call flags equal to the flags saved
before the call with `ImplicitCall_Accessor` added, and each of these dispatchers runs
exactly as if the trap itself had ended with those flags: what the trap did to the flags
is discarded.  `FunctionCallTrap` (apply and construct) calls the trap without saving
the flags: it ends in the state the trap left, flags included. -/
theorem C34_trap_call_restores_flags {H : Type} (h : Host H) :
    (∀ method args s result s1, h.CallFunction method args s = .ok result s1 →
      CallTrap h method args s = .ok result
        { s1 with implicitCallFlags := s.implicitCallFlags ||| h.ImplicitCall_Accessor })
    ∧ (∀ this originalInstance propertyDescriptor fn getPropertyId,
        GetPropertyTrap (h.withCallFunction h.restoringCall) this originalInstance
            propertyDescriptor fn getPropertyId
          = GetPropertyTrap h this originalInstance propertyDescriptor fn getPropertyId)
    ∧ (∀ this fn getPropertyId,
        HasPropertyTrap (h.withCallFunction h.restoringCall) this fn getPropertyId
          = HasPropertyTrap h this fn getPropertyId)
    ∧ (∀ this receiver kind propertyId newValue skipPrototypeCheck,
        SetPropertyTrap (h.withCallFunction h.restoringCall) this receiver kind propertyId
            newValue skipPrototypeCheck
          = SetPropertyTrap h this receiver kind propertyId newValue skipPrototypeCheck)
    ∧ (∀ this propertyId flags,
        DeleteProperty (h.withCallFunction h.restoringCall) this propertyId flags
          = DeleteProperty h this propertyId flags)
    ∧ (∀ proxy propId descriptor throwOnError,
        DefineOwnPropertyDescriptor (h.withCallFunction h.restoringCall) proxy propId
            descriptor throwOnError
          = DefineOwnPropertyDescriptor h proxy propId descriptor throwOnError)
    ∧ (∀ this originalInstance fn getPropertyId resultDescriptor,
        GetPropertyDescriptorTrap (h.withCallFunction h.restoringCall) this originalInstance
            fn getPropertyId resultDescriptor
          = GetPropertyDescriptorTrap h this originalInstance fn getPropertyId
              resultDescriptor)
    ∧ (∀ this, GetPrototypeSpecial (h.withCallFunction h.restoringCall) this
          = GetPrototypeSpecial h this)
    ∧ (∀ this newPrototype shouldThrow,
        SetPrototypeTrap (h.withCallFunction h.restoringCall) this newPrototype shouldThrow
          = SetPrototypeTrap h this newPrototype shouldThrow)
    ∧ (∀ this, IsExtensible (h.withCallFunction h.restoringCall) this = IsExtensible h this)
    ∧ (∀ this, PreventExtensions (h.withCallFunction h.restoringCall) this
          = PreventExtensions h this)
    ∧ (∀ this keysTrapKind,
        PropertyKeysTrap (h.withCallFunction h.restoringCall) this keysTrapKind
          = PropertyKeysTrap h this keysTrapKind)
    ∧ (∀ proxy callInfo values s s1 s2 s3 targetObj method argList trapResult,
        (if callInfo.CallFlags_New = true then GetMethodHelper h proxy h.ids.construct
          else GetMethodHelper h proxy h.ids.apply) s = .ok (some method) s1 →
        (s1.proxies proxy).target = some targetObj →
        h.IsCallable targetObj s1 = true →
        h.CreateArray ((values.take callInfo.Count).drop 1) s1 = .ok argList s2 →
        h.CallFunction method
          (if callInfo.CallFlags_New = true then
            [(s2.proxies proxy).handler, (s2.proxies proxy).target, some argList,
              if callInfo.CallFlags_NewTarget = true then (values.get? callInfo.Count).join
              else if (callInfo.CallFlags_New && match (values.get? 0).join with
                       | some v => RecyclableObject.Is v
                       | none => false) = true then (values.get? 0).join
              else some (.proxy proxy)]
           else [(s2.proxies proxy).handler, (s2.proxies proxy).target, (values.get? 0).join,
              some argList]) s2 = .ok trapResult s3 →
        FunctionCallTrap h (.proxy proxy) callInfo values s =
          (if callInfo.CallFlags_New = true ∧ IsObject trapResult = false then
            .throw (.typeError .JSERR_InconsistentTrapResult "construct") s3
           else .ok trapResult s3)) := by
  refine ⟨?_, ?_, ?_, ?_, ?_, ?_, ?_, ?_, ?_, ?_, ?_, ?_, ?_⟩
  · intro method args s result s1 hCall
    rw [CallTrap_restores]
    simp only [Host.restoringCall, hCall]
  · intro this originalInstance propertyDescriptor fn getPropertyId
    unfold GetPropertyTrap
    simp only [CallTrap_withRestoringCall]
    rfl
  · intro this fn getPropertyId
    unfold HasPropertyTrap
    simp only [CallTrap_withRestoringCall]
    rfl
  · intro this receiver kind propertyId newValue skipPrototypeCheck
    unfold SetPropertyTrap
    simp only [CallTrap_withRestoringCall]
    rfl
  · intro this propertyId flags
    unfold DeleteProperty
    simp only [CallTrap_withRestoringCall]
    rfl
  · intro proxy propId descriptor throwOnError
    unfold DefineOwnPropertyDescriptor
    simp only [CallTrap_withRestoringCall]
    rfl
  · intro this originalInstance fn getPropertyId resultDescriptor
    unfold GetPropertyDescriptorTrap
    simp only [CallTrap_withRestoringCall]
    rfl
  · intro this
    unfold GetPrototypeSpecial
    simp only [CallTrap_withRestoringCall]
    rfl
  · intro this newPrototype shouldThrow
    unfold SetPrototypeTrap
    simp only [CallTrap_withRestoringCall]
    rfl
  · intro this
    unfold IsExtensible
    simp only [CallTrap_withRestoringCall]
    rfl
  · intro this
    unfold PreventExtensions
    simp only [CallTrap_withRestoringCall]
    rfl
  · intro this keysTrapKind
    unfold PropertyKeysTrap GetOwnPropertyKeysHelper
    simp only [CallTrap_withRestoringCall, GetOwnPropertyKeysHelper_loop_withCall,
      PropertyKeysTrap_loop_withCall]
    rfl
  · intro proxy callInfo values s s1 s2 s3 targetObj method argList trapResult hTrap hTarget
      hCallable hArgs hCall
    exact FunctionCallTrap_trap_present h proxy callInfo values s s1 s2 s3 targetObj method
      argList trapResult hTrap hTarget hCallable hArgs hCall

/-- C35: `JavascriptProxy::SetProperty` (the Proxy as receiver), with `existing` the
Proxy's own descriptor for the property as the generic `GetOwnPropertyDescriptor` on the
Proxy yields it (read with `ImplicitCall_Accessor` added to the flags).  When there is
none, the property is defined through the Proxy as a data property with the value and
configurable, writable and enumerable all true, and the result of that definition is
returned.  When the descriptor is an accessor descriptor or specifies writable=false,
FALSE is returned in the state the read left: nothing is defined.  Otherwise the
property is redefined through the Proxy with the existing descriptor whose value is
replaced and whose original is cleared, and the result of that definition is
returned. -/
theorem C35_setProperty_fallback {H : Type} (h : Host H) (this : Nat)
    (propertyId : PropertyId) (value : Var) (s s1 : State H)
    (existing : Option PropertyDescriptor)
    (hDesc : h.GetOwnPropertyDescriptor (.proxy this) propertyId
      { s with implicitCallFlags := s.implicitCallFlags ||| h.ImplicitCall_Accessor }
      = .ok existing s1) :
    (existing = none →
      SetProperty h this propertyId value s =
        h.DefineOwnPropertyDescriptor (.proxy this) propertyId
          { Value := some value, Writable := some true, Enumerable := some true,
            Configurable := some true } true s1)
    ∧ (∀ d, existing = some d →
        (d.IsAccessorDescriptor = true ∨ d.Writable = some false) →
        SetProperty h this propertyId value s = .ok false s1)
    ∧ (∀ d, existing = some d → d.IsAccessorDescriptor = false → d.Writable ≠ some false →
        SetProperty h this propertyId value s =
          h.DefineOwnPropertyDescriptor (.proxy this) propertyId
            { d with Value := some value, originalVar := none } true s1) := by
  refine ⟨?_, ?_, ?_⟩
  · intro hNone
    subst hNone
    simp [SetProperty, Exec.bind_apply, GetImplicitCallFlags, SetImplicitCallFlags, hDesc,
      PropertyDescriptor.SetConfigurable, PropertyDescriptor.SetWritable,
      PropertyDescriptor.SetEnumerable, PropertyDescriptor.SetValue]
  · intro d hSome hOr
    subst hSome
    rcases hOr with hAcc | hW
    · simp [SetProperty, Exec.bind_apply, GetImplicitCallFlags, SetImplicitCallFlags, hDesc,
        hAcc, Exec.pure_apply]
    · cases hAcc : d.IsAccessorDescriptor <;>
        simp [SetProperty, Exec.bind_apply, GetImplicitCallFlags, SetImplicitCallFlags, hDesc,
          hAcc, Exec.pure_apply, PropertyDescriptor.WritableSpecified,
          PropertyDescriptor.IsWritable, hW]
  · intro d hSome hAcc hW
    subst hSome
    have hw : ¬ (d.WritableSpecified = true ∧ d.IsWritable = false) := by
      rcases d with ⟨v, g, st, w, e, c, fp, o⟩
      cases w with
      | none => simp [PropertyDescriptor.WritableSpecified]
      | some b =>
        cases b
        · exact absurd rfl hW
        · simp [PropertyDescriptor.IsWritable]
    simp [SetProperty, Exec.bind_apply, GetImplicitCallFlags, SetImplicitCallFlags, hDesc,
      hAcc, hw, PropertyDescriptor.SetValue, PropertyDescriptor.SetOriginal]

/-- The example Proxy over a target with the frozen property `x` and the writable
property `k`: a set of `k` to 7 redefines `k` with the value 7 and the attributes it had;
a set of `x` answers FALSE and defines nothing; a set of the absent `a` defines a data
property with all three attributes true. -/
theorem C35_witness :
    SetProperty Example.hostLogDefine 0 21 (.number 7)
        (Example.state Example.heapSealedKeys false false none)
      = .ok true
          { Example.state Example.heapSealedKeys false false none with
            implicitCallFlags := 5
            heap := { Example.heapSealedKeys with
              defined := [(21, { Value := some (.number 7), Writable := some true,
                                 Enumerable := some true, Configurable := some true })] } }
    ∧ SetProperty Example.hostLogDefine 0 20 (.number 7)
        (Example.state Example.heapSealedKeys false false none)
      = .ok false
          { Example.state Example.heapSealedKeys false false none with implicitCallFlags := 5 }
    ∧ SetProperty Example.hostLogDefine 0 22 (.number 7)
        (Example.state Example.heapSealedKeys false false none)
      = .ok true
          { Example.state Example.heapSealedKeys false false none with
            implicitCallFlags := 5
            heap := { Example.heapSealedKeys with
              defined := [(22, { Value := some (.number 7), Writable := some true,
                                 Enumerable := some true, Configurable := some true })] } } :=
  ⟨((C35_setProperty_fallback Example.hostLogDefine 0 21 (.number 7)
      (Example.state Example.heapSealedKeys false false none)
      { Example.state Example.heapSealedKeys false false none with implicitCallFlags := 5 }
      _ rfl).2.2 _ rfl rfl (by decide)).trans rfl,
   (C35_setProperty_fallback Example.hostLogDefine 0 20 (.number 7)
      (Example.state Example.heapSealedKeys false false none)
      { Example.state Example.heapSealedKeys false false none with implicitCallFlags := 5 }
      _ rfl).2.1 _ rfl (Or.inr rfl),
   ((C35_setProperty_fallback Example.hostLogDefine 0 22 (.number 7)
      (Example.state Example.heapSealedKeys false false none)
      { Example.state Example.heapSealedKeys false false none with implicitCallFlags := 5 }
      _ rfl).1 rfl).trans rfl⟩

/-- The keys the reference enumeration yields: those yielded before, then keys of the
list that are strings with a present, enumerable descriptor; no key is added twice. -/
theorem EnumerateObjectProperties_spec (desc : String → Option PropertyDescriptor) :
    ∀ (keys yielded : List Var),
      (∀ k, k ∈ EnumerateObjectProperties desc keys yielded ↔
        k ∈ yielded ∨ (k ∈ keys ∧ ∃ name d, k = .string name ∧ desc name = some d
          ∧ d.IsEnumerable = true))
      ∧ (yielded.Nodup → (EnumerateObjectProperties desc keys yielded).Nodup)
      ∧ ∃ new, EnumerateObjectProperties desc keys yielded = yielded ++ new
          ∧ new.Sublist keys := by
  intro keys
  induction keys with
  | nil =>
    intro yielded
    refine ⟨?_, fun hn => hn, [], by simp [EnumerateObjectProperties], List.Sublist.slnil⟩
    intro k
    simp [EnumerateObjectProperties]
  | cons key rest ih =>
    intro yielded
    have skip : EnumerateObjectProperties desc (key :: rest) yielded
          = EnumerateObjectProperties desc rest yielded →
        (key ∈ yielded ∨ ¬ ∃ name d, key = .string name ∧ desc name = some d
          ∧ d.IsEnumerable = true) →
        (∀ k, k ∈ EnumerateObjectProperties desc (key :: rest) yielded ↔
          k ∈ yielded ∨ (k ∈ key :: rest ∧ ∃ name d, k = .string name ∧ desc name = some d
            ∧ d.IsEnumerable = true))
        ∧ (yielded.Nodup → (EnumerateObjectProperties desc (key :: rest) yielded).Nodup)
        ∧ ∃ new, EnumerateObjectProperties desc (key :: rest) yielded = yielded ++ new
            ∧ new.Sublist (key :: rest) := by
      intro hEq hNo
      obtain ⟨hmem, hnd, new, hnew, hsub⟩ := ih yielded
      rw [hEq]
      refine ⟨?_, hnd, new, hnew, hsub.cons key⟩
      intro k
      rw [hmem k]
      constructor
      · rintro (hy | ⟨hin, hp⟩)
        · exact Or.inl hy
        · exact Or.inr ⟨List.mem_cons_of_mem _ hin, hp⟩
      · rintro (hy | ⟨hin, hp⟩)
        · exact Or.inl hy
        · rcases List.mem_cons.mp hin with rfl | hin
          · rcases hNo with hy | hno
            · exact Or.inl hy
            · exact absurd hp hno
          · exact Or.inr ⟨hin, hp⟩
    cases key with
    | string name =>
      cases hd : desc name with
      | none =>
        apply skip
        · simp [EnumerateObjectProperties, hd]
        · right
          rintro ⟨n, d, hk, hdn, _⟩
          cases hk
          rw [hd] at hdn
          cases hdn
      | some d =>
        by_cases hc : (d.IsEnumerable && !yielded.contains (Var.string name)) = true
        · have hEq : EnumerateObjectProperties desc (Var.string name :: rest) yielded
              = EnumerateObjectProperties desc rest (yielded ++ [Var.string name]) := by
            simp only [EnumerateObjectProperties, hd, hc, ↓reduceIte]
          simp only [Bool.and_eq_true, Bool.not_eq_true', List.contains_eq_any_beq,
            List.any_eq_false, beq_iff_eq] at hc
          obtain ⟨hen, hnot⟩ := hc
          have hnotin : Var.string name ∉ yielded := fun hin => hnot _ hin rfl
          obtain ⟨hmem, hnd, new, hnew, hsub⟩ := ih (yielded ++ [Var.string name])
          rw [hEq]
          refine ⟨?_, ?_, Var.string name :: new, by rw [hnew]; simp, hsub.cons₂ _⟩
          · intro k
            rw [hmem k]
            simp only [List.mem_append, List.mem_singleton, List.mem_cons, List.not_mem_nil,
              or_false]
            constructor
            · rintro ((hy | hk) | ⟨hin, hp⟩)
              · exact Or.inl hy
              · exact Or.inr ⟨Or.inl hk, name, d, hk, hd, hen⟩
              · exact Or.inr ⟨Or.inr hin, hp⟩
            · rintro (hy | ⟨hk | hin, hp⟩)
              · exact Or.inl (Or.inl hy)
              · exact Or.inl (Or.inr hk)
              · exact Or.inr ⟨hin, hp⟩
          · intro hn
            apply hnd
            rw [List.nodup_append]
            refine ⟨hn, List.nodup_singleton _, ?_⟩
            intro a ha hb
            rw [List.mem_singleton] at hb
            exact hnotin (hb ▸ ha)
        · apply skip
          · simp only [EnumerateObjectProperties, hd, hc, Bool.false_eq_true, ↓reduceIte]
          · by_cases hen : d.IsEnumerable = true
            · left
              simp only [hen, Bool.true_and, Bool.not_eq_true', Bool.not_eq_false] at hc
              simpa using hc
            · right
              rintro ⟨n, d1, hk, hdn, he⟩
              cases hk
              rw [hd] at hdn
              cases hdn
              exact hen he
    | undefined => exact skip (by simp [EnumerateObjectProperties]) (Or.inr (by simp))
    | null => exact skip (by simp [EnumerateObjectProperties]) (Or.inr (by simp))
    | bool b => exact skip (by simp [EnumerateObjectProperties]) (Or.inr (by simp))
    | number n => exact skip (by simp [EnumerateObjectProperties]) (Or.inr (by simp))
    | symbol id => exact skip (by simp [EnumerateObjectProperties]) (Or.inr (by simp))
    | object a => exact skip (by simp [EnumerateObjectProperties]) (Or.inr (by simp))
    | function a => exact skip (by simp [EnumerateObjectProperties]) (Or.inr (by simp))
    | proxy a => exact skip (by simp [EnumerateObjectProperties]) (Or.inr (by simp))

/-- The loop of `GetEnumerator` when the descriptors are read through the Proxy without
effect: it yields what the reference enumeration yields. -/
theorem GetEnumerator_loop_pure {H : Type} (h : Host H) (this : Nat) (s : State H)
    (desc : String → Option PropertyDescriptor)
    (hPure : ∀ name, h.GetOwnPropertyDescriptorByName (.proxy this) name s
      = .ok (desc name) s) :
    ∀ (keys : List Var) (dict : List String) (yielded : List Var),
      (∀ name, Var.string name ∈ yielded ↔
        name ∈ dict ∧ ∃ d, desc name = some d ∧ d.IsEnumerable = true) →
      ∃ dict1, GetEnumerator.loop h this keys (dict, yielded.map h.MarshalVar) s
        = .ok (dict1, (EnumerateObjectProperties desc keys yielded).map h.MarshalVar) s := by
  intro keys
  induction keys with
  | nil =>
    intro dict yielded _
    exact ⟨dict, rfl⟩
  | cons key rest ih =>
    intro dict yielded hInv
    have skip : GetEnumerator.step h this (dict, yielded.map h.MarshalVar) key s
          = .ok (dict, yielded.map h.MarshalVar) s →
        EnumerateObjectProperties desc (key :: rest) yielded
          = EnumerateObjectProperties desc rest yielded →
        ∃ dict1, GetEnumerator.loop h this (key :: rest) (dict, yielded.map h.MarshalVar) s
          = .ok (dict1, (EnumerateObjectProperties desc (key :: rest) yielded).map
              h.MarshalVar) s := by
      intro hStep hEq
      obtain ⟨dict1, hl⟩ := ih dict yielded hInv
      refine ⟨dict1, ?_⟩
      simp only [GetEnumerator.loop, Exec.bind_apply, hStep]
      rw [hEq]
      exact hl
    cases key with
    | string name =>
      cases hd : desc name with
      | none =>
        apply skip
        · simp [GetEnumerator.step, Exec.bind_apply, hPure, hd, Exec.pure_apply]
        · simp [EnumerateObjectProperties, hd]
      | some d =>
        by_cases hin : name ∈ dict
        · apply skip
          · simp [GetEnumerator.step, Exec.bind_apply, hPure, hd, hin, Exec.pure_apply]
          · by_cases hen : d.IsEnumerable = true
            · have hy : Var.string name ∈ yielded := (hInv name).mpr ⟨hin, d, hd, hen⟩
              simp [EnumerateObjectProperties, hd, hen, hy]
            · simp [EnumerateObjectProperties, hd, hen]
        · have hny : Var.string name ∉ yielded := fun hy => hin ((hInv name).mp hy).1
          by_cases hen : d.IsEnumerable = true
          · have hInv2 : ∀ n, Var.string n ∈ yielded ++ [Var.string name] ↔
                n ∈ dict ++ [name] ∧ ∃ d, desc n = some d ∧ d.IsEnumerable = true := by
              intro n
              simp only [List.mem_append, List.mem_singleton, Var.string.injEq]
              constructor
              · rintro (hy | rfl)
                · exact ⟨Or.inl ((hInv n).mp hy).1, ((hInv n).mp hy).2⟩
                · exact ⟨Or.inr rfl, d, hd, hen⟩
              · rintro ⟨hdict | rfl, hp⟩
                · exact Or.inl ((hInv n).mpr ⟨hdict, hp⟩)
                · exact Or.inr rfl
            obtain ⟨dict1, hl⟩ := ih (dict ++ [name]) (yielded ++ [Var.string name]) hInv2
            refine ⟨dict1, ?_⟩
            have hStep : GetEnumerator.step h this (dict, yielded.map h.MarshalVar)
                (Var.string name) s
                = .ok (dict ++ [name], (yielded ++ [Var.string name]).map h.MarshalVar) s := by
              simp [GetEnumerator.step, Exec.bind_apply, hPure, hd, hin, hen, Exec.pure_apply]
            have hEq : EnumerateObjectProperties desc (Var.string name :: rest) yielded
                = EnumerateObjectProperties desc rest (yielded ++ [Var.string name]) := by
              simp [EnumerateObjectProperties, hd, hen, hny]
            simp only [GetEnumerator.loop, Exec.bind_apply, hStep]
            rw [hEq]
            exact hl
          · have hInv2 : ∀ n, Var.string n ∈ yielded ↔
                n ∈ dict ++ [name] ∧ ∃ d, desc n = some d ∧ d.IsEnumerable = true := by
              intro n
              simp only [List.mem_append, List.mem_singleton]
              constructor
              · intro hy
                exact ⟨Or.inl ((hInv n).mp hy).1, ((hInv n).mp hy).2⟩
              · rintro ⟨hdict | rfl, hp⟩
                · exact (hInv n).mpr ⟨hdict, hp⟩
                · obtain ⟨d1, hd1, he1⟩ := hp
                  rw [hd] at hd1
                  cases hd1
                  exact absurd he1 hen
            obtain ⟨dict1, hl⟩ := ih (dict ++ [name]) yielded hInv2
            refine ⟨dict1, ?_⟩
            have hStep : GetEnumerator.step h this (dict, yielded.map h.MarshalVar)
                (Var.string name) s
                = .ok (dict ++ [name], yielded.map h.MarshalVar) s := by
              simp [GetEnumerator.step, Exec.bind_apply, hPure, hd, hin, hen, Exec.pure_apply]
            have hEq : EnumerateObjectProperties desc (Var.string name :: rest) yielded
                = EnumerateObjectProperties desc rest yielded := by
              simp [EnumerateObjectProperties, hd, hen]
            simp only [GetEnumerator.loop, Exec.bind_apply, hStep]
            rw [hEq]
            exact hl
    | undefined => exact skip rfl (by simp [EnumerateObjectProperties])
    | null => exact skip rfl (by simp [EnumerateObjectProperties])
    | bool b => exact skip rfl (by simp [EnumerateObjectProperties])
    | number n => exact skip rfl (by simp [EnumerateObjectProperties])
    | symbol id => exact skip rfl (by simp [EnumerateObjectProperties])
    | object a => exact skip rfl (by simp [EnumerateObjectProperties])
    | function a => exact skip rfl (by simp [EnumerateObjectProperties])
    | proxy a => exact skip rfl (by simp [EnumerateObjectProperties])

/-- The loop of `GetEnumerator` on keys that are pairwise distinct and not in the
dictionary yet, whatever the descriptor reads do: it makes the reads of the reference
program and yields the same keys. -/
theorem GetEnumerator_loop_nodup {H : Type} (h : Host H) (this : Nat) :
    ∀ (keys : List Var) (dict : List String) (yielded : List Var) (s : State H),
      keys.Nodup → (∀ name ∈ dict, Var.string name ∉ keys) →
      match ReadEnumerableKeys h this keys yielded s with
      | .ok y s1 => ∃ dict1, GetEnumerator.loop h this keys (dict, yielded.map h.MarshalVar) s
          = .ok (dict1, y.map h.MarshalVar) s1
      | .throw e s1 => GetEnumerator.loop h this keys (dict, yielded.map h.MarshalVar) s
          = .throw e s1
      | .fault => GetEnumerator.loop h this keys (dict, yielded.map h.MarshalVar) s
          = .fault := by
  intro keys
  induction keys with
  | nil =>
    intro dict yielded s _ _
    exact ⟨dict, rfl⟩
  | cons key rest ih =>
    intro dict yielded s hNodup hDict
    have hRest : rest.Nodup := (List.nodup_cons.mp hNodup).2
    have hDictRest : ∀ name ∈ dict, Var.string name ∉ rest :=
      fun name hn hin => hDict name hn (List.mem_cons_of_mem _ hin)
    have skip : (∀ s, GetEnumerator.step h this (dict, yielded.map h.MarshalVar) key s
          = .ok (dict, yielded.map h.MarshalVar) s) →
        ReadEnumerableKeys h this (key :: rest) yielded
          = ReadEnumerableKeys h this rest yielded →
        match ReadEnumerableKeys h this (key :: rest) yielded s with
        | .ok y s1 => ∃ dict1,
            GetEnumerator.loop h this (key :: rest) (dict, yielded.map h.MarshalVar) s
              = .ok (dict1, y.map h.MarshalVar) s1
        | .throw e s1 =>
            GetEnumerator.loop h this (key :: rest) (dict, yielded.map h.MarshalVar) s
              = .throw e s1
        | .fault =>
            GetEnumerator.loop h this (key :: rest) (dict, yielded.map h.MarshalVar) s
              = .fault := by
      intro hStep hEq
      have := ih dict yielded s hRest hDictRest
      rw [hEq]
      simp only [GetEnumerator.loop, Exec.bind_apply, hStep]
      exact this
    cases key with
    | string name =>
      have hNotIn : name ∉ dict := fun hn => hDict name hn (List.mem_cons_self _ _)
      have hNotRest : Var.string name ∉ rest := (List.nodup_cons.mp hNodup).1
      have hDict2 : ∀ n ∈ dict ++ [name], Var.string n ∉ rest := by
        intro n hn
        rcases List.mem_append.mp hn with hn | hn
        · exact hDictRest n hn
        · rw [List.mem_singleton.mp hn]
          exact hNotRest
      simp only [ReadEnumerableKeys, GetEnumerator.loop, GetEnumerator.step, Exec.bind_apply]
      cases hd : h.GetOwnPropertyDescriptorByName (.proxy this) name s with
      | fault => simp
      | throw e s1 => simp
      | ok d s1 =>
        cases d with
        | none =>
          simp only [Exec.pure_apply]
          exact ih dict yielded s1 hRest hDictRest
        | some d =>
          cases hen : d.IsEnumerable with
          | true =>
            have := ih (dict ++ [name]) (yielded ++ [Var.string name]) s1 hRest hDict2
            simpa [hNotIn, hen, Exec.pure_apply] using this
          | false =>
            have := ih (dict ++ [name]) yielded s1 hRest hDict2
            simpa [hNotIn, hen, Exec.pure_apply] using this
    | undefined => exact skip (fun _ => rfl) (by funext s; simp [ReadEnumerableKeys])
    | null => exact skip (fun _ => rfl) (by funext s; simp [ReadEnumerableKeys])
    | bool b => exact skip (fun _ => rfl) (by funext s; simp [ReadEnumerableKeys])
    | number n => exact skip (fun _ => rfl) (by funext s; simp [ReadEnumerableKeys])
    | symbol id => exact skip (fun _ => rfl) (by funext s; simp [ReadEnumerableKeys])
    | object a => exact skip (fun _ => rfl) (by funext s; simp [ReadEnumerableKeys])
    | function a => exact skip (fun _ => rfl) (by funext s; simp [ReadEnumerableKeys])
    | proxy a => exact skip (fun _ => rfl) (by funext s; simp [ReadEnumerableKeys])

/-- C36: `for-in` enumeration of a non-revoked Proxy (implicit calls enabled), with
`keys` the Proxy's `ownKeys` result as the enumerator of the array reads it.  When the
descriptors read through the Proxy are reported without effect, the keys handed to the
enumerator are those of the reference enumeration: exactly the keys of string type
whose descriptor is present and enumerable, each once, in the order of `keys`.  When
the keys are pairwise distinct, whatever the reads do, the call makes one read for each
key of string type, in order, and hands on the keys whose read reported a present and
enumerable descriptor.  Symbols never reach a read. -/
theorem C36_enumeration_keys {H : Type} (h : Host H) (this : Nat) (s s1 s2 : State H)
    (handlerObj : Var) (keys : List Var)
    (hEnabled : s.disableImplicitCall = false)
    (hHandler : (s.proxies this).handler = some handlerObj)
    (hKeys : h.GetOwnPropertyNames (.proxy this) s = .ok keys s1)
    (hEnum : h.EnumerateArray keys s1 = .ok (some keys) s2) :
    (∀ desc : String → Option PropertyDescriptor,
      (∀ name, h.GetOwnPropertyDescriptorByName (.proxy this) name s2
        = .ok (desc name) s2) →
      GetEnumerator h this s =
        (do
          let r ← h.InitializeEnumerator
            ((EnumerateObjectProperties desc keys []).map h.MarshalVar)
          pure (r, some ((EnumerateObjectProperties desc keys []).map h.MarshalVar))) s2
      ∧ (∀ k, k ∈ EnumerateObjectProperties desc keys [] ↔
          k ∈ keys ∧ ∃ name d, k = .string name ∧ desc name = some d
            ∧ d.IsEnumerable = true)
      ∧ (EnumerateObjectProperties desc keys []).Nodup
      ∧ (EnumerateObjectProperties desc keys []).Sublist keys)
    ∧ (keys.Nodup →
        GetEnumerator h this s =
          (do
            let yielded ← ReadEnumerableKeys h this keys []
            let r ← h.InitializeEnumerator (yielded.map h.MarshalVar)
            pure (r, some (yielded.map h.MarshalVar))) s2) := by
  have start : GetEnumerator h this s =
      (do
        let acc ← GetEnumerator.loop h this keys ([], [])
        let r ← h.InitializeEnumerator acc.2
        pure (r, some acc.2)) s2 := by
    unfold GetEnumerator
    simp [Exec.bind_apply, IsDisableImplicitCall, hEnabled, revokedGuard, readHandler,
      hHandler, Exec.pure_apply, hKeys, hEnum]
  constructor
  · intro desc hPure
    obtain ⟨hmem, hnd, new, hnew, hsub⟩ := EnumerateObjectProperties_spec desc keys []
    refine ⟨?_, ?_, hnd List.nodup_nil, ?_⟩
    · obtain ⟨dict1, hl⟩ := GetEnumerator_loop_pure h this s2 desc hPure keys [] []
        (by intro name; simp)
      rw [start]
      simp only [Exec.bind_apply]
      simp only [List.map_nil] at hl
      rw [hl]
    · intro k
      rw [hmem k]
      simp
    · rw [hnew]
      simpa using hsub
  · intro hNodup
    have hl := GetEnumerator_loop_nodup h this keys [] [] s2 hNodup (by simp)
    rw [start]
    simp only [Exec.bind_apply]
    simp only [List.map_nil] at hl
    cases hr : ReadEnumerableKeys h this keys [] s2 with
    | fault => rw [hr] at hl; simp only at hl; rw [hl]
    | throw e s3 => rw [hr] at hl; simp only at hl; rw [hl]
    | ok y s3 =>
      rw [hr] at hl
      obtain ⟨dict1, hl⟩ := hl
      rw [hl]

/-- The example Proxy over a target with the enumerable properties `x` and `k`: the
enumeration hands on both names, in key order. -/
theorem C36_witness :
    GetEnumerator (Example.host false true) 0
        (Example.state Example.heapSealedKeys false false none)
      = .ok (true, some [.string "x", .string "k"])
          (Example.state Example.heapSealedKeys false false none) :=
  ((C36_enumeration_keys (Example.host false true) 0
    (Example.state Example.heapSealedKeys false false none)
    (Example.state Example.heapSealedKeys false false none)
    (Example.state Example.heapSealedKeys false false none)
    (.object 2) [.string "x", .string "k"] rfl rfl rfl rfl).2 (by decide)).trans rfl

/-- `TestIntegrityLevel` for the two levels runs the same operations on the object; when
the test for frozen returns TRUE, so does the test for sealed, in the same state. -/
theorem TestIntegrityLevel_frozen_sealed {H : Type} (h : Host H) (obj : Var)
    (s s1 : State H)
    (hFrozen : TestIntegrityLevel h .IntegrityLevel_frozen obj s = .ok true s1) :
    TestIntegrityLevel h .IntegrityLevel_sealed obj s = .ok true s1 := by
  unfold TestIntegrityLevel at hFrozen ⊢
  simp only [Exec.bind_apply] at hFrozen ⊢
  cases he : h.IsExtensible obj s with
  | fault => simp [he] at hFrozen
  | throw e s2 => simp [he] at hFrozen
  | ok ext s2 =>
    simp only [he] at hFrozen ⊢
    cases ext with
    | true => simp [Exec.pure_apply] at hFrozen
    | false =>
      simp only [Bool.false_eq_true, ↓reduceIte, Exec.bind_apply] at hFrozen ⊢
      cases hk : h.GetOwnPropertyKeys obj s2 with
      | fault => simp [hk] at hFrozen
      | throw e s3 => simp [hk] at hFrozen
      | ok keys s3 =>
        simp only [hk] at hFrozen ⊢
        cases hl : TestIntegrityLevel.loop h obj keys ⟨false, false, {}⟩ s3 with
        | fault => simp [hl] at hFrozen
        | throw e s4 => simp [hl] at hFrozen
        | ok st s4 =>
          simp only [hl] at hFrozen ⊢
          rcases st with ⟨w, c, d⟩
          cases w <;> cases c <;> simp_all [Exec.pure_apply]

/-- C37: frozen implies sealed.  Whenever `IsFrozen` on a Proxy returns TRUE from a
state, `IsSealed` on the same Proxy from the same state returns TRUE as well (and ends in
the same state: both run the same operations, which are functions of the state). -/
theorem C37_frozen_implies_sealed {H : Type} (h : Host H) (this : Nat) (s s1 : State H)
    (hFrozen : IsFrozen h this s = .ok true s1) :
    IsSealed h this s = .ok true s1 :=
  TestIntegrityLevel_frozen_sealed h (.proxy this) s s1 hFrozen

/-- The example Proxy over the frozen `x` target is frozen, hence sealed. -/
theorem C37_witness :
    IsFrozen (Example.host false true) 0 (Example.state Example.heapFrozenX false false none)
      = .ok true (Example.state Example.heapFrozenX false false none)
    ∧ IsSealed (Example.host false true) 0 (Example.state Example.heapFrozenX false false none)
      = .ok true (Example.state Example.heapFrozenX false false none) :=
  ⟨rfl, C37_frozen_implies_sealed (Example.host false true) 0
    (Example.state Example.heapFrozenX false false none)
    (Example.state Example.heapFrozenX false false none) rfl⟩

/-- While the Proxy still holds its target where the code reads the member again after the
trap call: on a non-revoked Proxy with a `setPrototypeOf` trap (implicit calls enabled)
whose target, read after the trap returned, is non-extensible, the result of
`SetPrototypeTrap` does not depend on the value the trap returned: it returns TRUE when
the new prototype is `SameValue` to the target's prototype (also when the trap returned
false, and then no ProxyTrapReturnedFalse error is raised), and otherwise throws TypeError
InconsistentTrapResult("setPrototypeOf") when shouldThrow is set and returns FALSE when it
is clear. -/
theorem SetPrototypeTrap_nonextensible_outcome {H : Type} (h : Host H)
    (this : Nat) (newPrototype : Var) (shouldThrow : Bool) (s s1 s2 s3 : State H)
    (handlerObj targetObj method trapResult : Var)
    (hEnabled : s.disableImplicitCall = false)
    (hHandler : (s.proxies this).handler = some handlerObj)
    (hTrap : GetMethodHelper h this h.ids.setPrototypeOf s = .ok (some method) s1)
    (hCall : CallTrap h method [(s1.proxies this).handler, (s1.proxies this).target,
      some newPrototype] s1 = .ok trapResult s2)
    (hTarget2 : (s2.proxies this).target = some targetObj)
    (hExtensible : h.IsExtensible targetObj s2 = .ok false s3)
    (hTarget3 : (s3.proxies this).target = some targetObj) :
    SetPrototypeTrap h this newPrototype shouldThrow s =
      (if h.SameValue (h.GetPrototype targetObj s3) newPrototype = true then .ok true s3
       else if shouldThrow = true then
        .throw (.typeError .JSERR_InconsistentTrapResult "setPrototypeOf") s3
       else .ok false s3)
    ∧ (h.ToBoolean trapResult = false →
        SetPrototypeTrap h this newPrototype shouldThrow s
          ≠ .throw (.typeError .JSERR_ProxyTrapReturnedFalse "setPrototypeOf") s3) := by
  have key := SetPrototypeTrap_trap_present h this newPrototype shouldThrow s s1 s2 s3
    handlerObj targetObj method trapResult false hEnabled hHandler hTrap hCall hTarget2
    hExtensible hTarget3
  constructor
  · rw [key]
    cases hsv : h.SameValue (h.GetPrototype targetObj s3) newPrototype <;> simp
  · intro _
    rw [key]
    cases hsv : h.SameValue (h.GetPrototype targetObj s3) newPrototype <;>
      cases shouldThrow <;> simp

/-- The non-extensible example target with prototype null behind a `setPrototypeOf`
trap that answers false: asked for the prototype null with shouldThrow set,
`SetPrototypeTrap` returns TRUE. -/
theorem SetPrototypeTrap_nonextensible_outcome_example :
    SetPrototypeTrap (Example.host true true) 0 .null true
        (Example.state Example.heapFrozenXDenied false false none)
      = .ok true
          { Example.state Example.heapFrozenXDenied false false none with
            implicitCallFlags := 5 } :=
  (SetPrototypeTrap_nonextensible_outcome (Example.host true true) 0 .null true
    (Example.state Example.heapFrozenXDenied false false none)
    (Example.state Example.heapFrozenXDenied false false none)
    { Example.state Example.heapFrozenXDenied false false none with implicitCallFlags := 5 }
    { Example.state Example.heapFrozenXDenied false false none with implicitCallFlags := 5 }
    (.object 2) (.object 1) (.function 100) (.bool false) rfl rfl rfl rfl rfl rfl rfl).1

/-- C38 (the code at the failing input): a non-revoked Proxy over a non-extensible target
with prototype null, behind a `setPrototypeOf` trap that revokes the Proxy and answers
true, asked with shouldThrow set for another prototype.  The claim names TypeError
InconsistentTrapResult("setPrototypeOf"), which is what the same call yields when the
trap does not revoke; `SetPrototypeTrap` reads the member `target` again after the trap
returned (line 1508) and dereferences the null pointer: it neither returns nor throws. -/
theorem C38_setPrototype_faults_when_trap_revokes :
    SetPrototypeTrap (Example.host true true) 0 (.object 9) true
        (Example.state
          { Example.heapSealedProto with trapValue := .bool true, trapRevokes := true }
          false false none) = .fault
    ∧ SetPrototypeTrap (Example.host true true) 0 (.object 9) true
        (Example.state { Example.heapSealedProto with trapValue := .bool true }
          false false none)
      = .throw (.typeError .JSERR_InconsistentTrapResult "setPrototypeOf")
          { Example.state { Example.heapSealedProto with trapValue := .bool true }
              false false none with implicitCallFlags := 5 } :=
  ⟨rfl, rfl⟩

end Js

namespace Memory

/-- `DWORD` subtraction is subtraction of integers modulo `2 ^ 32`. -/
theorem DWORD_sub_eq (a b : Nat) :
    ((DWORD.sub a b : Nat) : Int) = ((a : Int) - (b : Int)) % 2 ^ 32 := by
  unfold DWORD.sub
  have hb : b % 2 ^ 32 < 2 ^ 32 := Nat.mod_lt _ (by norm_num)
  have h1 : ((a + 2 ^ 32 - b % 2 ^ 32 : Nat) : Int)
      = (a : Int) + 2 ^ 32 - ((b : Int) % 2 ^ 32) := by
    rw [Nat.cast_sub (by omega)]
    push_cast
    ring
  rw [Int.natCast_mod, h1]
  push_cast
  rw [Int.sub_emod, Int.add_emod, Int.emod_emod_of_dvd _ (dvd_refl _), Int.emod_self,
    add_zero, Int.emod_emod_of_dvd _ (dvd_refl _), ← Int.sub_emod]

/-- The body of the loop writes the entry at its index only. -/
theorem Register_body_other (Flag : RUNTIME_FUNCTION → Nat) (functionStart : Nat)
    (pdataArray : Nat → RUNTIME_FUNCTION) (i j : Nat) (hne : j ≠ i) :
    XDataAllocator.Register.body Flag functionStart pdataArray i j = pdataArray j := by
  simp [XDataAllocator.Register.body, Function.update, hne]

/-- The entry the body of the loop leaves at its index depends on the entry it found
there only. -/
theorem Register_body_congr (Flag : RUNTIME_FUNCTION → Nat) (functionStart : Nat)
    (a b : Nat → RUNTIME_FUNCTION) (i : Nat) (h : a i = b i) :
    XDataAllocator.Register.body Flag functionStart a i i
      = XDataAllocator.Register.body Flag functionStart b i i := by
  simp [XDataAllocator.Register.body, Function.update, h]

/-- The loop from the counter value `i`, given enough tests of the condition: every
entry from `i` up to the count is rewritten by the body, the others are kept. -/
theorem Register_loop_spec (Flag : RUNTIME_FUNCTION → Nat) (functionStart pdataCount : Nat)
    (hCount : pdataCount < 2 ^ 16) :
    ∀ (fuel i : Nat) (pdataArray : Nat → RUNTIME_FUNCTION),
      i ≤ pdataCount → pdataCount - i < fuel →
      XDataAllocator.Register.loop Flag functionStart pdataCount fuel i pdataArray
        = some (fun j =>
            if i ≤ j ∧ j < pdataCount then
              XDataAllocator.Register.body Flag functionStart pdataArray j j
            else pdataArray j) := by
  intro fuel
  induction fuel with
  | zero =>
    intro i pdataArray _ hFuel
    omega
  | succ fuel ih =>
    intro i pdataArray hi hFuel
    unfold XDataAllocator.Register.loop
    by_cases hlt : i < pdataCount
    · have hmod : (i + 1) % 2 ^ 16 = i + 1 := Nat.mod_eq_of_lt (by omega)
      rw [if_pos hlt, hmod, ih (i + 1) _ (by omega) (by omega)]
      congr 1
      funext j
      by_cases hj : j = i
      · subst hj
        have h1 : ¬ (j + 1 ≤ j ∧ j < pdataCount) := by omega
        have h2 : j ≤ j ∧ j < pdataCount := ⟨le_refl _, hlt⟩
        rw [if_neg h1, if_pos h2]
      · have hother := Register_body_other Flag functionStart pdataArray i j hj
        by_cases hr : i + 1 ≤ j ∧ j < pdataCount
        · have h2 : i ≤ j ∧ j < pdataCount := ⟨by omega, hr.2⟩
          rw [if_pos hr, if_pos h2]
          exact Register_body_congr Flag functionStart _ _ j hother
        · have h2 : ¬ (i ≤ j ∧ j < pdataCount) := by omega
          rw [if_neg hr, if_neg h2, hother]
    · have h2 : ∀ j, ¬ (i ≤ j ∧ j < pdataCount) := by
        intro j
        omega
      rw [if_neg hlt]
      congr 1
      funext j
      rw [if_neg (h2 j)]

/-- C40: `XDataAllocator::Register` on an allocation whose count of entries is a 16-bit
value, with a `Flag` that is read from a part of the entry other than `BeginAddress`:
the call returns, and in the allocation it leaves (whether or not the registration of the
table then reports success) every entry below the count has its `BeginAddress` replaced
by the old one minus `functionStart` modulo `2 ^ 32`, and its `UnwindData` replaced by
the old one minus `functionStart` modulo `2 ^ 32` when the `Flag` of the entry is not 1
and kept when it is 1; the entries from the count on are kept. -/
theorem C40_register_rebases_entries (Flag : RUNTIME_FUNCTION → Nat)
    (AddGrowableFunctionTable :
      (Nat → RUNTIME_FUNCTION) → Nat → Nat → Nat → Nat → Option Nat × Bool)
    (xdataInfo : XDataAllocation) (functionStart functionSize : Nat)
    (hCount : xdataInfo.pdataCount < 2 ^ 16)
    (hFlag : ∀ (e : RUNTIME_FUNCTION) (b : Nat), Flag { e with BeginAddress := b } = Flag e) :
    ∃ r, XDataAllocator.Register Flag AddGrowableFunctionTable xdataInfo functionStart
        functionSize = some r
      ∧ r.1.pdataCount = xdataInfo.pdataCount
      ∧ (∀ i, i < xdataInfo.pdataCount →
          (((r.1.pdataArray i).BeginAddress : Nat) : Int)
              = (((xdataInfo.pdataArray i).BeginAddress : Int) - (functionStart : Int)) % 2 ^ 32
          ∧ (Flag (xdataInfo.pdataArray i) ≠ 1 →
              (((r.1.pdataArray i).UnwindData : Nat) : Int)
                = (((xdataInfo.pdataArray i).UnwindData : Int) - (functionStart : Int))
                    % 2 ^ 32)
          ∧ (Flag (xdataInfo.pdataArray i) = 1 →
              (r.1.pdataArray i).UnwindData = (xdataInfo.pdataArray i).UnwindData))
      ∧ (∀ i, xdataInfo.pdataCount ≤ i → r.1.pdataArray i = xdataInfo.pdataArray i) := by
  have hLoop := Register_loop_spec Flag functionStart xdataInfo.pdataCount hCount
    (2 ^ 16 + 1) 0 xdataInfo.pdataArray (Nat.zero_le _) (by omega)
  unfold XDataAllocator.Register
  rw [hLoop]
  refine ⟨_, rfl, rfl, ?_, ?_⟩
  · intro i hi
    have hin : 0 ≤ i ∧ i < xdataInfo.pdataCount := ⟨Nat.zero_le _, hi⟩
    simp only [if_pos hin]
    refine ⟨?_, ?_, ?_⟩
    · simp only [XDataAllocator.Register.body, Function.update_same]
      split <;> exact DWORD_sub_eq _ _
    · intro hNot
      simp only [XDataAllocator.Register.body, Function.update_same, hFlag]
      have hb : (Flag (xdataInfo.pdataArray i) != 1) = true := by simpa using hNot
      rw [if_pos hb]
      exact DWORD_sub_eq _ _
    · intro hOne
      simp only [XDataAllocator.Register.body, Function.update_same, hFlag, hOne]
      rfl
  · intro i hi
    have hout : ¬ (0 ≤ i ∧ i < xdataInfo.pdataCount) := by omega
    simp only [if_neg hout]

/-- Two entries registered for a function that starts at `0x1000`, with the `Flag` read
from the two low bits of `UnwindData`: the first entry (packed unwind data) keeps its
`UnwindData`, the second has it rebased, and the entry after them is kept. -/
theorem C40_witness :
    ∃ r, XDataAllocator.Register (fun e => e.UnwindData % 4) (fun _ _ _ _ _ => (some 1, true))
        ⟨fun i => if i = 0 then ⟨0x1010, 0x2001⟩ else ⟨0x1020, 0x3000⟩, 2, none⟩ 0x1000 0x40
        = some r
      ∧ (((r.1.pdataArray 0).BeginAddress : Nat) : Int) = ((0x1010 : Int) - 0x1000) % 2 ^ 32
      ∧ (r.1.pdataArray 0).UnwindData = 0x2001
      ∧ (((r.1.pdataArray 1).UnwindData : Nat) : Int) = ((0x3000 : Int) - 0x1000) % 2 ^ 32
      ∧ r.1.pdataArray 2 = ⟨0x1020, 0x3000⟩ := by
  obtain ⟨r, hr, _, hIn, hOut⟩ := C40_register_rebases_entries (fun e => e.UnwindData % 4)
    (fun _ _ _ _ _ => (some 1, true))
    ⟨fun i => if i = 0 then ⟨0x1010, 0x2001⟩ else ⟨0x1020, 0x3000⟩, 2, none⟩ 0x1000 0x40
    (by decide) (fun _ _ => rfl)
  exact ⟨r, hr, (hIn 0 (by decide)).1, (hIn 0 (by decide)).2.2 (by decide),
    (hIn 1 (by decide)).2.1 (by decide), hOut 2 (by decide)⟩

end Memory
